import Mathlib

/-!
# Haven transaction admission core: a shallow embedding

Source files embedded here:

* `src/cryptonote_core/cryptonote_tx_utils.cpp` (conversion fees, asset classification,
  transaction type lookup),
* `src/cryptonote_core/tx_pool.cpp` (`tx_memory_pool`: admission, key-image index, pruning,
  stuck-transaction eviction).

Conventions.

* `uint64_t` values are natural numbers; every place where the C++ arithmetic can wrap carries
  an explicit `% 2 ^ 64`.  `boost::multiprecision::uint128_t` intermediates carry `% 2 ^ 128`
  and the final cast to `uint64_t` carries `% 2 ^ 64`.
* Functions returning `bool` with reference out-parameters return `Option` of the outputs, or a
  tuple whose first component is the returned `bool`.
* Constants that live in headers outside the two source files (`cryptonote_config.h`,
  `offshore/asset_types.h`) are fields of `Config`; every theorem holds for every value of them
  unless it says otherwise.
-/

namespace Haven

/-! ## Constants from headers -/

/-- Relay methods of a pool entry, in the order used by `upgrade_relay_method`. -/
inductive relay_method where
  | none
  | local_
  | stem
  | fluff
  | block
  deriving DecidableEq, Repr

/-- Network type returned by `m_blockchain.get_nettype()`. -/
inductive network_type where
  | MAINNET
  | TESTNET
  | STAGENET
  deriving DecidableEq, Repr

/-- The constants of `cryptonote_config.h` and `offshore/asset_types.h` used by the embedded
functions.  They are parameters: the two source files only name them. -/
structure Config where
  HF_VERSION_PER_BYTE_FEE : Nat
  HF_VERSION_OFFSHORE_FULL : Nat
  HF_VERSION_CLSAG : Nat
  HF_VERSION_XASSET_FEES_V2 : Nat
  HF_VERSION_HAVEN2 : Nat
  HF_PER_OUTPUT_UNLOCK_VERSION : Nat
  HF_VERSION_USE_COLLATERAL : Nat
  HF_VERSION_BULLETPROOF_PLUS : Nat
  POU_TRANSACTION_VERSION : Nat
  COLLATERAL_TRANSACTION_VERSION : Nat
  CRYPTONOTE_MAX_BLOCK_NUMBER : Nat
  PRICING_RECORD_VALID_BLOCKS : Nat
  COIN : Nat
  HAVEN_MAX_TX_VALUE : Nat
  CRYPTONOTE_DEFAULT_TX_SPENDABLE_AGE : Nat
  TX_V6_OFFSHORE_UNLOCK_BLOCKS : Nat
  TX_V6_OFFSHORE_UNLOCK_BLOCKS_TESTNET : Nat
  TX_V6_ONSHORE_UNLOCK_BLOCKS : Nat
  TX_V7_ONSHORE_UNLOCK_BLOCKS : Nat
  TX_V6_ONSHORE_UNLOCK_BLOCKS_TESTNET : Nat
  TX_V6_XASSET_UNLOCK_BLOCKS : Nat
  TX_V6_XASSET_UNLOCK_BLOCKS_TESTNET : Nat
  CRYPTONOTE_COINBASE_BLOB_RESERVED_SIZE : Nat
  CRYPTONOTE_MINED_MONEY_UNLOCK_WINDOW : Nat
  CRYPTONOTE_MEMPOOL_TX_LIVETIME : Nat
  CRYPTONOTE_MEMPOOL_TX_FROM_ALT_BLOCK_LIVETIME : Nat
  get_min_block_weight : Nat → Nat
  ASSET_TYPES : List String
  matches_legacy : relay_method → Bool

/-- A concrete instance of the constants, used to evaluate the embedded functions on explicit
inputs.  The hard-fork numbers 18, 19, 20 and the transaction versions 6 and 7 are the ones the
log messages of `add_tx2` print, the unlock periods follow the comments next to their uses
(21 days, 12 hours, 2 days, 60 and 30 blocks); the remaining values are representative, and no
general theorem depends on any of them. -/
def havenConfig : Config where
  HF_VERSION_PER_BYTE_FEE := 2
  HF_VERSION_OFFSHORE_FULL := 13
  HF_VERSION_CLSAG := 16
  HF_VERSION_XASSET_FEES_V2 := 17
  HF_VERSION_HAVEN2 := 18
  HF_PER_OUTPUT_UNLOCK_VERSION := 19
  HF_VERSION_USE_COLLATERAL := 20
  HF_VERSION_BULLETPROOF_PLUS := 23
  POU_TRANSACTION_VERSION := 6
  COLLATERAL_TRANSACTION_VERSION := 7
  CRYPTONOTE_MAX_BLOCK_NUMBER := 500000000
  PRICING_RECORD_VALID_BLOCKS := 10
  COIN := 1000000000000
  HAVEN_MAX_TX_VALUE := 10000000000000000000
  CRYPTONOTE_DEFAULT_TX_SPENDABLE_AGE := 10
  TX_V6_OFFSHORE_UNLOCK_BLOCKS := 15120
  TX_V6_OFFSHORE_UNLOCK_BLOCKS_TESTNET := 60
  TX_V6_ONSHORE_UNLOCK_BLOCKS := 360
  TX_V7_ONSHORE_UNLOCK_BLOCKS := 15120
  TX_V6_ONSHORE_UNLOCK_BLOCKS_TESTNET := 30
  TX_V6_XASSET_UNLOCK_BLOCKS := 1440
  TX_V6_XASSET_UNLOCK_BLOCKS_TESTNET := 60
  CRYPTONOTE_COINBASE_BLOB_RESERVED_SIZE := 600
  CRYPTONOTE_MINED_MONEY_UNLOCK_WINDOW := 60
  CRYPTONOTE_MEMPOOL_TX_LIVETIME := 86400
  CRYPTONOTE_MEMPOOL_TX_FROM_ALT_BLOCK_LIVETIME := 604800
  get_min_block_weight := fun _ => 300000
  ASSET_TYPES := ["XHV", "XAG", "XAU", "XAUD", "XBTC", "XCAD", "XCHF", "XCNY", "XEUR", "XGBP",
    "XJPY", "XNOK", "XNZD", "XUSD"]
  matches_legacy := fun m =>
    match m with
    | relay_method.none => true
    | relay_method.fluff => true
    | relay_method.block => true
    | _ => false

/-! ## Conversion fees (`cryptonote_tx_utils.cpp`, lines 412-541) -/

/-- The fields of `tx_destination_entry` read by the fee functions. -/
structure tx_destination_entry where
  amount : Nat
  amount_usd : Nat
  amount_xasset : Nat
  is_collateral : Bool
  deriving DecidableEq, Repr

/-- The accumulator loop of `get_offshore_fee`: `amount += dt.amount` over the destinations
with `dt.amount_usd != 0 && !dt.is_collateral`, in `uint64_t`. -/
def offshore_amount (dsts : List tx_destination_entry) : Nat :=
  dsts.foldl (fun amount dt =>
    if dt.amount_usd ≠ 0 ∧ !dt.is_collateral then (amount + dt.amount) % 2 ^ 64 else amount) 0

/-- The accumulator loop of `get_onshore_fee`: `amount_usd += dt.amount_usd` over the
destinations with `dt.amount != 0 && !dt.is_collateral`, in `uint64_t`. -/
def onshore_amount (dsts : List tx_destination_entry) : Nat :=
  dsts.foldl (fun amount_usd dt =>
    if dt.amount ≠ 0 ∧ !dt.is_collateral then (amount_usd + dt.amount_usd) % 2 ^ 64
    else amount_usd) 0

/-- The accumulator loop of `get_xasset_to_xusd_fee`: `amount_xasset += dt.amount_xasset` over
the destinations with `dt.amount_usd != 0`, in `uint64_t`. -/
def xasset_to_xusd_amount (dsts : List tx_destination_entry) : Nat :=
  dsts.foldl (fun amount_xasset dt =>
    if dt.amount_usd ≠ 0 then (amount_xasset + dt.amount_xasset) % 2 ^ 64 else amount_xasset) 0

/-- The accumulator loop of `get_xusd_to_xasset_fee`: `amount_usd += dt.amount_usd` over the
destinations with `dt.amount_xasset != 0`, in `uint64_t`. -/
def xusd_to_xasset_amount (dsts : List tx_destination_entry) : Nat :=
  dsts.foldl (fun amount_usd dt =>
    if dt.amount_xasset ≠ 0 then (amount_usd + dt.amount_usd) % 2 ^ 64 else amount_usd) 0

/-- The fee selection shared verbatim by `get_offshore_fee` and `get_onshore_fee`, on the
accumulated `uint64_t` amount.  All arithmetic is `uint64_t`: `amount * 3` wraps. -/
def shore_fee_estimate (cfg : Config) (amount unlock_time hf_version : Nat) : Nat :=
  if hf_version ≥ cfg.HF_VERSION_USE_COLLATERAL then
    ((amount * 3) % 2 ^ 64) / 200
  else if hf_version ≥ cfg.HF_PER_OUTPUT_UNLOCK_VERSION then
    amount / 200
  else
    if unlock_time ≥ 5040 then amount / 500
    else if unlock_time ≥ 1440 then amount / 20
    else if unlock_time ≥ 720 then amount / 10
    else amount / 5

/-- Embeds `get_offshore_fee(dsts, unlock_time, hf_version)`. -/
def get_offshore_fee (cfg : Config) (dsts : List tx_destination_entry)
    (unlock_time hf_version : Nat) : Nat :=
  shore_fee_estimate cfg (offshore_amount dsts) unlock_time hf_version

/-- Embeds `get_onshore_fee(dsts, unlock_time, hf_version)`. -/
def get_onshore_fee (cfg : Config) (dsts : List tx_destination_entry)
    (unlock_time hf_version : Nat) : Nat :=
  shore_fee_estimate cfg (onshore_amount dsts) unlock_time hf_version

/-- The fee selection shared verbatim by `get_xasset_to_xusd_fee` and
`get_xusd_to_xasset_fee`: the product is taken in `uint128_t`, the quotient is cast back to
`uint64_t`. -/
def xasset_fee_estimate (cfg : Config) (amount hf_version : Nat) : Nat :=
  if hf_version ≥ cfg.HF_VERSION_USE_COLLATERAL then
    (((amount * 15) % 2 ^ 128) / 1000) % 2 ^ 64
  else if hf_version ≥ cfg.HF_VERSION_XASSET_FEES_V2 then
    (((amount * 5) % 2 ^ 128) / 1000) % 2 ^ 64
  else
    (((amount * 3) % 2 ^ 128) / 1000) % 2 ^ 64

/-- Embeds `get_xasset_to_xusd_fee(dsts, hf_version)`. -/
def get_xasset_to_xusd_fee (cfg : Config) (dsts : List tx_destination_entry)
    (hf_version : Nat) : Nat :=
  xasset_fee_estimate cfg (xasset_to_xusd_amount dsts) hf_version

/-- Embeds `get_xusd_to_xasset_fee(dsts, hf_version)`. -/
def get_xusd_to_xasset_fee (cfg : Config) (dsts : List tx_destination_entry)
    (hf_version : Nat) : Nat :=
  xasset_fee_estimate cfg (xusd_to_xasset_amount dsts) hf_version

/-! ## Transactions -/

/-- A 32-byte `crypto::hash`, identified with the number its hex string (`pod_to_hex`)
denotes. -/
abbrev hash := Nat

/-- A `crypto::key_image`, identified with the number its bytes denote. -/
abbrev key_image := Nat

/-- The all-zero hash `null_hash`. -/
def null_hash : hash := 0

/-- The input variant `txin_v`.  Ring offsets are not read by the embedded functions. -/
inductive txin_v where
  | txin_gen (height : Nat)
  | txin_to_script
  | txin_to_scripthash
  | txin_to_key (amount : Nat) (k_image : key_image)
  | txin_offshore (amount : Nat) (k_image : key_image)
  | txin_onshore (amount : Nat) (k_image : key_image)
  | txin_xasset (amount : Nat) (asset_type : String) (k_image : key_image)
  deriving DecidableEq, Repr

/-- The output target variant `txout_target_v`. -/
inductive txout_target_v where
  | txout_to_script
  | txout_to_scripthash
  | txout_to_key (key : Nat)
  | txout_offshore (key : Nat)
  | txout_xasset (key : Nat) (asset_type : String)
  deriving DecidableEq, Repr

/-- A transaction output `tx_out`. -/
structure tx_out where
  amount : Nat
  target : txout_target_v
  deriving DecidableEq, Repr

/-- The two fields of `rct::rctSig` that admission reads. -/
structure rctSig where
  txnFee : Nat
  txnOffshoreFee : Nat
  deriving DecidableEq, Repr

/-- The fields of `cryptonote::transaction` read by the embedded functions. -/
structure transaction where
  version : Nat
  unlock_time : Nat
  vin : List txin_v
  vout : List tx_out
  extra : List Nat
  pricing_record_height : Nat
  amount_burnt : Nat
  amount_minted : Nat
  output_unlock_times : List Nat
  collateral_indices : List Nat
  rct_signatures : rctSig
  pruned : Bool
  deriving DecidableEq, Repr

/-- The enumeration `transaction_type`. -/
inductive transaction_type where
  | UNSET
  | TRANSFER
  | OFFSHORE
  | ONSHORE
  | OFFSHORE_TRANSFER
  | XUSD_TO_XASSET
  | XASSET_TO_XUSD
  | XASSET_TRANSFER
  deriving DecidableEq, Repr

/-! ## Asset classification (`cryptonote_tx_utils.cpp`, lines 543-723) -/

/-- Lexicographic comparison of two character sequences, the order `std::less<std::string>`
gives a `std::set<std::string>`. -/
def chars_lt : List Char → List Char → Bool
  | [], [] => false
  | [], _ :: _ => true
  | _ :: _, [] => false
  | a :: as, b :: bs => if a < b then true else if a = b then chars_lt as bs else false

/-- The comparison `x < y` of two `std::string`s. -/
def string_lt (x y : String) : Bool := chars_lt x.toList y.toList

/-- Embeds `std::set<std::string>::insert` on the sorted, duplicate-free sequence of the
elements: the iteration order of a `std::set` is ascending. -/
def set_insert (x : String) : List String → List String
  | [] => [x]
  | y :: ys =>
    if string_lt x y then x :: y :: ys
    else if x = y then y :: ys
    else y :: set_insert x ys

/-- The loop over `tx.vin` of `get_tx_asset_types`, started from the set collected so far;
`none` is an early `return false`. -/
def source_asset_types_loop (is_miner_tx : Bool) :
    List txin_v → List String → Option (List String)
  | [], s => some s
  | txin_v.txin_gen _ :: rest, s =>
    if !is_miner_tx then none
    else source_asset_types_loop is_miner_tx rest (set_insert "XHV" s)
  | txin_v.txin_to_key _ _ :: rest, s =>
    source_asset_types_loop is_miner_tx rest (set_insert "XHV" s)
  | txin_v.txin_offshore _ _ :: rest, s =>
    source_asset_types_loop is_miner_tx rest (set_insert "XUSD" s)
  | txin_v.txin_onshore _ _ :: rest, s =>
    source_asset_types_loop is_miner_tx rest (set_insert "XUSD" s)
  | txin_v.txin_xasset _ xasset _ :: rest, s =>
    if xasset = "XHV" ∨ xasset = "XUSD" then none
    else source_asset_types_loop is_miner_tx rest (set_insert xasset s)
  | txin_v.txin_to_script :: _, _ => none
  | txin_v.txin_to_scripthash :: _, _ => none

/-- The loop over `tx.vout` of `get_tx_asset_types`, started from the set collected so far;
`none` is an early `return false`. -/
def destination_asset_types_loop : List tx_out → List String → Option (List String)
  | [], s => some s
  | out :: rest, s =>
    match out.target with
    | txout_target_v.txout_to_key _ => destination_asset_types_loop rest (set_insert "XHV" s)
    | txout_target_v.txout_offshore _ => destination_asset_types_loop rest (set_insert "XUSD" s)
    | txout_target_v.txout_xasset _ xasset =>
      if xasset = "XHV" ∨ xasset = "XUSD" then none
      else destination_asset_types_loop rest (set_insert xasset s)
    | txout_target_v.txout_to_script => none
    | txout_target_v.txout_to_scripthash => none

/-- The three known exploited transaction ids (`exploit_txs`). -/
def exploit_txs : List hash :=
  [0x4c87e7245142cb33a8ed4f039b7f33d4e4dd6b541a42a55992fd88efeefc40d1,
   0x7089a8faf5bddf8640a3cb41338f1ec2cdd063b1622e3b27923e2c1c31c55418,
   0xad5d15085594b8f2643f058b05931c3e60966128b4c33298206e70bdf9d41c22]

/-- Lines 578-593 of `get_tx_asset_types`: the source read off the sorted sequence `sat` of the
input asset set; `none` is `return false`. -/
def get_tx_asset_types_source (cfg : Config) (tx : transaction) (sat : List String) :
    Option String :=
  if tx.version ≥ cfg.COLLATERAL_TRANSACTION_VERSION ∧ sat.length = 2 then
    if (sat.getD 0 "" = "XHV" ∧ sat.getD 1 "" = "XUSD") ∨
        (sat.getD 0 "" = "XUSD" ∧ sat.getD 1 "" = "XHV") then some "XUSD"
    else none
  else
    if sat.length ≠ 1 then none else some (sat.getD 0 "")

/-- Lines 626-661 of `get_tx_asset_types`: the destination read off the sorted sequence `dat`
of the output asset set; `none` is `return false`. -/
def get_tx_asset_types_destination (is_miner_tx : Bool) (sat dat : List String)
    (source : String) : Option String :=
  if is_miner_tx then some "XHV"
  else if dat.length > 2 then none
  else if dat.length = 1 then
    if sat.length ≠ 1 then none
    else if dat.getD 0 "" ≠ source then none
    else some (dat.getD 0 "")
  else
    if sat.length = 2 ∧
        ¬ ((dat.getD 0 "" = "XHV" ∧ dat.getD 1 "" = "XUSD") ∨
           (dat.getD 0 "" = "XUSD" ∧ dat.getD 1 "" = "XHV")) then none
    else if dat.getD 0 "" = source then some (dat.getD 1 "")
    else if dat.getD 1 "" = source then some (dat.getD 0 "")
    else none

/-- Embeds `get_tx_asset_types(tx, txid, source, destination, is_miner_tx)`.  The result is the
returned `bool` with the final values of the two reference parameters; `destination0` is the
value `destination` holds on entry (it survives an early failure in the input loop, `source` is
cleared first thing). -/
def get_tx_asset_types (cfg : Config) (tx : transaction) (txid : hash) (destination0 : String)
    (is_miner_tx : Bool) : Bool × String × String :=
  match source_asset_types_loop is_miner_tx tx.vin [] with
  | none => (false, "", destination0)
  | some sat =>
    match get_tx_asset_types_source cfg tx sat with
    | none => (false, "", destination0)
    | some source =>
      match destination_asset_types_loop tx.vout [] with
      | none => (false, source, "")
      | some dat =>
        if dat.length = 0 then (false, source, "")
        else
          match get_tx_asset_types_destination is_miner_tx sat dat source with
          | none => (false, source, "")
          | some destination =>
            if source ∉ cfg.ASSET_TYPES then (false, source, destination)
            else if destination ∉ cfg.ASSET_TYPES then (false, source, destination)
            else if txid ∈ exploit_txs then (true, source, "XJPY")
            else (true, source, destination)

/-- The asset name `get_tx_asset_types` inserts into `source_asset_types` for an input
variant; `none` for the variants it rejects. -/
def txin_v.asset_tag? : txin_v → Option String
  | txin_v.txin_gen _ => some "XHV"
  | txin_v.txin_to_key _ _ => some "XHV"
  | txin_v.txin_offshore _ _ => some "XUSD"
  | txin_v.txin_onshore _ _ => some "XUSD"
  | txin_v.txin_xasset _ xasset _ => some xasset
  | _ => none

/-- The asset name `get_tx_asset_types` inserts into `destination_asset_types` for an output
target; `none` for the variants it rejects. -/
def txout_target_v.asset_tag? : txout_target_v → Option String
  | txout_target_v.txout_to_key _ => some "XHV"
  | txout_target_v.txout_offshore _ => some "XUSD"
  | txout_target_v.txout_xasset _ xasset => some xasset
  | _ => none

/-- The asset tags of the inputs of a transaction, in input order. -/
def input_asset_tags (tx : transaction) : List String :=
  tx.vin.filterMap txin_v.asset_tag?

/-- The asset tags of the outputs of a transaction, in output order. -/
def output_asset_tags (tx : transaction) : List String :=
  tx.vout.filterMap (fun out => out.target.asset_tag?)

/-- Embeds `get_tx_type(source, destination, type)`: `none` is `return false` (and `type` is left as it
was), `some t` is `return true` with `type = t`. -/
def get_tx_type (cfg : Config) (source destination : String) : Option transaction_type :=
  if source ∉ cfg.ASSET_TYPES then none
  else if destination ∉ cfg.ASSET_TYPES then none
  else if source = destination then
    if source = "XHV" then some transaction_type.TRANSFER
    else if source = "XUSD" then some transaction_type.OFFSHORE_TRANSFER
    else some transaction_type.XASSET_TRANSFER
  else
    if source = "XHV" ∧ destination = "XUSD" then some transaction_type.OFFSHORE
    else if source = "XUSD" ∧ destination = "XHV" then some transaction_type.ONSHORE
    else if source = "XUSD" ∧ destination ≠ "XHV" then some transaction_type.XUSD_TO_XASSET
    else if destination = "XUSD" ∧ source ≠ "XHV" then some transaction_type.XASSET_TO_XUSD
    else none

/-! ## Price records and amount conversion (`cryptonote_tx_utils.cpp`, lines 893-941) -/

/-- Modelled from the spec: the price record `{xhv_ma, xhv_spot, per_asset_rate[...]}` of
`offshore/pricing_record.h`, which is not part of the two source files.  `unused1` is the
moving-average XHV price, `xUSD` the spot XHV price, `rates` the per-asset table read by
`pr[asset]`. -/
structure pricing_record where
  unused1 : Nat
  xUSD : Nat
  rates : List (String × Nat)
  timestamp : Nat
  deriving DecidableEq, Repr

/-- Modelled from the spec: `pr[asset]`, the per-asset rate of a price record (0 when the record
carries no rate for the asset). -/
def pricing_record.rate (pr : pricing_record) (asset : String) : Nat :=
  (pr.rates.lookup asset).getD 0

/-- Modelled from the spec: `pr.empty()`, true of the default-constructed (all-zero) record. -/
def pricing_record.empty (pr : pricing_record) : Bool :=
  pr.unused1 = 0 ∧ pr.xUSD = 0 ∧ pr.rates.all (fun r => r.2 = 0) ∧ pr.timestamp = 0

/-- Embeds `get_xusd_amount(amount, amount_asset_type, pr, tx_type, hf_version)`; `none` is the
`std::overflow_error` of a `uint128_t` division by zero. -/
def get_xusd_amount (cfg : Config) (amount : Nat) (amount_asset_type : String)
    (pr : pricing_record) (tx_type : transaction_type) (hf_version : Nat) : Option Nat :=
  if amount_asset_type = "XUSD" then some amount
  else
    let exchange_128 := pr.rate amount_asset_type
    if amount_asset_type = "XHV" then
      let exchange_128 :=
        if hf_version ≥ cfg.HF_PER_OUTPUT_UNLOCK_VERSION then
          if tx_type = transaction_type.ONSHORE then max pr.unused1 pr.xUSD
          else min pr.unused1 pr.xUSD
        else exchange_128
      some ((((amount * exchange_128) % 2 ^ 128) / 1000000000000) % 2 ^ 64)
    else
      if exchange_128 = 0 then none
      else some ((((amount * 1000000000000) % 2 ^ 128) / exchange_128) % 2 ^ 64)

/-- Embeds `get_xhv_amount(xusd_amount, pr, tx_type, hf_version)`; `none` is the `std::overflow_error`
of a `uint128_t` division by zero. -/
def get_xhv_amount (cfg : Config) (xusd_amount : Nat) (pr : pricing_record)
    (tx_type : transaction_type) (hf_version : Nat) : Option Nat :=
  let exchange_128 :=
    if hf_version ≥ cfg.HF_PER_OUTPUT_UNLOCK_VERSION then
      if tx_type = transaction_type.ONSHORE then max pr.unused1 pr.xUSD
      else min pr.unused1 pr.xUSD
    else pr.unused1
  if exchange_128 = 0 then none
  else some ((((xusd_amount * 1000000000000) % 2 ^ 128) / exchange_128) % 2 ^ 64)

/-! ## The verification context, pool entries and the external chain -/

/-- The fields of `tx_verification_context` written or read by admission. -/
structure tx_verification_context where
  m_verifivation_failed : Bool
  m_verifivation_impossible : Bool
  m_added_to_pool : Bool
  m_double_spend : Bool
  m_invalid_input : Bool
  m_invalid_output : Bool
  m_too_big : Bool
  m_fee_too_low : Bool
  m_relay : relay_method
  m_source_asset : String
  m_dest_asset : String
  m_type : transaction_type
  tx_pr_height_verified : Bool
  pr : pricing_record
  deriving DecidableEq, Repr

/-- Modelled from the spec: the pool entry metadata `txpool_tx_meta_t` of
`blockchain_db/blockchain_db.h` (not part of the two source files):
`{weight, fee, conversion_fee, fee_asset, max_used_block_height, max_used_block_id,
last_failed_height, last_failed_id, receive_time, last_relayed_time, relay_method, ...,
double_spend_seen, pruned}`.  The relay flags `kept_by_block`, `do_not_relay`, `is_local`,
`dandelionpp_stem` encode one relay method, kept here as the field `relay`. -/
structure txpool_tx_meta_t where
  max_used_block_id : hash
  last_failed_id : hash
  weight : Nat
  fee : Nat
  offshore_fee : Nat
  max_used_block_height : Nat
  last_failed_height : Nat
  receive_time : Nat
  last_relayed_time : Nat
  relay : relay_method
  relayed : Bool
  double_spend_seen : Bool
  pruned : Bool
  fee_asset_type : String
  deriving DecidableEq, Repr

/-- Modelled from the spec: `meta.kept_by_block`, the flag of the relay method `block`. -/
def txpool_tx_meta_t.kept_by_block (m : txpool_tx_meta_t) : Bool := m.relay = relay_method.block

/-- Modelled from the spec: `meta.dandelionpp_stem`, the flag of the relay method `stem`. -/
def txpool_tx_meta_t.dandelionpp_stem (m : txpool_tx_meta_t) : Bool :=
  m.relay = relay_method.stem

/-- Modelled from the spec: `meta.do_not_relay`, the flag of the relay method `none`. -/
def txpool_tx_meta_t.do_not_relay (m : txpool_tx_meta_t) : Bool := m.relay = relay_method.none

/-- Modelled from the spec: `meta.set_relay_method(method)`. -/
def txpool_tx_meta_t.set_relay_method (m : txpool_tx_meta_t) (method : relay_method) :
    txpool_tx_meta_t :=
  { m with relay := method }

/-- Position of a relay method in the order `none < local < stem < fluff < block`. -/
def relay_method.rank : relay_method → Nat
  | relay_method.none => 0
  | relay_method.local_ => 1
  | relay_method.stem => 2
  | relay_method.fluff => 3
  | relay_method.block => 4

/-- Modelled from the spec: `meta.upgrade_relay_method(method)` ("method upgrade"): the method
is replaced only by a higher one; the returned flag says whether it was. -/
def txpool_tx_meta_t.upgrade_relay_method (m : txpool_tx_meta_t) (method : relay_method) :
    Bool × txpool_tx_meta_t :=
  if m.relay.rank < method.rank then (true, m.set_relay_method method) else (false, m)

/-- The value-initialised `txpool_tx_meta_t meta{}` (all flags clear decode as `fluff`). -/
def txpool_tx_meta_t.zero : txpool_tx_meta_t where
  max_used_block_id := null_hash
  last_failed_id := null_hash
  weight := 0
  fee := 0
  offshore_fee := 0
  max_used_block_height := 0
  last_failed_height := 0
  receive_time := 0
  last_relayed_time := 0
  relay := relay_method.fluff
  relayed := false
  double_spend_seen := false
  pruned := false
  fee_asset_type := ""

/-- Embeds `std::numeric_limits<time_t>::max()`, the "never relayed" sentinel. -/
def time_max : Nat := 2 ^ 63 - 1

/-- The external collaborators admission calls through `m_blockchain` and `rct::`, at one
moment: each field is the result the collaborator gives. -/
structure Blockchain where
  /-- Result of `get_current_blockchain_height()`. -/
  get_current_blockchain_height : Nat
  /-- Result of `get_nettype()`. -/
  get_nettype : network_type
  /-- Result of `get_block_by_hash(get_block_id_by_height(h), bl)` followed by
  `bl.pricing_record`; `none` when the block is not found. -/
  get_block_pricing_record : Nat → Option pricing_record
  /-- Result of `check_fee(tx_weight, fee, pr, source, dest, tx_type)`. -/
  check_fee : Nat → Nat → pricing_record → String → String → transaction_type → Bool
  /-- Result of `check_tx_outputs(tx, tvc)`, with the context it leaves. -/
  check_tx_outputs : transaction → tx_verification_context → Bool × tx_verification_context
  /-- Result of `check_tx_inputs(tx, max_used_block_height, max_used_block_id, tvc,
  kept_by_block)`, with the height, block id and context it leaves. -/
  check_tx_inputs : transaction → tx_verification_context → Bool →
    Bool × Nat × hash × tx_verification_context
  /-- Result of `get_latest_acceptable_pr(pr)`; `none` when it returns false. -/
  get_latest_acceptable_pr : Option pricing_record
  /-- Result of `rct::checkBurntAndMinted(rv, amount_burnt, amount_minted, pr, source, dest,
  version)`. -/
  checkBurntAndMinted : rctSig → Nat → Nat → pricing_record → String → String → Nat → Bool
  /-- Result of `get_memo_from_tx_extra(tx.extra, memo)`. -/
  get_memo_from_tx_extra : List Nat → Bool

/-- An entry of `m_txs_by_fee_and_receive_time`: the key `(total_fee / weight, receive_time)`
and the id.  The `double` quotient is kept as the exact fraction `fee / weight`. -/
structure tx_by_fee_and_receive_time_entry where
  fee : Nat
  weight : Nat
  receive_time : Nat
  id : hash
  deriving DecidableEq, Repr

/-- A row of the database's `txpool_tx` table: the stored blob and its metadata.  The blob is
kept as the transaction it serialises, so that parsing a stored blob gives the transaction
back. -/
structure txpool_row where
  id : hash
  blob : transaction
  meta_ : txpool_tx_meta_t
  deriving DecidableEq, Repr

/-- The state of `tx_memory_pool` together with the `txpool_tx` table it owns in the
database. -/
structure tx_memory_pool where
  m_spent_key_images : List (key_image × List hash)
  m_txs_by_fee_and_receive_time : List tx_by_fee_and_receive_time_entry
  m_timed_out_transactions : List hash
  m_input_cache : List (hash × Bool × tx_verification_context × Nat × hash)
  m_parsed_tx_cache : List (hash × transaction)
  m_cookie : Nat
  m_txpool_weight : Nat
  m_txpool_max_weight : Nat
  txpool : List txpool_row
  deriving DecidableEq, Repr

/-- The pool right after construction and `init` on an empty database. -/
def tx_memory_pool.init (max_txpool_weight : Nat) : tx_memory_pool where
  m_spent_key_images := []
  m_txs_by_fee_and_receive_time := []
  m_timed_out_transactions := []
  m_input_cache := []
  m_parsed_tx_cache := []
  m_cookie := 0
  m_txpool_weight := 0
  m_txpool_max_weight := max_txpool_weight
  txpool := []

/-- Wrapping `uint64_t` subtraction. -/
def sub64 (a b : Nat) : Nat := (a % 2 ^ 64 + (2 ^ 64 - b % 2 ^ 64)) % 2 ^ 64

/-! ### The `txpool_tx` table -/

/-- Modelled from the spec: `get_txpool_tx_meta(id, meta)`; `none` when it returns false. -/
def get_txpool_tx_meta (db : List txpool_row) (id : hash) : Option txpool_tx_meta_t :=
  (db.find? (fun r => r.id = id)).map (fun r => r.meta_)

/-- Modelled from the spec: `get_txpool_tx_blob(id, relay_category::all)`; `none` when the id
is not in the table (the database throws). -/
def get_txpool_tx_blob (db : List txpool_row) (id : hash) : Option transaction :=
  (db.find? (fun r => r.id = id)).map (fun r => r.blob)

/-- Modelled from the spec: `remove_txpool_tx(id)`. -/
def remove_txpool_tx (db : List txpool_row) (id : hash) : List txpool_row :=
  db.filter (fun r => r.id ≠ id)

/-- Modelled from the spec: `add_txpool_tx(id, blob, meta)`; `none` when the id is already in
the table (the database throws). -/
def add_txpool_tx (db : List txpool_row) (id : hash) (blob : transaction)
    (m : txpool_tx_meta_t) : Option (List txpool_row) :=
  if db.any (fun r => r.id = id) then none else some (db ++ [⟨id, blob, m⟩])

/-- Modelled from the spec: `update_txpool_tx(id, meta)`, which replaces the metadata of the
row stored under `id`. -/
def update_txpool_tx : List txpool_row → hash → txpool_tx_meta_t → List txpool_row
  | [], _, _ => []
  | r :: rest, id, m =>
    if r.id = id then { r with meta_ := m } :: rest else r :: update_txpool_tx rest id m

/-- Modelled from the spec: `txpool_tx_matches_category(id, relay_category::legacy)`: false for
an id that is not in the table, otherwise decided by the entry's relay method. -/
def txpool_tx_matches_category_legacy (cfg : Config) (db : List txpool_row) (id : hash) : Bool :=
  match get_txpool_tx_meta db id with
  | none => false
  | some m => cfg.matches_legacy m.relay

/-! ## The key-image index (`tx_pool.cpp`, lines 1338-1505, 2127-2171, 2327-2382) -/

/-- The key image of an input of one of the four supported variants; `none` for every other
variant. -/
def txin_v.k_image? : txin_v → Option key_image
  | txin_v.txin_to_key _ k => some k
  | txin_v.txin_offshore _ k => some k
  | txin_v.txin_onshore _ k => some k
  | txin_v.txin_xasset _ _ k => some k
  | _ => none

/-- Modelled from the spec: `check_inputs_types_supported(tx)` of `cryptonote_format_utils`
("reject unsupported input variants"): every input is one of the four spend variants. -/
def check_inputs_types_supported (tx : transaction) : Bool :=
  tx.vin.all (fun i => i.k_image?.isSome)

/-- Lookup `m_spent_key_images.find(k)`. -/
def ki_find (m : List (key_image × List hash)) (k : key_image) : Option (List hash) :=
  (m.find? (fun e => e.1 = k)).map (fun e => e.2)

/-- Assignment to the set at key `k` (the reference returned by `m_spent_key_images[k]`): the
entry is created when missing. -/
def ki_set (m : List (key_image × List hash)) (k : key_image) (v : List hash) :
    List (key_image × List hash) :=
  if m.any (fun e => e.1 = k) then m.map (fun e => if e.1 = k then (k, v) else e)
  else m ++ [(k, v)]

/-- Removal `m_spent_key_images.erase(it)` of the entry at key `k`. -/
def ki_erase (m : List (key_image × List hash)) (k : key_image) : List (key_image × List hash) :=
  m.filter (fun e => e.1 ≠ k)

/-- Embeds `have_tx_keyimg_as_spent(key_im, txid)`. -/
def have_tx_keyimg_as_spent (cfg : Config) (pool : tx_memory_pool) (key_im : key_image)
    (txid : hash) : Bool :=
  match ki_find pool.m_spent_key_images key_im with
  | some found =>
    if found ≠ [] then
      if 1 < found.length ∨ found.head? ≠ some txid then true
      else txpool_tx_matches_category_legacy cfg pool.txpool txid
    else false
  | none => false

/-- The loop of `have_tx_keyimges_as_spent` over the inputs. -/
def have_tx_keyimges_as_spent_loop (cfg : Config) (pool : tx_memory_pool) (txid : hash) :
    List txin_v → Bool
  | [] => false
  | i :: rest =>
    match i.k_image? with
    | some k =>
      if have_tx_keyimg_as_spent cfg pool k txid then true
      else have_tx_keyimges_as_spent_loop cfg pool txid rest
    | none => false

/-- Embeds `have_tx_keyimges_as_spent(tx, txid)`. -/
def have_tx_keyimges_as_spent (cfg : Config) (pool : tx_memory_pool) (tx : transaction)
    (txid : hash) : Bool :=
  have_tx_keyimges_as_spent_loop cfg pool txid tx.vin

/-- The loop of `insert_key_images` over the inputs, on the index: the returned `bool`
(`false` is an early `return false`) and the index as it is left.  `m_spent_key_images[k]`
creates the entry of a missing key; in the two branches that leave the set as it is the set is
not empty, so the key was there and the index is untouched. -/
def insert_key_images_loop (cfg : Config) (db : List txpool_row) (id : hash)
    (tx_relay : relay_method) :
    List txin_v → List (key_image × List hash) → Bool × List (key_image × List hash)
  | [], m => (true, m)
  | i :: rest, m =>
    match i.k_image? with
    | some k =>
      let kei_image_set := (ki_find m k).getD []
      let one_txid : Bool :=
        kei_image_set = [] ∨ (kei_image_set.length = 1 ∧ kei_image_set.head? = some id)
      if tx_relay ≠ relay_method.block ∧ !one_txid then (false, m)
      else if id ∈ kei_image_set then
        if !txpool_tx_matches_category_legacy cfg db id then
          insert_key_images_loop cfg db id tx_relay rest m
        else (false, m)
      else insert_key_images_loop cfg db id tx_relay rest (ki_set m k (kei_image_set ++ [id]))
    | none => (false, m)

/-- Embeds `insert_key_images(tx, id, tx_relay)`: the returned `bool` and the pool it leaves. -/
def insert_key_images (cfg : Config) (pool : tx_memory_pool) (tx : transaction) (id : hash)
    (tx_relay : relay_method) : Bool × tx_memory_pool :=
  match insert_key_images_loop cfg pool.txpool id tx_relay tx.vin pool.m_spent_key_images with
  | (true, m) => (true, { pool with m_spent_key_images := m, m_cookie := pool.m_cookie + 1 })
  | (false, m) => (false, { pool with m_spent_key_images := m })

/-- The loop of `remove_transaction_keyimages` over the inputs, on the index. -/
def remove_transaction_keyimages_loop (actual_hash : hash) :
    List txin_v → List (key_image × List hash) → Bool × List (key_image × List hash)
  | [], m => (true, m)
  | vi :: rest, m =>
    match vi.k_image? with
    | some k =>
      match ki_find m k with
      | none => (false, m)
      | some key_image_set =>
        if key_image_set.length = 0 then (false, m)
        else if actual_hash ∉ key_image_set then (false, m)
        else
          let key_image_set := key_image_set.erase actual_hash
          if key_image_set.length = 0 then
            remove_transaction_keyimages_loop actual_hash rest (ki_erase m k)
          else remove_transaction_keyimages_loop actual_hash rest (ki_set m k key_image_set)
    | none => (false, m)

/-- Embeds `remove_transaction_keyimages(tx, actual_hash)`: the returned `bool` and the pool it
leaves. -/
def remove_transaction_keyimages (pool : tx_memory_pool) (tx : transaction)
    (actual_hash : hash) : Bool × tx_memory_pool :=
  match remove_transaction_keyimages_loop actual_hash tx.vin pool.m_spent_key_images with
  | (true, m) => (true, { pool with m_spent_key_images := m, m_cookie := pool.m_cookie + 1 })
  | (false, m) => (false, { pool with m_spent_key_images := m })

/-- The inner loop of `mark_double_spend` over the ids recorded under one key image: the table
and the `changed` flag it leaves. -/
def mark_double_spend_ids : List hash → List txpool_row × Bool → List txpool_row × Bool
  | [], acc => acc
  | txid :: rest, (db, changed) =>
    match get_txpool_tx_meta db txid with
    | none => mark_double_spend_ids rest (db, changed)
    | some m =>
      if !m.double_spend_seen then
        mark_double_spend_ids rest
          (update_txpool_tx db txid { m with double_spend_seen := true }, true)
      else mark_double_spend_ids rest (db, changed)

/-- The outer loop of `mark_double_spend` over the inputs; `none` is the early `return` of
`CHECKED_GET_SPECIFIC_VARIANT` on an input that is none of the four spend variants. -/
def mark_double_spend_loop (index : List (key_image × List hash)) :
    List txin_v → List txpool_row × Bool → Option (List txpool_row × Bool)
  | [], acc => some acc
  | i :: rest, acc =>
    match i.k_image? with
    | some itk_key_image =>
      match ki_find index itk_key_image with
      | some ids => mark_double_spend_loop index rest (mark_double_spend_ids ids acc)
      | none => mark_double_spend_loop index rest acc
    | none => none

/-- Embeds `mark_double_spend(tx)`.  Modelled from the spec for the scoped transaction: an early
return leaves the database writes of the call uncommitted, so the table is the one before the
call. -/
def mark_double_spend (pool : tx_memory_pool) (tx : transaction) : tx_memory_pool :=
  match mark_double_spend_loop pool.m_spent_key_images tx.vin (pool.txpool, false) with
  | some (db, changed) =>
    { pool with txpool := db, m_cookie := if changed then pool.m_cookie + 1 else pool.m_cookie }
  | none => pool

/-! ## The fee order, the input-check cache and the fee normalisation -/

/-- Modelled from the spec: the order of `m_txs_by_fee_and_receive_time` ("descending
fee-per-weight; ties broken by ascending receive_time"): `a` comes strictly before `b`. -/
def txCompare (a b : tx_by_fee_and_receive_time_entry) : Bool :=
  a.fee * b.weight > b.fee * a.weight ∨
    (a.fee * b.weight = b.fee * a.weight ∧ a.receive_time < b.receive_time)

/-- Insertion `m_txs_by_fee_and_receive_time.emplace(key, id)` into the ordered set: an entry
that is already there is not inserted again; otherwise the entry goes before the first entry
it comes strictly before. -/
def sorted_emplace (e : tx_by_fee_and_receive_time_entry) :
    List tx_by_fee_and_receive_time_entry → List tx_by_fee_and_receive_time_entry
  | [] => [e]
  | x :: xs =>
    if e = x then x :: xs
    else if txCompare e x then e :: x :: xs
    else x :: sorted_emplace e xs

/-- Embeds `find_tx_in_sorted_container(id)`; `none` is `end()`. -/
def find_tx_in_sorted_container (pool : tx_memory_pool) (id : hash) :
    Option tx_by_fee_and_receive_time_entry :=
  pool.m_txs_by_fee_and_receive_time.find? (fun a => a.id = id)

/-- Embeds `tx_memory_pool::check_tx_inputs(get_tx, txid, max_used_block_height,
max_used_block_id, tvc, kept_by_block)`: the returned `bool`, the two block references, the
context and the pool (its `m_input_cache`) it leaves. -/
def check_tx_inputs (bc : Blockchain) (pool : tx_memory_pool) (tx : transaction) (txid : hash)
    (tvc : tx_verification_context) (kept_by_block : Bool) :
    Bool × Nat × hash × tx_verification_context × tx_memory_pool :=
  match (if !kept_by_block then pool.m_input_cache.find? (fun c => c.1 = txid) else none) with
  | some (_, ret, ctvc, h, bid) => (ret, h, bid, ctvc, pool)
  | none =>
    match bc.check_tx_inputs tx tvc kept_by_block with
    | (ret, h, bid, tvc1) =>
      if !kept_by_block then
        (ret, h, bid, tvc1,
          { pool with m_input_cache := pool.m_input_cache ++ [(txid, ret, tvc1, h, bid)] })
      else (ret, h, bid, tvc1, pool)

/-- Embeds `get_xhv_fee_amount(fee_asset, fee_amount, tt, pr, hf_version)`; `none` is an
exception of one of the two conversions. -/
def get_xhv_fee_amount (cfg : Config) (fee_asset : String) (fee_amount : Nat)
    (tt : transaction_type) (pr : pricing_record) (hf_version : Nat) : Option Nat :=
  if fee_asset ≠ "XHV" ∧ (pr.unused1 = 0 ∨ pr.xUSD = 0 ∨ pr.rate fee_asset = 0) then
    some fee_amount
  else if fee_asset = "XHV" then some fee_amount
  else if fee_asset = "XUSD" then get_xhv_amount cfg fee_amount pr tt hf_version
  else
    match get_xusd_amount cfg fee_amount fee_asset pr tt hf_version with
    | none => none
    | some xusd_amount => get_xhv_amount cfg xusd_amount pr tt hf_version

/-- Embeds `get_transaction_weight_limit(version)`, in `uint64_t`. -/
def get_transaction_weight_limit (cfg : Config) (version : Nat) : Nat :=
  if version ≥ 5 then
    sub64 (cfg.get_min_block_weight version / 2) cfg.CRYPTONOTE_COINBASE_BLOB_RESERVED_SIZE
  else sub64 (cfg.get_min_block_weight version) cfg.CRYPTONOTE_COINBASE_BLOB_RESERVED_SIZE

/-- Embeds `get_tx_unlock_time(tx_unlock_time, tx_pr_height, current_height)`. -/
def get_tx_unlock_time (tx_unlock_time tx_pr_height current_height : Nat) : Nat :=
  if current_height > 973672 then
    if tx_unlock_time > tx_pr_height then tx_unlock_time - tx_pr_height else 0
  else sub64 tx_unlock_time tx_pr_height

/-- The id of the one transaction exempted by `tx_pr_height_valid`. -/
def pr_height_exception_tx : hash :=
  0x3e61439c9f751a56777a1df1479ce70311755b9d42db5bcbbd873c6f09a020a6

/-- Embeds `tx_pr_height_valid(current_height, pr_height, tx_hash)`. -/
def tx_pr_height_valid (cfg : Config) (current_height pr_height : Nat) (tx_hash : hash) : Bool :=
  if pr_height ≥ current_height then false
  else if sub64 current_height cfg.PRICING_RECORD_VALID_BLOCKS > pr_height then
    if tx_hash ≠ pr_height_exception_tx then false else true
  else true

/-! ## Removal from the pool (`tx_pool.cpp`, lines 1279-1336, 1507-1563, 1666-1746) -/

/-- The `while` loop of `prune` over the entries of the fee order from the last one down to
the second one (the first one is never visited).  The result is `(completed, pool, changed)`;
`completed = false` is one of the early `return`s. -/
def prune_loop (bytes : Nat) :
    List tx_by_fee_and_receive_time_entry → tx_memory_pool × Bool →
      Bool × tx_memory_pool × Bool
  | [], (pool, changed) => (true, pool, changed)
  | it :: rest, (pool, changed) =>
    if pool.m_txpool_weight ≤ bytes then (true, pool, changed)
    else
      match get_txpool_tx_meta pool.txpool it.id with
      | none => (false, pool, changed)
      | some m =>
        if m.kept_by_block then prune_loop bytes rest (pool, changed)
        else
          match get_txpool_tx_blob pool.txpool it.id with
          | none => (false, pool, changed)
          | some tx =>
            let pool1 := { pool with
              txpool := remove_txpool_tx pool.txpool it.id
              m_txpool_weight := sub64 pool.m_txpool_weight m.weight }
            let pool2 := (remove_transaction_keyimages pool1 tx it.id).2
            let pool3 := { pool2 with
              m_txs_by_fee_and_receive_time := pool2.m_txs_by_fee_and_receive_time.erase it }
            prune_loop bytes rest (pool3, true)

/-- Embeds `prune(bytes)`.  Modelled from the spec for the scoped transaction: on an early
return the database writes of the call are not committed, so the table is the one before the
call, while the in-memory members keep their changes. -/
def prune (pool : tx_memory_pool) (bytes : Nat) : tx_memory_pool :=
  let bytes := if bytes = 0 then pool.m_txpool_max_weight else bytes
  match prune_loop bytes pool.m_txs_by_fee_and_receive_time.tail.reverse (pool, false) with
  | (true, pool1, changed) =>
    { pool1 with m_cookie := if changed then pool1.m_cookie + 1 else pool1.m_cookie }
  | (false, pool1, _) => { pool1 with txpool := pool.txpool }

/-- Embeds `take_tx(id, tx, txblob, tx_weight, fee, ...)`: `none` with the pool it leaves is
`return false`; `some (tx, meta)` carries the transaction and the metadata the reference
parameters are filled from. -/
def take_tx (pool : tx_memory_pool) (id : hash) :
    Option (transaction × txpool_tx_meta_t) × tx_memory_pool :=
  let sorted_it := find_tx_in_sorted_container pool id
  match get_txpool_tx_meta pool.txpool id with
  | none => (none, pool)
  | some m =>
    match get_txpool_tx_blob pool.txpool id with
    | none => (none, pool)
    | some txblob =>
      let tx :=
        match pool.m_parsed_tx_cache.find? (fun c => c.1 = id) with
        | some ci => ci.2
        | none => txblob
      let tx_weight := m.weight
      let pool1 := { pool with
        txpool := remove_txpool_tx pool.txpool id
        m_txpool_weight := sub64 pool.m_txpool_weight tx_weight }
      let pool2 := (remove_transaction_keyimages pool1 tx id).2
      let pool3 :=
        match sorted_it with
        | some e => { pool2 with
            m_txs_by_fee_and_receive_time := pool2.m_txs_by_fee_and_receive_time.erase e }
        | none => pool2
      (some (tx, m), { pool3 with m_cookie := pool3.m_cookie + 1 })

/-- The callback of `for_all_txpool_txes` in `remove_stuck_transactions`, over the rows of the
table: the pool (fee order and timed-out set) and the `remove` list it leaves. -/
def remove_stuck_scan (cfg : Config) (bc_height now : Nat) :
    List txpool_row → tx_memory_pool × List (hash × Nat) → tx_memory_pool × List (hash × Nat)
  | [], acc => acc
  | row :: rest, (pool, remove) =>
    let tx_age := sub64 now row.meta_.receive_time
    let invalid_pr : Bool :=
      row.blob.pricing_record_height > 0 ∧
        (sub64 bc_height row.blob.pricing_record_height + 1) % 2 ^ 64
          > cfg.PRICING_RECORD_VALID_BLOCKS
    if (tx_age > cfg.CRYPTONOTE_MEMPOOL_TX_LIVETIME ∧ !row.meta_.kept_by_block) ∨
        (tx_age > cfg.CRYPTONOTE_MEMPOOL_TX_FROM_ALT_BLOCK_LIVETIME ∧ row.meta_.kept_by_block) ∨
        invalid_pr then
      let pool1 :=
        match find_tx_in_sorted_container pool row.id with
        | none => pool
        | some e => { pool with
            m_txs_by_fee_and_receive_time := pool.m_txs_by_fee_and_receive_time.erase e }
      let pool2 := { pool1 with
        m_timed_out_transactions :=
          if row.id ∈ pool1.m_timed_out_transactions then pool1.m_timed_out_transactions
          else pool1.m_timed_out_transactions ++ [row.id] }
      remove_stuck_scan cfg bc_height now rest (pool2, remove ++ [(row.id, row.meta_.weight)])
    else remove_stuck_scan cfg bc_height now rest (pool, remove)

/-- The loop of `remove_stuck_transactions` over the `remove` list. -/
def remove_stuck_apply : List (hash × Nat) → tx_memory_pool → tx_memory_pool
  | [], pool => pool
  | entry :: rest, pool =>
    match get_txpool_tx_blob pool.txpool entry.1 with
    | none => remove_stuck_apply rest pool
    | some tx =>
      let pool1 := { pool with
        txpool := remove_txpool_tx pool.txpool entry.1
        m_txpool_weight := sub64 pool.m_txpool_weight entry.2 }
      remove_stuck_apply rest (remove_transaction_keyimages pool1 tx entry.1).2

/-- Embeds `remove_stuck_transactions()` at wall-clock time `now`. -/
def remove_stuck_transactions (cfg : Config) (bc : Blockchain) (now : Nat)
    (pool : tx_memory_pool) : tx_memory_pool :=
  match remove_stuck_scan cfg bc.get_current_blockchain_height now pool.txpool (pool, []) with
  | (pool1, remove) =>
    if remove ≠ [] then
      let pool2 := remove_stuck_apply remove pool1
      { pool2 with m_cookie := pool2.m_cookie + 1 }
    else pool1

/-! ## Admission: `tx_memory_pool::add_tx2` (`tx_pool.cpp`, lines 160-750) -/

/-- The two ways a call can end without returning: an exception that no handler of the
function catches (a `uint128_t` division by zero), and a read past the end of a vector. -/
inductive fault where
  | division_by_zero
  | index_out_of_range
  deriving DecidableEq, Repr

/-- The result of a block of checks: it passes with a value, rejects (`return false`) with the
verification context it leaves, or ends in a fault. -/
inductive checked (α : Type) where
  | ok (a : α)
  | reject (tvc : tx_verification_context)
  | abort (f : fault)
  deriving DecidableEq, Repr

/-- The assignment `tvc.m_verifivation_failed = true` that precedes every `return false`. -/
def tx_verification_context.failed (tvc : tx_verification_context) : tx_verification_context :=
  { tvc with m_verifivation_failed := true }

/-- Lines 192-205: the transaction version gate; `true` is a rejection. -/
def add_tx2_version_rejected (cfg : Config) (tx : transaction) (version : Nat) : Bool :=
  if tx.version < 5 then true
  else if version = cfg.HF_PER_OUTPUT_UNLOCK_VERSION ∧
      tx.version ≠ cfg.POU_TRANSACTION_VERSION then true
  else if version = cfg.HF_VERSION_USE_COLLATERAL ∧
      tx.version ≠ cfg.COLLATERAL_TRANSACTION_VERSION then true
  else false

/-- Lines 222-249: the asset pair and type admission uses, taken from the verification context
or, when one of them is missing there, computed by `get_tx_asset_types` and `get_tx_type` and
stored into the context. -/
def add_tx2_classify (cfg : Config) (tx : transaction) (id : hash)
    (tvc : tx_verification_context) :
    checked (String × String × transaction_type × tx_verification_context) :=
  let source := tvc.m_source_asset
  let dest := tvc.m_dest_asset
  let tx_type := tvc.m_type
  if source = "" ∨ dest = "" ∨ tx_type = transaction_type.UNSET then
    match get_tx_asset_types cfg tx id dest false with
    | (false, source, dest) =>
      checked.reject { tvc with
        m_verifivation_failed := true
        m_invalid_input := if source = "" then true else tvc.m_invalid_input
        m_invalid_output := if dest = "" then true else tvc.m_invalid_output }
    | (true, source, dest) =>
      match get_tx_type cfg source dest with
      | none => checked.reject tvc.failed
      | some tx_type =>
        checked.ok (source, dest, tx_type,
          { tvc with m_source_asset := source, m_dest_asset := dest, m_type := tx_type })
  else checked.ok (source, dest, tx_type, tvc)

/-- Lines 277-305: the exchange-rate checks of a conversion; `true` is a rejection. -/
def add_tx2_rate_rejected (cfg : Config) (pr : pricing_record) (source dest : String)
    (tx_type : transaction_type) (version : Nat) : Bool :=
  if tx_type = transaction_type.OFFSHORE ∨ tx_type = transaction_type.ONSHORE then
    if pr.unused1 = 0 then true
    else if version ≥ cfg.HF_PER_OUTPUT_UNLOCK_VERSION ∧ pr.xUSD = 0 then true
    else false
  else if tx_type = transaction_type.XUSD_TO_XASSET then
    if pr.rate dest = 0 then true else false
  else if tx_type = transaction_type.XASSET_TO_XUSD then
    if pr.rate source = 0 then true else false
  else true

/-- Lines 391-394: the output carries the source asset. -/
def output_is_source_asset (target : txout_target_v) (source : String) : Bool :=
  match target with
  | txout_target_v.txout_to_key _ => source = "XHV"
  | txout_target_v.txout_offshore _ => source = "XUSD"
  | txout_target_v.txout_xasset _ asset_type => source = asset_type
  | _ => false

/-- The test `target.type() == typeid(txout_to_key)`. -/
def txout_target_v.is_to_key : txout_target_v → Bool
  | txout_target_v.txout_to_key _ => true
  | _ => false

/-- Lines 401-423: the full unlock period required of a converted output; `none` is the
"unexpected tx_type" rejection. -/
def expected_unlock_time (cfg : Config) (bc : Blockchain) (tx_type : transaction_type)
    (version : Nat) : Option Nat :=
  let test_net : Bool :=
    bc.get_nettype = network_type.TESTNET ∨ bc.get_nettype = network_type.STAGENET
  if tx_type = transaction_type.OFFSHORE then
    some (if test_net then cfg.TX_V6_OFFSHORE_UNLOCK_BLOCKS_TESTNET
      else cfg.TX_V6_OFFSHORE_UNLOCK_BLOCKS)
  else if tx_type = transaction_type.ONSHORE then
    some (if test_net then cfg.TX_V6_ONSHORE_UNLOCK_BLOCKS_TESTNET
      else if version ≥ cfg.HF_VERSION_USE_COLLATERAL then cfg.TX_V7_ONSHORE_UNLOCK_BLOCKS
      else cfg.TX_V6_ONSHORE_UNLOCK_BLOCKS)
  else if tx_type = transaction_type.XASSET_TO_XUSD ∨
      tx_type = transaction_type.XUSD_TO_XASSET then
    some (if test_net then cfg.TX_V6_XASSET_UNLOCK_BLOCKS_TESTNET
      else cfg.TX_V6_XASSET_UNLOCK_BLOCKS)
  else none

/-- Lines 383-430: the loop over the output indices, threading the local `unlock_time`. -/
def add_tx2_output_unlock_loop (cfg : Config) (bc : Blockchain) (tx : transaction)
    (tvc : tx_verification_context) (source : String) (tx_type : transaction_type)
    (version current_height : Nat) : List Nat → Nat → checked Nat
  | [], unlock_time => checked.ok unlock_time
  | i :: rest, unlock_time =>
    if (tx_type = transaction_type.OFFSHORE ∨ tx_type = transaction_type.ONSHORE) ∧
        i ∈ tx.collateral_indices then
      add_tx2_output_unlock_loop cfg bc tx tvc source tx_type version current_height rest
        unlock_time
    else
      match tx.vout.get? i with
      | none => checked.abort fault.index_out_of_range
      | some out =>
        if output_is_source_asset out.target source then
          add_tx2_output_unlock_loop cfg bc tx tvc source tx_type version current_height rest
            unlock_time
        else
          match tx.output_unlock_times.get? i with
          | none => checked.abort fault.index_out_of_range
          | some t =>
            let unlock_time := get_tx_unlock_time t tx.pricing_record_height current_height
            match expected_unlock_time cfg bc tx_type version with
            | none => checked.reject tvc.failed
            | some expected =>
              if unlock_time < expected then checked.reject tvc.failed
              else
                add_tx2_output_unlock_loop cfg bc tx tvc source tx_type version current_height
                  rest unlock_time

/-- Lines 327-373: the collateral checks of the collateral epoch, threading the local
`unlock_time`. -/
def add_tx2_collateral_checks (cfg : Config) (bc : Blockchain) (tx : transaction)
    (tvc : tx_verification_context) (tx_type : transaction_type) (current_height : Nat)
    (unlock_time : Nat) : checked Nat :=
  if tx.collateral_indices.length ≠ 2 then checked.reject tvc.failed
  else if tx.collateral_indices.any (fun vout_idx => vout_idx ≥ tx.vout.length) then
    checked.reject tvc.failed
  else if tx_type = transaction_type.OFFSHORE ∨ tx_type = transaction_type.ONSHORE then
    match tx.vout.get? (tx.collateral_indices.getD 0 0) with
    | none => checked.abort fault.index_out_of_range
    | some out0 =>
      if !out0.target.is_to_key then checked.reject tvc.failed
      else
        let second_rejected : checked Bool :=
          if tx_type = transaction_type.ONSHORE then
            match tx.vout.get? (tx.collateral_indices.getD 1 0) with
            | none => checked.abort fault.index_out_of_range
            | some out1 => checked.ok (!out1.target.is_to_key)
          else checked.ok false
        match second_rejected with
        | checked.abort f => checked.abort f
        | checked.reject t => checked.reject t
        | checked.ok true => checked.reject tvc.failed
        | checked.ok false =>
          match tx.output_unlock_times.get? (tx.collateral_indices.getD 0 0) with
          | none => checked.abort fault.index_out_of_range
          | some t =>
            let unlock_time := get_tx_unlock_time t tx.pricing_record_height current_height
            let expected : Nat :=
              if bc.get_nettype = network_type.TESTNET ∨ bc.get_nettype = network_type.STAGENET
              then cfg.TX_V6_ONSHORE_UNLOCK_BLOCKS_TESTNET
              else cfg.TX_V7_ONSHORE_UNLOCK_BLOCKS
            if unlock_time < expected then checked.reject tvc.failed
            else checked.ok unlock_time
  else checked.ok unlock_time

/-- Lines 325-446: the unlock-time checks of a conversion; the value is the local
`unlock_time` they leave. -/
def add_tx2_unlock_checks (cfg : Config) (bc : Blockchain) (tx : transaction)
    (tvc : tx_verification_context) (source : String) (tx_type : transaction_type)
    (version current_height : Nat) (unlock_time : Nat) : checked Nat :=
  if version ≥ cfg.HF_PER_OUTPUT_UNLOCK_VERSION then
    let after_collateral : checked Nat :=
      if version ≥ cfg.HF_VERSION_USE_COLLATERAL then
        add_tx2_collateral_checks cfg bc tx tvc tx_type current_height unlock_time
      else checked.ok unlock_time
    match after_collateral with
    | checked.abort f => checked.abort f
    | checked.reject t => checked.reject t
    | checked.ok unlock_time =>
      if tx.output_unlock_times.length ≠ tx.vout.length then checked.reject tvc.failed
      else
        add_tx2_output_unlock_loop cfg bc tx tvc source tx_type version current_height
          (List.range tx.vout.length) unlock_time
  else
    if tx_type = transaction_type.OFFSHORE ∨ tx_type = transaction_type.ONSHORE then
      if unlock_time < 180 then checked.reject tvc.failed else checked.ok unlock_time
    else if tx_type = transaction_type.XASSET_TO_XUSD ∨
        tx_type = transaction_type.XUSD_TO_XASSET then
      if unlock_time < 1440 then checked.reject tvc.failed else checked.ok unlock_time
    else checked.ok unlock_time

/-- The `uint128_t` division `a /= b`; `none` is the `std::overflow_error` of a zero
divisor. -/
def div128 (a b : Nat) : Option Nat := if b = 0 then none else some (a / b)

/-- Lines 448-534: the recomputed conversion fee `conversion_fee_check`; `none` is a division
by zero. -/
def conversion_fee_check (cfg : Config) (tx : transaction) (pr : pricing_record)
    (source : String) (tx_type : transaction_type) (version unlock_time : Nat) : Option Nat :=
  let priority : Nat :=
    if unlock_time ≥ 5040 then 1 else if unlock_time ≥ 1440 then 2
    else if unlock_time ≥ 720 then 3 else 4
  let flat_1_5 : Nat := ((tx.amount_burnt * 3) % 2 ^ 128) / 200
  if tx_type = transaction_type.OFFSHORE then some (flat_1_5 % 2 ^ 64)
  else if tx_type = transaction_type.ONSHORE then
    if version ≥ cfg.HF_VERSION_USE_COLLATERAL then
      if version ≥ cfg.HF_VERSION_BULLETPROOF_PLUS then
        (div128 ((flat_1_5 * cfg.COIN) % 2 ^ 128) (max pr.xUSD pr.unused1)).map
          (fun a => a % 2 ^ 64)
      else some (flat_1_5 % 2 ^ 64)
    else if version ≥ cfg.HF_PER_OUTPUT_UNLOCK_VERSION then some (tx.amount_burnt / 200)
    else
      some (if priority = 1 then tx.amount_burnt / 500
        else if priority = 2 then tx.amount_burnt / 20
        else if priority = 3 then tx.amount_burnt / 10
        else tx.amount_burnt / 5)
  else if tx_type = transaction_type.XUSD_TO_XASSET then
    if version ≥ cfg.HF_VERSION_USE_COLLATERAL then
      if version ≥ cfg.HF_VERSION_BULLETPROOF_PLUS then
        (div128 ((flat_1_5 * cfg.COIN) % 2 ^ 128) (max pr.xUSD pr.unused1)).map
          (fun a => a % 2 ^ 64)
      else some (flat_1_5 % 2 ^ 64)
    else some ((((tx.amount_burnt * 10) % 2 ^ 128) / (2000 + 8)) % 2 ^ 64)
  else if tx_type = transaction_type.XASSET_TO_XUSD then
    if version ≥ cfg.HF_VERSION_USE_COLLATERAL then
      if version ≥ cfg.HF_VERSION_BULLETPROOF_PLUS then
        match div128 ((flat_1_5 * cfg.COIN) % 2 ^ 128) (pr.rate source) with
        | none => none
        | some a =>
          (div128 ((a * cfg.COIN) % 2 ^ 128) (max pr.xUSD pr.unused1)).map
            (fun a => a % 2 ^ 64)
      else some (flat_1_5 % 2 ^ 64)
    else some ((((tx.amount_burnt * 10) % 2 ^ 128) / (2000 + 8)) % 2 ^ 64)
  else some 0

/-- Lines 252-541: the checks of a conversion (`source != dest`); the value is the
verification context they leave. -/
def add_tx2_conversion_checks (cfg : Config) (bc : Blockchain) (tx : transaction) (id : hash)
    (tvc : tx_verification_context) (source dest : String) (tx_type : transaction_type)
    (version : Nat) : checked tx_verification_context :=
  let current_height := bc.get_current_blockchain_height
  if !tvc.tx_pr_height_verified ∧
      !tx_pr_height_valid cfg current_height tx.pricing_record_height id then
    checked.reject tvc.failed
  else
    let tvc := { tvc with tx_pr_height_verified := true }
    let with_pr : Option tx_verification_context :=
      if tvc.pr.empty then
        (bc.get_block_pricing_record tx.pricing_record_height).map
          (fun pr => { tvc with pr := pr })
      else some tvc
    match with_pr with
    | none => checked.reject tvc.failed
    | some tvc =>
      if add_tx2_rate_rejected cfg tvc.pr source dest tx_type version then
        checked.reject tvc.failed
      else if tx.amount_burnt = 0 ∨ tx.amount_minted = 0 then checked.reject tvc.failed
      else if !bc.checkBurntAndMinted tx.rct_signatures tx.amount_burnt tx.amount_minted tvc.pr
          source dest version then
        checked.reject tvc.failed
      else
        let unlock_time :=
          get_tx_unlock_time tx.unlock_time tx.pricing_record_height current_height
        match add_tx2_unlock_checks cfg bc tx tvc source tx_type version current_height
            unlock_time with
        | checked.abort f => checked.abort f
        | checked.reject t => checked.reject t
        | checked.ok unlock_time =>
          match conversion_fee_check cfg tx tvc.pr source tx_type version unlock_time with
          | none => checked.abort fault.division_by_zero
          | some fee_check =>
            if fee_check ≠ tx.rct_signatures.txnOffshoreFee then
              checked.reject { tvc with m_verifivation_failed := true, m_fee_too_low := true }
            else checked.ok tvc

/-- Lines 542-555: the checks of a transfer (`source == dest`); `true` is a rejection. -/
def add_tx2_transfer_rejected (tx : transaction) : Bool :=
  if tx.amount_burnt ≠ 0 ∨ tx.amount_minted ≠ 0 then true
  else if tx.pricing_record_height ≠ 0 then true
  else false

/-- Lines 169-573 of `add_tx2`: every check that precedes the key-image test.  None of them
writes to the pool.  The value is the asset pair, the type and the verification context the
rest of the function continues with. -/
def add_tx2_checks (cfg : Config) (bc : Blockchain) (pool : tx_memory_pool) (tx : transaction)
    (id : hash) (tx_weight : Nat) (tvc : tx_verification_context) (tx_relay : relay_method)
    (version : Nat) : checked (String × String × transaction_type × tx_verification_context) :=
  let kept_by_block : Bool := tx_relay = relay_method.block
  if !kept_by_block ∧ id ∈ pool.m_timed_out_transactions then checked.reject tvc.failed
  else if !check_inputs_types_supported tx then
    checked.reject { tvc with m_verifivation_failed := true, m_invalid_input := true }
  else if tx.unlock_time ≥ cfg.CRYPTONOTE_MAX_BLOCK_NUMBER then checked.reject tvc.failed
  else if add_tx2_version_rejected cfg tx version then checked.reject tvc.failed
  else
    let fee := tx.rct_signatures.txnFee
    if bc.get_memo_from_tx_extra tx.extra ∧ tx.vout.length > 2 then checked.reject tvc.failed
    else
      match add_tx2_classify cfg tx id tvc with
      | checked.abort f => checked.abort f
      | checked.reject t => checked.reject t
      | checked.ok (source, dest, tx_type, tvc) =>
        let after_amounts : checked tx_verification_context :=
          if source ≠ dest then
            add_tx2_conversion_checks cfg bc tx id tvc source dest tx_type version
          else if add_tx2_transfer_rejected tx then checked.reject tvc.failed
          else checked.ok tvc
        match after_amounts with
        | checked.abort f => checked.abort f
        | checked.reject t => checked.reject t
        | checked.ok tvc =>
          if !kept_by_block ∧
              (fee = 0 ∨ !bc.check_fee tx_weight fee tvc.pr source dest tx_type) then
            checked.reject { tvc with m_verifivation_failed := true, m_fee_too_low := true }
          else
            let tx_weight_limit := get_transaction_weight_limit cfg version
            if (!kept_by_block ∨ version ≥ cfg.HF_VERSION_PER_BYTE_FEE) ∧
                tx_weight > tx_weight_limit then
              checked.reject { tvc with m_verifivation_failed := true, m_too_big := true }
            else checked.ok (source, dest, tx_type, tvc)

/-- What a call of `add_tx2` leaves: the returned `bool` (`none` when the call ends in a
fault instead of returning), the verification context and the pool. -/
structure add_tx2_result where
  ret : Option Bool
  tvc : tx_verification_context
  pool : tx_memory_pool
  deriving Repr

/-- Lines 640-649 and 714-723: the fee-order key of the new entry is computed and the entry
is emplaced.  The value is the context (its `pr` may be loaded) and the fee order; `none` is an
exception of `get_xhv_fee_amount`, caught by the enclosing handler. -/
def add_tx2_emplace (cfg : Config) (bc : Blockchain) (m : txpool_tx_meta_t)
    (tvc : tx_verification_context) (id : hash) (tx_weight receive_time version : Nat)
    (order : List tx_by_fee_and_receive_time_entry) :
    Option (tx_verification_context × List tx_by_fee_and_receive_time_entry) :=
  let fees := (m.fee + m.offshore_fee) % 2 ^ 64
  let loaded : tx_verification_context × Nat :=
    if tvc.pr.empty then
      match bc.get_latest_acceptable_pr with
      | none => (tvc, fees)
      | some pr => ({ tvc with pr := pr }, 0)
    else (tvc, 0)
  let tvc := loaded.1
  let total_fee : Option Nat :=
    if loaded.2 ≠ 0 then some loaded.2
    else get_xhv_fee_amount cfg m.fee_asset_type fees tvc.m_type tvc.pr version
  match total_fee with
  | none => none
  | some total_fee =>
    some (tvc, sorted_emplace
      ⟨total_fee, if tx_weight ≠ 0 then tx_weight else 1, receive_time, id⟩ order)

/-- Insertion `m_parsed_tx_cache.insert(std::make_pair(id, tx))`: an id that is already cached
keeps its transaction. -/
def parsed_tx_cache_insert (c : List (hash × transaction)) (id : hash) (tx : transaction) :
    List (hash × transaction) :=
  if c.any (fun e => e.1 = id) then c else c ++ [(id, tx)]

/-- How the insertion part of `add_tx2` ends: with `return false`, or by reaching the common
tail (line 740) that returns `true`. -/
inductive inserted where
  | no (tvc : tx_verification_context) (pool : tx_memory_pool)
  | yes (tvc : tx_verification_context) (pool : tx_memory_pool)
  deriving Repr

/-- The pool the insertion part leaves. -/
def inserted.pool : inserted → tx_memory_pool
  | inserted.no _ pool => pool
  | inserted.yes _ pool => pool

/-- Lines 612-658 of `add_tx2`: the inputs check failed and the transaction is kept by block.
Modelled from the spec for the scoped transaction: a `return false` inside the scope leaves the
database writes of the scope uncommitted, while the in-memory members keep their changes. -/
def add_tx2_insert_kept (cfg : Config) (bc : Blockchain) (now : Nat) (pool : tx_memory_pool)
    (tx : transaction) (id : hash) (tx_weight : Nat) (tvc : tx_verification_context)
    (meta0 : txpool_tx_meta_t) (tx_relay : relay_method) (relayed : Bool) (version : Nat) :
    inserted :=
  let m : txpool_tx_meta_t := { meta0 with
    weight := tx_weight
    fee := tx.rct_signatures.txnFee
    offshore_fee := tx.rct_signatures.txnOffshoreFee
    max_used_block_id := null_hash
    max_used_block_height := 0
    last_failed_height := 0
    last_failed_id := null_hash
    receive_time := now
    last_relayed_time := now
    relayed := relayed
    relay := tx_relay
    double_spend_seen := have_tx_keyimges_as_spent cfg pool tx id
    pruned := tx.pruned }
  let pool := { pool with
    m_parsed_tx_cache := parsed_tx_cache_insert pool.m_parsed_tx_cache id tx }
  match insert_key_images cfg pool tx id tx_relay with
  | (false, pool1) => inserted.no tvc pool1
  | (true, pool1) =>
    match add_txpool_tx pool1.txpool id tx m with
    | none => inserted.no tvc pool1
    | some db =>
      match add_tx2_emplace cfg bc m tvc id tx_weight now version
          pool1.m_txs_by_fee_and_receive_time with
      | none => inserted.no tvc pool1
      | some (tvc1, order) =>
        inserted.yes { tvc1 with m_verifivation_impossible := true, m_added_to_pool := true }
          { pool1 with txpool := db, m_txs_by_fee_and_receive_time := order }

/-- Lines 732-737 of `add_tx2`: `tvc.m_added_to_pool = true`, and `tvc.m_relay = tx_relay`
when the stored fee is positive. -/
def add_tx2_added (m : txpool_tx_meta_t) (tx_relay : relay_method)
    (tvc : tx_verification_context) : tx_verification_context :=
  if m.fee > 0 then { tvc with m_added_to_pool := true, m_relay := tx_relay }
  else { tvc with m_added_to_pool := true }

/-- Lines 708-723 of `add_tx2`: the key images are inserted, the row is replaced in the table
and the fee-order entry is emplaced.  Modelled from the spec for the scoped transaction: a
`return false` inside the scope leaves the database writes of the scope uncommitted, while the
in-memory members keep their changes. -/
def add_tx2_store (cfg : Config) (bc : Blockchain) (now : Nat) (pool : tx_memory_pool)
    (tx : transaction) (id : hash) (tx_weight : Nat) (tvc : tx_verification_context)
    (m : txpool_tx_meta_t) (tx_relay : relay_method) (version : Nat) : inserted :=
  match insert_key_images cfg pool tx id tx_relay with
  | (false, pool1) => inserted.no tvc pool1
  | (true, pool1) =>
    match add_txpool_tx (remove_txpool_tx pool1.txpool id) id tx m with
    | none => inserted.no tvc pool1
    | some db =>
      match add_tx2_emplace cfg bc m tvc id tx_weight now version
          pool1.m_txs_by_fee_and_receive_time with
      | none => inserted.no tvc pool1
      | some (tvc1, order) =>
        inserted.yes (add_tx2_added m tx_relay tvc1)
          { pool1 with txpool := db, m_txs_by_fee_and_receive_time := order }

/-- Lines 683-684 of `add_tx2`: a Dandelion++ loop turns `stem` into `fluff`. -/
def add_tx2_loop_relay (existing : Option txpool_tx_meta_t) (tx_relay : relay_method) :
    relay_method :=
  match existing with
  | some m =>
    if tx_relay = relay_method.stem ∧ m.dandelionpp_stem then relay_method.fluff else tx_relay
  | none => tx_relay

/-- Lines 668-738 of `add_tx2`: the inputs check passed. -/
def add_tx2_insert_checked (cfg : Config) (bc : Blockchain) (now : Nat) (pool : tx_memory_pool)
    (tx : transaction) (id : hash) (tx_weight : Nat) (tvc : tx_verification_context)
    (meta0 : txpool_tx_meta_t) (max_used_block_height : Nat) (max_used_block_id : hash)
    (tx_relay : relay_method) (relayed : Bool) (version : Nat) : inserted :=
  let kept_by_block : Bool := tx_relay = relay_method.block
  let pool :=
    if kept_by_block then
      { pool with m_parsed_tx_cache := parsed_tx_cache_insert pool.m_parsed_tx_cache id tx }
    else pool
  let existing := get_txpool_tx_meta pool.txpool id
  let existing_tx : Bool := existing.isSome
  let tx_relay : relay_method := add_tx2_loop_relay existing tx_relay
  let m : txpool_tx_meta_t :=
    match existing with
    | some m => m
    | none => meta0.set_relay_method relay_method.none
  let upgraded := m.upgrade_relay_method tx_relay
  let m := upgraded.2
  if upgraded.1 ∨ !existing_tx then
    let m : txpool_tx_meta_t := { m with
      last_relayed_time := time_max
      receive_time := now
      weight := tx_weight
      fee := tx.rct_signatures.txnFee
      offshore_fee := tx.rct_signatures.txnOffshoreFee
      max_used_block_id := max_used_block_id
      max_used_block_height := max_used_block_height
      last_failed_height := 0
      last_failed_id := null_hash
      relayed := relayed
      double_spend_seen := false
      pruned := tx.pruned }
    add_tx2_store cfg bc now pool tx id tx_weight tvc m tx_relay version
  else inserted.yes (add_tx2_added m tx_relay tvc) pool

/-- Lines 598-738 of `add_tx2`, after `check_tx_outputs`: the inputs check and the insertion
in one of its two forms. -/
def add_tx2_insert_branch (cfg : Config) (bc : Blockchain) (now : Nat) (pool : tx_memory_pool)
    (tx : transaction) (id : hash) (tx_weight : Nat) (tvc : tx_verification_context)
    (source : String) (tx_relay : relay_method) (relayed : Bool) (version : Nat) : inserted :=
  let kept_by_block : Bool := tx_relay = relay_method.block
  let tvc := tvc.failed
  let meta0 : txpool_tx_meta_t := { txpool_tx_meta_t.zero with fee_asset_type := source }
  match check_tx_inputs bc pool tx id tvc kept_by_block with
  | (ch_inp_res, max_used_block_height, max_used_block_id, tvc, pool) =>
    if !ch_inp_res then
      if kept_by_block then
        add_tx2_insert_kept cfg bc now pool tx id tx_weight tvc meta0 tx_relay relayed version
      else
        inserted.no { tvc with m_verifivation_failed := true, m_invalid_input := true } pool
    else
      add_tx2_insert_checked cfg bc now pool tx id tx_weight tvc meta0 max_used_block_height
        max_used_block_id tx_relay relayed version

/-- Lines 740-749 of `add_tx2`, the common tail after a successful insertion, or the
`return false` of a failed one. -/
def add_tx2_tail (tx_weight : Nat) : inserted → add_tx2_result
  | inserted.no tvc pool => ⟨some false, tvc, pool⟩
  | inserted.yes tvc pool =>
    let pool := { pool with
      m_txpool_weight := (pool.m_txpool_weight + tx_weight) % 2 ^ 64
      m_cookie := pool.m_cookie + 1 }
    ⟨some true, { tvc with m_verifivation_failed := false },
      prune pool pool.m_txpool_max_weight⟩

/-- Lines 598-750 of `add_tx2`, after `check_tx_outputs`: the inputs check, the insertion and
the common tail. -/
def add_tx2_insert (cfg : Config) (bc : Blockchain) (now : Nat) (pool : tx_memory_pool)
    (tx : transaction) (id : hash) (tx_weight : Nat) (tvc : tx_verification_context)
    (source : String) (tx_relay : relay_method) (relayed : Bool) (version : Nat) :
    add_tx2_result :=
  add_tx2_tail tx_weight
    (add_tx2_insert_branch cfg bc now pool tx id tx_weight tvc source tx_relay relayed version)

/-- Embeds `tx_memory_pool::add_tx2(tx, id, blob, tx_weight, tvc, tx_relay, relayed, version)`
at wall-clock time `now`, against the external collaborators `bc`.  The blob is the
serialisation of `tx` and is stored as `tx`.  A fault can only occur in the checks, which do not
write to the pool; what the verification context holds after a fault is not modelled (the
context at entry is returned). -/
def add_tx2 (cfg : Config) (bc : Blockchain) (now : Nat) (pool : tx_memory_pool)
    (tx : transaction) (id : hash) (tx_weight : Nat) (tvc : tx_verification_context)
    (tx_relay : relay_method) (relayed : Bool) (version : Nat) : add_tx2_result :=
  let kept_by_block : Bool := tx_relay = relay_method.block
  match add_tx2_checks cfg bc pool tx id tx_weight tvc tx_relay version with
  | checked.abort _ => ⟨none, tvc, pool⟩
  | checked.reject t => ⟨some false, t, pool⟩
  | checked.ok (source, _, _, tvc) =>
    if !kept_by_block ∧ have_tx_keyimges_as_spent cfg pool tx id then
      ⟨some false, { tvc with m_verifivation_failed := true, m_double_spend := true },
        mark_double_spend pool tx⟩
    else
      match bc.check_tx_outputs tx tvc with
      | (false, tvc) =>
        ⟨some false, { tvc with m_verifivation_failed := true, m_invalid_output := true }, pool⟩
      | (true, tvc) =>
        add_tx2_insert cfg bc now pool tx id tx_weight tvc source tx_relay relayed version

/-- Lines 752-777 of the legacy `add_tx`: the two checks it opens with.  `some tvc` is a
`return false` with the verification context it leaves; `none` means that the function goes on
to the checks that follow. -/
def add_tx_opening (pool : tx_memory_pool) (tx : transaction) (id : hash)
    (tvc : tx_verification_context) (tx_relay : relay_method) :
    Option tx_verification_context :=
  let kept_by_block : Bool := tx_relay = relay_method.block
  if tx.version = 0 then some tvc.failed
  else if !kept_by_block ∧ id ∈ pool.m_timed_out_transactions then some tvc.failed
  else none

/-- A row with its `double_spend_seen` flag cleared: two tables that agree after clearing every
row have the same rows, blobs and metadata except for these flags. -/
def txpool_row.without_double_spend_seen (r : txpool_row) : txpool_row :=
  { r with meta_ := { r.meta_ with double_spend_seen := false } }

/-! ## Reachable pool states -/

/-- The pool states reachable from the empty pool by `add_tx2` calls whose relay method is not
`block`, interleaved with `take_tx`, `prune` and `remove_stuck_transactions`; the external
collaborators, the clock and the arguments are arbitrary at every step. -/
inductive reachable_without_block (cfg : Config) : tx_memory_pool → Prop where
  | init (max_txpool_weight : Nat) :
    reachable_without_block cfg (tx_memory_pool.init max_txpool_weight)
  | add_tx2 (pool : tx_memory_pool) (bc : Blockchain) (now : Nat) (tx : transaction) (id : hash)
      (tx_weight : Nat) (tvc : tx_verification_context) (tx_relay : relay_method)
      (relayed : Bool) (version : Nat) :
    reachable_without_block cfg pool → tx_relay ≠ relay_method.block →
    reachable_without_block cfg
      (add_tx2 cfg bc now pool tx id tx_weight tvc tx_relay relayed version).pool
  | take_tx (pool : tx_memory_pool) (id : hash) :
    reachable_without_block cfg pool → reachable_without_block cfg (take_tx pool id).2
  | prune (pool : tx_memory_pool) (bytes : Nat) :
    reachable_without_block cfg pool → reachable_without_block cfg (prune pool bytes)
  | remove_stuck_transactions (pool : tx_memory_pool) (bc : Blockchain) (now : Nat) :
    reachable_without_block cfg pool →
    reachable_without_block cfg (remove_stuck_transactions cfg bc now pool)

/-- The pool states that follow the state `start` through calls of `add_tx2` (with any relay
method), `take_tx`, `prune` and `remove_stuck_transactions`; the external collaborators, the
clock and the arguments are arbitrary at every step. -/
inductive reachable_from (cfg : Config) (start : tx_memory_pool) : tx_memory_pool → Prop where
  | refl : reachable_from cfg start start
  | add_tx2 (pool : tx_memory_pool) (bc : Blockchain) (now : Nat) (tx : transaction) (id : hash)
      (tx_weight : Nat) (tvc : tx_verification_context) (tx_relay : relay_method)
      (relayed : Bool) (version : Nat) :
    reachable_from cfg start pool →
    reachable_from cfg start
      (add_tx2 cfg bc now pool tx id tx_weight tvc tx_relay relayed version).pool
  | take_tx (pool : tx_memory_pool) (id : hash) :
    reachable_from cfg start pool → reachable_from cfg start (take_tx pool id).2
  | prune (pool : tx_memory_pool) (bytes : Nat) :
    reachable_from cfg start pool → reachable_from cfg start (prune pool bytes)
  | remove_stuck_transactions (pool : tx_memory_pool) (bc : Blockchain) (now : Nat) :
    reachable_from cfg start pool →
    reachable_from cfg start (remove_stuck_transactions cfg bc now pool)

/-! ## Concrete inputs -/

/-- An XHV transfer: one XHV input, two XHV outputs. -/
def example_transfer_tx : transaction where
  version := 7
  unlock_time := 10
  vin := [txin_v.txin_to_key 0 101]
  vout := [⟨0, txout_target_v.txout_to_key 1⟩, ⟨0, txout_target_v.txout_to_key 2⟩]
  extra := []
  pricing_record_height := 0
  amount_burnt := 0
  amount_minted := 0
  output_unlock_times := [0, 0]
  collateral_indices := []
  rct_signatures := ⟨1000, 0⟩
  pruned := false

/-- A transaction with one XHV input, an XHV change output and an XBTC output. -/
def example_xhv_to_xbtc_tx : transaction where
  version := 7
  unlock_time := 10
  vin := [txin_v.txin_to_key 0 102]
  vout := [⟨0, txout_target_v.txout_to_key 1⟩, ⟨0, txout_target_v.txout_xasset 2 "XBTC"⟩]
  extra := []
  pricing_record_height := 90
  amount_burnt := 1000
  amount_minted := 1
  output_unlock_times := [0, 10]
  collateral_indices := [0, 0]
  rct_signatures := ⟨1000, 15⟩
  pruned := false

/-- A transaction with one XJPY input, an XJPY change output and an XBTC output. -/
def example_xjpy_to_xbtc_tx : transaction where
  version := 4
  unlock_time := 10
  vin := [txin_v.txin_xasset 0 "XJPY" 103]
  vout := [⟨0, txout_target_v.txout_xasset 1 "XJPY"⟩, ⟨0, txout_target_v.txout_xasset 2 "XBTC"⟩]
  extra := []
  pricing_record_height := 90
  amount_burnt := 1000
  amount_minted := 1
  output_unlock_times := []
  collateral_indices := []
  rct_signatures := ⟨1000, 3⟩
  pruned := false

/-- An onshore with XHV collateral: an xUSD input and an XHV input, an XHV output and an xUSD
change output. -/
def example_onshore_tx : transaction where
  version := 7
  unlock_time := 20000
  vin := [txin_v.txin_onshore 0 104, txin_v.txin_to_key 0 105]
  vout := [⟨0, txout_target_v.txout_to_key 1⟩, ⟨0, txout_target_v.txout_offshore 2⟩,
    ⟨0, txout_target_v.txout_to_key 3⟩, ⟨0, txout_target_v.txout_to_key 4⟩]
  extra := []
  pricing_record_height := 90
  amount_burnt := 2000
  amount_minted := 1000
  output_unlock_times := [20000, 0, 20000, 0]
  collateral_indices := [2, 3]
  rct_signatures := ⟨1000, 30⟩
  pruned := false

/-- An xUSD to XBTC conversion of the per-output-unlock epoch: one xUSD input, an xUSD change
output and an XBTC output locked for 1440 blocks past the price record; 1000 atomic units are
burnt and the declared conversion fee is 4. -/
def example_xusd_to_xbtc_tx : transaction where
  version := 6
  unlock_time := 1530
  vin := [txin_v.txin_offshore 0 106]
  vout := [⟨0, txout_target_v.txout_offshore 1⟩, ⟨0, txout_target_v.txout_xasset 2 "XBTC"⟩]
  extra := []
  pricing_record_height := 90
  amount_burnt := 1000
  amount_minted := 1
  output_unlock_times := [0, 1530]
  collateral_indices := []
  rct_signatures := ⟨1000, 4⟩
  pruned := false

/-- A price record with non-zero XHV prices and XBTC and XJPY rates. -/
def example_pr : pricing_record where
  unused1 := 500000000000
  xUSD := 400000000000
  rates := [("XBTC", 20000000), ("XJPY", 150000000000000)]
  timestamp := 1

/-- A chain at height 95 on main net whose block 90 carries `example_pr` and whose fee, output,
input and burnt/minted checks accept every transaction. -/
def example_chain : Blockchain where
  get_current_blockchain_height := 95
  get_nettype := network_type.MAINNET
  get_block_pricing_record := fun h => if h = 90 then some example_pr else none
  check_fee := fun _ _ _ _ _ _ => true
  check_tx_outputs := fun _ tvc => (true, tvc)
  check_tx_inputs := fun _ tvc _ => (true, 94, 7, tvc)
  get_latest_acceptable_pr := some example_pr
  checkBurntAndMinted := fun _ _ _ _ _ _ _ => true
  get_memo_from_tx_extra := fun _ => false

/-- A freshly constructed verification context: every flag clear, no asset pair, type UNSET, an
empty price record. -/
def empty_tvc : tx_verification_context where
  m_verifivation_failed := false
  m_verifivation_impossible := false
  m_added_to_pool := false
  m_double_spend := false
  m_invalid_input := false
  m_invalid_output := false
  m_too_big := false
  m_fee_too_low := false
  m_relay := relay_method.none
  m_source_asset := ""
  m_dest_asset := ""
  m_type := transaction_type.UNSET
  tx_pr_height_verified := false
  pr := ⟨0, 0, [], 0⟩

/-- The pool after the XHV transfer (key image 101) was admitted under id 12 into the empty
pool. -/
def example_pool : tx_memory_pool :=
  (add_tx2 havenConfig example_chain 1000 (tx_memory_pool.init 1000000)
    example_transfer_tx 12 2000 empty_tvc relay_method.fluff false 20).pool

/-- A second XHV transfer that spends the key image 101 again. -/
def example_double_spend_tx : transaction :=
  { example_transfer_tx with
    vout := [⟨0, txout_target_v.txout_to_key 5⟩, ⟨0, txout_target_v.txout_to_key 6⟩] }

/-- A second XHV transfer that spends the key image 101 again and pays no fee. -/
def example_free_double_spend_tx : transaction :=
  { example_double_spend_tx with rct_signatures := ⟨0, 0⟩ }

/-- The XHV transfer with transaction version 6. -/
def example_v6_transfer_tx : transaction := { example_transfer_tx with version := 6 }

/-- The chain of `example_chain`, with an input check that rejects every transaction and leaves
the context as it is. -/
def example_chain_failing_inputs : Blockchain :=
  { example_chain with check_tx_inputs := fun _ tvc _ => (false, 0, 0, tvc) }

/-- The pool after the XHV transfer was admitted under id 12 with the relay method `stem`, by a
call whose verification context came in with `m_verifivation_impossible` set: the input cache
now holds that context for id 12. -/
def example_stem_pool : tx_memory_pool :=
  (add_tx2 havenConfig example_chain 1000 (tx_memory_pool.init 1000000) example_transfer_tx 12
    2000 { empty_tvc with m_verifivation_impossible := true } relay_method.stem false 20).pool

/-- The pool after the XHV transfer was admitted under id 12 at time 1000 with the relay method
`stem`. -/
def example_stem_admitted_pool : tx_memory_pool :=
  (add_tx2 havenConfig example_chain 1000 (tx_memory_pool.init 1000000) example_transfer_tx 12
    2000 empty_tvc relay_method.stem false 20).pool

/-- The pool after the same transfer, already stored as `stem`, arrived again under id 12 at
time 2000 with the relay method `fluff`. -/
def example_readmitted_pool : tx_memory_pool :=
  (add_tx2 havenConfig example_chain 2000 example_stem_admitted_pool example_transfer_tx 12
    2000 empty_tvc relay_method.fluff false 20).pool

/-- A second XHV transfer, spending the key image 108 and paying the fee 500. -/
def example_second_transfer_tx : transaction :=
  { example_transfer_tx with vin := [txin_v.txin_to_key 0 108], rct_signatures := ⟨500, 0⟩ }

/-- The pool that holds the two XHV transfers, ids 12 (fee 1000) and 13 (fee 500), each of
weight 2000. -/
def example_two_tx_pool : tx_memory_pool :=
  (add_tx2 havenConfig example_chain 1001 example_pool example_second_transfer_tx 13 2000
    empty_tvc relay_method.fluff false 20).pool

/-- The chain of `example_chain` at height 1000000, whose block 999995 carries `example_pr`. -/
def example_late_chain : Blockchain :=
  { example_chain with
    get_current_blockchain_height := 1000000
    get_block_pricing_record := fun h => if h = 999995 then some example_pr else none }

/-- An offshore of the collateral epoch: an XHV input; output 0 carries xUSD and has the unlock
time 0, output 1 is the XHV collateral locked for 15120 blocks past the price record, output 2
is XHV change.  `collateral_indices` is `[1, 0]`: the collateral output, and the value 0 that
`construct_tx_with_tx_key` leaves in the second slot of an offshore. -/
def example_offshore_tx : transaction where
  version := 7
  unlock_time := 1015115
  vin := [txin_v.txin_to_key 0 107]
  vout := [⟨0, txout_target_v.txout_offshore 1⟩, ⟨0, txout_target_v.txout_to_key 2⟩,
    ⟨0, txout_target_v.txout_to_key 3⟩]
  extra := []
  pricing_record_height := 999995
  amount_burnt := 1000
  amount_minted := 400
  output_unlock_times := [0, 1015115, 0]
  collateral_indices := [1, 0]
  rct_signatures := ⟨1000, 15⟩
  pruned := false

/-- The xUSD to XBTC conversion of `example_xusd_to_xbtc_tx` with the unlock time 0 on both
outputs. -/
def example_unlocked_xbtc_tx : transaction :=
  { example_xusd_to_xbtc_tx with output_unlock_times := [0, 0] }

/-! ## Relay bookkeeping: `set_relayed` (`tx_pool.cpp`, lines 1786-1820) -/

/-- The loop of `set_relayed` over the hashes, on the table.  `now` is the wall-clock time of
the call and `embargo h` the Dandelion++ embargo duration drawn for the hash `h`. -/
def set_relayed_loop (method : relay_method) (now : Nat) (embargo : hash → Nat) :
    List hash → List txpool_row → List txpool_row
  | [], db => db
  | h :: rest, db =>
    match get_txpool_tx_meta db h with
    | some m =>
      let m := (m.upgrade_relay_method method).2
      let m := { m with relayed := true }
      let m := { m with
        last_relayed_time := if m.dandelionpp_stem then now + embargo h else now }
      set_relayed_loop method now embargo rest (update_txpool_tx db h m)
    | none => set_relayed_loop method now embargo rest db

/-- Embeds `set_relayed(hashes, method)` at wall-clock time `now`: the table is the only member
it writes. -/
def set_relayed (pool : tx_memory_pool) (hashes : List hash) (method : relay_method)
    (now : Nat) (embargo : hash → Nat) : tx_memory_pool :=
  { pool with txpool := set_relayed_loop method now embargo hashes pool.txpool }

/-! ## Collateral (`cryptonote_tx_utils.cpp`, lines 725-855) -/

/-- How `get_collateral_requirements` ends: by an exception (a `uint128_t` division by zero), by
`return false`, or by `return true` with the value it leaves in `collateral`. -/
inductive collateral_result where
  | thrown
  | failed
  | required (collateral : Nat)
  deriving DecidableEq, Repr

/-- Lines 733-751 of `get_collateral_requirements`: the loop over the circulating supply that
sums the market capitalisation of the xAssets in `uint128_t`; `none` is the exception of a
division by a zero price.  The amount strings are kept as the numbers they denote. -/
def mcap_xassets_loop (cfg : Config) (pr : pricing_record) :
    List (String × Nat) → Nat → Option Nat
  | [], mcap_xassets => some mcap_xassets
  | i :: rest, mcap_xassets =>
    if i.1 = "XHV" then mcap_xassets_loop cfg pr rest mcap_xassets
    else
      match div128 (((i.2 % 2 ^ 128) * cfg.COIN) % 2 ^ 128) (pr.rate i.1) with
      | none => none
      | some amount_xasset =>
        mcap_xassets_loop cfg pr rest ((mcap_xassets + amount_xasset) % 2 ^ 128)

/-- The value `map_amounts["XHV"]` after the loop: the amount of the last `XHV` entry of the
supply, 0 when there is none. -/
def supply_xhv (amounts : List (String × Nat)) : Nat :=
  ((amounts.reverse.lookup "XHV").getD 0) % 2 ^ 128

/-- Embeds `get_collateral_requirements(tx_type, amount, collateral, pr, amounts)`.  The ratios
and rates between lines 763 and 808 (and 819 to 835) are computed in `double` and
`cpp_bin_float_quad`; `vbs tx_type amount price_xhv mcap_xassets mcap_xhv` stands for the value
`static_cast<uint64_t>(vbs)` they end in. -/
def get_collateral_requirements (cfg : Config)
    (vbs : transaction_type → Nat → Nat → Nat → Nat → Nat) (tx_type : transaction_type)
    (amount : Nat) (pr : pricing_record) (amounts : List (String × Nat)) : collateral_result :=
  match mcap_xassets_loop cfg pr amounts 0 with
  | none => collateral_result.thrown
  | some mcap_xassets =>
    let price_xhv : Nat :=
      if tx_type = transaction_type.OFFSHORE then min pr.unused1 pr.xUSD
      else if tx_type = transaction_type.ONSHORE then max pr.unused1 pr.xUSD
      else 0
    match div128 ((supply_xhv amounts * price_xhv) % 2 ^ 128) cfg.COIN with
    | none => collateral_result.thrown
    | some mcap_xhv =>
      if tx_type = transaction_type.TRANSFER ∨ tx_type = transaction_type.OFFSHORE_TRANSFER ∨
          tx_type = transaction_type.XASSET_TRANSFER then collateral_result.required 0
      else if tx_type = transaction_type.OFFSHORE then
        match div128 ((vbs tx_type amount price_xhv mcap_xassets mcap_xhv * amount) % 2 ^ 128)
            cfg.COIN with
        | none => collateral_result.thrown
        | some collateral_128 => collateral_result.required (collateral_128 % 2 ^ 64)
      else if tx_type = transaction_type.ONSHORE then
        match div128 ((vbs tx_type amount price_xhv mcap_xassets mcap_xhv * amount) % 2 ^ 128)
            price_xhv with
        | none => collateral_result.thrown
        | some collateral_128 => collateral_result.required (collateral_128 % 2 ^ 64)
      else if tx_type = transaction_type.XUSD_TO_XASSET ∨
          tx_type = transaction_type.XASSET_TO_XUSD then collateral_result.required 0
      else collateral_result.failed

/-! ## Filling a block template (`tx_pool.cpp`, lines 2202-2325 and 2417-2700) -/

/-- The value `m[k]` of a `std::map<std::string, uint64_t>`, kept as its entries: 0 for a
missing key. -/
def fee_map_get (m : List (String × Nat)) (k : String) : Nat := (m.lookup k).getD 0

/-- The update `m[k] += v` of a `std::map<std::string, uint64_t>`, in `uint64_t`; a new entry
goes to its place in the ascending key order. -/
def fee_map_add : List (String × Nat) → String → Nat → List (String × Nat)
  | [], k, v => [(k, v % 2 ^ 64)]
  | e :: rest, k, v =>
    if string_lt k e.1 then (k, v % 2 ^ 64) :: e :: rest
    else if k = e.1 then (k, (e.2 + v) % 2 ^ 64) :: rest
    else e :: fee_map_add rest k v

/-- The external collaborators of `fill_block_template` besides those of `Blockchain`, at one
moment: each field is the result the collaborator gives. -/
structure template_env where
  /-- Result of `get_block_reward(median_weight, current_block_weight, already_generated_coins,
  reward, version)`; `none` when it returns false. -/
  get_block_reward : Nat → Nat → Nat → Nat → Option Nat
  /-- Result of `m_blockchain.get_block_id_by_height(height)`. -/
  get_block_id_by_height : Nat → hash
  /-- Result of `m_blockchain.have_tx_keyimges_as_spent(tx)`, the test against the chain. -/
  have_tx_keyimges_as_spent : transaction → Bool
  /-- Result of `m_blockchain.get_db().get_circulating_supply()`, the amount strings kept as
  the numbers they denote. -/
  get_circulating_supply : List (String × Nat)
  /-- Result of `get_block_cap(supply_amounts, latest_pr)` (`cryptonote_tx_utils.cpp`, lines
  857-880), which is computed in `double` with `pow`. -/
  get_block_cap : List (String × Nat) → pricing_record → Nat
  /-- The product `meta.weight * sorted_it->first.first` of line 2526, a `double` converted to
  `uint64_t`. -/
  fee_of_rate : Nat → tx_by_fee_and_receive_time_entry → Nat
  /-- Result of `rct::verRctSemanticsSimple2(rv, pr, tx_type, source, dest, amount_burnt, vout,
  vin, version, collateral_indices, collateral)`. -/
  verRctSemanticsSimple2 : transaction → pricing_record → transaction_type → String → String →
    Nat → Nat → Bool
  /-- The floating-point part of `get_collateral_requirements`. -/
  vbs : transaction_type → Nat → Nat → Nat → Nat → Nat
  /-- The value of the local `tx_verification_context tvc;` of `is_transaction_ready_to_go`,
  which is not initialised. -/
  local_tvc : tx_verification_context

/-- Lines 2233-2238 (and 2250-2255) of `is_transaction_ready_to_go`: the inputs check, which
writes the two block references into the metadata and, when it fails, the failure height and
id. -/
def ready_check_inputs (bc : Blockchain) (env : template_env) (pool : tx_memory_pool)
    (txd : txpool_tx_meta_t) (txid : hash) (txblob : transaction) :
    Bool × txpool_tx_meta_t × tx_memory_pool :=
  match check_tx_inputs bc pool txblob txid env.local_tvc false with
  | (ret, max_used_block_height, max_used_block_id, _, pool1) =>
    let txd := { txd with
      max_used_block_height := max_used_block_height
      max_used_block_id := max_used_block_id }
    if !ret then
      let last_failed_height := sub64 bc.get_current_blockchain_height 1
      (false, { txd with
        last_failed_height := last_failed_height
        last_failed_id := env.get_block_id_by_height last_failed_height }, pool1)
    else (true, txd, pool1)

/-- Embeds `is_transaction_ready_to_go(txd, txid, txblob, tx)`: the returned `bool`, the
metadata and the pool (its `m_input_cache`) it leaves.  The stored blob is the transaction, so
parsing it gives `txblob` back. -/
def is_transaction_ready_to_go (bc : Blockchain) (env : template_env) (pool : tx_memory_pool)
    (txd : txpool_tx_meta_t) (txid : hash) (txblob : transaction) :
    Bool × txpool_tx_meta_t × tx_memory_pool :=
  let height := bc.get_current_blockchain_height
  let inputs_checked : Bool × txpool_tx_meta_t × tx_memory_pool :=
    if txd.max_used_block_id = null_hash then
      if txd.last_failed_id ≠ null_hash ∧ height > txd.last_failed_height ∧
          txd.last_failed_id = env.get_block_id_by_height txd.last_failed_height then
        (false, txd, pool)
      else ready_check_inputs bc env pool txd txid txblob
    else
      if txd.max_used_block_height ≥ height then (false, txd, pool)
      else if txd.last_failed_id = env.get_block_id_by_height txd.last_failed_height then
        (false, txd, pool)
      else ready_check_inputs bc env pool txd txid txblob
  match inputs_checked with
  | (false, txd, pool1) => (false, txd, pool1)
  | (true, txd, pool1) =>
    if env.have_tx_keyimges_as_spent txblob then
      (false, { txd with double_spend_seen := true }, pool1)
    else (true, txd, pool1)

/-- Embeds `have_key_images(k_images, tx)`, on the inputs. -/
def have_key_images (k_images : List key_image) : List txin_v → Bool
  | [] => false
  | i :: rest =>
    match i.k_image? with
    | some k => if k ∈ k_images then true else have_key_images k_images rest
    | none => false

/-- Embeds `append_key_images(k_images, tx)`, on the inputs: the returned `bool` and the set as
it is left. -/
def append_key_images : List txin_v → List key_image → Bool × List key_image
  | [], k_images => (true, k_images)
  | i :: rest, k_images =>
    match i.k_image? with
    | some k =>
      if k ∈ k_images then (false, k_images) else append_key_images rest (k_images ++ [k])
    | none => (false, k_images)

/-- What one iteration of a loop decides: it goes on with a value, skips to the next iteration
(`continue`), leaves the loop (`break`), or ends in an exception that the function does not
catch. -/
inductive verdict (α : Type) where
  | pass (a : α)
  | skip
  | stop
  | thrown
  deriving DecidableEq, Repr

/-- The locals and reference parameters of `fill_block_template` that its loop updates, with
the pool.  `tx_hashes` lists the ids pushed onto `bl.tx_hashes` by the call, in order. -/
structure template_state where
  pool : tx_memory_pool
  tx_hashes : List hash
  total_weight : Nat
  total_fee_xhv : Nat
  total_conversion_xhv : Nat
  best_coinbase : Nat
  k_images : List key_image
  fee_map : List (String × Nat)
  offshore_fee_map : List (String × Nat)
  xasset_fee_map : List (String × Nat)
  deriving DecidableEq, Repr

/-- The arguments of `fill_block_template` and the locals it fixes before its loop. -/
structure template_params where
  median_weight : Nat
  already_generated_coins : Nat
  version : Nat
  max_total_weight : Nat
  have_valid_pr : Bool
  block_cap_xhv : Nat
  supply_amounts : List (String × Nat)

/-- Lines 2493-2553: the pruned flag, the weight limit and the coinbase test of a candidate.
The value is `(total_fee_this_tx_xhv, coinbase)`; before version 5 `coinbase` is never assigned
and holds its initial 0. -/
def template_weight_and_reward (cfg : Config) (env : template_env) (p : template_params)
    (st : template_state) (e : tx_by_fee_and_receive_time_entry) (m : txpool_tx_meta_t) :
    verdict (Nat × Nat) :=
  if m.pruned then verdict.skip
  else if p.max_total_weight < (st.total_weight + m.weight) % 2 ^ 64 then verdict.skip
  else if p.version ≥ 5 then
    match env.get_block_reward p.median_weight ((st.total_weight + m.weight) % 2 ^ 64)
        p.already_generated_coins p.version with
    | none => verdict.skip
    | some block_reward =>
      let total_fee_this_tx_xhv : Nat :=
        if p.version ≥ cfg.HF_VERSION_USE_COLLATERAL then
          if p.have_valid_pr then env.fee_of_rate m.weight e
          else (m.fee + m.offshore_fee) % 2 ^ 64
        else 0
      let coinbase : Nat :=
        if p.version ≥ cfg.HF_VERSION_USE_COLLATERAL then
          (block_reward + st.total_fee_xhv + total_fee_this_tx_xhv) % 2 ^ 64
        else if m.fee_asset_type = "XHV" then
          (block_reward + fee_map_get st.fee_map "XHV" + m.fee) % 2 ^ 64
        else (block_reward + fee_map_get st.fee_map "XHV") % 2 ^ 64
      if coinbase < st.best_coinbase then verdict.skip
      else verdict.pass (total_fee_this_tx_xhv, coinbase)
  else
    if st.total_weight > p.median_weight then verdict.stop
    else verdict.pass (0, 0)

/-- Lines 2563-2590: the readiness test of a candidate and the write-back of its metadata when
the test changed them.  The value is the returned `ready` and the pool. -/
def template_ready (bc : Blockchain) (env : template_env) (pool : tx_memory_pool) (id : hash)
    (m : txpool_tx_meta_t) (txblob : transaction) : Bool × txpool_tx_meta_t × tx_memory_pool :=
  match is_transaction_ready_to_go bc env pool m id txblob with
  | (ready, m1, pool1) =>
    (ready, m1,
      if m1 ≠ m then { pool1 with txpool := update_txpool_tx pool1.txpool id m1 } else pool1)

/-- Lines 2614-2631: the block cap test of an offshore or onshore from the collateral epoch.
The value is `conversion_this_tx_xhv`. -/
def template_block_cap (cfg : Config) (p : template_params) (st : template_state)
    (tx : transaction) (tx_type : transaction_type) : verdict Nat :=
  if p.version ≥ cfg.HF_VERSION_USE_COLLATERAL ∧
      (tx_type = transaction_type.OFFSHORE ∨ tx_type = transaction_type.ONSHORE) then
    if !p.have_valid_pr then verdict.skip
    else
      let conversion_this_tx_xhv : Nat :=
        if tx_type = transaction_type.OFFSHORE then tx.amount_burnt % 2 ^ 64 else 0
      let conversion_this_tx_xhv : Nat :=
        if tx_type = transaction_type.ONSHORE then
          (conversion_this_tx_xhv + tx.amount_minted) % 2 ^ 64
        else conversion_this_tx_xhv
      if (st.total_conversion_xhv + conversion_this_tx_xhv) % 2 ^ 64 > p.block_cap_xhv then
        verdict.skip
      else verdict.pass conversion_this_tx_xhv
  else verdict.pass 0

/-- Lines 2640-2664: the proof-of-value test of a conversion from `HF_VERSION_HAVEN2` on, with
the collateral requirement of an offshore or onshore. -/
def template_proof_of_value (cfg : Config) (bc : Blockchain) (env : template_env)
    (p : template_params) (tx : transaction) (source dest : String)
    (tx_type : transaction_type) : verdict Unit :=
  if p.version ≥ cfg.HF_VERSION_HAVEN2 then
    match bc.get_block_pricing_record tx.pricing_record_height with
    | none => verdict.skip
    | some pr =>
      let collateral : verdict Nat :=
        if p.version ≥ cfg.HF_VERSION_USE_COLLATERAL ∧
            (tx_type = transaction_type.OFFSHORE ∨ tx_type = transaction_type.ONSHORE) then
          match get_collateral_requirements cfg env.vbs tx_type tx.amount_burnt pr
              p.supply_amounts with
          | collateral_result.thrown => verdict.thrown
          | collateral_result.failed => verdict.skip
          | collateral_result.required c => verdict.pass c
        else verdict.pass 0
      match collateral with
      | verdict.pass c =>
        if !env.verRctSemanticsSimple2 tx pr tx_type source dest p.version c then verdict.skip
        else verdict.pass ()
      | verdict.skip => verdict.skip
      | verdict.stop => verdict.stop
      | verdict.thrown => verdict.thrown
  else verdict.pass ()

/-- Lines 2610-2665: the tests of a conversion (`source != dest`).  The value is
`conversion_this_tx_xhv`. -/
def template_conversion (cfg : Config) (bc : Blockchain) (env : template_env)
    (p : template_params) (st : template_state) (id : hash) (tx : transaction)
    (source dest : String) (tx_type : transaction_type) : verdict Nat :=
  if source ≠ dest then
    match template_block_cap cfg p st tx tx_type with
    | verdict.pass conversion_this_tx_xhv =>
      if !tx_pr_height_valid cfg bc.get_current_blockchain_height tx.pricing_record_height id
      then verdict.skip
      else
        match template_proof_of_value cfg bc env p tx source dest tx_type with
        | verdict.pass _ => verdict.pass conversion_this_tx_xhv
        | verdict.skip => verdict.skip
        | verdict.stop => verdict.stop
        | verdict.thrown => verdict.thrown
    | verdict.skip => verdict.skip
    | verdict.stop => verdict.stop
    | verdict.thrown => verdict.thrown
  else verdict.pass 0

/-- Lines 2667-2687: the candidate is taken into the template. -/
def template_accept (cfg : Config) (p : template_params) (st : template_state) (id : hash)
    (m : txpool_tx_meta_t) (tx : transaction) (source dest : String)
    (total_fee_this_tx_xhv coinbase conversion_this_tx_xhv : Nat) : template_state :=
  { st with
    tx_hashes := st.tx_hashes ++ [id]
    total_weight := (st.total_weight + m.weight) % 2 ^ 64
    total_fee_xhv := (st.total_fee_xhv + total_fee_this_tx_xhv) % 2 ^ 64
    total_conversion_xhv := (st.total_conversion_xhv + conversion_this_tx_xhv) % 2 ^ 64
    fee_map := fee_map_add st.fee_map m.fee_asset_type m.fee
    offshore_fee_map :=
      if source ≠ dest then
        if p.version ≥ cfg.HF_VERSION_BULLETPROOF_PLUS then
          fee_map_add st.offshore_fee_map "XHV" m.offshore_fee
        else if p.version ≥ cfg.HF_VERSION_XASSET_FEES_V2 ∧ source ≠ "XHV" ∧ dest ≠ "XHV" then
          st.offshore_fee_map
        else fee_map_add st.offshore_fee_map m.fee_asset_type m.offshore_fee
      else st.offshore_fee_map
    xasset_fee_map :=
      if source ≠ dest then
        if p.version ≥ cfg.HF_VERSION_BULLETPROOF_PLUS then st.xasset_fee_map
        else if p.version ≥ cfg.HF_VERSION_XASSET_FEES_V2 ∧ source ≠ "XHV" ∧ dest ≠ "XHV" then
          fee_map_add st.xasset_fee_map m.fee_asset_type m.offshore_fee
        else st.xasset_fee_map
      else st.xasset_fee_map
    best_coinbase := coinbase
    k_images := (append_key_images tx.vin st.k_images).2 }

/-- Lines 2591-2688: what follows the readiness test of a candidate that is ready. -/
def template_select (cfg : Config) (bc : Blockchain) (env : template_env)
    (p : template_params) (st : template_state) (id : hash) (m : txpool_tx_meta_t)
    (tx : transaction) (total_fee_this_tx_xhv coinbase : Nat) : verdict template_state :=
  if have_key_images st.k_images tx.vin then verdict.skip
  else
    match get_tx_asset_types cfg tx id "" false with
    | (false, _, _) => verdict.skip
    | (true, source, dest) =>
      match get_tx_type cfg source dest with
      | none => verdict.skip
      | some tx_type =>
        match template_conversion cfg bc env p st id tx source dest tx_type with
        | verdict.pass conversion_this_tx_xhv =>
          verdict.pass (template_accept cfg p st id m tx source dest total_fee_this_tx_xhv
            coinbase conversion_this_tx_xhv)
        | verdict.skip => verdict.skip
        | verdict.stop => verdict.stop
        | verdict.thrown => verdict.thrown

/-- How one iteration of the loop of `fill_block_template` ends: the loop goes on with a
state, is left by `break`, or the function is left by an exception. -/
inductive template_step_result where
  | next (st : template_state)
  | stop (st : template_state)
  | thrown (st : template_state)
  deriving DecidableEq, Repr

/-- Lines 2478-2688: one iteration of the loop of `fill_block_template`, on the entry `e` of the
fee order.  `get_txpool_tx_blob` throws for an id that is not in the table. -/
def fill_block_template_step (cfg : Config) (bc : Blockchain) (env : template_env)
    (p : template_params) (e : tx_by_fee_and_receive_time_entry) (st : template_state) :
    template_step_result :=
  match get_txpool_tx_meta st.pool.txpool e.id with
  | none => template_step_result.next st
  | some m =>
    match template_weight_and_reward cfg env p st e m with
    | verdict.skip => template_step_result.next st
    | verdict.stop => template_step_result.stop st
    | verdict.thrown => template_step_result.thrown st
    | verdict.pass (total_fee_this_tx_xhv, coinbase) =>
      match get_txpool_tx_blob st.pool.txpool e.id with
      | none => template_step_result.thrown st
      | some txblob =>
        match template_ready bc env st.pool e.id m txblob with
        | (false, _, pool1) => template_step_result.next { st with pool := pool1 }
        | (true, m1, pool1) =>
          let st1 := { st with pool := pool1 }
          match template_select cfg bc env p st1 e.id m1 txblob total_fee_this_tx_xhv
              coinbase with
          | verdict.pass st2 => template_step_result.next st2
          | verdict.skip => template_step_result.next st1
          | verdict.stop => template_step_result.stop st1
          | verdict.thrown => template_step_result.thrown st1

/-- The loop of `fill_block_template` over the fee order: `(true, st)` when it runs to its end
or is left by `break`, `(false, st)` when an exception leaves the function. -/
def fill_block_template_loop (cfg : Config) (bc : Blockchain) (env : template_env)
    (p : template_params) :
    List tx_by_fee_and_receive_time_entry → template_state → Bool × template_state
  | [], st => (true, st)
  | e :: rest, st =>
    match fill_block_template_step cfg bc env p e st with
    | template_step_result.next st1 => fill_block_template_loop cfg bc env p rest st1
    | template_step_result.stop st1 => (true, st1)
    | template_step_result.thrown st1 => (false, st1)

/-- Lines 2448-2450: `max_total_weight`, in `size_t`. -/
def max_total_weight (cfg : Config) (median_weight version : Nat) : Nat :=
  let max_total_weight_pre_v5 :=
    sub64 (((130 * median_weight) % 2 ^ 64) / 100) cfg.CRYPTONOTE_COINBASE_BLOB_RESERVED_SIZE
  let max_total_weight_v5 :=
    sub64 ((2 * median_weight) % 2 ^ 64) cfg.CRYPTONOTE_COINBASE_BLOB_RESERVED_SIZE
  if version ≥ 5 then max_total_weight_v5 else max_total_weight_pre_v5

/-- Lines 2448-2473: the locals `fill_block_template` fixes before its loop.  When
`get_latest_acceptable_pr` fails, `latest_pr` is the default-constructed record. -/
def fill_block_template_params (cfg : Config) (bc : Blockchain) (env : template_env)
    (median_weight already_generated_coins version : Nat) : template_params where
  median_weight := median_weight
  already_generated_coins := already_generated_coins
  version := version
  max_total_weight := max_total_weight cfg median_weight version
  have_valid_pr := bc.get_latest_acceptable_pr.isSome
  block_cap_xhv :=
    env.get_block_cap env.get_circulating_supply
      (bc.get_latest_acceptable_pr.getD ⟨0, 0, [], 0⟩)
  supply_amounts := env.get_circulating_supply

/-- What a call of `fill_block_template` leaves: the returned `bool` (`none` when an exception
leaves the call) and the state; `expected_reward` is `st.best_coinbase` on success. -/
structure fill_block_template_result where
  ret : Option Bool
  st : template_state
  deriving DecidableEq, Repr

/-- Embeds `fill_block_template(bl, median_weight, already_generated_coins, total_weight,
fee_map, offshore_fee_map, xasset_fee_map, expected_reward, version)`.  Modelled from the spec
for the scoped transaction: an exception leaves the database writes of the call uncommitted, so
the table is the one before the call. -/
def fill_block_template (cfg : Config) (bc : Blockchain) (env : template_env)
    (pool : tx_memory_pool) (median_weight already_generated_coins : Nat)
    (fee_map offshore_fee_map xasset_fee_map : List (String × Nat)) (version : Nat) :
    fill_block_template_result :=
  let st0 : template_state :=
    { pool := pool, tx_hashes := [], total_weight := 0, total_fee_xhv := 0,
      total_conversion_xhv := 0, best_coinbase := 0, k_images := [], fee_map := fee_map,
      offshore_fee_map := offshore_fee_map, xasset_fee_map := xasset_fee_map }
  match env.get_block_reward median_weight 0 already_generated_coins version with
  | none => ⟨some false, st0⟩
  | some best_coinbase =>
    let p := fill_block_template_params cfg bc env median_weight already_generated_coins version
    match fill_block_template_loop cfg bc env p pool.m_txs_by_fee_and_receive_time
        { st0 with best_coinbase := best_coinbase } with
    | (true, st) => ⟨some true, st⟩
    | (false, st) => ⟨none, { st with pool := { st.pool with txpool := pool.txpool } }⟩

/-! ## The miner transaction (`cryptonote_tx_utils.cpp`, lines 105-108 and 169-387) -/

/-- Embeds `get_governance_reward(height, base_reward)`. -/
def get_governance_reward (_height base_reward : Nat) : Nat := base_reward / 20

/-- The external collaborators of `construct_miner_tx`, at one moment: each field is the result
the collaborator gives. -/
structure miner_tx_env where
  /-- Result of `get_block_reward(median_weight, current_block_weight, already_generated_coins,
  reward, version)`; `none` when it returns false. -/
  get_block_reward : Nat → Nat → Nat → Nat → Option Nat
  /-- The field `tx.extra` after `add_tx_pub_key_to_extra`, `add_extra_nonce_to_tx_extra` and
  `sort_tx_extra`; `none` when one of the last two returns false. -/
  sorted_extra : Option (List Nat)
  /-- The field `tx.extra` after `add_tx_pub_key_to_extra(tx, gov_key.pub)`. -/
  extra_with_gov_key : List Nat → List Nat
  /-- Result of `crypto::generate_key_derivation(miner_address.m_view_public_key, txkey.sec,
  derivation)`. -/
  generate_key_derivation : Bool
  /-- Result of `crypto::derive_public_key(derivation, idx, miner_address.m_spend_public_key,
  key)`; `none` when it returns false. -/
  derive_public_key : Nat → Option Nat
  /-- Result of `get_deterministic_output_key(governance_wallet_address.address, gov_key, idx,
  key)`; `none` when it returns false. -/
  get_deterministic_output_key : Nat → Option Nat

/-- Lines 276-299: what the xAsset conversion fee `fee` of one currency adds to
`(block_reward_xasset, governance_reward_xasset)`. -/
def xasset_fee_split (cfg : Config) (hard_fork_version fee : Nat) : Nat × Nat :=
  if hard_fork_version ≥ cfg.HF_VERSION_XASSET_FEES_V2 then
    if fee ≠ 0 then
      if hard_fork_version ≥ cfg.HF_VERSION_USE_COLLATERAL then
        ((fee / 5) % 2 ^ 64, (((fee * 4) % 2 ^ 128) / 5) % 2 ^ 64)
      else
        let fee := sub64 fee (((fee * 4) % 2 ^ 64) / 5)
        (fee / 2, fee / 2)
    else (0, 0)
  else (0, 0)

/-- Lines 266-299: the amounts `(block_reward_xasset, governance_reward_xasset)` of the two
outputs of one currency other than XHV, from its entries in the three fee maps.  The
subtraction cannot wrap: the governance share is at most the fee. -/
def xasset_rewards (cfg : Config) (height hard_fork_version : Nat)
    (fee offshore_fee xasset_fee : Nat) : Nat × Nat :=
  let governance_reward_xasset := get_governance_reward height fee
  let block_reward_xasset := fee - governance_reward_xasset
  let governance_reward_xasset :=
    if offshore_fee ≠ 0 then (governance_reward_xasset + offshore_fee) % 2 ^ 64
    else governance_reward_xasset
  let split := xasset_fee_split cfg hard_fork_version xasset_fee
  ((block_reward_xasset + split.1) % 2 ^ 64, (governance_reward_xasset + split.2) % 2 ^ 64)

/-- The output target of a currency other than XHV: `txout_offshore` for XUSD, `txout_xasset`
otherwise. -/
def xasset_target (asset : String) (key : Nat) : txout_target_v :=
  if asset = "XUSD" then txout_target_v.txout_offshore key
  else txout_target_v.txout_xasset key asset

/-- Lines 259-356: the loop over the entries of `fee_map` (in key order), threading `idx` and
`tx.vout`; `none` is `return false`. -/
def miner_tx_xasset_outputs (cfg : Config) (env : miner_tx_env) (height hard_fork_version : Nat)
    (offshore_fee_map xasset_fee_map : List (String × Nat)) :
    List (String × Nat) → Nat → List tx_out → Option (List tx_out)
  | [], _, vout => some vout
  | fee_map_entry :: rest, idx, vout =>
    if fee_map_entry.1 = "XHV" then
      miner_tx_xasset_outputs cfg env height hard_fork_version offshore_fee_map xasset_fee_map
        rest idx vout
    else if fee_map_entry.2 ≠ 0 then
      let amounts := xasset_rewards cfg height hard_fork_version fee_map_entry.2
        (fee_map_get offshore_fee_map fee_map_entry.1)
        (fee_map_get xasset_fee_map fee_map_entry.1)
      match env.derive_public_key idx with
      | none => none
      | some key =>
        match env.get_deterministic_output_key (idx + 1) with
        | none => none
        | some gov_key =>
          miner_tx_xasset_outputs cfg env height hard_fork_version offshore_fee_map
            xasset_fee_map rest (idx + 2)
            (vout ++ [⟨amounts.1, xasset_target fee_map_entry.1 key⟩,
              ⟨amounts.2, xasset_target fee_map_entry.1 gov_key⟩])
    else
      miner_tx_xasset_outputs cfg env height hard_fork_version offshore_fee_map xasset_fee_map
        rest idx vout

/-- Lines 359-372: the transaction version of a miner transaction. -/
def miner_tx_version (cfg : Config) (hard_fork_version : Nat) : Nat :=
  if hard_fork_version ≥ cfg.HF_VERSION_USE_COLLATERAL then cfg.COLLATERAL_TRANSACTION_VERSION
  else if hard_fork_version ≥ cfg.HF_PER_OUTPUT_UNLOCK_VERSION then cfg.POU_TRANSACTION_VERSION
  else if hard_fork_version ≥ cfg.HF_VERSION_HAVEN2 then 5
  else if hard_fork_version ≥ cfg.HF_VERSION_XASSET_FEES_V2 then 4
  else if hard_fork_version ≥ cfg.HF_VERSION_OFFSHORE_FULL then 3
  else 2

/-- Lines 203-255: the two XHV outputs.  The value is `tx.vout` with the miner output and, from
version 3 with coins already generated, the governance output; `none` is `return false`.  The
subtraction cannot wrap: the governance share is at most the reward. -/
def miner_tx_xhv_outputs (cfg : Config) (env : miner_tx_env) (height already_generated_coins : Nat)
    (fee_map offshore_fee_map : List (String × Nat)) (hard_fork_version base_reward : Nat) :
    Option (List tx_out) :=
  let with_governance : Bool := hard_fork_version ≥ 3 ∧ already_generated_coins ≠ 0
  let governance_reward : Nat :=
    if with_governance then get_governance_reward height base_reward else 0
  let block_reward := base_reward - governance_reward
  let block_reward := (block_reward + fee_map_get fee_map "XHV") % 2 ^ 64
  if !env.generate_key_derivation then none
  else
    match env.derive_public_key 0 with
    | none => none
    | some key =>
      let summary_amounts := block_reward
      let vout : List tx_out := [⟨block_reward, txout_target_v.txout_to_key key⟩]
      if with_governance then
        match env.get_deterministic_output_key 1 with
        | none => none
        | some gov_key =>
          let summary_amounts := (summary_amounts + governance_reward) % 2 ^ 64
          let amount : Nat :=
            if hard_fork_version ≥ cfg.HF_VERSION_OFFSHORE_FULL then
              (governance_reward + fee_map_get offshore_fee_map "XHV") % 2 ^ 64
            else governance_reward
          if summary_amounts ≠ (block_reward + governance_reward) % 2 ^ 64 then none
          else some (vout ++ [⟨amount, txout_target_v.txout_to_key gov_key⟩])
      else some vout

/-- Embeds `construct_miner_tx(height, median_weight, already_generated_coins,
current_block_weight, fee_map, offshore_fee_map, xasset_fee_map, miner_address, tx, extra_nonce,
max_outs, hard_fork_version, nettype)`: `none` is `return false`, `some tx` is `return true`
with the transaction it leaves.  The fee maps are kept as their entries in key order. -/
def construct_miner_tx (cfg : Config) (env : miner_tx_env)
    (height median_weight already_generated_coins current_block_weight : Nat)
    (fee_map offshore_fee_map xasset_fee_map : List (String × Nat)) (tx : transaction)
    (hard_fork_version : Nat) : Option transaction :=
  match env.sorted_extra with
  | none => none
  | some extra =>
    match env.get_block_reward median_weight current_block_weight already_generated_coins
        hard_fork_version with
    | none => none
    | some base_reward =>
      match miner_tx_xhv_outputs cfg env height already_generated_coins fee_map
          offshore_fee_map hard_fork_version base_reward with
      | none => none
      | some vout =>
        let extra : List Nat :=
          if hard_fork_version ≥ 3 ∧ already_generated_coins ≠ 0 then
            env.extra_with_gov_key extra
          else extra
        let all_outputs : Option (List tx_out) :=
          if hard_fork_version ≥ cfg.HF_VERSION_OFFSHORE_FULL then
            miner_tx_xasset_outputs cfg env height hard_fork_version offshore_fee_map
              xasset_fee_map fee_map 2 vout
          else some vout
        match all_outputs with
        | none => none
        | some vout =>
          let unlock_time := (height + cfg.CRYPTONOTE_MINED_MONEY_UNLOCK_WINDOW) % 2 ^ 64
          some { tx with
            version := miner_tx_version cfg hard_fork_version
            unlock_time := unlock_time
            vin := [txin_v.txin_gen height]
            vout := vout
            extra := extra
            output_unlock_times :=
              if hard_fork_version ≥ cfg.HF_PER_OUTPUT_UNLOCK_VERSION then
                List.replicate vout.length unlock_time
              else [] }

/-- The ids `mark_double_spend` visits: those recorded in the index under the key image of an
input. -/
def marked_ids (index : List (key_image × List hash)) (vin : List txin_v) (id : hash) : Bool :=
  vin.any (fun i =>
    match i.k_image? with
    | some k => decide (id ∈ (ki_find index k).getD [])
    | none => false)

/-- The number of rows whose `double_spend_seen` flag is set. -/
def flagged_rows (db : List txpool_row) : Nat :=
  (db.filter (fun r => r.meta_.double_spend_seen)).length

/-- The transfer that spends the key image 101 again, with a coinbase marker as its first
input. -/
def example_marker_double_spend_tx : transaction :=
  { example_double_spend_tx with vin := [txin_v.txin_gen 96, txin_v.txin_to_key 0 101] }

/-- What `fill_block_template` never changes in a row: the id, the blob and the stored
weight. -/
def txpool_row.stored (r : txpool_row) : hash × transaction × Nat :=
  (r.id, r.blob, r.meta_.weight)

/-- The pool `P` differs from `pool` in the input-check cache and in metadata fields other
than the weight only. -/
def template_frame (pool P : tx_memory_pool) : Prop :=
  ∃ db c, P = { pool with txpool := db, m_input_cache := c } ∧
    db.map txpool_row.stored = pool.txpool.map txpool_row.stored

/-- The facts that hold when the loop of `fill_block_template`, in the state `st` of a call on
the pool `pool0`, takes the entry `e` into the template: `tx` is the stored transaction, `m` has
the stored weight, the weight limit and the key-image test were passed, `(source, dest)` and
`tx_type` are the asset pair and type of `tx`, and the conversion tests gave `conv`. -/
def template_accepted (cfg : Config) (bc : Blockchain) (env : template_env)
    (p : template_params) (pool0 : tx_memory_pool) (st : template_state)
    (e : tx_by_fee_and_receive_time_entry) (m : txpool_tx_meta_t) (tx : transaction)
    (source dest : String) (tx_type : transaction_type) (conv : Nat) : Prop :=
  get_txpool_tx_blob pool0.txpool e.id = some tx ∧
  (get_txpool_tx_meta pool0.txpool e.id).map (fun m0 => m0.weight) = some m.weight ∧
  ¬ p.max_total_weight < (st.total_weight + m.weight) % 2 ^ 64 ∧
  have_key_images st.k_images tx.vin = false ∧
  get_tx_asset_types cfg tx e.id "" false = (true, source, dest) ∧
  get_tx_type cfg source dest = some tx_type ∧
  template_conversion cfg bc env p st e.id tx source dest tx_type = verdict.pass conv

/-- The weights stored in the table of `pool` under the ids `ids` (0 for an id that is not
stored). -/
def stored_weights (pool : tx_memory_pool) (ids : List hash) : List Nat :=
  ids.map (fun id => ((get_txpool_tx_meta pool.txpool id).map (fun m => m.weight)).getD 0)

/-- Collaborators of `fill_block_template` that accept every transaction: a base reward of 60
coins at every weight, no key image spent on the chain, a circulating supply of 10 million XHV,
a block cap of 2^63 atomic units, and a proof-of-value test that passes. -/
def example_template_env : template_env where
  get_block_reward := fun _ _ _ _ => some 60000000000000
  get_block_id_by_height := fun h => h + 1000
  have_tx_keyimges_as_spent := fun _ => false
  get_circulating_supply := [("XHV", 10000000000000000000)]
  get_block_cap := fun _ _ => 9223372036854775808
  fee_of_rate := fun weight e => weight * e.fee / e.weight
  verRctSemanticsSimple2 := fun _ _ _ _ _ _ _ => true
  vbs := fun _ _ _ _ _ => 1000000000000
  local_tvc := empty_tvc

/-- The state the loop of `fill_block_template` starts from. -/
def template_state.start (pool : tx_memory_pool)
    (fee_map offshore_fee_map xasset_fee_map : List (String × Nat)) (best_coinbase : Nat) :
    template_state :=
  { pool := pool, tx_hashes := [], total_weight := 0, total_fee_xhv := 0,
    total_conversion_xhv := 0, best_coinbase := best_coinbase, k_images := [],
    fee_map := fee_map, offshore_fee_map := offshore_fee_map,
    xasset_fee_map := xasset_fee_map }

/-- The key images of the inputs of a transaction, in input order. -/
def transaction.key_images (tx : transaction) : List key_image :=
  tx.vin.filterMap txin_v.k_image?

/-- A transfer that spends the key image 131 twice and the key image 132. -/
def example_repeated_key_image_tx : transaction :=
  { example_transfer_tx with
    vin := [txin_v.txin_to_key 0 131, txin_v.txin_to_key 0 131, txin_v.txin_to_key 0 132] }

/-- A transfer that spends the key image 132 and pays the fee 500. -/
def example_key_image_132_tx : transaction :=
  { example_transfer_tx with
    vin := [txin_v.txin_to_key 0 132]
    rct_signatures := ⟨500, 0⟩ }

/-- The pool after `example_repeated_key_image_tx` was admitted under id 21 with the relay
method `fluff` and `example_key_image_132_tx` under id 22 with the relay method `block`. -/
def example_shared_key_image_pool : tx_memory_pool :=
  (add_tx2 havenConfig example_chain 1001
    (add_tx2 havenConfig example_chain 1000 (tx_memory_pool.init 1000000)
      example_repeated_key_image_tx 21 2000 empty_tvc relay_method.fluff false 20).pool
    example_key_image_132_tx 22 2000 empty_tvc relay_method.block false 20).pool

/-- The amount a stored transaction counts towards the conversion cap of a block: `amount_burnt`
of an offshore, `amount_minted` of an onshore, nothing for every other transaction. -/
def capped_conversion_amount (cfg : Config) (tx : transaction) (id : hash) : Nat :=
  match get_tx_asset_types cfg tx id "" false with
  | (true, source, dest) =>
    match get_tx_type cfg source dest with
    | some transaction_type.OFFSHORE => tx.amount_burnt
    | some transaction_type.ONSHORE => tx.amount_minted
    | _ => 0
  | _ => 0

/-- The amounts the transactions stored in `pool` under the ids `ids` count towards the
conversion cap. -/
def capped_conversion_amounts (cfg : Config) (pool : tx_memory_pool) (ids : List hash) :
    List Nat :=
  ids.map (fun id =>
    match get_txpool_tx_blob pool.txpool id with
    | some tx => capped_conversion_amount cfg tx id
    | none => 0)

/-- An offshore of the collateral epoch that burns 2^63 atomic units of XHV (key image 107). -/
def example_large_offshore_tx : transaction :=
  { example_offshore_tx with
    amount_burnt := 9223372036854775808
    rct_signatures := ⟨1000, 138350580552821637⟩ }

/-- A second offshore that burns 2^63 atomic units of XHV (key image 109). -/
def example_second_large_offshore_tx : transaction :=
  { example_large_offshore_tx with vin := [txin_v.txin_to_key 0 109] }

/-- The pool after the two large offshores were admitted at version 20 under the ids 31 and
32. -/
def example_large_offshore_pool : tx_memory_pool :=
  (add_tx2 havenConfig example_late_chain 1001
    (add_tx2 havenConfig example_late_chain 1000 (tx_memory_pool.init 1000000)
      example_large_offshore_tx 31 2000 empty_tvc relay_method.fluff false 20).pool
    example_second_large_offshore_tx 32 2000 empty_tvc relay_method.fluff false 20).pool

/-- The pool after the offshore of `example_offshore_tx`, which burns 1000 atomic units, was
admitted at version 20 under the id 33. -/
def example_offshore_pool : tx_memory_pool :=
  (add_tx2 havenConfig example_late_chain 1000 (tx_memory_pool.init 1000000)
    example_offshore_tx 33 2000 empty_tvc relay_method.fluff false 20).pool

/-- The xUSD to XBTC conversion of `example_xusd_to_xbtc_tx` in the form of the collateral
epoch: transaction version 7, `collateral_indices` `[0, 0]` and the conversion fee 15. -/
def example_v7_xusd_to_xbtc_tx : transaction :=
  { example_xusd_to_xbtc_tx with
    version := 7
    collateral_indices := [0, 0]
    rct_signatures := ⟨1000, 15⟩ }

/-- The pool after the xUSD to XBTC conversion was admitted at version 20 under the id 14. -/
def example_xasset_conversion_pool : tx_memory_pool :=
  (add_tx2 havenConfig example_chain 1000 (tx_memory_pool.init 1000000)
    example_v7_xusd_to_xbtc_tx 14 2000 empty_tvc relay_method.fluff false 20).pool

/-- The chain of `example_chain` without an acceptable price record. -/
def example_chain_without_pr : Blockchain :=
  { example_chain with get_latest_acceptable_pr := none }

/-- Collaborators of `fill_block_template` for which the chain holds every key image spent. -/
def example_template_env_spent : template_env :=
  { example_template_env with have_tx_keyimges_as_spent := fun _ => true }

/-- An XHV transfer that spends the key image 111 and pays the fee 3000. -/
def example_high_fee_transfer_tx : transaction :=
  { example_transfer_tx with vin := [txin_v.txin_to_key 0 111], rct_signatures := ⟨3000, 0⟩ }

/-- An XHV transfer whose two inputs carry the same key image 120; it pays the fee 500. -/
def example_twice_120_tx : transaction :=
  { example_transfer_tx with
    vin := [txin_v.txin_to_key 0 120, txin_v.txin_to_key 0 120]
    rct_signatures := ⟨500, 0⟩ }

/-- The pool after this sequence on the empty pool: the transfer of id 12 is admitted as `stem`
and again as `fluff`, taken out by `take_tx`, and the transfers of the ids 11 (fee 3000) and 13
(fee 500, the key image 120 twice) are admitted.  Its fee order lists the id 11, the id 12,
which is not stored any more, and the id 13. -/
def example_dangling_pool : tx_memory_pool :=
  (add_tx2 havenConfig example_chain 4000
    (add_tx2 havenConfig example_chain 3000 (take_tx example_readmitted_pool 12).2
      example_high_fee_transfer_tx 11 2000 empty_tvc relay_method.fluff false 20).pool
    example_twice_120_tx 13 2000 empty_tvc relay_method.fluff false 20).pool

/-- Collaborators of `construct_miner_tx` that never fail: a base reward of 60 coins, the output
key `500 + idx` for the miner and `600 + idx` for the governance wallet. -/
def example_miner_tx_env : miner_tx_env where
  get_block_reward := fun _ _ _ _ => some 60000000000000
  sorted_extra := some [1]
  extra_with_gov_key := fun extra => extra ++ [2]
  generate_key_derivation := true
  derive_public_key := fun idx => some (500 + idx)
  get_deterministic_output_key := fun idx => some (600 + idx)

/-- Lines 1688-1691 of `remove_stuck_transactions`: the local `invalid_pr` of a transaction that
parses, at chain height `bc_height` ("give 1 block buffer"). -/
def remove_stuck_invalid_pr (cfg : Config) (bc_height : Nat) (tx : transaction) : Bool :=
  tx.pricing_record_height > 0 ∧
    (sub64 bc_height tx.pricing_record_height + 1) % 2 ^ 64 > cfg.PRICING_RECORD_VALID_BLOCKS

/-- Lines 1694-1696 of `remove_stuck_transactions`: the condition under which the callback
puts a row on the `remove` list. -/
def remove_stuck_selected (cfg : Config) (bc_height now : Nat) (row : txpool_row) : Bool :=
  (sub64 now row.meta_.receive_time > cfg.CRYPTONOTE_MEMPOOL_TX_LIVETIME ∧
      !row.meta_.kept_by_block) ∨
    (sub64 now row.meta_.receive_time > cfg.CRYPTONOTE_MEMPOOL_TX_FROM_ALT_BLOCK_LIVETIME ∧
      row.meta_.kept_by_block) ∨
    remove_stuck_invalid_pr cfg bc_height row.blob

/-- An offshore like `example_offshore_tx` whose price record is the one of block 999990. -/
def example_aged_offshore_tx : transaction :=
  { example_offshore_tx with
    unlock_time := 1015110
    pricing_record_height := 999990
    output_unlock_times := [0, 1015110, 0] }

/-- The chain of `example_late_chain` (height 1000000), whose block 999990 carries
`example_pr`. -/
def example_aged_chain : Blockchain :=
  { example_late_chain with
    get_block_pricing_record := fun h => if h = 999990 then some example_pr else none }

/-- A price record without XHV prices that carries the XBTC and XJPY rates. -/
def example_pr_without_xhv_price : pricing_record where
  unused1 := 0
  xUSD := 0
  rates := [("XBTC", 20000000), ("XJPY", 150000000000000)]
  timestamp := 1

/-- The chain of `example_chain` whose block 90 carries `example_pr_without_xhv_price`. -/
def example_chain_without_xhv_price : Blockchain :=
  { example_chain with
    get_block_pricing_record := fun h =>
      if h = 90 then some example_pr_without_xhv_price else none }

/-- An XJPY to xUSD conversion of transaction version 7: one XJPY input, an XJPY change output
and an xUSD output locked for 1440 blocks past the price record. -/
def example_v7_xjpy_to_xusd_tx : transaction where
  version := 7
  unlock_time := 1530
  vin := [txin_v.txin_xasset 0 "XJPY" 109]
  vout := [⟨0, txout_target_v.txout_xasset 1 "XJPY"⟩, ⟨0, txout_target_v.txout_offshore 2⟩]
  extra := []
  pricing_record_height := 90
  amount_burnt := 150000
  amount_minted := 1000
  output_unlock_times := [0, 1530]
  collateral_indices := [0, 0]
  rct_signatures := ⟨1000, 15⟩
  pruned := false

/-- The offshore of `example_offshore_tx` with an empty `output_unlock_times`. -/
def example_offshore_without_unlock_times_tx : transaction :=
  { example_offshore_tx with output_unlock_times := [] }

/-- The state an iteration of the loop of `fill_block_template` leaves. -/
def template_step_result.state : template_step_result → template_state
  | template_step_result.next st => st
  | template_step_result.stop st => st
  | template_step_result.thrown st => st

/-! ## Building a transaction: `construct_tx_with_tx_key` (`cryptonote_tx_utils.cpp`, lines
957-1621) -/

/-- The fields of `tx_source_entry` read by `construct_tx_with_tx_key`; `outputs` keeps the
absolute offsets of the ring members. -/
structure tx_source_entry where
  outputs : List Nat
  real_output : Nat
  amount : Nat
  asset_type : String
  rct : Bool
  deriving DecidableEq, Repr

/-- A `tx_destination_entry` as `construct_tx_with_tx_key` reads it: the fields read by the fee
functions, and its `asset_type`. -/
structure tx_destination_entry_asset extends tx_destination_entry where
  asset_type : String
  deriving DecidableEq, Repr

/-- The arguments of `construct_tx_with_tx_key` that the embedded part reads.  The account keys,
the subaddresses, the change address, the transaction key and the signature configuration are
read by the external collaborators only; `additional_tx_keys` enters through its size, `msout`
through being a null pointer or not. -/
structure construct_tx_args where
  sources : List tx_source_entry
  destinations : List tx_destination_entry_asset
  extra : List Nat
  tx_type : transaction_type
  strSource : String
  strDest : String
  unlock_time : Nat
  additional_tx_keys_size : Nat
  current_height : Nat
  pr : pricing_record
  hf_version : Nat
  onshore_col_amount : Nat
  msout : Bool
  shuffle_outs : Bool

/-- The external collaborators of `construct_tx_with_tx_key`, at one moment: each field is the
result the collaborator gives. -/
structure construct_tx_env where
  /-- Lines 1035-1109: `tx.extra` after the payment id was encrypted or a dummy one added;
  `none` when the section returns false. -/
  encrypt_payment_id : List Nat → Option (List Nat)
  /-- Result of `generate_key_image_helper` for a source entry: the key image, `none` when it
  fails. -/
  generate_key_image_helper : tx_source_entry → Option key_image
  /-- The test `in_ephemeral.pub == src_entr.outputs[src_entr.real_output].second.dest`. -/
  derived_key_matches : tx_source_entry → Bool
  /-- The key image `rct::rct2ki(src_entr.multisig_kLRki.ki)` of a multisig source. -/
  multisig_ki : tx_source_entry → key_image
  /-- The order `std::shuffle` with `crypto::random_device` leaves the destinations in. -/
  shuffle : List tx_destination_entry_asset → List tx_destination_entry_asset
  /-- Result of `classify_addresses`: `(num_stdaddresses, num_subaddresses)`. -/
  classify_addresses : List tx_destination_entry_asset → Nat × Nat
  /-- The field `tx.extra` after `remove_field_from_tx_extra` and `add_tx_pub_key_to_extra`. -/
  add_tx_pub_key_to_extra : List Nat → List Nat
  /-- The key `out_eph_public_key` that `generate_output_ephemeral_keys` gives for an output
  index and a destination; the destination is passed by constant reference. -/
  generate_output_ephemeral_keys : Nat → tx_destination_entry_asset → Nat
  /-- The size of `additional_tx_public_keys` after the loop over the destinations. -/
  additional_tx_public_keys_size : Nat
  /-- The field `tx.extra` after the additional public keys were removed and, when needed, added
  again. -/
  add_additional_tx_pub_keys_to_extra : Bool → List Nat → List Nat
  /-- Result of `sort_tx_extra`; `none` when it returns false. -/
  sort_tx_extra : List Nat → Option (List Nat)
  /-- Result of `rct::genRctSimple` for the arguments `fee` and `offshore_fee`. -/
  genRctSimple : Nat → Nat → rctSig
  /-- The size of `outSk` after `rct::genRctSimple`. -/
  outSk_size : Nat

/-- How a call of `construct_tx_with_tx_key` ends: with an exception (a `uint128_t` division by
zero), with `return false`, or with `return true` and the transaction. -/
inductive construct_tx_result where
  | thrown
  | failed
  | built (tx : transaction)
  deriving DecidableEq, Repr

/-- Lines 997-1009: the transaction version for the hard-fork version. -/
def construct_tx_version (cfg : Config) (hf_version : Nat) : Nat :=
  if hf_version ≥ cfg.HF_VERSION_USE_COLLATERAL then cfg.COLLATERAL_TRANSACTION_VERSION
  else if hf_version ≥ cfg.HF_PER_OUTPUT_UNLOCK_VERSION then cfg.POU_TRANSACTION_VERSION
  else if hf_version ≥ cfg.HF_VERSION_HAVEN2 then 5
  else if hf_version ≥ cfg.HF_VERSION_XASSET_FEES_V2 then 4
  else if hf_version ≥ cfg.HF_VERSION_CLSAG then 3
  else 2

/-- The locals of the loop over the sources. -/
structure construct_tx_inputs where
  summary_inputs_money : Nat
  summary_inputs_money_usd : Nat
  summary_inputs_money_xasset : Nat
  vin : List txin_v
  deriving DecidableEq, Repr

/-- Lines 1160-1233: the input pushed for a source entry with the key image `k_image`; `none`
is the "unsupported input asset for onshore" failure. -/
def construct_tx_input (tx_type : transaction_type) (src_entr : tx_source_entry)
    (k_image : key_image) : Option txin_v :=
  if tx_type = transaction_type.OFFSHORE_TRANSFER ∨
      tx_type = transaction_type.XUSD_TO_XASSET then
    some (txin_v.txin_offshore src_entr.amount k_image)
  else if tx_type = transaction_type.ONSHORE then
    if src_entr.asset_type = "XUSD" then some (txin_v.txin_onshore src_entr.amount k_image)
    else if src_entr.asset_type = "XHV" then some (txin_v.txin_to_key src_entr.amount k_image)
    else none
  else if tx_type = transaction_type.XASSET_TO_XUSD ∨
      tx_type = transaction_type.XASSET_TRANSFER then
    some (txin_v.txin_xasset src_entr.amount src_entr.asset_type k_image)
  else some (txin_v.txin_to_key src_entr.amount k_image)

/-- Lines 1120-1234: the loop over the sources; `none` is one of its `return false`. -/
def construct_tx_inputs_loop (cfg : Config) (env : construct_tx_env) (a : construct_tx_args) :
    List tx_source_entry → construct_tx_inputs → Option construct_tx_inputs
  | [], st => some st
  | src_entr :: rest, st =>
    if src_entr.real_output ≥ src_entr.outputs.length then none
    else
      let st :=
        if src_entr.asset_type = "XHV" ∧
            (a.hf_version < cfg.HF_VERSION_USE_COLLATERAL ∨
              a.tx_type ≠ transaction_type.ONSHORE) then
          { st with
            summary_inputs_money := (st.summary_inputs_money + src_entr.amount) % 2 ^ 64 }
        else if src_entr.asset_type = "XUSD" then
          { st with
            summary_inputs_money_usd :=
              (st.summary_inputs_money_usd + src_entr.amount) % 2 ^ 64 }
        else
          { st with
            summary_inputs_money_xasset :=
              (st.summary_inputs_money_xasset + src_entr.amount) % 2 ^ 64 }
      match env.generate_key_image_helper src_entr with
      | none => none
      | some img =>
        if !a.msout ∧ !env.derived_key_matches src_entr then none
        else
          let k_image := if a.msout then env.multisig_ki src_entr else img
          match construct_tx_input a.tx_type src_entr k_image with
          | none => none
          | some input_to_key =>
            construct_tx_inputs_loop cfg env a rest { st with vin := st.vin ++ [input_to_key] }

/-- Lines 1238-1242: the conversion fee computed before the destinations are shuffled.  The
fee functions take the unlock period as a `uint32_t`. -/
def construct_tx_offshore_fee (cfg : Config) (a : construct_tx_args) : Nat :=
  let dsts := a.destinations.map (fun d => d.totx_destination_entry)
  let unlock := (sub64 (sub64 a.unlock_time a.current_height) 1) % 2 ^ 32
  if a.tx_type = transaction_type.OFFSHORE then
    get_offshore_fee cfg dsts unlock a.hf_version
  else if a.tx_type = transaction_type.ONSHORE then
    get_onshore_fee cfg dsts unlock a.hf_version
  else if a.tx_type = transaction_type.XUSD_TO_XASSET then
    get_xusd_to_xasset_fee cfg dsts a.hf_version
  else if a.tx_type = transaction_type.XASSET_TO_XUSD then
    get_xasset_to_xusd_fee cfg dsts a.hf_version
  else 0

/-- Lines 1250-1276: the inputs, each with its source entry, in the order of descending key
images.  Where two key images are equal `std::sort` leaves an unspecified order; the model keeps
the source order there. -/
def construct_tx_sort_inputs (sources : List tx_source_entry) (vin : List txin_v) :
    List (tx_source_entry × txin_v) :=
  (sources.zip vin).insertionSort
    (fun x y => x.2.k_image?.getD 0 ≥ y.2.k_image?.getD 0)

/-- Lines 1533-1549: the amount of the input of a RingCT source is zeroed. -/
def construct_tx_mask_input (x : tx_source_entry × txin_v) : txin_v :=
  if x.1.rct then
    match x.2 with
    | txin_v.txin_to_key _ k => txin_v.txin_to_key 0 k
    | txin_v.txin_offshore _ k => txin_v.txin_offshore 0 k
    | txin_v.txin_onshore _ k => txin_v.txin_onshore 0 k
    | txin_v.txin_xasset _ asset_type k => txin_v.txin_xasset 0 asset_type k
    | i => i
  else x.2

/-- The locals and transaction fields that the loop over the destinations updates. -/
structure construct_tx_outputs where
  vout : List tx_out
  output_unlock_times : List Nat
  collateral_indices : List Nat
  amount_burnt : Nat
  amount_minted : Nat
  summary_outs_money : Nat
  summary_outs_money_usd : Nat
  summary_outs_money_xasset : Nat
  deriving DecidableEq, Repr

/-- Lines 1338-1359: the output built for a destination at `output_index`. -/
def construct_tx_output (env : construct_tx_env) (output_index : Nat)
    (dst_entr : tx_destination_entry_asset) : tx_out :=
  let out_eph_public_key := env.generate_output_ephemeral_keys output_index dst_entr
  if dst_entr.asset_type = "XHV" then
    ⟨dst_entr.amount, txout_target_v.txout_to_key out_eph_public_key⟩
  else if dst_entr.asset_type = "XUSD" then
    ⟨dst_entr.amount_usd, txout_target_v.txout_offshore out_eph_public_key⟩
  else
    ⟨dst_entr.amount_xasset, txout_target_v.txout_xasset out_eph_public_key dst_entr.asset_type⟩

/-- Lines 1361-1406: the entry pushed onto `tx.output_unlock_times` for a destination at
`output_index`, and `tx.collateral_indices` as it is left; `none` is the "Invalid asset type
detected" failure. -/
def construct_tx_output_unlock (cfg : Config) (a : construct_tx_args) (output_index : Nat)
    (dst_entr : tx_destination_entry_asset) (collateral_indices : List Nat) :
    Option (Nat × List Nat) :=
  if a.hf_version ≥ cfg.HF_PER_OUTPUT_UNLOCK_VERSION ∧ a.strSource ≠ a.strDest then
    let collateral_indices :=
      if a.hf_version ≥ cfg.HF_VERSION_USE_COLLATERAL ∧ collateral_indices.length ≠ 2 then
        [0, 0]
      else collateral_indices
    if dst_entr.asset_type = a.strDest then
      if a.hf_version ≥ cfg.HF_VERSION_USE_COLLATERAL ∧
          a.tx_type = transaction_type.ONSHORE ∧ dst_entr.is_collateral then
        if dst_entr.amount = a.onshore_col_amount then
          some (a.unlock_time, collateral_indices.set 0 output_index)
        else some (0, collateral_indices.set 1 output_index)
      else some (a.unlock_time, collateral_indices)
    else if dst_entr.asset_type = a.strSource then
      if a.hf_version ≥ cfg.HF_VERSION_USE_COLLATERAL ∧
          a.tx_type = transaction_type.OFFSHORE ∧ dst_entr.is_collateral then
        some (a.unlock_time, collateral_indices.set 0 output_index)
      else some (0, collateral_indices)
    else none
  else
    some (if sub64 a.unlock_time a.current_height > cfg.CRYPTONOTE_DEFAULT_TX_SPENDABLE_AGE
      then a.unlock_time else 0, collateral_indices)

/-- Lines 1418-1429: `tx.amount_burnt` and `tx.amount_minted` after a destination whose output
is `out`. -/
def construct_tx_burnt_minted (a : construct_tx_args) (dst_entr : tx_destination_entry_asset)
    (out : tx_out) (amount_burnt amount_minted : Nat) : Nat × Nat :=
  if a.strSource ≠ a.strDest then
    if dst_entr.asset_type = a.strDest ∧ !dst_entr.is_collateral then
      ((if a.tx_type = transaction_type.OFFSHORE then
          (amount_burnt + dst_entr.amount) % 2 ^ 64
        else if a.tx_type = transaction_type.ONSHORE ∨
            a.tx_type = transaction_type.XUSD_TO_XASSET then
          (amount_burnt + dst_entr.amount_usd) % 2 ^ 64
        else if a.tx_type = transaction_type.XASSET_TO_XUSD then
          (amount_burnt + dst_entr.amount_xasset) % 2 ^ 64
        else amount_burnt),
        (amount_minted + out.amount) % 2 ^ 64)
    else (amount_burnt, amount_minted)
  else (amount_burnt, amount_minted)

/-- Lines 1318-1432: the loop over the destinations, from `output_index` on; `none` is one of
its `return false`. -/
def construct_tx_outputs_loop (cfg : Config) (env : construct_tx_env) (a : construct_tx_args)
    (tx_version : Nat) :
    List tx_destination_entry_asset → Nat → construct_tx_outputs → Option construct_tx_outputs
  | [], _, st => some st
  | dst_entr :: rest, output_index, st =>
    if ¬ (dst_entr.amount > 0 ∨ tx_version > 1) then none
    else
      let out := construct_tx_output env output_index dst_entr
      match construct_tx_output_unlock cfg a output_index dst_entr st.collateral_indices with
      | none => none
      | some (unlock, collateral_indices) =>
        let counted : Bool := a.tx_type ≠ transaction_type.ONSHORE ∨ !dst_entr.is_collateral
        let burnt_minted :=
          construct_tx_burnt_minted a dst_entr out st.amount_burnt st.amount_minted
        construct_tx_outputs_loop cfg env a tx_version rest (output_index + 1)
          { vout := st.vout ++ [out]
            output_unlock_times := st.output_unlock_times ++ [unlock]
            collateral_indices := collateral_indices
            amount_burnt := burnt_minted.1
            amount_minted := burnt_minted.2
            summary_outs_money :=
              if counted then (st.summary_outs_money + dst_entr.amount) % 2 ^ 64
              else st.summary_outs_money
            summary_outs_money_usd :=
              if counted then (st.summary_outs_money_usd + dst_entr.amount_usd) % 2 ^ 64
              else st.summary_outs_money_usd
            summary_outs_money_xasset :=
              if counted then (st.summary_outs_money_xasset + dst_entr.amount_xasset) % 2 ^ 64
              else st.summary_outs_money_xasset }

/-- The state the loop over the destinations starts from (line 1314 and `tx.set_null()`). -/
def construct_tx_outputs.start : construct_tx_outputs :=
  { vout := [], output_unlock_times := [], collateral_indices := [], amount_burnt := 0,
    amount_minted := 0, summary_outs_money := 0, summary_outs_money_usd := 0,
    summary_outs_money_xasset := 0 }

/-- Lines 1451-1456: from the xAsset-fees-v2 epoch up to the collateral epoch, 80% of the
conversion fee of a conversion between xUSD and an xAsset is added to the amount burnt. -/
def construct_tx_burn_fee (cfg : Config) (a : construct_tx_args) (offshore_fee : Nat)
    (amount_burnt : Nat) : Nat :=
  if a.hf_version ≥ cfg.HF_VERSION_XASSET_FEES_V2 ∧
      (a.tx_type = transaction_type.XUSD_TO_XASSET ∨
        a.tx_type = transaction_type.XASSET_TO_XUSD) then
    if a.hf_version < cfg.HF_VERSION_USE_COLLATERAL then
      (amount_burnt + ((offshore_fee * 4) % 2 ^ 64) / 5) % 2 ^ 64
    else amount_burnt
  else amount_burnt

/-- Lines 1524-1530: the transaction fee, the difference of the inputs and outputs of the first
asset class whose inputs exceed its outputs, less the conversion fee, in `uint64_t`. -/
def construct_tx_fee (ins : construct_tx_inputs) (outs : construct_tx_outputs)
    (offshore_fee : Nat) : Nat :=
  if ins.summary_inputs_money > outs.summary_outs_money then
    sub64 (sub64 ins.summary_inputs_money outs.summary_outs_money) offshore_fee
  else if ins.summary_inputs_money_usd > outs.summary_outs_money_usd then
    sub64 (sub64 ins.summary_inputs_money_usd outs.summary_outs_money_usd) offshore_fee
  else if ins.summary_inputs_money_xasset > outs.summary_outs_money_xasset then
    sub64 (sub64 ins.summary_inputs_money_xasset outs.summary_outs_money_xasset) offshore_fee
  else 0

/-- Lines 1563-1584: from the bulletproof-plus epoch the conversion fee of an ONSHORE,
XUSD_TO_XASSET or XASSET_TO_XUSD is converted to XHV; `none` is the exception of a division by
zero. -/
def construct_tx_fee_to_xhv (cfg : Config) (tx_type : transaction_type) (strSource : String)
    (pr : pricing_record) (hf_version : Nat) (offshore_fee : Nat) : Option Nat :=
  if hf_version ≥ cfg.HF_VERSION_BULLETPROOF_PLUS then
    if tx_type = transaction_type.ONSHORE then
      get_xhv_amount cfg offshore_fee pr transaction_type.ONSHORE hf_version
    else if tx_type = transaction_type.XUSD_TO_XASSET then
      get_xhv_amount cfg offshore_fee pr transaction_type.ONSHORE hf_version
    else if tx_type = transaction_type.XASSET_TO_XUSD then
      match get_xusd_amount cfg offshore_fee strSource pr transaction_type.XASSET_TO_XUSD
          hf_version with
      | none => none
      | some xusd => get_xhv_amount cfg xusd pr transaction_type.ONSHORE hf_version
    else some offshore_fee
  else some offshore_fee

/-- The destinations in the order of the outputs (lines 1244-1247): as `std::shuffle` leaves
them when `shuffle_outs` is set, as they were passed otherwise. -/
def construct_tx_args.ordered_destinations (env : construct_tx_env) (a : construct_tx_args) :
    List tx_destination_entry_asset :=
  if a.shuffle_outs then env.shuffle a.destinations else a.destinations

/-- Lines 1236-1621 of `construct_tx_with_tx_key`, after the loop over the sources. -/
def construct_tx_finish (cfg : Config) (env : construct_tx_env) (a : construct_tx_args)
    (tx_version : Nat) (extra : List Nat) (ins : construct_tx_inputs) : construct_tx_result :=
  let offshore_fee := construct_tx_offshore_fee cfg a
  let destinations := a.ordered_destinations env
  let sorted := construct_tx_sort_inputs a.sources ins.vin
  let classified := env.classify_addresses destinations
  let extra := env.add_tx_pub_key_to_extra extra
  let need_additional_txkeys : Bool :=
    classified.2 > 0 ∧ (classified.1 > 0 ∨ classified.2 > 1)
  if need_additional_txkeys ∧ destinations.length ≠ a.additional_tx_keys_size then
    construct_tx_result.failed
  else
    match construct_tx_outputs_loop cfg env a tx_version destinations 0
        construct_tx_outputs.start with
    | none => construct_tx_result.failed
    | some outs =>
      if env.additional_tx_public_keys_size ≠ a.additional_tx_keys_size then
        construct_tx_result.failed
      else
        match env.sort_tx_extra
            (env.add_additional_tx_pub_keys_to_extra need_additional_txkeys extra) with
        | none => construct_tx_result.failed
        | some extra =>
          let amount_burnt := construct_tx_burn_fee cfg a offshore_fee outs.amount_burnt
          if ¬ (ins.summary_inputs_money < cfg.HAVEN_MAX_TX_VALUE ∧
              ins.summary_inputs_money_usd < cfg.HAVEN_MAX_TX_VALUE ∧
              ins.summary_inputs_money_xasset < cfg.HAVEN_MAX_TX_VALUE ∧
              outs.summary_outs_money < cfg.HAVEN_MAX_TX_VALUE ∧
              outs.summary_outs_money_usd < cfg.HAVEN_MAX_TX_VALUE ∧
              outs.summary_outs_money_xasset < cfg.HAVEN_MAX_TX_VALUE) then
            construct_tx_result.failed
          else
            let fee := construct_tx_fee ins outs offshore_fee
            if a.strSource ≠ a.strDest ∧ (amount_burnt = 0 ∨ outs.amount_minted = 0) then
              construct_tx_result.failed
            else
              match construct_tx_fee_to_xhv cfg a.tx_type a.strSource a.pr a.hf_version
                  offshore_fee with
              | none => construct_tx_result.thrown
              | some offshore_fee =>
                if outs.vout.length ≠ env.outSk_size then construct_tx_result.failed
                else
                  construct_tx_result.built
                    { version := tx_version
                      unlock_time := a.unlock_time
                      vin := sorted.map construct_tx_mask_input
                      vout := outs.vout.map (fun out => { out with amount := 0 })
                      extra := extra
                      pricing_record_height :=
                        if a.strSource ≠ a.strDest then a.current_height else 0
                      amount_burnt := amount_burnt
                      amount_minted := outs.amount_minted
                      output_unlock_times := outs.output_unlock_times
                      collateral_indices := outs.collateral_indices
                      rct_signatures := env.genRctSimple fee offshore_fee
                      pruned := false }

/-- Embeds `construct_tx_with_tx_key(sender_account_keys, subaddresses, sources, destinations,
change_addr, extra, tx, tx_type, strSource, strDest, unlock_time, tx_key, additional_tx_keys,
current_height, pr, hf_version, onshore_col_amount, rct, rct_config, msout, shuffle_outs)`: how
the call ends and, on `return true`, the transaction it leaves in `tx`. -/
def construct_tx_with_tx_key (cfg : Config) (env : construct_tx_env) (a : construct_tx_args) :
    construct_tx_result :=
  if a.sources = [] then construct_tx_result.failed
  else
    let tx_version := construct_tx_version cfg a.hf_version
    if a.strSource ∉ cfg.ASSET_TYPES then construct_tx_result.failed
    else if a.strDest ∉ cfg.ASSET_TYPES then construct_tx_result.failed
    else if a.tx_type = transaction_type.UNSET then construct_tx_result.failed
    else
      match env.encrypt_payment_id a.extra with
      | none => construct_tx_result.failed
      | some extra =>
        match construct_tx_inputs_loop cfg env a a.sources ⟨0, 0, 0, []⟩ with
        | none => construct_tx_result.failed
        | some ins => construct_tx_finish cfg env a tx_version extra ins

/-- Collaborators of `construct_tx_with_tx_key` that never fail: the key image of a source is
its `real_output` plus 200, the key of output `i` is `i + 1`, the destinations keep their
order, and the signature carries the two fees it is given. -/
def example_construct_tx_env : construct_tx_env where
  encrypt_payment_id := fun extra => some extra
  generate_key_image_helper := fun s => some (s.real_output + 200)
  derived_key_matches := fun _ => true
  multisig_ki := fun _ => 0
  shuffle := fun d => d
  classify_addresses := fun d => (d.length, 0)
  add_tx_pub_key_to_extra := fun extra => extra
  generate_output_ephemeral_keys := fun i _ => i + 1
  additional_tx_public_keys_size := 0
  add_additional_tx_pub_keys_to_extra := fun _ extra => extra
  sort_tx_extra := fun extra => some extra
  genRctSimple := fun fee offshore_fee => ⟨fee, offshore_fee⟩
  outSk_size := 2

/-- Arguments for an xUSD to XBTC conversion built at height 90 with the price record
`example_pr`: one xUSD source of 2000 atomic units, a destination that converts 1000 atomic
units of xUSD into 5 of XBTC and locks them up to height 1530, and an xUSD change destination
of 900.  The hard-fork version is 18. -/
def example_xusd_to_xbtc_args : construct_tx_args where
  sources := [⟨[5, 9, 12], 1, 2000, "XUSD", true⟩]
  destinations := [⟨⟨0, 1000, 5, false⟩, "XBTC"⟩, ⟨⟨0, 900, 0, false⟩, "XUSD"⟩]
  extra := []
  tx_type := transaction_type.XUSD_TO_XASSET
  strSource := "XUSD"
  strDest := "XBTC"
  unlock_time := 1530
  additional_tx_keys_size := 0
  current_height := 90
  pr := example_pr
  hf_version := 18
  onshore_col_amount := 0
  msout := false
  shuffle_outs := false

/-- The amount of a destination in the asset `asset`: `amount` for XHV, `amount_usd` for xUSD,
`amount_xasset` for every other asset. -/
def tx_destination_entry_asset.amount_in (d : tx_destination_entry_asset) (asset : String) :
    Nat :=
  if asset = "XHV" then d.amount else if asset = "XUSD" then d.amount_usd else d.amount_xasset

/-- The converted destinations: those that carry the destination asset and are not
collateral. -/
def converted_destinations (a : construct_tx_args) (ds : List tx_destination_entry_asset) :
    List tx_destination_entry_asset :=
  ds.filter (fun d => d.asset_type = a.strDest ∧ !d.is_collateral)

/-- The conversion of `example_xusd_to_xbtc_args` at hard-fork version 20 with two converted
destinations whose xUSD amounts, 2^63 and 2^63 + 1000, add up to 2^64 + 1000. -/
def example_wrapping_xusd_to_xbtc_args : construct_tx_args :=
  { example_xusd_to_xbtc_args with
    hf_version := 20
    destinations := [⟨⟨0, 9223372036854775808, 5, false⟩, "XBTC"⟩,
      ⟨⟨0, 9223372036854776808, 5, false⟩, "XBTC"⟩] }

/-- The conversion of `example_xusd_to_xbtc_args` at hard-fork version 20 passed with the
transaction type OFFSHORE, which is not the type of the pair xUSD and XBTC; the converted
destination carries an XHV amount of 7 next to its 1000 atomic units of xUSD. -/
def example_mistyped_xusd_to_xbtc_args : construct_tx_args :=
  { example_xusd_to_xbtc_args with
    hf_version := 20
    tx_type := transaction_type.OFFSHORE
    destinations := [⟨⟨7, 1000, 5, false⟩, "XBTC"⟩, ⟨⟨0, 900, 0, false⟩, "XUSD"⟩] }

/-- The locked collateral output of a transaction, named by its destination: the collateral
destination of an OFFSHORE in its source asset, or the collateral destination of an ONSHORE
in its destination asset whose amount is `onshore_col_amount`.  The asset is XHV in both cases
when the transaction type is the one of the asset pair. -/
def construct_tx_args.locked_collateral (a : construct_tx_args)
    (d : tx_destination_entry_asset) : Bool :=
  d.is_collateral ∧
    ((a.tx_type = transaction_type.OFFSHORE ∧ d.asset_type = a.strSource) ∨
      (a.tx_type = transaction_type.ONSHORE ∧ d.asset_type = a.strDest ∧
        d.amount = a.onshore_col_amount))

/-- The collateral-change output of an ONSHORE, named by its destination: a collateral
destination in the destination asset (XHV) whose amount is not `onshore_col_amount`. -/
def construct_tx_args.collateral_change (a : construct_tx_args)
    (d : tx_destination_entry_asset) : Bool :=
  d.is_collateral ∧ a.tx_type = transaction_type.ONSHORE ∧ d.asset_type = a.strDest ∧
    d.amount ≠ a.onshore_col_amount

/-- Arguments for an ONSHORE built at height 90 with the price record `example_pr` at
hard-fork version 20: an xUSD source of 2000 atomic units and an XHV source of 5000 for the
collateral; the destinations are, in order, the converted amount (1000 atomic units of xUSD
into 100 of XHV), the collateral change of 1900, the xUSD change of 900 and the collateral of
3000, which is `onshore_col_amount`. -/
def example_onshore_args : construct_tx_args where
  sources := [⟨[5, 9, 12], 1, 2000, "XUSD", true⟩, ⟨[3, 4, 8], 0, 5000, "XHV", true⟩]
  destinations := [⟨⟨100, 1000, 0, false⟩, "XHV"⟩, ⟨⟨1900, 0, 0, true⟩, "XHV"⟩,
    ⟨⟨0, 900, 0, false⟩, "XUSD"⟩, ⟨⟨3000, 0, 0, true⟩, "XHV"⟩]
  extra := []
  tx_type := transaction_type.ONSHORE
  strSource := "XUSD"
  strDest := "XHV"
  unlock_time := 1530
  additional_tx_keys_size := 0
  current_height := 90
  pr := example_pr
  hf_version := 20
  onshore_col_amount := 3000
  msout := false
  shuffle_outs := false

/-- The collaborators of `example_construct_tx_env`, with a signature of four outputs. -/
def example_onshore_env : construct_tx_env :=
  { example_construct_tx_env with outSk_size := 4 }

/-- The transaction built from `example_onshore_args`. -/
def example_built_onshore_tx : transaction :=
  { version := 7, unlock_time := 1530,
    vin := [txin_v.txin_onshore 0 201, txin_v.txin_to_key 0 200],
    vout := [⟨0, txout_target_v.txout_to_key 1⟩, ⟨0, txout_target_v.txout_to_key 2⟩,
      ⟨0, txout_target_v.txout_offshore 3⟩, ⟨0, txout_target_v.txout_to_key 4⟩],
    extra := [], pricing_record_height := 90, amount_burnt := 1000, amount_minted := 100,
    output_unlock_times := [1530, 0, 0, 1530], collateral_indices := [3, 1],
    rct_signatures := ⟨85, 15⟩, pruned := false }

/-- The amount that the conversion-fee function of the transaction type accumulates over the
destinations (lines 1238-1242 with the loops of `get_offshore_fee`, `get_onshore_fee`,
`get_xusd_to_xasset_fee` and `get_xasset_to_xusd_fee`): the converted amount, in the source
asset. -/
def construct_tx_converted_amount (a : construct_tx_args) : Nat :=
  let dsts := a.destinations.map (fun d => d.totx_destination_entry)
  if a.tx_type = transaction_type.OFFSHORE then offshore_amount dsts
  else if a.tx_type = transaction_type.ONSHORE then onshore_amount dsts
  else if a.tx_type = transaction_type.XUSD_TO_XASSET then xusd_to_xasset_amount dsts
  else if a.tx_type = transaction_type.XASSET_TO_XUSD then xasset_to_xusd_amount dsts
  else 0

/-- A price record with the XHV prices 0.30 (moving average) and 0.25 (spot) and the XBTC
rate of `example_pr`. -/
def example_pr_low_xhv_price : pricing_record where
  unused1 := 300000000000
  xUSD := 250000000000
  rates := [("XBTC", 20000000)]
  timestamp := 1

/-- Arguments for an XBTC to xUSD conversion of 30000 XBTC (30000000000000000 atomic units)
at hard-fork version 23 with the price record `example_pr_low_xhv_price`; the fee function
reads the xUSD amount of the converted destination only to test it against 0. -/
def example_large_xbtc_to_xusd_args : construct_tx_args where
  sources := [⟨[5, 9, 12], 1, 40000000000000000, "XBTC", true⟩]
  destinations := [⟨⟨0, 1, 30000000000000000, false⟩, "XUSD"⟩,
    ⟨⟨0, 0, 9000000000000000, false⟩, "XBTC"⟩]
  extra := []
  tx_type := transaction_type.XASSET_TO_XUSD
  strSource := "XBTC"
  strDest := "XUSD"
  unlock_time := 1530
  additional_tx_keys_size := 0
  current_height := 90
  pr := example_pr_low_xhv_price
  hf_version := 23
  onshore_col_amount := 0
  msout := false
  shuffle_outs := false

/-- The transaction `construct_tx_with_tx_key` builds from
`example_large_xbtc_to_xusd_args`. -/
def example_built_large_xbtc_to_xusd_tx : transaction :=
  { version := 7, unlock_time := 1530, vin := [txin_v.txin_xasset 0 "XBTC" 201],
    vout := [⟨0, txout_target_v.txout_offshore 1⟩, ⟨0, txout_target_v.txout_xasset 2 "XBTC"⟩],
    extra := [], pricing_record_height := 90, amount_burnt := 30000000000000000,
    amount_minted := 1, output_unlock_times := [1530, 0], collateral_indices := [0, 0],
    rct_signatures := ⟨550000000000000, 13510853087634827946⟩, pruned := false }

/-- The conversion of `example_xusd_to_xbtc_args` with a converted amount of 200 atomic units
of xUSD (into 1 of XBTC) and an xUSD change destination of 1700. -/
def example_xusd_to_xbtc_200_args : construct_tx_args :=
  { example_xusd_to_xbtc_args with
    destinations := [⟨⟨0, 200, 1, false⟩, "XBTC"⟩, ⟨⟨0, 1700, 0, false⟩, "XUSD"⟩] }

/-- The transaction `construct_tx_with_tx_key` builds from `example_xusd_to_xbtc_200_args`. -/
def example_built_xusd_to_xbtc_200_tx : transaction :=
  { version := 5, unlock_time := 1530, vin := [txin_v.txin_offshore 0 201],
    vout := [⟨0, txout_target_v.txout_xasset 1 "XBTC"⟩, ⟨0, txout_target_v.txout_offshore 2⟩],
    extra := [], pricing_record_height := 90, amount_burnt := 200, amount_minted := 1,
    output_unlock_times := [1530, 1530], collateral_indices := [],
    rct_signatures := ⟨99, 1⟩, pruned := false }

/-- The transaction `construct_tx_with_tx_key` builds from `example_xusd_to_xbtc_args`. -/
def example_built_xusd_to_xbtc_1000_tx : transaction :=
  { version := 5, unlock_time := 1530, vin := [txin_v.txin_offshore 0 201],
    vout := [⟨0, txout_target_v.txout_xasset 1 "XBTC"⟩, ⟨0, txout_target_v.txout_offshore 2⟩],
    extra := [], pricing_record_height := 90, amount_burnt := 1004, amount_minted := 5,
    output_unlock_times := [1530, 1530], collateral_indices := [],
    rct_signatures := ⟨95, 5⟩, pruned := false }

/-- A `uint64_t` accumulator loop computes the sum of the selected summands modulo `2 ^ 64`. -/
theorem foldl_add_mod {α : Type} (p : α → Prop) [DecidablePred p] (g : α → Nat) (l : List α)
    (a : Nat) :
    l.foldl (fun acc dt => if p dt then (acc + g dt) % 2 ^ 64 else acc) a % 2 ^ 64 =
      (a + ((l.filter (fun dt => decide (p dt))).map g).sum) % 2 ^ 64 := by
  induction l generalizing a with
  | nil => simp
  | cons x xs ih =>
    simp only [List.foldl_cons, List.filter_cons]
    by_cases hx : p x
    · simp only [hx, if_true, decide_True, List.map_cons, List.sum_cons]
      rw [ih]
      omega
    · simp only [hx, if_false, decide_False]
      rw [ih]
      simp

/-- A `uint64_t` accumulator started below `2 ^ 64` stays below `2 ^ 64`. -/
theorem foldl_add_lt {α : Type} (p : α → Prop) [DecidablePred p] (g : α → Nat) (l : List α)
    (a : Nat) (ha : a < 2 ^ 64) :
    l.foldl (fun acc dt => if p dt then (acc + g dt) % 2 ^ 64 else acc) a < 2 ^ 64 := by
  induction l generalizing a with
  | nil => simpa using ha
  | cons x xs ih =>
    simp only [List.foldl_cons]
    by_cases hx : p x
    · simp only [hx, if_true]
      exact ih _ (Nat.mod_lt _ (by norm_num))
    · simp only [hx, if_false]
      exact ih _ ha

/-- The accumulator of a fee function is the sum of the converted amounts modulo `2 ^ 64`. -/
theorem foldl_add_eq {α : Type} (p : α → Prop) [DecidablePred p] (g : α → Nat) (l : List α) :
    l.foldl (fun acc dt => if p dt then (acc + g dt) % 2 ^ 64 else acc) 0 =
      ((l.filter (fun dt => decide (p dt))).map g).sum % 2 ^ 64 := by
  have h1 := foldl_add_mod p g l 0
  have h2 := foldl_add_lt p g l 0 (by norm_num)
  rw [Nat.mod_eq_of_lt h2] at h1
  simpa using h1

/-- The 128-bit fee selection of the xAsset conversions is the exact quotient on every 64-bit
amount. -/
theorem xasset_fee_estimate_exact (cfg : Config) (A hf_version : Nat) (hA : A < 2 ^ 64) :
    xasset_fee_estimate cfg A hf_version =
      if hf_version ≥ cfg.HF_VERSION_USE_COLLATERAL then A * 15 / 1000
      else if hf_version ≥ cfg.HF_VERSION_XASSET_FEES_V2 then A * 5 / 1000
      else A * 3 / 1000 := by
  unfold xasset_fee_estimate
  have h15 : A * 15 < 2 ^ 128 := by omega
  have h5 : A * 5 < 2 ^ 128 := by omega
  have h3 : A * 3 < 2 ^ 128 := by omega
  rw [Nat.mod_eq_of_lt h15, Nat.mod_eq_of_lt h5, Nat.mod_eq_of_lt h3]
  have e15 : A * 15 / 1000 % 2 ^ 64 = A * 15 / 1000 := Nat.mod_eq_of_lt (by omega)
  have e5 : A * 5 / 1000 % 2 ^ 64 = A * 5 / 1000 := Nat.mod_eq_of_lt (by omega)
  have e3 : A * 3 / 1000 % 2 ^ 64 = A * 3 / 1000 := Nat.mod_eq_of_lt (by omega)
  rw [e15, e5, e3]

/-- As long as the 64-bit product `amount * 3` does not wrap, the fee selection of
`get_offshore_fee` and `get_onshore_fee` is the exact quotient in every branch. -/
theorem shore_fee_estimate_exact_of_no_wrap (cfg : Config) (A unlock_time hf_version : Nat)
    (hA : A * 3 < 2 ^ 64) :
    shore_fee_estimate cfg A unlock_time hf_version =
      if hf_version ≥ cfg.HF_VERSION_USE_COLLATERAL then A * 3 / 200
      else if hf_version ≥ cfg.HF_PER_OUTPUT_UNLOCK_VERSION then A / 200
      else if unlock_time ≥ 5040 then A / 500
      else if unlock_time ≥ 1440 then A / 20
      else if unlock_time ≥ 720 then A / 10
      else A / 5 := by
  unfold shore_fee_estimate
  rw [Nat.mod_eq_of_lt hA]

/-- C4 (the code at the failing input).  At the collateral epoch, for one converted destination
of 6148914691236517206 atomic units (three times that is `2 ^ 64 + 2`), `get_offshore_fee` and
`get_onshore_fee` return 0, while the exact quotient `floor(A * 3 / 200)` is
92233720368547758: the 64-bit product `amount * 3` wraps. -/
theorem shore_fee_wraps_at_collateral_epoch (cfg : Config) :
    get_offshore_fee cfg [⟨6148914691236517206, 1, 0, false⟩] 0 cfg.HF_VERSION_USE_COLLATERAL = 0
    ∧ get_onshore_fee cfg [⟨1, 6148914691236517206, 0, false⟩] 0 cfg.HF_VERSION_USE_COLLATERAL = 0
    ∧ offshore_amount [⟨6148914691236517206, 1, 0, false⟩] = 6148914691236517206
    ∧ onshore_amount [⟨1, 6148914691236517206, 0, false⟩] = 6148914691236517206
    ∧ 6148914691236517206 < 2 ^ 64
    ∧ 6148914691236517206 * 3 / 200 = 92233720368547758 := by
  refine ⟨?_, ?_, ?_, ?_, ?_, ?_⟩
  · simp [get_offshore_fee, shore_fee_estimate, offshore_amount]
  · simp [get_onshore_fee, shore_fee_estimate, onshore_amount]
  · simp [offshore_amount]
  · simp [onshore_amount]
  · norm_num
  · norm_num

/-- C5.  `get_xusd_to_xasset_fee` and `get_xasset_to_xusd_fee` return, with `A` the sum (a
64-bit value) of the source-asset amounts of the converted destinations, exactly
`floor(A * 15 / 1000)` from the collateral epoch, `floor(A * 5 / 1000)` from the xasset-fees-v2
epoch up to it, and `floor(A * 3 / 1000)` before; nothing wraps. -/
theorem xasset_conversion_fee_exact (cfg : Config) (dsts : List tx_destination_entry)
    (hf_version : Nat) :
    (get_xusd_to_xasset_fee cfg dsts hf_version =
      let A := ((dsts.filter (fun dt => decide (dt.amount_xasset ≠ 0))).map
        (fun dt => dt.amount_usd)).sum % 2 ^ 64
      if hf_version ≥ cfg.HF_VERSION_USE_COLLATERAL then A * 15 / 1000
      else if hf_version ≥ cfg.HF_VERSION_XASSET_FEES_V2 then A * 5 / 1000
      else A * 3 / 1000) ∧
    (get_xasset_to_xusd_fee cfg dsts hf_version =
      let A := ((dsts.filter (fun dt => decide (dt.amount_usd ≠ 0))).map
        (fun dt => dt.amount_xasset)).sum % 2 ^ 64
      if hf_version ≥ cfg.HF_VERSION_USE_COLLATERAL then A * 15 / 1000
      else if hf_version ≥ cfg.HF_VERSION_XASSET_FEES_V2 then A * 5 / 1000
      else A * 3 / 1000) := by
  constructor
  · unfold get_xusd_to_xasset_fee xusd_to_xasset_amount
    rw [foldl_add_eq (fun dt : tx_destination_entry => dt.amount_xasset ≠ 0)
      (fun dt => dt.amount_usd) dsts]
    exact xasset_fee_estimate_exact cfg _ hf_version (Nat.mod_lt _ (by norm_num))
  · unfold get_xasset_to_xusd_fee xasset_to_xusd_amount
    rw [foldl_add_eq (fun dt : tx_destination_entry => dt.amount_usd ≠ 0)
      (fun dt => dt.amount_xasset) dsts]
    exact xasset_fee_estimate_exact cfg _ hf_version (Nat.mod_lt _ (by norm_num))

/-! ## Asset classification -/

/-- C6.  `get_tx_type(source, destination)` succeeds exactly when both names are in the asset
catalog and the pair is same-asset or one of XHV→XUSD, XUSD→XHV, XUSD→xAsset, xAsset→XUSD; on
success it returns TRANSFER, OFFSHORE_TRANSFER, XASSET_TRANSFER for source = destination = XHV,
XUSD, any other catalog asset, and OFFSHORE, ONSHORE, XUSD_TO_XASSET, XASSET_TO_XUSD for the
four conversions; for every other pair (an unknown name, XHV↔xAsset, an xAsset to a different
xAsset) it returns false. -/
theorem get_tx_type_table (cfg : Config) (source destination : String) :
    ((get_tx_type cfg source destination).isSome ↔
      (source ∈ cfg.ASSET_TYPES ∧ destination ∈ cfg.ASSET_TYPES ∧
        (source = destination ∨ (source = "XHV" ∧ destination = "XUSD") ∨
          (source = "XUSD" ∧ destination = "XHV") ∨
          (source = "XUSD" ∧ destination ≠ "XHV" ∧ destination ≠ "XUSD") ∨
          (source ≠ "XHV" ∧ source ≠ "XUSD" ∧ destination = "XUSD")))) ∧
    (source ∈ cfg.ASSET_TYPES → destination ∈ cfg.ASSET_TYPES →
      (source = "XHV" → destination = "XHV" →
        get_tx_type cfg source destination = some transaction_type.TRANSFER) ∧
      (source = "XUSD" → destination = "XUSD" →
        get_tx_type cfg source destination = some transaction_type.OFFSHORE_TRANSFER) ∧
      (source = destination → source ≠ "XHV" → source ≠ "XUSD" →
        get_tx_type cfg source destination = some transaction_type.XASSET_TRANSFER) ∧
      (source = "XHV" → destination = "XUSD" →
        get_tx_type cfg source destination = some transaction_type.OFFSHORE) ∧
      (source = "XUSD" → destination = "XHV" →
        get_tx_type cfg source destination = some transaction_type.ONSHORE) ∧
      (source = "XUSD" → destination ≠ "XHV" → destination ≠ "XUSD" →
        get_tx_type cfg source destination = some transaction_type.XUSD_TO_XASSET) ∧
      (source ≠ "XHV" → source ≠ "XUSD" → destination = "XUSD" →
        get_tx_type cfg source destination = some transaction_type.XASSET_TO_XUSD)) ∧
    ((source ∉ cfg.ASSET_TYPES ∨ destination ∉ cfg.ASSET_TYPES) →
      get_tx_type cfg source destination = none) ∧
    (source = "XHV" → destination ≠ "XHV" → destination ≠ "XUSD" →
      get_tx_type cfg source destination = none) ∧
    (destination = "XHV" → source ≠ "XHV" → source ≠ "XUSD" →
      get_tx_type cfg source destination = none) ∧
    (source ≠ destination → source ≠ "XHV" → source ≠ "XUSD" → destination ≠ "XHV" →
      destination ≠ "XUSD" → get_tx_type cfg source destination = none) := by
  have hne : ("XHV" : String) ≠ "XUSD" := by decide
  have hne2 : ("XUSD" : String) ≠ "XHV" := by decide
  unfold get_tx_type
  by_cases hs : source ∈ cfg.ASSET_TYPES <;> by_cases hd : destination ∈ cfg.ASSET_TYPES <;>
    by_cases h1 : source = "XHV" <;> by_cases h2 : source = "XUSD" <;>
    by_cases h3 : destination = "XHV" <;> by_cases h4 : destination = "XUSD" <;>
    by_cases h5 : source = destination <;>
    simp_all

/-- The string order is irreflexive. -/
theorem chars_lt_irrefl (a : List Char) : chars_lt a a = false := by
  induction a with
  | nil => rfl
  | cons x xs ih => simp [chars_lt, ih]

/-- The string order is transitive. -/
theorem chars_lt_trans :
    ∀ (a b c : List Char), chars_lt a b = true → chars_lt b c = true → chars_lt a c = true
  | [], [], _, h, _ => by simp [chars_lt] at h
  | [], _ :: _, [], _, h => by simp [chars_lt] at h
  | [], _ :: _, _ :: _, _, _ => by simp [chars_lt]
  | _ :: _, [], _, h, _ => by simp [chars_lt] at h
  | _ :: _, _ :: _, [], _, h => by simp [chars_lt] at h
  | x :: xs, y :: ys, z :: zs, h1, h2 => by
    simp only [chars_lt] at h1 h2 ⊢
    by_cases hxy : x < y
    · by_cases hyz : y < z
      · simp [lt_trans hxy hyz]
      · simp only [hyz, if_false] at h2
        by_cases hyz2 : y = z
        · subst hyz2; simp [hxy]
        · simp [hyz2] at h2
    · simp only [hxy, if_false] at h1
      by_cases hxy2 : x = y
      · subst hxy2
        simp only [if_true] at h1
        by_cases hyz : x < z
        · simp [hyz]
        · simp only [hyz, if_false] at h2 ⊢
          by_cases hyz2 : x = z
          · simp only [hyz2, if_true] at h2 ⊢
            exact chars_lt_trans xs ys zs h1 h2
          · simp [hyz2] at h2
      · simp [hxy2] at h1

/-- The string order is total on distinct strings. -/
theorem chars_lt_total :
    ∀ (a b : List Char), chars_lt a b = false → a ≠ b → chars_lt b a = true
  | [], [], _, h => by simp at h
  | [], _ :: _, h, _ => by simp [chars_lt] at h
  | _ :: _, [], _, _ => by simp [chars_lt]
  | x :: xs, y :: ys, h1, h2 => by
    simp only [chars_lt] at h1 ⊢
    by_cases hxy : x < y
    · simp [hxy] at h1
    · simp only [hxy, if_false] at h1
      by_cases hxy2 : x = y
      · subst hxy2
        simp only [if_true] at h1
        have : xs ≠ ys := fun h => h2 (by rw [h])
        simp [chars_lt_total xs ys h1 this]
      · have : y < x := lt_of_le_of_ne (not_lt.mp hxy) (Ne.symm hxy2)
        simp [this]

/-- Membership in a `std::set` after an insertion. -/
theorem mem_set_insert (x y : String) (l : List String) :
    y ∈ set_insert x l ↔ y = x ∨ y ∈ l := by
  induction l with
  | nil => simp [set_insert]
  | cons z zs ih =>
    unfold set_insert
    by_cases h1 : string_lt x z = true
    · simp [h1]
    · by_cases h2 : x = z
      · subst h2
        rw [if_neg h1, if_pos rfl]
        simp
      · rw [if_neg h1, if_neg h2, List.mem_cons, ih, List.mem_cons]
        tauto

/-- The sequence of a `std::set` is strictly ascending: the invariant `set_insert` keeps. -/
theorem set_insert_sorted (x : String) (l : List String)
    (h : l.Pairwise (fun a b => string_lt a b = true)) :
    (set_insert x l).Pairwise (fun a b => string_lt a b = true) := by
  induction l with
  | nil => simp [set_insert]
  | cons z zs ih =>
    have hz := List.pairwise_cons.mp h
    unfold set_insert
    by_cases h1 : string_lt x z = true
    · rw [if_pos h1]
      refine List.pairwise_cons.mpr ⟨?_, h⟩
      intro a ha
      rcases List.mem_cons.mp ha with rfl | ha
      · exact h1
      · exact chars_lt_trans _ _ _ h1 (hz.1 a ha)
    · by_cases h2 : x = z
      · rw [if_neg h1, if_pos h2]
        exact h
      · rw [if_neg h1, if_neg h2]
        refine List.pairwise_cons.mpr ⟨?_, ih hz.2⟩
        intro a ha
        rcases (mem_set_insert x a zs).mp ha with rfl | ha
        · refine chars_lt_total _ _ (by simpa [string_lt] using h1) ?_
          intro hc
          exact h2 (String.ext hc)
        · exact hz.1 a ha

/-- A strictly ascending sequence has no repeated element. -/
theorem sorted_nodup (l : List String) (h : l.Pairwise (fun a b => string_lt a b = true)) :
    l.Nodup := by
  refine List.Pairwise.imp ?_ h
  intro a b hab hc
  subst hc
  simp [string_lt, chars_lt_irrefl] at hab

/-- What the input loop of `get_tx_asset_types` leaves when it does not reject: every input
has an asset tag, the collected set holds exactly the tags (and what it held before), no
coinbase marker occurs outside a miner transaction and no xAsset input is named XHV or XUSD. -/
theorem source_asset_types_loop_some (is_miner_tx : Bool) (vin : List txin_v)
    (s sat : List String) (h : source_asset_types_loop is_miner_tx vin s = some sat) :
    (∀ t, t ∈ sat ↔ t ∈ s ∨ t ∈ vin.filterMap txin_v.asset_tag?) ∧
    (s.Pairwise (fun a b => string_lt a b = true) →
      sat.Pairwise (fun a b => string_lt a b = true)) ∧
    (∀ i ∈ vin, i.asset_tag?.isSome) ∧
    (is_miner_tx = false → ∀ i ∈ vin, ∀ height, i ≠ txin_v.txin_gen height) ∧
    (∀ i ∈ vin, ∀ a x k, i = txin_v.txin_xasset a x k → x ≠ "XHV" ∧ x ≠ "XUSD") := by
  induction vin generalizing s with
  | nil =>
    simp only [source_asset_types_loop, Option.some.injEq] at h
    subst h
    simp
  | cons i rest ih =>
    cases i with
    | txin_gen height =>
      simp only [source_asset_types_loop] at h
      by_cases hm : is_miner_tx = true
      · subst hm
        simp only [Bool.not_true, Bool.false_eq_true, if_false] at h
        obtain ⟨h1, h2, h3, h4, h5⟩ := ih _ h
        refine ⟨?_, fun hs => h2 (set_insert_sorted _ _ hs), ?_, ?_, ?_⟩
        · intro t
          rw [h1 t, mem_set_insert]
          simp [txin_v.asset_tag?]
          tauto
        · intro j hj
          rcases List.mem_cons.mp hj with rfl | hj
          · simp [txin_v.asset_tag?]
          · exact h3 j hj
        · intro hf
          simp at hf
        · intro j hj a x k hjx
          rcases List.mem_cons.mp hj with rfl | hj
          · simp at hjx
          · exact h5 j hj a x k hjx
      · simp [hm] at h
    | txin_to_script => simp [source_asset_types_loop] at h
    | txin_to_scripthash => simp [source_asset_types_loop] at h
    | txin_to_key amount k =>
      simp only [source_asset_types_loop] at h
      obtain ⟨h1, h2, h3, h4, h5⟩ := ih _ h
      refine ⟨?_, fun hs => h2 (set_insert_sorted _ _ hs), ?_, ?_, ?_⟩
      · intro t
        rw [h1 t, mem_set_insert]
        simp [txin_v.asset_tag?]
        tauto
      · intro j hj
        rcases List.mem_cons.mp hj with rfl | hj
        · simp [txin_v.asset_tag?]
        · exact h3 j hj
      · intro hf j hj height
        rcases List.mem_cons.mp hj with rfl | hj
        · simp
        · exact h4 hf j hj height
      · intro j hj a x k hjx
        rcases List.mem_cons.mp hj with rfl | hj
        · simp at hjx
        · exact h5 j hj a x k hjx
    | txin_offshore amount k =>
      simp only [source_asset_types_loop] at h
      obtain ⟨h1, h2, h3, h4, h5⟩ := ih _ h
      refine ⟨?_, fun hs => h2 (set_insert_sorted _ _ hs), ?_, ?_, ?_⟩
      · intro t
        rw [h1 t, mem_set_insert]
        simp [txin_v.asset_tag?]
        tauto
      · intro j hj
        rcases List.mem_cons.mp hj with rfl | hj
        · simp [txin_v.asset_tag?]
        · exact h3 j hj
      · intro hf j hj height
        rcases List.mem_cons.mp hj with rfl | hj
        · simp
        · exact h4 hf j hj height
      · intro j hj a x k hjx
        rcases List.mem_cons.mp hj with rfl | hj
        · simp at hjx
        · exact h5 j hj a x k hjx
    | txin_onshore amount k =>
      simp only [source_asset_types_loop] at h
      obtain ⟨h1, h2, h3, h4, h5⟩ := ih _ h
      refine ⟨?_, fun hs => h2 (set_insert_sorted _ _ hs), ?_, ?_, ?_⟩
      · intro t
        rw [h1 t, mem_set_insert]
        simp [txin_v.asset_tag?]
        tauto
      · intro j hj
        rcases List.mem_cons.mp hj with rfl | hj
        · simp [txin_v.asset_tag?]
        · exact h3 j hj
      · intro hf j hj height
        rcases List.mem_cons.mp hj with rfl | hj
        · simp
        · exact h4 hf j hj height
      · intro j hj a x k hjx
        rcases List.mem_cons.mp hj with rfl | hj
        · simp at hjx
        · exact h5 j hj a x k hjx
    | txin_xasset amount xasset k =>
      simp only [source_asset_types_loop] at h
      by_cases hx : xasset = "XHV" ∨ xasset = "XUSD"
      · simp [hx] at h
      · simp only [hx, if_false] at h
        obtain ⟨h1, h2, h3, h4, h5⟩ := ih _ h
        refine ⟨?_, fun hs => h2 (set_insert_sorted _ _ hs), ?_, ?_, ?_⟩
        · intro t
          rw [h1 t, mem_set_insert]
          simp [txin_v.asset_tag?]
          tauto
        · intro j hj
          rcases List.mem_cons.mp hj with rfl | hj
          · simp [txin_v.asset_tag?]
          · exact h3 j hj
        · intro hf j hj height
          rcases List.mem_cons.mp hj with rfl | hj
          · simp
          · exact h4 hf j hj height
        · intro j hj a x k2 hjx
          rcases List.mem_cons.mp hj with rfl | hj
          · simp only [txin_v.txin_xasset.injEq] at hjx
            obtain ⟨_, rfl, _⟩ := hjx
            exact not_or.mp hx
          · exact h5 j hj a x k2 hjx

/-- What the output loop of `get_tx_asset_types` leaves when it does not reject: every output
has an asset tag, the collected set holds exactly the tags (and what it held before) and no
xAsset output is named XHV or XUSD. -/
theorem destination_asset_types_loop_some (vout : List tx_out) (s dat : List String)
    (h : destination_asset_types_loop vout s = some dat) :
    (∀ t, t ∈ dat ↔ t ∈ s ∨ t ∈ vout.filterMap (fun out => out.target.asset_tag?)) ∧
    (s.Pairwise (fun a b => string_lt a b = true) →
      dat.Pairwise (fun a b => string_lt a b = true)) ∧
    (∀ o ∈ vout, o.target.asset_tag?.isSome) ∧
    (∀ o ∈ vout, ∀ k x, o.target = txout_target_v.txout_xasset k x → x ≠ "XHV" ∧ x ≠ "XUSD") := by
  induction vout generalizing s with
  | nil =>
    simp only [destination_asset_types_loop, Option.some.injEq] at h
    subst h
    simp
  | cons o rest ih =>
    obtain ⟨amount, target⟩ := o
    cases target with
    | txout_to_script => simp [destination_asset_types_loop] at h
    | txout_to_scripthash => simp [destination_asset_types_loop] at h
    | txout_to_key key =>
      simp only [destination_asset_types_loop] at h
      obtain ⟨h1, h2, h3, h4⟩ := ih _ h
      refine ⟨?_, fun hs => h2 (set_insert_sorted _ _ hs), ?_, ?_⟩
      · intro t
        rw [h1 t, mem_set_insert]
        simp [txout_target_v.asset_tag?]
        tauto
      · intro j hj
        rcases List.mem_cons.mp hj with rfl | hj
        · simp [txout_target_v.asset_tag?]
        · exact h3 j hj
      · intro j hj k x hjx
        rcases List.mem_cons.mp hj with rfl | hj
        · simp at hjx
        · exact h4 j hj k x hjx
    | txout_offshore key =>
      simp only [destination_asset_types_loop] at h
      obtain ⟨h1, h2, h3, h4⟩ := ih _ h
      refine ⟨?_, fun hs => h2 (set_insert_sorted _ _ hs), ?_, ?_⟩
      · intro t
        rw [h1 t, mem_set_insert]
        simp [txout_target_v.asset_tag?]
        tauto
      · intro j hj
        rcases List.mem_cons.mp hj with rfl | hj
        · simp [txout_target_v.asset_tag?]
        · exact h3 j hj
      · intro j hj k x hjx
        rcases List.mem_cons.mp hj with rfl | hj
        · simp at hjx
        · exact h4 j hj k x hjx
    | txout_xasset key xasset =>
      simp only [destination_asset_types_loop] at h
      by_cases hx : xasset = "XHV" ∨ xasset = "XUSD"
      · simp [hx] at h
      · simp only [hx, if_false] at h
        obtain ⟨h1, h2, h3, h4⟩ := ih _ h
        refine ⟨?_, fun hs => h2 (set_insert_sorted _ _ hs), ?_, ?_⟩
        · intro t
          rw [h1 t, mem_set_insert]
          simp [txout_target_v.asset_tag?]
          tauto
        · intro j hj
          rcases List.mem_cons.mp hj with rfl | hj
          · simp [txout_target_v.asset_tag?]
          · exact h3 j hj
        · intro j hj k x hjx
          rcases List.mem_cons.mp hj with rfl | hj
          · simp only [txout_target_v.txout_xasset.injEq] at hjx
            obtain ⟨_, rfl⟩ := hjx
            exact not_or.mp hx
          · exact h4 j hj k x hjx

/-- The source `get_tx_asset_types` reads off the input set. -/
theorem get_tx_asset_types_source_some (cfg : Config) (tx : transaction) (sat : List String)
    (source : String) (h : get_tx_asset_types_source cfg tx sat = some source) :
    sat = [source] ∨
      (tx.version ≥ cfg.COLLATERAL_TRANSACTION_VERSION ∧ source = "XUSD" ∧
        (sat = ["XHV", "XUSD"] ∨ sat = ["XUSD", "XHV"])) := by
  unfold get_tx_asset_types_source at h
  rcases sat with _ | ⟨a, _ | ⟨b, _ | ⟨c, srest⟩⟩⟩ <;>
    simp only [List.length_nil, List.length_cons, List.getD_cons_zero, List.getD_cons_succ,
      List.getD_nil] at h <;>
    split_ifs at h <;> simp_all

/-- The destination `get_tx_asset_types` reads off the output set of a non-miner
transaction. -/
theorem get_tx_asset_types_destination_some (sat dat : List String) (source d : String)
    (h : get_tx_asset_types_destination false sat dat source = some d) (hdat : dat ≠ []) :
    (dat = [source] ∧ d = source ∧ sat.length = 1) ∨
      (∃ a b, dat = [a, b] ∧ ((a = source ∧ d = b) ∨ (b = source ∧ d = a)) ∧
        (sat.length = 2 → (a = "XHV" ∧ b = "XUSD") ∨ (a = "XUSD" ∧ b = "XHV"))) := by
  unfold get_tx_asset_types_destination at h
  rcases dat with _ | ⟨x, _ | ⟨y, _ | ⟨z, drest⟩⟩⟩
  · exact absurd rfl hdat
  · simp only [List.length_cons, List.length_nil, List.getD_cons_zero] at h
    split_ifs at h <;> simp_all
  · simp only [List.length_cons, List.length_nil, List.getD_cons_zero, List.getD_cons_succ] at h
    right
    refine ⟨x, y, rfl, ?_⟩
    by_cases hl : sat.length = 2
    · by_cases hp : (x = "XHV" ∧ y = "XUSD") ∨ (x = "XUSD" ∧ y = "XHV")
      · refine ⟨?_, fun _ => hp⟩
        simp only [hl, hp, not_true_eq_false, and_false, if_false] at h
        split_ifs at h <;> simp_all
      · simp [hl, hp] at h
    · refine ⟨?_, fun hc => absurd hc hl⟩
      simp only [hl, false_and, if_false] at h
      split_ifs at h <;> simp_all
  · simp only [List.length_cons] at h
    split_ifs at h <;> first | omega | simp_all

/-- The shape of a successful `get_tx_asset_types`: the two loops pass, the source is read off
the input set, the destination (before the rewrite of the three hard-coded ids) off the output
set, and both are catalog assets. -/
theorem get_tx_asset_types_true (cfg : Config) (tx : transaction) (txid : hash)
    (destination0 : String) (is_miner_tx : Bool) (source destination : String)
    (h : get_tx_asset_types cfg tx txid destination0 is_miner_tx = (true, source, destination)) :
    ∃ sat dat d,
      source_asset_types_loop is_miner_tx tx.vin [] = some sat ∧
      destination_asset_types_loop tx.vout [] = some dat ∧
      get_tx_asset_types_source cfg tx sat = some source ∧
      dat ≠ [] ∧
      get_tx_asset_types_destination is_miner_tx sat dat source = some d ∧
      source ∈ cfg.ASSET_TYPES ∧ d ∈ cfg.ASSET_TYPES ∧
      destination = (if txid ∈ exploit_txs then "XJPY" else d) := by
  unfold get_tx_asset_types at h
  cases hs : source_asset_types_loop is_miner_tx tx.vin [] with
  | none => simp [hs] at h
  | some sat =>
    cases hsrc : get_tx_asset_types_source cfg tx sat with
    | none => simp [hs, hsrc] at h
    | some src =>
      cases hd : destination_asset_types_loop tx.vout [] with
      | none => simp [hs, hsrc, hd] at h
      | some dat =>
        cases hdst : get_tx_asset_types_destination is_miner_tx sat dat src with
        | none =>
          simp only [hs, hsrc, hd, hdst] at h
          split_ifs at h <;> simp at h
        | some d =>
          simp only [hs, hsrc, hd, hdst] at h
          refine ⟨sat, dat, d, rfl, rfl, ?_⟩
          split_ifs at h with h1 h2 h3 h4 <;> simp at h
          · obtain ⟨rfl, rfl⟩ := h
            refine ⟨hsrc, ?_, hdst, by simpa using h2, by simpa using h3, by simp [h4]⟩
            intro hc
            simp [hc] at h1
          · obtain ⟨rfl, rfl⟩ := h
            refine ⟨hsrc, ?_, hdst, by simpa using h2, by simpa using h3, by simp [h4]⟩
            intro hc
            simp [hc] at h1

/-- A call that does not return `(true, _, _)` returns `false`. -/
theorem fst_eq_false_of_ne_true {r : Bool × String × String}
    (h : ∀ s d, r ≠ (true, s, d)) : r.1 = false := by
  obtain ⟨b, s, d⟩ := r
  cases b with
  | false => rfl
  | true => exact absurd rfl (h s d)

/-- The output asset set of a non-miner transaction that `get_tx_asset_types` accepts under an
id outside the three hard-coded ones: it is `{source}` with destination = source, or
`{source, destination}` with destination ≠ source. -/
theorem output_tags_of_accepted (cfg : Config) (tx : transaction) (txid : hash)
    (destination0 source destination : String)
    (h : get_tx_asset_types cfg tx txid destination0 false = (true, source, destination))
    (hid : txid ∉ exploit_txs) :
    (∀ o ∈ tx.vout, o.target.asset_tag?.isSome) ∧
    (((∀ t, t ∈ output_asset_tags tx ↔ t = source) ∧ destination = source) ∨
      ((∀ t, t ∈ output_asset_tags tx ↔ t = source ∨ t = destination) ∧
        destination ≠ source)) := by
  obtain ⟨sat, dat, d, hs, hd, hsrc, hne, hdst, _, _, hdest⟩ :=
    get_tx_asset_types_true cfg tx txid destination0 false source destination h
  rw [if_neg hid] at hdest
  subst hdest
  obtain ⟨hmem, hsorted, hall, _⟩ := destination_asset_types_loop_some tx.vout [] dat hd
  have hnodup := sorted_nodup dat (hsorted List.Pairwise.nil)
  refine ⟨hall, ?_⟩
  rcases get_tx_asset_types_destination_some sat dat source destination hdst hne with
    ⟨rfl, rfl, _⟩ | ⟨a, b, rfl, hab, _⟩
  · left
    refine ⟨?_, rfl⟩
    intro t
    have := hmem t
    simp only [List.mem_singleton, List.not_mem_nil, false_or] at this
    unfold output_asset_tags
    exact this.symm
  · right
    have hne2 : a ≠ b := by
      intro hc
      subst hc
      simp at hnodup
    have hm : ∀ t, t ∈ output_asset_tags tx ↔ t = a ∨ t = b := by
      intro t
      have := hmem t
      simp only [List.mem_cons, List.mem_singleton, List.not_mem_nil, false_or, or_false] at this
      unfold output_asset_tags
      exact this.symm
    rcases hab with ⟨rfl, rfl⟩ | ⟨rfl, rfl⟩
    · exact ⟨hm, fun hc => hne2 hc.symm⟩
    · refine ⟨fun t => ?_, hne2⟩
      rw [hm t]
      tauto

/-- C7.  `get_tx_asset_types` succeeds only if the set of asset tags over the inputs is a
single asset `s`, and then source = `s`, or is exactly {XHV, XUSD} with
`tx.version ≥ COLLATERAL_TRANSACTION_VERSION`, and then source = XUSD.  It returns false for
every other set of input assets, for a coinbase-marker input when `is_miner_tx` is false, and
for an xAsset-tagged input or output whose asset name is XHV or XUSD. -/
theorem get_tx_asset_types_source_rule (cfg : Config) (tx : transaction) (txid : hash)
    (destination0 : String) (is_miner_tx : Bool) :
    (∀ source destination,
      get_tx_asset_types cfg tx txid destination0 is_miner_tx = (true, source, destination) →
        (∀ t, t ∈ input_asset_tags tx ↔ t = source) ∨
        ((∀ t, t ∈ input_asset_tags tx ↔ t = "XHV" ∨ t = "XUSD") ∧
          tx.version ≥ cfg.COLLATERAL_TRANSACTION_VERSION ∧ source = "XUSD")) ∧
    ((¬ ∃ s, ∀ t, t ∈ input_asset_tags tx ↔ t = s) →
      ¬ ((∀ t, t ∈ input_asset_tags tx ↔ t = "XHV" ∨ t = "XUSD") ∧
        tx.version ≥ cfg.COLLATERAL_TRANSACTION_VERSION) →
      (get_tx_asset_types cfg tx txid destination0 is_miner_tx).1 = false) ∧
    (is_miner_tx = false → (∃ height, txin_v.txin_gen height ∈ tx.vin) →
      (get_tx_asset_types cfg tx txid destination0 is_miner_tx).1 = false) ∧
    ((∃ a x k, txin_v.txin_xasset a x k ∈ tx.vin ∧ (x = "XHV" ∨ x = "XUSD")) →
      (get_tx_asset_types cfg tx txid destination0 is_miner_tx).1 = false) ∧
    ((∃ o k x, o ∈ tx.vout ∧ o.target = txout_target_v.txout_xasset k x ∧
        (x = "XHV" ∨ x = "XUSD")) →
      (get_tx_asset_types cfg tx txid destination0 is_miner_tx).1 = false) := by
  have main : ∀ source destination,
      get_tx_asset_types cfg tx txid destination0 is_miner_tx = (true, source, destination) →
        (∀ t, t ∈ input_asset_tags tx ↔ t = source) ∨
        ((∀ t, t ∈ input_asset_tags tx ↔ t = "XHV" ∨ t = "XUSD") ∧
          tx.version ≥ cfg.COLLATERAL_TRANSACTION_VERSION ∧ source = "XUSD") := by
    intro source destination h
    obtain ⟨sat, dat, d, hs, _, hsrc, _⟩ :=
      get_tx_asset_types_true cfg tx txid destination0 is_miner_tx source destination h
    obtain ⟨hmem, _⟩ := source_asset_types_loop_some is_miner_tx tx.vin [] sat hs
    have hm : ∀ t, t ∈ input_asset_tags tx ↔ t ∈ sat := by
      intro t
      have := hmem t
      simp only [List.not_mem_nil, false_or] at this
      unfold input_asset_tags
      exact this.symm
    rcases get_tx_asset_types_source_some cfg tx sat source hsrc with
      rfl | ⟨hv, rfl, rfl | rfl⟩
    · left
      intro t
      rw [hm t]
      simp
    · right
      refine ⟨fun t => ?_, hv, rfl⟩
      rw [hm t]
      simp
    · right
      refine ⟨fun t => ?_, hv, rfl⟩
      rw [hm t]
      simp
      tauto
  refine ⟨main, ?_, ?_, ?_, ?_⟩
  · intro h1 h2
    apply fst_eq_false_of_ne_true
    intro s d hc
    rcases main s d hc with h | ⟨h, hv, _⟩
    · exact h1 ⟨s, h⟩
    · exact h2 ⟨h, hv⟩
  · intro hm ⟨height, hin⟩
    apply fst_eq_false_of_ne_true
    intro s d hc
    obtain ⟨sat, dat, d, hs, _⟩ :=
      get_tx_asset_types_true cfg tx txid destination0 is_miner_tx s d hc
    obtain ⟨_, _, _, hgen, _⟩ := source_asset_types_loop_some is_miner_tx tx.vin [] sat hs
    exact hgen hm _ hin height rfl
  · intro ⟨a, x, k, hin, hx⟩
    apply fst_eq_false_of_ne_true
    intro s d hc
    obtain ⟨sat, dat, d, hs, _⟩ :=
      get_tx_asset_types_true cfg tx txid destination0 is_miner_tx s d hc
    obtain ⟨_, _, _, _, hxa⟩ := source_asset_types_loop_some is_miner_tx tx.vin [] sat hs
    have := hxa _ hin a x k rfl
    tauto
  · intro ⟨o, k, x, hin, ho, hx⟩
    apply fst_eq_false_of_ne_true
    intro s d hc
    obtain ⟨sat, dat, d, _, hd, _⟩ :=
      get_tx_asset_types_true cfg tx txid destination0 is_miner_tx s d hc
    obtain ⟨_, _, _, hxa⟩ := destination_asset_types_loop_some tx.vout [] dat hd
    have := hxa o hin k x ho
    tauto

/-- C7 at concrete inputs: the onshore with XHV collateral has input set {XHV, XUSD} and source
XUSD at transaction version 7; the XHV transfer has the single input asset XHV. -/
theorem get_tx_asset_types_source_rule_witness :
    get_tx_asset_types havenConfig example_onshore_tx 5 "" false = (true, "XUSD", "XHV") ∧
    get_tx_asset_types havenConfig example_transfer_tx 5 "" false = (true, "XHV", "XHV") ∧
    ((∀ t, t ∈ input_asset_tags example_onshore_tx ↔ t = "XUSD") ∨
      ((∀ t, t ∈ input_asset_tags example_onshore_tx ↔ t = "XHV" ∨ t = "XUSD") ∧
        example_onshore_tx.version ≥ havenConfig.COLLATERAL_TRANSACTION_VERSION ∧
        "XUSD" = "XUSD")) :=
  ⟨by decide, by decide,
    (get_tx_asset_types_source_rule havenConfig example_onshore_tx 5 "" false).1 "XUSD" "XHV"
      (by decide)⟩

/-- C8.  For a non-miner transaction whose id is not one of the three hard-coded ids and that
`get_tx_asset_types` accepts, the set of output asset tags has one or two elements and contains
the source: it is `{source}` with destination = source, or `{source, destination}` with
destination ≠ source.  In particular there are no three distinct output assets, of two distinct
output assets one is the source, and outputs that all carry one asset carry the source. -/
theorem get_tx_asset_types_destination_rule (cfg : Config) (tx : transaction) (txid : hash)
    (destination0 source destination : String)
    (h : get_tx_asset_types cfg tx txid destination0 false = (true, source, destination))
    (hid : txid ∉ exploit_txs) :
    (((∀ t, t ∈ output_asset_tags tx ↔ t = source) ∧ destination = source) ∨
      ((∀ t, t ∈ output_asset_tags tx ↔ t = source ∨ t = destination) ∧
        destination ≠ source)) ∧
    (¬ ∃ a b c, a ∈ output_asset_tags tx ∧ b ∈ output_asset_tags tx ∧
        c ∈ output_asset_tags tx ∧ a ≠ b ∧ b ≠ c ∧ a ≠ c) ∧
    (∀ a b, a ∈ output_asset_tags tx → b ∈ output_asset_tags tx → a ≠ b →
      a = source ∨ b = source) ∧
    (∀ a, (∀ t, t ∈ output_asset_tags tx ↔ t = a) → a = source) := by
  have main := (output_tags_of_accepted cfg tx txid destination0 source destination h hid).2
  refine ⟨main, ?_, ?_, ?_⟩
  · rintro ⟨a, b, c, ha, hb, hc, hab, hbc, hac⟩
    rcases main with ⟨hm, _⟩ | ⟨hm, _⟩
    · exact hab (((hm a).mp ha).trans ((hm b).mp hb).symm)
    · rcases (hm a).mp ha with rfl | rfl <;> rcases (hm b).mp hb with rfl | rfl <;>
        rcases (hm c).mp hc with rfl | rfl <;> simp_all
  · intro a b ha hb hab
    rcases main with ⟨hm, _⟩ | ⟨hm, _⟩
    · exact Or.inl ((hm a).mp ha)
    · rcases (hm a).mp ha with rfl | rfl
      · exact Or.inl rfl
      · rcases (hm b).mp hb with rfl | rfl
        · exact Or.inr rfl
        · exact absurd rfl hab
  · intro a ha
    rcases main with ⟨hm, _⟩ | ⟨hm, _⟩
    · exact ((ha source).mp ((hm source).mpr rfl)).symm
    · exact ((ha source).mp ((hm source).mpr (Or.inl rfl))).symm

/-- C8 at a concrete input: the onshore transaction is accepted with source XUSD and
destination XHV, and its output asset set is {XUSD, XHV}. -/
theorem get_tx_asset_types_destination_rule_witness :
    get_tx_asset_types havenConfig example_onshore_tx 5 "" false = (true, "XUSD", "XHV") ∧
    (5 : hash) ∉ exploit_txs ∧
    (((∀ t, t ∈ output_asset_tags example_onshore_tx ↔ t = "XUSD") ∧ "XHV" = "XUSD") ∨
      ((∀ t, t ∈ output_asset_tags example_onshore_tx ↔ t = "XUSD" ∨ t = "XHV") ∧
        "XHV" ≠ "XUSD")) :=
  ⟨by decide, by decide,
    (get_tx_asset_types_destination_rule havenConfig example_onshore_tx 5 "" "XUSD" "XHV"
      (by decide) (by decide)).1⟩

/-- C9 (counterexample).  `get_tx_asset_types` accepts a non-miner transaction with an XHV
input, an XHV change output and an XBTC output, returning (XHV, XBTC), and `get_tx_type` fails
on that pair; under the first of the three hard-coded ids it accepts a transaction with an XJPY
input and XJPY and XBTC outputs, returning (XJPY, XJPY), for which `get_tx_type` gives
XASSET_TRANSFER although an output carries XBTC. -/
theorem classify_then_type_lookup_not_total :
    get_tx_asset_types havenConfig example_xhv_to_xbtc_tx 5 "" false = (true, "XHV", "XBTC") ∧
    get_tx_type havenConfig "XHV" "XBTC" = none ∧
    get_tx_asset_types havenConfig example_xjpy_to_xbtc_tx
      0x4c87e7245142cb33a8ed4f039b7f33d4e4dd6b541a42a55992fd88efeefc40d1 "" false
      = (true, "XJPY", "XJPY") ∧
    get_tx_type havenConfig "XJPY" "XJPY" = some transaction_type.XASSET_TRANSFER ∧
    output_asset_tags example_xjpy_to_xbtc_tx = ["XJPY", "XBTC"] := by
  decide

/-- C9 (amended).  For a non-miner transaction that `get_tx_asset_types` accepts under an id
outside the three hard-coded ones, `get_tx_type` on the returned (source, destination) succeeds
exactly when source = destination or one of the two is XUSD; when it succeeds it returns the
`*_TRANSFER` form of the source when every output carries the source asset, and otherwise the
conversion source→destination. -/
theorem classify_then_type_lookup (cfg : Config) (tx : transaction) (txid : hash)
    (destination0 source destination : String)
    (h : get_tx_asset_types cfg tx txid destination0 false = (true, source, destination))
    (hid : txid ∉ exploit_txs) :
    ((get_tx_type cfg source destination).isSome ↔
      (source = destination ∨ source = "XUSD" ∨ destination = "XUSD")) ∧
    (∀ t, get_tx_type cfg source destination = some t →
      ((∀ o ∈ tx.vout, o.target.asset_tag? = some source) →
        source = destination ∧
        t = (if source = "XHV" then transaction_type.TRANSFER
          else if source = "XUSD" then transaction_type.OFFSHORE_TRANSFER
          else transaction_type.XASSET_TRANSFER)) ∧
      (¬ (∀ o ∈ tx.vout, o.target.asset_tag? = some source) →
        source ≠ destination ∧
        t = (if source = "XHV" then transaction_type.OFFSHORE
          else if source = "XUSD" then
            (if destination = "XHV" then transaction_type.ONSHORE
              else transaction_type.XUSD_TO_XASSET)
          else transaction_type.XASSET_TO_XUSD))) := by
  obtain ⟨hall, htags⟩ := output_tags_of_accepted cfg tx txid destination0 source destination h hid
  obtain ⟨sat, dat, d, _, _, _, _, _, hs, hd, hdest⟩ :=
    get_tx_asset_types_true cfg tx txid destination0 false source destination h
  rw [if_neg hid] at hdest
  subst hdest
  have hne : ("XHV" : String) ≠ "XUSD" := by decide
  have hne2 : ("XUSD" : String) ≠ "XHV" := by decide
  have hcarry : (∀ o ∈ tx.vout, o.target.asset_tag? = some source) ↔ source = destination := by
    rcases htags with ⟨hm, rfl⟩ | ⟨hm, hdne⟩
    · refine ⟨fun _ => rfl, fun _ o ho => ?_⟩
      have h1 := hall o ho
      obtain ⟨t, ht⟩ := Option.isSome_iff_exists.mp h1
      have : t ∈ output_asset_tags tx := by
        unfold output_asset_tags
        exact List.mem_filterMap.mpr ⟨o, ho, ht⟩
      rw [ht, (hm t).mp this]
    · refine ⟨fun hc => ?_, fun hc => absurd hc.symm hdne⟩
      have : destination ∈ output_asset_tags tx := (hm destination).mpr (Or.inr rfl)
      unfold output_asset_tags at this
      obtain ⟨o, ho, ht⟩ := List.mem_filterMap.mp this
      rw [hc o ho] at ht
      exact Option.some.inj ht
  refine ⟨?_, ?_⟩
  · unfold get_tx_type
    by_cases h1 : source = "XHV" <;> by_cases h2 : source = "XUSD" <;>
      by_cases h3 : destination = "XHV" <;> by_cases h4 : destination = "XUSD" <;>
      by_cases h5 : source = destination <;> simp_all
  · intro t ht
    rw [hcarry]
    unfold get_tx_type at ht
    by_cases h1 : source = "XHV" <;> by_cases h2 : source = "XUSD" <;>
      by_cases h3 : destination = "XHV" <;> by_cases h4 : destination = "XUSD" <;>
      by_cases h5 : source = destination <;> simp_all

/-- C9 (amended) at a concrete input: the onshore transaction is classified (XUSD, XHV), the type
lookup succeeds, and since an output carries XHV the type is ONSHORE. -/
theorem classify_then_type_lookup_witness :
    get_tx_asset_types havenConfig example_onshore_tx 5 "" false = (true, "XUSD", "XHV") ∧
    (5 : hash) ∉ exploit_txs ∧
    get_tx_type havenConfig "XUSD" "XHV" = some transaction_type.ONSHORE ∧
    ((get_tx_type havenConfig "XUSD" "XHV").isSome ↔
      (("XUSD" : String) = "XHV" ∨ ("XUSD" : String) = "XUSD" ∨ ("XHV" : String) = "XUSD")) :=
  ⟨by decide, by decide, by decide,
    (classify_then_type_lookup havenConfig example_onshore_tx 5 "" "XUSD" "XHV"
      (by decide) (by decide)).1⟩

/-! ## Admission -/

/-- A call of `add_tx2` that returns `true` passed every check that precedes the key-image
test. -/
theorem add_tx2_true_checks (cfg : Config) (bc : Blockchain) (now : Nat) (pool : tx_memory_pool)
    (tx : transaction) (id : hash) (tx_weight : Nat) (tvc : tx_verification_context)
    (tx_relay : relay_method) (relayed : Bool) (version : Nat)
    (h : (add_tx2 cfg bc now pool tx id tx_weight tvc tx_relay relayed version).ret = some true) :
    ∃ source dest tx_type tvc1,
      add_tx2_checks cfg bc pool tx id tx_weight tvc tx_relay version =
        checked.ok (source, dest, tx_type, tvc1) := by
  unfold add_tx2 at h
  cases hc : add_tx2_checks cfg bc pool tx id tx_weight tvc tx_relay version with
  | abort f => simp [hc] at h
  | reject t => simp [hc] at h
  | ok a =>
    obtain ⟨source, dest, tx_type, tvc1⟩ := a
    exact ⟨source, dest, tx_type, tvc1, rfl⟩

/-- What the checks of `add_tx2` that precede the key-image test establish when they pass. -/
theorem add_tx2_checks_ok (cfg : Config) (bc : Blockchain) (pool : tx_memory_pool)
    (tx : transaction) (id : hash) (tx_weight : Nat) (tvc : tx_verification_context)
    (tx_relay : relay_method) (version : Nat) (source dest : String)
    (tx_type : transaction_type) (tvc2 : tx_verification_context)
    (h : add_tx2_checks cfg bc pool tx id tx_weight tvc tx_relay version =
      checked.ok (source, dest, tx_type, tvc2)) :
    (tx_relay ≠ relay_method.block → id ∉ pool.m_timed_out_transactions) ∧
    check_inputs_types_supported tx = true ∧
    tx.unlock_time < cfg.CRYPTONOTE_MAX_BLOCK_NUMBER ∧
    add_tx2_version_rejected cfg tx version = false ∧
    (∃ tvc1, add_tx2_classify cfg tx id tvc = checked.ok (source, dest, tx_type, tvc1) ∧
      (source ≠ dest →
        add_tx2_conversion_checks cfg bc tx id tvc1 source dest tx_type version =
          checked.ok tvc2) ∧
      (source = dest → add_tx2_transfer_rejected tx = false ∧ tvc2 = tvc1)) ∧
    (tx_relay ≠ relay_method.block → tx.rct_signatures.txnFee ≠ 0) := by
  unfold add_tx2_checks at h
  simp only at h
  split at h
  · cases h
  rename_i h1
  split at h
  · cases h
  rename_i h2
  split at h
  · cases h
  rename_i h3
  split at h
  · cases h
  rename_i h4
  split at h
  · cases h
  rename_i h5
  split at h
  · cases h
  · cases h
  rename_i s d ty tvc1 hc
  split at h
  · cases h
  · cases h
  rename_i tvc3 hcc
  split at h
  · cases h
  rename_i h6
  split at h
  · cases h
  rename_i h7
  simp only [checked.ok.injEq, Prod.mk.injEq] at h
  obtain ⟨rfl, rfl, rfl, rfl⟩ := h
  refine ⟨?_, by simpa using h2, by simpa using h3, by simpa using h4, ⟨tvc1, hc, ?_, ?_⟩, ?_⟩
  · intro hr
    simpa [hr] using h1
  · intro hsd
    simpa [hsd] using hcc
  · intro hsd
    subst hsd
    simp only [ne_eq, not_true_eq_false, if_false] at hcc
    split at hcc
    · cases hcc
    · rename_i htr
      simp only [checked.ok.injEq] at hcc
      exact ⟨by simpa using htr, hcc.symm⟩
  · intro hr
    simp [hr] at h6
    exact h6.1

/-- What the checks of a conversion establish when they pass: both amounts are non-zero, the
unlock checks pass with some final `unlock_time`, and the fee recomputed from it is the
declared conversion fee. -/
theorem add_tx2_conversion_checks_ok (cfg : Config) (bc : Blockchain) (tx : transaction)
    (id : hash) (tvc : tx_verification_context) (source dest : String)
    (tx_type : transaction_type) (version : Nat) (tvc2 : tx_verification_context)
    (h : add_tx2_conversion_checks cfg bc tx id tvc source dest tx_type version =
      checked.ok tvc2) :
    tx.amount_burnt ≠ 0 ∧ tx.amount_minted ≠ 0 ∧
    add_tx2_rate_rejected cfg tvc2.pr source dest tx_type version = false ∧
    ∃ unlock_time,
      add_tx2_unlock_checks cfg bc tx tvc2 source tx_type version
        bc.get_current_blockchain_height
        (get_tx_unlock_time tx.unlock_time tx.pricing_record_height
          bc.get_current_blockchain_height) = checked.ok unlock_time ∧
      conversion_fee_check cfg tx tvc2.pr source tx_type version unlock_time =
        some tx.rct_signatures.txnOffshoreFee := by
  unfold add_tx2_conversion_checks at h
  simp only at h
  split at h
  · cases h
  rename_i h1
  split at h
  · cases h
  rename_i tvc3 hpr
  split at h
  · cases h
  rename_i h2
  split at h
  · cases h
  rename_i h3
  split at h
  · cases h
  rename_i h4
  split at h
  · cases h
  · cases h
  rename_i ut hut
  split at h
  · cases h
  rename_i fee hfee
  split at h
  · cases h
  rename_i h5
  simp only [checked.ok.injEq] at h
  subst h
  refine ⟨?_, ?_, by simpa using h2, ut, hut, ?_⟩
  · intro hc; exact h3 (Or.inl hc)
  · intro hc; exact h3 (Or.inr hc)
  · rw [hfee]
    simpa using h5

/-- Before the per-output-unlock epoch the unlock checks leave the local `unlock_time` as it
was. -/
theorem add_tx2_unlock_checks_pre_pou (cfg : Config) (bc : Blockchain) (tx : transaction)
    (tvc : tx_verification_context) (source : String) (tx_type : transaction_type)
    (version current_height unlock_time ut : Nat)
    (hv : version < cfg.HF_PER_OUTPUT_UNLOCK_VERSION)
    (h : add_tx2_unlock_checks cfg bc tx tvc source tx_type version current_height unlock_time =
      checked.ok ut) : ut = unlock_time := by
  unfold add_tx2_unlock_checks at h
  rw [if_neg (by omega)] at h
  split at h
  · split at h
    · cases h
    · simp only [checked.ok.injEq] at h
      exact h.symm
  · split at h
    · split at h
      · cases h
      · simp only [checked.ok.injEq] at h
        exact h.symm
    · simp only [checked.ok.injEq] at h
      exact h.symm

/-- The exchange-rate checks pass only for the four conversion types. -/
theorem add_tx2_rate_rejected_false (cfg : Config) (pr : pricing_record) (source dest : String)
    (tx_type : transaction_type) (version : Nat)
    (h : add_tx2_rate_rejected cfg pr source dest tx_type version = false) :
    tx_type = transaction_type.OFFSHORE ∨ tx_type = transaction_type.ONSHORE ∨
      tx_type = transaction_type.XUSD_TO_XASSET ∨ tx_type = transaction_type.XASSET_TO_XUSD := by
  unfold add_tx2_rate_rejected at h
  cases tx_type <;> simp at h ⊢

/-- C10.  For every transaction that `add_tx2` admits, with (source, destination) the asset
pair admission used: source = destination implies amount_burnt = 0, amount_minted = 0 and
pricing_record_height = 0; source ≠ destination implies amount_burnt ≠ 0 and amount_minted ≠ 0;
hence amount_burnt = 0 ⇔ amount_minted = 0 ⇔ source = destination. -/
theorem add_tx2_burnt_minted_rule (cfg : Config) (bc : Blockchain) (now : Nat)
    (pool : tx_memory_pool) (tx : transaction) (id : hash) (tx_weight : Nat)
    (tvc : tx_verification_context) (tx_relay : relay_method) (relayed : Bool) (version : Nat)
    (h : (add_tx2 cfg bc now pool tx id tx_weight tvc tx_relay relayed version).ret = some true) :
    ∃ source dest tx_type tvc1,
      add_tx2_classify cfg tx id tvc = checked.ok (source, dest, tx_type, tvc1) ∧
      (source = dest →
        tx.amount_burnt = 0 ∧ tx.amount_minted = 0 ∧ tx.pricing_record_height = 0) ∧
      (source ≠ dest → tx.amount_burnt ≠ 0 ∧ tx.amount_minted ≠ 0) ∧
      (tx.amount_burnt = 0 ↔ tx.amount_minted = 0) ∧
      (tx.amount_minted = 0 ↔ source = dest) := by
  obtain ⟨source, dest, tx_type, tvc2, hc⟩ :=
    add_tx2_true_checks cfg bc now pool tx id tx_weight tvc tx_relay relayed version h
  obtain ⟨_, _, _, _, ⟨tvc1, hcl, hconv, htr⟩, _⟩ :=
    add_tx2_checks_ok cfg bc pool tx id tx_weight tvc tx_relay version source dest tx_type tvc2 hc
  have hsame : source = dest →
      tx.amount_burnt = 0 ∧ tx.amount_minted = 0 ∧ tx.pricing_record_height = 0 := by
    intro hsd
    have := (htr hsd).1
    unfold add_tx2_transfer_rejected at this
    split_ifs at this with h1 h2
    exact ⟨by tauto, by tauto, by tauto⟩
  have hdiff : source ≠ dest → tx.amount_burnt ≠ 0 ∧ tx.amount_minted ≠ 0 := by
    intro hsd
    obtain ⟨hb, hm, _⟩ :=
      add_tx2_conversion_checks_ok cfg bc tx id tvc1 source dest tx_type version tvc2 (hconv hsd)
    exact ⟨hb, hm⟩
  refine ⟨source, dest, tx_type, tvc1, hcl, hsame, hdiff, ?_, ?_⟩
  · by_cases hsd : source = dest
    · simp [(hsame hsd).1, (hsame hsd).2.1]
    · simp [(hdiff hsd).1, (hdiff hsd).2]
  · by_cases hsd : source = dest
    · simp [(hsame hsd).2.1, hsd]
    · simp [(hdiff hsd).2, hsd]

/-- C10 at a concrete input: the XHV transfer is admitted at hard-fork version 20 into the empty
pool, with the asset pair (XHV, XHV) and no burnt or minted amount. -/
theorem add_tx2_burnt_minted_rule_witness :
    (add_tx2 havenConfig example_chain 1000 (tx_memory_pool.init 1000000)
      example_transfer_tx 12 2000 empty_tvc relay_method.fluff false 20).ret = some true ∧
    ∃ source dest tx_type tvc1,
      add_tx2_classify havenConfig example_transfer_tx 12 empty_tvc =
        checked.ok (source, dest, tx_type, tvc1) ∧
      (source = dest →
        example_transfer_tx.amount_burnt = 0 ∧ example_transfer_tx.amount_minted = 0 ∧
          example_transfer_tx.pricing_record_height = 0) ∧
      (source ≠ dest →
        example_transfer_tx.amount_burnt ≠ 0 ∧ example_transfer_tx.amount_minted ≠ 0) ∧
      (example_transfer_tx.amount_burnt = 0 ↔ example_transfer_tx.amount_minted = 0) ∧
      (example_transfer_tx.amount_minted = 0 ↔ source = dest) :=
  ⟨by decide,
    add_tx2_burnt_minted_rule havenConfig example_chain 1000 (tx_memory_pool.init 1000000)
      example_transfer_tx 12 2000 empty_tvc relay_method.fluff false 20 (by decide)⟩

/-- C3 (counterexample).  At hard-fork version 19 (per-output-unlock epoch, below the collateral
and bulletproof-plus epochs) `add_tx2` admits an XUSD_TO_XASSET conversion that burns 1000 and
declares the conversion fee 4 = floor(1000 * 10 / 2008), while floor(1000 * 5 / 1000) = 5. -/
theorem add_tx2_xasset_fee_not_half_percent :
    (add_tx2 havenConfig example_chain 1000 (tx_memory_pool.init 1000000)
      example_xusd_to_xbtc_tx 11 2000 empty_tvc relay_method.fluff false 19).ret = some true ∧
    add_tx2_classify havenConfig example_xusd_to_xbtc_tx 11 empty_tvc =
      checked.ok ("XUSD", "XBTC", transaction_type.XUSD_TO_XASSET,
        { empty_tvc with m_source_asset := "XUSD", m_dest_asset := "XBTC",
                         m_type := transaction_type.XUSD_TO_XASSET }) ∧
    19 < havenConfig.HF_VERSION_USE_COLLATERAL ∧
    19 < havenConfig.HF_VERSION_BULLETPROOF_PLUS ∧
    example_xusd_to_xbtc_tx.amount_burnt = 1000 ∧
    example_xusd_to_xbtc_tx.rct_signatures.txnOffshoreFee = 4 ∧
    example_xusd_to_xbtc_tx.amount_burnt * 5 / 1000 = 5 := by
  decide

/-- C3 (amended).  For every conversion transaction that `add_tx2` admits at a hard-fork version
below the bulletproof-plus epoch, the declared conversion fee `txnOffshoreFee` is, of
`amount_burnt`: for OFFSHORE and ONSHORE `floor(burnt * 3 / 200)` from the collateral epoch; for
ONSHORE `floor(burnt / 200)` from the per-output-unlock epoch up to the collateral epoch and the
unlock-priority tiers (/500, /20, /10, /5) before that; for XUSD_TO_XASSET and XASSET_TO_XUSD
`floor(burnt * 15 / 1000)` from the collateral epoch and `floor(burnt * 10 / 2008)` before it. -/
theorem add_tx2_conversion_fee_rule (cfg : Config) (bc : Blockchain) (now : Nat)
    (pool : tx_memory_pool) (tx : transaction) (id : hash) (tx_weight : Nat)
    (tvc : tx_verification_context) (tx_relay : relay_method) (relayed : Bool) (version : Nat)
    (h : (add_tx2 cfg bc now pool tx id tx_weight tvc tx_relay relayed version).ret = some true)
    (hb : tx.amount_burnt < 2 ^ 64) (hv : version < cfg.HF_VERSION_BULLETPROOF_PLUS) :
    ∃ source dest tx_type tvc1,
      add_tx2_classify cfg tx id tvc = checked.ok (source, dest, tx_type, tvc1) ∧
      (source ≠ dest →
        (tx_type = transaction_type.OFFSHORE ∨ tx_type = transaction_type.ONSHORE ∨
          tx_type = transaction_type.XUSD_TO_XASSET ∨
          tx_type = transaction_type.XASSET_TO_XUSD) ∧
        ((tx_type = transaction_type.OFFSHORE ∨ tx_type = transaction_type.ONSHORE) →
          version ≥ cfg.HF_VERSION_USE_COLLATERAL →
          tx.rct_signatures.txnOffshoreFee = tx.amount_burnt * 3 / 200) ∧
        (tx_type = transaction_type.ONSHORE → version < cfg.HF_VERSION_USE_COLLATERAL →
          version ≥ cfg.HF_PER_OUTPUT_UNLOCK_VERSION →
          tx.rct_signatures.txnOffshoreFee = tx.amount_burnt / 200) ∧
        (tx_type = transaction_type.ONSHORE → version < cfg.HF_VERSION_USE_COLLATERAL →
          version < cfg.HF_PER_OUTPUT_UNLOCK_VERSION →
          tx.rct_signatures.txnOffshoreFee =
            (if get_tx_unlock_time tx.unlock_time tx.pricing_record_height
                bc.get_current_blockchain_height ≥ 5040 then tx.amount_burnt / 500
              else if get_tx_unlock_time tx.unlock_time tx.pricing_record_height
                bc.get_current_blockchain_height ≥ 1440 then tx.amount_burnt / 20
              else if get_tx_unlock_time tx.unlock_time tx.pricing_record_height
                bc.get_current_blockchain_height ≥ 720 then tx.amount_burnt / 10
              else tx.amount_burnt / 5)) ∧
        ((tx_type = transaction_type.XUSD_TO_XASSET ∨
            tx_type = transaction_type.XASSET_TO_XUSD) →
          (version ≥ cfg.HF_VERSION_USE_COLLATERAL →
            tx.rct_signatures.txnOffshoreFee = tx.amount_burnt * 15 / 1000) ∧
          (version < cfg.HF_VERSION_USE_COLLATERAL →
            tx.rct_signatures.txnOffshoreFee = tx.amount_burnt * 10 / 2008))) := by
  obtain ⟨source, dest, tx_type, tvc2, hc⟩ :=
    add_tx2_true_checks cfg bc now pool tx id tx_weight tvc tx_relay relayed version h
  obtain ⟨_, _, _, _, ⟨tvc1, hcl, hconv, _⟩, _⟩ :=
    add_tx2_checks_ok cfg bc pool tx id tx_weight tvc tx_relay version source dest tx_type tvc2 hc
  refine ⟨source, dest, tx_type, tvc1, hcl, ?_⟩
  intro hsd
  obtain ⟨_, _, hrate, ut, hut, hfee⟩ :=
    add_tx2_conversion_checks_ok cfg bc tx id tvc1 source dest tx_type version tvc2 (hconv hsd)
  have hty := add_tx2_rate_rejected_false cfg tvc2.pr source dest tx_type version hrate
  have hbp : ¬ version ≥ cfg.HF_VERSION_BULLETPROOF_PLUS := by omega
  have e3 : tx.amount_burnt * 3 % 2 ^ 128 = tx.amount_burnt * 3 := Nat.mod_eq_of_lt (by omega)
  have e3' : tx.amount_burnt * 3 / 200 % 2 ^ 64 = tx.amount_burnt * 3 / 200 :=
    Nat.mod_eq_of_lt (by omega)
  have e10 : tx.amount_burnt * 10 % 2 ^ 128 = tx.amount_burnt * 10 :=
    Nat.mod_eq_of_lt (by omega)
  have e10' : tx.amount_burnt * 10 / 2008 % 2 ^ 64 = tx.amount_burnt * 10 / 2008 :=
    Nat.mod_eq_of_lt (by omega)
  have e15 : tx.amount_burnt * 15 / 1000 = tx.amount_burnt * 3 / 200 := by omega
  unfold conversion_fee_check at hfee
  simp only [e3, e3', e10, e10', hbp, if_false] at hfee
  refine ⟨hty, ?_, ?_, ?_, ?_⟩
  · rintro (rfl | rfl) hcoll
    · simpa using hfee.symm
    · simpa [hcoll] using hfee.symm
  · rintro rfl hcoll hpou
    have hcoll' : ¬ version ≥ cfg.HF_VERSION_USE_COLLATERAL := by omega
    simpa [hcoll', hpou] using hfee.symm
  · rintro rfl hcoll hpou
    have hcoll' : ¬ version ≥ cfg.HF_VERSION_USE_COLLATERAL := by omega
    have hpou' : ¬ version ≥ cfg.HF_PER_OUTPUT_UNLOCK_VERSION := by omega
    have hut' := add_tx2_unlock_checks_pre_pou cfg bc tx tvc2 source _ version _ _ ut hpou hut
    subst hut'
    simp only [hcoll', hpou', if_false, reduceCtorEq, if_true, Option.some.injEq] at hfee
    rw [← hfee]
    split_ifs <;> first | rfl | omega
  · rintro (rfl | rfl)
    · refine ⟨fun hcoll => ?_, fun hcoll => ?_⟩
      · rw [e15]
        simpa [hcoll] using hfee.symm
      · have hcoll' : ¬ version ≥ cfg.HF_VERSION_USE_COLLATERAL := by omega
        simpa [hcoll'] using hfee.symm
    · refine ⟨fun hcoll => ?_, fun hcoll => ?_⟩
      · rw [e15]
        simpa [hcoll] using hfee.symm
      · have hcoll' : ¬ version ≥ cfg.HF_VERSION_USE_COLLATERAL := by omega
        simpa [hcoll'] using hfee.symm

/-- C3 (amended) at a concrete input: the onshore transaction is admitted at hard-fork version
20 (collateral epoch, below bulletproof-plus); it burns 2000 and declares the fee 30. -/
theorem add_tx2_conversion_fee_rule_witness :
    (add_tx2 havenConfig example_chain 1000 (tx_memory_pool.init 1000000)
      example_onshore_tx 13 2000 empty_tvc relay_method.fluff false 20).ret = some true ∧
    example_onshore_tx.amount_burnt < 2 ^ 64 ∧
    20 < havenConfig.HF_VERSION_BULLETPROOF_PLUS ∧
    example_onshore_tx.rct_signatures.txnOffshoreFee = 30 ∧
    ∃ source dest tx_type tvc1,
      add_tx2_classify havenConfig example_onshore_tx 13 empty_tvc =
        checked.ok (source, dest, tx_type, tvc1) ∧
      (source ≠ dest →
        (tx_type = transaction_type.OFFSHORE ∨ tx_type = transaction_type.ONSHORE ∨
          tx_type = transaction_type.XUSD_TO_XASSET ∨
          tx_type = transaction_type.XASSET_TO_XUSD) ∧
        ((tx_type = transaction_type.OFFSHORE ∨ tx_type = transaction_type.ONSHORE) →
          20 ≥ havenConfig.HF_VERSION_USE_COLLATERAL →
          example_onshore_tx.rct_signatures.txnOffshoreFee =
            example_onshore_tx.amount_burnt * 3 / 200) ∧
        (tx_type = transaction_type.ONSHORE → 20 < havenConfig.HF_VERSION_USE_COLLATERAL →
          20 ≥ havenConfig.HF_PER_OUTPUT_UNLOCK_VERSION →
          example_onshore_tx.rct_signatures.txnOffshoreFee =
            example_onshore_tx.amount_burnt / 200) ∧
        (tx_type = transaction_type.ONSHORE → 20 < havenConfig.HF_VERSION_USE_COLLATERAL →
          20 < havenConfig.HF_PER_OUTPUT_UNLOCK_VERSION →
          example_onshore_tx.rct_signatures.txnOffshoreFee =
            (if get_tx_unlock_time example_onshore_tx.unlock_time
                example_onshore_tx.pricing_record_height
                example_chain.get_current_blockchain_height ≥ 5040 then
                example_onshore_tx.amount_burnt / 500
              else if get_tx_unlock_time example_onshore_tx.unlock_time
                example_onshore_tx.pricing_record_height
                example_chain.get_current_blockchain_height ≥ 1440 then
                example_onshore_tx.amount_burnt / 20
              else if get_tx_unlock_time example_onshore_tx.unlock_time
                example_onshore_tx.pricing_record_height
                example_chain.get_current_blockchain_height ≥ 720 then
                example_onshore_tx.amount_burnt / 10
              else example_onshore_tx.amount_burnt / 5)) ∧
        ((tx_type = transaction_type.XUSD_TO_XASSET ∨
            tx_type = transaction_type.XASSET_TO_XUSD) →
          (20 ≥ havenConfig.HF_VERSION_USE_COLLATERAL →
            example_onshore_tx.rct_signatures.txnOffshoreFee =
              example_onshore_tx.amount_burnt * 15 / 1000) ∧
          (20 < havenConfig.HF_VERSION_USE_COLLATERAL →
            example_onshore_tx.rct_signatures.txnOffshoreFee =
              example_onshore_tx.amount_burnt * 10 / 2008))) :=
  ⟨by decide, by decide, by decide, by decide,
    add_tx2_conversion_fee_rule havenConfig example_chain 1000 (tx_memory_pool.init 1000000)
      example_onshore_tx 13 2000 empty_tvc relay_method.fluff false 20 (by decide) (by decide)
      (by decide)⟩

/-! ## The key-image index -/

/-- A set found in the index is the set of one of its entries. -/
theorem ki_find_mem (m : List (key_image × List hash)) (k : key_image) (ids : List hash)
    (h : ki_find m k = some ids) : (k, ids) ∈ m := by
  unfold ki_find at h
  cases hf : m.find? (fun e => decide (e.1 = k)) with
  | none => simp [hf] at h
  | some e =>
    simp only [hf, Option.map_some', Option.some.injEq] at h
    have h1 := List.mem_of_find?_eq_some hf
    have h2 := List.find?_some hf
    simp only [decide_eq_true_eq] at h2
    obtain ⟨a, b⟩ := e
    simp only at h h2
    subst h h2
    exact h1

/-- Assigning a one-element set keeps "every recorded set has exactly one id". -/
theorem ki_set_single (m : List (key_image × List hash)) (k : key_image) (v : List hash)
    (hm : ∀ e ∈ m, e.2.length = 1) (hv : v.length = 1) :
    ∀ e ∈ ki_set m k v, e.2.length = 1 := by
  unfold ki_set
  split
  · intro e he
    obtain ⟨e0, he0, rfl⟩ := List.mem_map.mp he
    split
    · exact hv
    · exact hm e0 he0
  · intro e he
    rcases List.mem_append.mp he with he | he
    · exact hm e he
    · simp only [List.mem_singleton] at he
      subst he
      exact hv

/-- Erasing an entry keeps "every recorded set has exactly one id". -/
theorem ki_erase_single (m : List (key_image × List hash)) (k : key_image)
    (hm : ∀ e ∈ m, e.2.length = 1) : ∀ e ∈ ki_erase m k, e.2.length = 1 := by
  intro e he
  exact hm e (List.mem_filter.mp he).1

/-- The loop of `insert_key_images`, called with a relay method other than `block`, keeps
"every recorded set has exactly one id", whether it returns true or false. -/
theorem insert_key_images_loop_single (cfg : Config) (db : List txpool_row) (id : hash)
    (tx_relay : relay_method) (hr : tx_relay ≠ relay_method.block) (vin : List txin_v)
    (m : List (key_image × List hash)) (hm : ∀ e ∈ m, e.2.length = 1) :
    ∀ e ∈ (insert_key_images_loop cfg db id tx_relay vin m).2, e.2.length = 1 := by
  induction vin generalizing m with
  | nil => simpa [insert_key_images_loop] using hm
  | cons i rest ih =>
    unfold insert_key_images_loop
    cases hk : i.k_image? with
    | none => simpa using hm
    | some k =>
      simp only
      split
      · exact hm
      · rename_i h1
        split
        · split
          · exact ih m hm
          · exact hm
        · rename_i h2
          apply ih
          apply ki_set_single m k _ hm
          simp only [hr, ne_eq, not_false_eq_true, true_and, Bool.not_eq_true',
            decide_eq_false_iff_not, not_or, not_and, Decidable.not_not] at h1
          have h3 : (ki_find m k).getD [] = [] ∨
              (((ki_find m k).getD []).length = 1 ∧
                ((ki_find m k).getD []).head? = some id) := by
            by_contra hc
            simp only [not_or, not_and] at hc
            have := h1
            simp_all
          rcases h3 with h3 | ⟨h3, h4⟩
          · simp [h3]
          · exfalso
            apply h2
            match hset : (ki_find m k).getD [], h3, h4 with
            | [x], _, h4 =>
              simp only [List.head?_cons, Option.some.injEq] at h4
              simp [h4]

/-- The loop of `remove_transaction_keyimages` keeps "every recorded set has exactly one
id". -/
theorem remove_transaction_keyimages_loop_single (actual_hash : hash) (vin : List txin_v)
    (m : List (key_image × List hash)) (hm : ∀ e ∈ m, e.2.length = 1) :
    ∀ e ∈ (remove_transaction_keyimages_loop actual_hash vin m).2, e.2.length = 1 := by
  induction vin generalizing m with
  | nil => simpa [remove_transaction_keyimages_loop] using hm
  | cons i rest ih =>
    unfold remove_transaction_keyimages_loop
    cases hk : i.k_image? with
    | none => simpa using hm
    | some k =>
      simp only
      cases hf : ki_find m k with
      | none => simpa using hm
      | some ids =>
        simp only
        have hlen : ids.length = 1 := hm _ (ki_find_mem m k ids hf)
        split
        · exact hm
        · split
          · exact hm
          · rename_i h2
            split
            · exact ih _ (ki_erase_single m k hm)
            · rename_i h3
              exfalso
              apply h3
              have hin : actual_hash ∈ ids := by simpa using h2
              rw [List.length_erase_of_mem hin, hlen]

/-- What `insert_key_images` changes: the index is the one its loop leaves, the cookie is
incremented on success, every other member is untouched. -/
theorem insert_key_images_frame (cfg : Config) (pool : tx_memory_pool) (tx : transaction)
    (id : hash) (tx_relay : relay_method) :
    (insert_key_images cfg pool tx id tx_relay).1 =
      (insert_key_images_loop cfg pool.txpool id tx_relay tx.vin pool.m_spent_key_images).1 ∧
    (insert_key_images cfg pool tx id tx_relay).2 =
      { pool with
        m_spent_key_images :=
          (insert_key_images_loop cfg pool.txpool id tx_relay tx.vin pool.m_spent_key_images).2
        m_cookie :=
          if (insert_key_images_loop cfg pool.txpool id tx_relay tx.vin
            pool.m_spent_key_images).1 then pool.m_cookie + 1 else pool.m_cookie } := by
  unfold insert_key_images
  split <;> rename_i h <;> simp [h]

/-- What `remove_transaction_keyimages` changes: the index is the one its loop leaves, the
cookie is incremented on success, every other member is untouched. -/
theorem remove_transaction_keyimages_frame (pool : tx_memory_pool) (tx : transaction)
    (actual_hash : hash) :
    (remove_transaction_keyimages pool tx actual_hash).2 =
      { pool with
        m_spent_key_images :=
          (remove_transaction_keyimages_loop actual_hash tx.vin pool.m_spent_key_images).2
        m_cookie :=
          if (remove_transaction_keyimages_loop actual_hash tx.vin pool.m_spent_key_images).1
          then pool.m_cookie + 1 else pool.m_cookie } := by
  unfold remove_transaction_keyimages
  split <;> rename_i h <;> simp [h]

/-- The loop of `prune` keeps "every recorded set has exactly one id". -/
theorem prune_loop_single (bytes : Nat) (l : List tx_by_fee_and_receive_time_entry)
    (pool : tx_memory_pool) (changed : Bool)
    (hm : ∀ e ∈ pool.m_spent_key_images, e.2.length = 1) :
    ∀ e ∈ (prune_loop bytes l (pool, changed)).2.1.m_spent_key_images, e.2.length = 1 := by
  induction l generalizing pool changed with
  | nil => simpa [prune_loop] using hm
  | cons it rest ih =>
    unfold prune_loop
    split
    · exact hm
    · split
      · exact hm
      · split
        · exact ih pool changed hm
        · split
          · exact hm
          · apply ih
            rw [remove_transaction_keyimages_frame]
            exact remove_transaction_keyimages_loop_single _ _ _ hm

/-- `prune` keeps "every recorded set has exactly one id". -/
theorem prune_single (pool : tx_memory_pool) (bytes : Nat)
    (hm : ∀ e ∈ pool.m_spent_key_images, e.2.length = 1) :
    ∀ e ∈ (prune pool bytes).m_spent_key_images, e.2.length = 1 := by
  unfold prune
  simp only
  have := prune_loop_single (if bytes = 0 then pool.m_txpool_max_weight else bytes)
    pool.m_txs_by_fee_and_receive_time.tail.reverse pool false hm
  split <;> rename_i h <;> rw [h] at this <;> exact this

/-- The index `take_tx` leaves: the one before the call, or the one the loop of
`remove_transaction_keyimages` leaves for the stored transaction. -/
theorem take_tx_index (pool : tx_memory_pool) (id : hash) :
    (take_tx pool id).2.m_spent_key_images = pool.m_spent_key_images ∨
    ∃ tx : transaction, (take_tx pool id).2.m_spent_key_images =
      (remove_transaction_keyimages_loop id tx.vin pool.m_spent_key_images).2 := by
  unfold take_tx
  cases h1 : get_txpool_tx_meta pool.txpool id with
  | none => left; simp
  | some m =>
    cases h2 : get_txpool_tx_blob pool.txpool id with
    | none => left; simp
    | some blob =>
      right
      refine ⟨match pool.m_parsed_tx_cache.find? (fun c => c.1 = id) with
        | some ci => ci.2
        | none => blob, ?_⟩
      simp only [remove_transaction_keyimages_frame]
      cases find_tx_in_sorted_container pool id <;> simp

/-- `take_tx` keeps "every recorded set has exactly one id". -/
theorem take_tx_single (pool : tx_memory_pool) (id : hash)
    (hm : ∀ e ∈ pool.m_spent_key_images, e.2.length = 1) :
    ∀ e ∈ (take_tx pool id).2.m_spent_key_images, e.2.length = 1 := by
  rcases take_tx_index pool id with h | ⟨tx, h⟩
  · rw [h]; exact hm
  · rw [h]; exact remove_transaction_keyimages_loop_single _ _ _ hm

/-- The scan of `remove_stuck_transactions` leaves the index as it is. -/
theorem remove_stuck_scan_index (cfg : Config) (bc_height now : Nat) (rows : List txpool_row)
    (pool : tx_memory_pool) (remove : List (hash × Nat)) :
    (remove_stuck_scan cfg bc_height now rows (pool, remove)).1.m_spent_key_images =
      pool.m_spent_key_images := by
  induction rows generalizing pool remove with
  | nil => simp [remove_stuck_scan]
  | cons row rest ih =>
    unfold remove_stuck_scan
    simp only
    split
    · rw [ih]
      cases find_tx_in_sorted_container pool row.id <;> simp
    · rw [ih]

/-- The removal loop of `remove_stuck_transactions` keeps "every recorded set has exactly one
id". -/
theorem remove_stuck_apply_single (remove : List (hash × Nat)) (pool : tx_memory_pool)
    (hm : ∀ e ∈ pool.m_spent_key_images, e.2.length = 1) :
    ∀ e ∈ (remove_stuck_apply remove pool).m_spent_key_images, e.2.length = 1 := by
  induction remove generalizing pool with
  | nil => simpa [remove_stuck_apply] using hm
  | cons entry rest ih =>
    unfold remove_stuck_apply
    split
    · exact ih pool hm
    · apply ih
      rw [remove_transaction_keyimages_frame]
      exact remove_transaction_keyimages_loop_single _ _ _ hm

/-- `remove_stuck_transactions` keeps "every recorded set has exactly one id". -/
theorem remove_stuck_transactions_single (cfg : Config) (bc : Blockchain) (now : Nat)
    (pool : tx_memory_pool) (hm : ∀ e ∈ pool.m_spent_key_images, e.2.length = 1) :
    ∀ e ∈ (remove_stuck_transactions cfg bc now pool).m_spent_key_images, e.2.length = 1 := by
  unfold remove_stuck_transactions
  have h1 := remove_stuck_scan_index cfg bc.get_current_blockchain_height now pool.txpool pool []
  split
  rename_i pool1 remove heq
  rw [heq] at h1
  simp only at h1
  split
  · simp only
    exact remove_stuck_apply_single remove pool1 (by rw [h1]; exact hm)
  · rw [h1]; exact hm

/-- `mark_double_spend` leaves every member but the table and the cookie as it is. -/
theorem mark_double_spend_frame (pool : tx_memory_pool) (tx : transaction) :
    ∃ db c, mark_double_spend pool tx = { pool with txpool := db, m_cookie := c } := by
  unfold mark_double_spend
  split
  · exact ⟨_, _, rfl⟩
  · exact ⟨pool.txpool, pool.m_cookie, rfl⟩

/-- The pool's own `check_tx_inputs` leaves every member but `m_input_cache` as it is. -/
theorem check_tx_inputs_frame (bc : Blockchain) (pool : tx_memory_pool) (tx : transaction)
    (txid : hash) (tvc : tx_verification_context) (kept_by_block : Bool) :
    ∃ c, (check_tx_inputs bc pool tx txid tvc kept_by_block).2.2.2.2 =
      { pool with m_input_cache := c } := by
  unfold check_tx_inputs
  split
  · exact ⟨pool.m_input_cache, rfl⟩
  · split
    split
    · exact ⟨_, rfl⟩
    · exact ⟨pool.m_input_cache, rfl⟩

/-- The guard of `get_xhv_fee_amount` keeps its conversions away from a zero divisor: the
function always returns. -/
theorem get_xhv_fee_amount_isSome (cfg : Config) (fee_asset : String) (fee_amount : Nat)
    (tt : transaction_type) (pr : pricing_record) (hf_version : Nat) :
    (get_xhv_fee_amount cfg fee_asset fee_amount tt pr hf_version).isSome = true := by
  unfold get_xhv_fee_amount
  split
  · rfl
  · rename_i hg
    split
    · rfl
    · rename_i hx
      have hr : pr.unused1 ≠ 0 ∧ pr.xUSD ≠ 0 ∧ pr.rate fee_asset ≠ 0 := by
        simp only [ne_eq, not_and, not_or] at hg
        exact hg hx
      have hxhv : ∀ x, (get_xhv_amount cfg x pr tt hf_version).isSome = true := by
        intro x
        unfold get_xhv_amount
        simp only
        generalize hE : (if hf_version ≥ cfg.HF_PER_OUTPUT_UNLOCK_VERSION then
          if tt = transaction_type.ONSHORE then max pr.unused1 pr.xUSD
          else min pr.unused1 pr.xUSD
          else pr.unused1) = E
        have hne : E ≠ 0 := by
          rw [← hE]
          split_ifs <;> omega
        simp [hne]
      split
      · exact hxhv _
      · rename_i hu
        have : ∃ y, get_xusd_amount cfg fee_amount fee_asset pr tt hf_version = some y := by
          unfold get_xusd_amount
          simp only [hu, hx, if_false, hr.2.2]
          exact ⟨_, rfl⟩
        obtain ⟨y, hy⟩ := this
        rw [hy]
        exact hxhv y

/-- The computation of the fee-order key never fails. -/
theorem add_tx2_emplace_isSome (cfg : Config) (bc : Blockchain) (m : txpool_tx_meta_t)
    (tvc : tx_verification_context) (id : hash) (tx_weight receive_time version : Nat)
    (order : List tx_by_fee_and_receive_time_entry) :
    ∃ r, add_tx2_emplace cfg bc m tvc id tx_weight receive_time version order = some r := by
  unfold add_tx2_emplace
  simp only
  generalize (if tvc.pr.empty = true then
      match bc.get_latest_acceptable_pr with
      | none => (tvc, (m.fee + m.offshore_fee) % 2 ^ 64)
      | some pr => ({ tvc with pr := pr }, 0)
    else (tvc, 0)) = loaded
  by_cases h : loaded.2 ≠ 0
  · rw [if_pos h]
    exact ⟨_, rfl⟩
  · rw [if_neg h]
    obtain ⟨y, hy⟩ := Option.isSome_iff_exists.mp
      (get_xhv_fee_amount_isSome cfg m.fee_asset_type ((m.fee + m.offshore_fee) % 2 ^ 64)
        loaded.1.m_type loaded.1.pr version)
    rw [hy]
    exact ⟨_, rfl⟩

/-- Adding a row right after removing its id never fails. -/
theorem add_after_remove_isSome (db : List txpool_row) (id : hash) (tx : transaction)
    (m : txpool_tx_meta_t) :
    ∃ db1, add_txpool_tx (remove_txpool_tx db id) id tx m = some db1 := by
  unfold add_txpool_tx remove_txpool_tx
  split
  · rename_i h
    simp at h
  · exact ⟨_, rfl⟩

/-- The pool `add_tx2_store` leaves is the one `insert_key_images` leaves, up to the table and
the fee order. -/
theorem add_tx2_store_pool (cfg : Config) (bc : Blockchain) (now : Nat) (pool : tx_memory_pool)
    (tx : transaction) (id : hash) (tx_weight : Nat) (tvc : tx_verification_context)
    (m : txpool_tx_meta_t) (tx_relay : relay_method) (version : Nat) :
    ∃ db order, (add_tx2_store cfg bc now pool tx id tx_weight tvc m tx_relay version).pool =
      { (insert_key_images cfg pool tx id tx_relay).2 with
        txpool := db, m_txs_by_fee_and_receive_time := order } := by
  unfold add_tx2_store
  split
  · rename_i pool1 h
    rw [h]
    exact ⟨pool1.txpool, pool1.m_txs_by_fee_and_receive_time, rfl⟩
  · rename_i pool1 h
    rw [h]
    split
    · exact ⟨pool1.txpool, pool1.m_txs_by_fee_and_receive_time, rfl⟩
    · split
      · exact ⟨pool1.txpool, pool1.m_txs_by_fee_and_receive_time, rfl⟩
      · exact ⟨_, _, rfl⟩

/-- When the loop of `insert_key_images` succeeds, `add_tx2_store` reaches the common tail. -/
theorem add_tx2_store_yes (cfg : Config) (bc : Blockchain) (now : Nat) (pool : tx_memory_pool)
    (tx : transaction) (id : hash) (tx_weight : Nat) (tvc : tx_verification_context)
    (m : txpool_tx_meta_t) (tx_relay : relay_method) (version : Nat)
    (h : (insert_key_images_loop cfg pool.txpool id tx_relay tx.vin
      pool.m_spent_key_images).1 = true) :
    ∃ t p, add_tx2_store cfg bc now pool tx id tx_weight tvc m tx_relay version =
      inserted.yes t p := by
  have hf := (insert_key_images_frame cfg pool tx id tx_relay).1
  rw [h] at hf
  unfold add_tx2_store
  split
  · rename_i pool1 h1
    rw [h1] at hf
    cases hf
  · rename_i pool1 h1
    obtain ⟨db1, hdb⟩ := add_after_remove_isSome pool1.txpool id tx m
    rw [hdb]
    simp only
    obtain ⟨r, hr⟩ := add_tx2_emplace_isSome cfg bc m tvc id tx_weight now version
      pool1.m_txs_by_fee_and_receive_time
    rw [hr]
    exact ⟨_, _, rfl⟩

/-- Assigning the set of one key leaves the lookup of every other key as it is. -/
theorem ki_find_ki_set_ne (m : List (key_image × List hash)) (k k2 : key_image)
    (v : List hash) (hk : k2 ≠ k) : ki_find (ki_set m k v) k2 = ki_find m k2 := by
  unfold ki_set ki_find
  split
  · congr 1
    clear * - hk
    induction m with
    | nil => rfl
    | cons e rest ih =>
      simp only [List.map_cons, List.find?_cons]
      by_cases he : e.1 = k
      · have h1 : ¬ e.1 = k2 := fun hc => hk (hc.symm.trans he)
        simp only [he, if_true, h1, decide_False, (Ne.symm hk), ih]
      · simp only [he, if_false, ih]
  · rw [List.find?_append]
    have : List.find? (fun e => decide (e.1 = k2)) [(k, v)] = none := by
      simp [List.find?_cons, Ne.symm hk]
    rw [this]
    simp

/-- When `have_tx_keyimges_as_spent` returns false on supported inputs, `have_tx_keyimg_as_spent`
is false of every input's key image. -/
theorem have_tx_keyimges_as_spent_loop_false (cfg : Config) (pool : tx_memory_pool)
    (txid : hash) (vin : List txin_v) (hsup : ∀ i ∈ vin, i.k_image?.isSome = true)
    (h : have_tx_keyimges_as_spent_loop cfg pool txid vin = false) :
    ∀ i ∈ vin, ∀ k, i.k_image? = some k → have_tx_keyimg_as_spent cfg pool k txid = false := by
  induction vin with
  | nil => simp
  | cons j rest ih =>
    have hsup2 : ∀ i ∈ rest, i.k_image?.isSome = true :=
      fun i hi => hsup i (List.mem_cons_of_mem _ hi)
    intro i hi k hk
    unfold have_tx_keyimges_as_spent_loop at h
    cases hj : j.k_image? with
    | none =>
      have := hsup j (List.mem_cons_self _ _)
      rw [hj] at this
      cases this
    | some kj =>
      simp only [hj] at h
      by_cases hs : have_tx_keyimg_as_spent cfg pool kj txid = true
      · simp [hs] at h
      · simp only [hs, if_false] at h
        rcases List.mem_cons.mp hi with rfl | hi
        · rw [hj] at hk
          cases hk
          simpa using hs
        · exact ih hsup2 h i hi k hk

/-- What a false `have_tx_keyimg_as_spent` says of the recorded set: it is empty, or it is
`{txid}` and the transaction is not in the legacy category. -/
theorem have_tx_keyimg_as_spent_false (cfg : Config) (pool : tx_memory_pool) (k : key_image)
    (txid : hash) (h : have_tx_keyimg_as_spent cfg pool k txid = false) :
    (ki_find pool.m_spent_key_images k).getD [] = [] ∨
      ((ki_find pool.m_spent_key_images k).getD [] = [txid] ∧
        txpool_tx_matches_category_legacy cfg pool.txpool txid = false) := by
  unfold have_tx_keyimg_as_spent at h
  cases hf : ki_find pool.m_spent_key_images k with
  | none => left; rfl
  | some found =>
    simp only [hf] at h
    simp only [Option.getD_some]
    match found, h with
    | [], _ => left; rfl
    | [x], h =>
      right
      simp only [ne_eq, List.cons_ne_self, not_false_eq_true, if_true, List.length_singleton,
        lt_self_iff_false, List.head?_cons, Option.some.injEq, false_or] at h
      by_cases hx : x = txid
      · subst hx
        simp only [not_true_eq_false, if_false] at h
        exact ⟨rfl, h⟩
      · simp [hx] at h
    | x :: y :: rest, h =>
      simp at h

/-- After a false double-spend pre-check, on supported inputs with pairwise distinct key images,
the loop of `insert_key_images` returns true. -/
theorem insert_key_images_loop_true (cfg : Config) (db : List txpool_row) (id : hash)
    (tx_relay : relay_method) (vin : List txin_v) (m : List (key_image × List hash))
    (hsup : ∀ i ∈ vin, i.k_image?.isSome = true)
    (hpre : ∀ i ∈ vin, ∀ k, i.k_image? = some k →
      (ki_find m k).getD [] = [] ∨
        ((ki_find m k).getD [] = [id] ∧ txpool_tx_matches_category_legacy cfg db id = false))
    (hnd : (vin.filterMap txin_v.k_image?).Nodup) :
    (insert_key_images_loop cfg db id tx_relay vin m).1 = true := by
  induction vin generalizing m with
  | nil => rfl
  | cons i rest ih =>
    have hsup2 : ∀ j ∈ rest, j.k_image?.isSome = true :=
      fun j hj => hsup j (List.mem_cons_of_mem _ hj)
    unfold insert_key_images_loop
    cases hk : i.k_image? with
    | none =>
      have := hsup i (List.mem_cons_self _ _)
      rw [hk] at this
      cases this
    | some k =>
      simp only
      rw [List.filterMap_cons, hk] at hnd
      simp only [List.nodup_cons] at hnd
      rcases hpre i (List.mem_cons_self _ _) k hk with h0 | ⟨h1, hl⟩
      · rw [h0]
        simp only [List.length_nil, List.head?_nil, true_or, decide_True, Bool.not_true,
          Bool.false_eq_true, and_false, if_false, List.not_mem_nil, List.nil_append]
        apply ih _ hsup2 _ hnd.2
        intro j hj k2 hk2
        have hne : k2 ≠ k := by
          intro hc
          subst hc
          exact hnd.1 (List.mem_filterMap.mpr ⟨j, hj, hk2⟩)
        rw [ki_find_ki_set_ne m k k2 _ hne]
        exact hpre j (List.mem_cons_of_mem _ hj) k2 hk2
      · rw [h1]
        simp only [List.length_singleton, List.head?_cons, and_self, or_true, decide_True,
          Bool.not_true, Bool.false_eq_true, and_false, if_false, List.mem_singleton, if_true,
          hl, Bool.not_false]
        apply ih _ hsup2 _ hnd.2
        intro j hj k2 hk2
        exact hpre j (List.mem_cons_of_mem _ hj) k2 hk2

/-- The relay method after the Dandelion++ loop test is `block` only if it was. -/
theorem add_tx2_loop_relay_ne_block (existing : Option txpool_tx_meta_t)
    (tx_relay : relay_method) (hr : tx_relay ≠ relay_method.block) :
    add_tx2_loop_relay existing tx_relay ≠ relay_method.block := by
  unfold add_tx2_loop_relay
  split
  · split
    · decide
    · exact hr
  · exact hr

/-- With a relay method other than `block`, the insertion after a passed inputs check keeps
"every recorded set has exactly one id". -/
theorem add_tx2_insert_checked_single (cfg : Config) (bc : Blockchain) (now : Nat)
    (pool : tx_memory_pool) (tx : transaction) (id : hash) (tx_weight : Nat)
    (tvc : tx_verification_context) (meta0 : txpool_tx_meta_t) (max_used_block_height : Nat)
    (max_used_block_id : hash) (tx_relay : relay_method) (relayed : Bool) (version : Nat)
    (hr : tx_relay ≠ relay_method.block)
    (hm : ∀ e ∈ pool.m_spent_key_images, e.2.length = 1) :
    ∀ e ∈ (add_tx2_insert_checked cfg bc now pool tx id tx_weight tvc meta0
      max_used_block_height max_used_block_id tx_relay relayed version).pool.m_spent_key_images,
      e.2.length = 1 := by
  unfold add_tx2_insert_checked
  have hk : decide (tx_relay = relay_method.block) = false := by simpa using hr
  simp only [hk, Bool.false_eq_true, if_false]
  split
  · obtain ⟨db, order, h⟩ := add_tx2_store_pool cfg bc now pool tx id tx_weight tvc
      { (match get_txpool_tx_meta pool.txpool id with
          | some m => m
          | none => meta0.set_relay_method relay_method.none).upgrade_relay_method
            (add_tx2_loop_relay (get_txpool_tx_meta pool.txpool id) tx_relay) |>.2 with
        last_relayed_time := time_max
        receive_time := now
        weight := tx_weight
        fee := tx.rct_signatures.txnFee
        offshore_fee := tx.rct_signatures.txnOffshoreFee
        max_used_block_id := max_used_block_id
        max_used_block_height := max_used_block_height
        last_failed_height := 0
        last_failed_id := null_hash
        relayed := relayed
        double_spend_seen := false
        pruned := tx.pruned }
      (add_tx2_loop_relay (get_txpool_tx_meta pool.txpool id) tx_relay) version
    rw [h, (insert_key_images_frame cfg pool tx id _).2]
    exact insert_key_images_loop_single cfg pool.txpool id _
      (add_tx2_loop_relay_ne_block _ _ hr) tx.vin _ hm
  · exact hm

/-- With a relay method other than `block`, the inputs check and the insertion keep "every
recorded set has exactly one id". -/
theorem add_tx2_insert_branch_single (cfg : Config) (bc : Blockchain) (now : Nat)
    (pool : tx_memory_pool) (tx : transaction) (id : hash) (tx_weight : Nat)
    (tvc : tx_verification_context) (source : String) (tx_relay : relay_method)
    (relayed : Bool) (version : Nat) (hr : tx_relay ≠ relay_method.block)
    (hm : ∀ e ∈ pool.m_spent_key_images, e.2.length = 1) :
    ∀ e ∈ (add_tx2_insert_branch cfg bc now pool tx id tx_weight tvc source tx_relay relayed
      version).pool.m_spent_key_images, e.2.length = 1 := by
  unfold add_tx2_insert_branch
  have hk : decide (tx_relay = relay_method.block) = false := by simpa using hr
  simp only [hk, Bool.false_eq_true, if_false]
  obtain ⟨c, hc⟩ := check_tx_inputs_frame bc pool tx id tvc.failed false
  generalize check_tx_inputs bc pool tx id tvc.failed false = r at hc ⊢
  obtain ⟨res, h1, bid, tvc2, pool2⟩ := r
  simp only at hc ⊢
  subst hc
  split
  · exact hm
  · exact add_tx2_insert_checked_single cfg bc now _ tx id tx_weight tvc2 _ h1 bid
      tx_relay relayed version hr hm

/-- The common tail keeps "every recorded set has exactly one id". -/
theorem add_tx2_tail_single (tx_weight : Nat) (r : inserted)
    (hm : ∀ e ∈ r.pool.m_spent_key_images, e.2.length = 1) :
    ∀ e ∈ (add_tx2_tail tx_weight r).pool.m_spent_key_images, e.2.length = 1 := by
  cases r with
  | no t p => exact hm
  | yes t p =>
    unfold add_tx2_tail
    simp only
    exact prune_single _ _ hm

/-- With a relay method other than `block`, `add_tx2` keeps "every recorded set has exactly one
id", whatever it returns. -/
theorem add_tx2_single (cfg : Config) (bc : Blockchain) (now : Nat) (pool : tx_memory_pool)
    (tx : transaction) (id : hash) (tx_weight : Nat) (tvc : tx_verification_context)
    (tx_relay : relay_method) (relayed : Bool) (version : Nat)
    (hr : tx_relay ≠ relay_method.block)
    (hm : ∀ e ∈ pool.m_spent_key_images, e.2.length = 1) :
    ∀ e ∈ (add_tx2 cfg bc now pool tx id tx_weight tvc tx_relay relayed
      version).pool.m_spent_key_images, e.2.length = 1 := by
  unfold add_tx2
  simp only
  split
  · exact hm
  · exact hm
  · split
    · obtain ⟨db, c, h⟩ := mark_double_spend_frame pool tx
      rw [h]
      exact hm
    · split
      · exact hm
      · unfold add_tx2_insert
        exact add_tx2_tail_single _ _
          (add_tx2_insert_branch_single cfg bc now pool tx id tx_weight _ _ tx_relay relayed
            version hr hm)

/-- In every pool state reachable without `block` relays every recorded set has exactly one
id. -/
theorem reachable_single (cfg : Config) (pool : tx_memory_pool)
    (h : reachable_without_block cfg pool) :
    ∀ e ∈ pool.m_spent_key_images, e.2.length = 1 := by
  induction h with
  | init w => simp [tx_memory_pool.init]
  | add_tx2 pool bc now tx id tx_weight tvc tx_relay relayed version _ hr ih =>
    exact add_tx2_single cfg bc now pool tx id tx_weight tvc tx_relay relayed version hr ih
  | take_tx pool id _ ih => exact take_tx_single pool id ih
  | prune pool bytes _ ih => exact prune_single pool bytes ih
  | remove_stuck_transactions pool bc now _ ih =>
    exact remove_stuck_transactions_single cfg bc now pool ih

/-- A key image recorded for another id makes `have_tx_keyimg_as_spent` true. -/
theorem have_tx_keyimg_as_spent_of_other (cfg : Config) (pool : tx_memory_pool)
    (k : key_image) (txid other : hash) (ids : List hash)
    (hf : ki_find pool.m_spent_key_images k = some ids) (hin : other ∈ ids)
    (hne : other ≠ txid) : have_tx_keyimg_as_spent cfg pool k txid = true := by
  unfold have_tx_keyimg_as_spent
  simp only [hf]
  match ids, hin with
  | [x], hin =>
    simp only [List.mem_singleton] at hin
    subst hin
    simp [hne]
  | x :: y :: rest, _ => simp

/-- On supported inputs, a key image recorded for another id makes `have_tx_keyimges_as_spent`
true. -/
theorem have_tx_keyimges_as_spent_loop_of_other (cfg : Config) (pool : tx_memory_pool)
    (txid : hash) (vin : List txin_v) (hsup : ∀ i ∈ vin, i.k_image?.isSome = true)
    (hcol : ∃ i ∈ vin, ∃ k ids other, i.k_image? = some k ∧
      ki_find pool.m_spent_key_images k = some ids ∧ other ∈ ids ∧ other ≠ txid) :
    have_tx_keyimges_as_spent_loop cfg pool txid vin = true := by
  by_contra hc
  have hfalse : have_tx_keyimges_as_spent_loop cfg pool txid vin = false := by
    simpa using hc
  obtain ⟨i, hi, k, ids, other, hk, hf, hin, hne⟩ := hcol
  have h1 := have_tx_keyimges_as_spent_loop_false cfg pool txid vin hsup hfalse i hi k hk
  rw [have_tx_keyimg_as_spent_of_other cfg pool k txid other ids hf hin hne] at h1
  cases h1

/-- C1 (counterexample).  In the pool reached by admitting the XHV transfer (key image 101,
id 12), `add_tx2` with relay method `fluff` for a transaction with id 15 that spends key image
101 again and pays no fee returns false at the fee check, and `tvc.m_double_spend` is not
set. -/
theorem add_tx2_double_spend_flag_not_set :
    reachable_without_block havenConfig example_pool ∧
    ki_find example_pool.m_spent_key_images 101 = some [12] ∧
    txin_v.txin_to_key 0 101 ∈ example_free_double_spend_tx.vin ∧
    (add_tx2 havenConfig example_chain 1001 example_pool example_free_double_spend_tx 15 2000
      empty_tvc relay_method.fluff false 20).ret = some false ∧
    (add_tx2 havenConfig example_chain 1001 example_pool example_free_double_spend_tx 15 2000
      empty_tvc relay_method.fluff false 20).tvc.m_double_spend = false ∧
    (add_tx2 havenConfig example_chain 1001 example_pool example_free_double_spend_tx 15 2000
      empty_tvc relay_method.fluff false 20).tvc.m_fee_too_low = true := by
  refine ⟨?_, by decide, by decide, by decide, by decide, by decide⟩
  unfold example_pool
  exact reachable_without_block.add_tx2 _ _ _ _ _ _ _ _ _ _
    (reachable_without_block.init _) (by decide)

/-- C1 (amended).  In every pool state reachable from the empty pool by `add_tx2` calls whose
relay method is not `block` (interleaved with `take_tx`, `prune` and
`remove_stuck_transactions`), each key image in the key-image index maps to exactly one
transaction id; and `add_tx2` with a relay method other than `block` never admits a transaction
one of whose input key images is recorded for a different id: it returns false with
`tvc.m_double_spend` set whenever the transaction passes the checks that precede the key-image
test. -/
theorem key_image_single_owner (cfg : Config) :
    (∀ pool, reachable_without_block cfg pool →
      ∀ k ids, ki_find pool.m_spent_key_images k = some ids → ∃ id, ids = [id]) ∧
    (∀ (bc : Blockchain) (now : Nat) (pool : tx_memory_pool) (tx : transaction) (id : hash)
      (tx_weight : Nat) (tvc : tx_verification_context) (tx_relay : relay_method)
      (relayed : Bool) (version : Nat),
      tx_relay ≠ relay_method.block →
      (∃ i ∈ tx.vin, ∃ k ids other, i.k_image? = some k ∧
        ki_find pool.m_spent_key_images k = some ids ∧ other ∈ ids ∧ other ≠ id) →
      (add_tx2 cfg bc now pool tx id tx_weight tvc tx_relay relayed version).ret ≠ some true ∧
      (∀ source dest tx_type tvc1,
        add_tx2_checks cfg bc pool tx id tx_weight tvc tx_relay version =
          checked.ok (source, dest, tx_type, tvc1) →
        (add_tx2 cfg bc now pool tx id tx_weight tvc tx_relay relayed version).ret = some false ∧
        (add_tx2 cfg bc now pool tx id tx_weight tvc tx_relay relayed
          version).tvc.m_double_spend = true)) := by
  constructor
  · intro pool hreach k ids hf
    have h1 := reachable_single cfg pool hreach _ (ki_find_mem _ k ids hf)
    match ids, h1 with
    | [x], _ => exact ⟨x, rfl⟩
  · intro bc now pool tx id tx_weight tvc tx_relay relayed version hr hcol
    have hk : decide (tx_relay = relay_method.block) = false := by simpa using hr
    have main : ∀ source dest tx_type tvc1,
        add_tx2_checks cfg bc pool tx id tx_weight tvc tx_relay version =
          checked.ok (source, dest, tx_type, tvc1) →
        (add_tx2 cfg bc now pool tx id tx_weight tvc tx_relay relayed version).ret = some false ∧
        (add_tx2 cfg bc now pool tx id tx_weight tvc tx_relay relayed
          version).tvc.m_double_spend = true := by
      intro source dest tx_type tvc1 hc
      obtain ⟨_, hsup, _⟩ := add_tx2_checks_ok cfg bc pool tx id tx_weight tvc tx_relay version
        source dest tx_type tvc1 hc
      have hsup2 : ∀ i ∈ tx.vin, i.k_image?.isSome = true := by
        unfold check_inputs_types_supported at hsup
        exact List.all_eq_true.mp hsup
      have hspent : have_tx_keyimges_as_spent cfg pool tx id = true :=
        have_tx_keyimges_as_spent_loop_of_other cfg pool id tx.vin hsup2 hcol
      unfold add_tx2
      simp only [hc, hk, hspent, Bool.not_false, and_self, if_true]
    refine ⟨?_, main⟩
    intro htrue
    obtain ⟨source, dest, tx_type, tvc1, hc⟩ :=
      add_tx2_true_checks cfg bc now pool tx id tx_weight tvc tx_relay relayed version htrue
    have := (main source dest tx_type tvc1 hc).1
    rw [htrue] at this
    cases this

/-- C1 (amended) at a concrete input: in the pool reached by admitting the XHV transfer, key
image 101 maps to the one id 12, and the second spend of key image 101 under id 14 passes the
earlier checks and is rejected with `tvc.m_double_spend` set. -/
theorem key_image_single_owner_witness :
    reachable_without_block havenConfig example_pool ∧
    ki_find example_pool.m_spent_key_images 101 = some [12] ∧
    (∃ id, [(12 : hash)] = [id]) ∧
    (add_tx2 havenConfig example_chain 1001 example_pool example_double_spend_tx 14 2000
      empty_tvc relay_method.fluff false 20).ret = some false ∧
    (add_tx2 havenConfig example_chain 1001 example_pool example_double_spend_tx 14 2000
      empty_tvc relay_method.fluff false 20).tvc.m_double_spend = true :=
  have hreach : reachable_without_block havenConfig example_pool := by
    unfold example_pool
    exact reachable_without_block.add_tx2 _ _ _ _ _ _ _ _ _ _
      (reachable_without_block.init _) (by decide)
  ⟨hreach, by decide,
    (key_image_single_owner havenConfig).1 example_pool hreach 101 [12] (by decide),
    by decide, by decide⟩

/-! ## Rejections -/

/-- Setting the `double_spend_seen` flag of the row stored under an id changes the table in
that flag only. -/
theorem update_txpool_tx_flag (db : List txpool_row) (txid : hash) (m : txpool_tx_meta_t)
    (h : get_txpool_tx_meta db txid = some m) (b : Bool) :
    (update_txpool_tx db txid { m with double_spend_seen := b }).map
        txpool_row.without_double_spend_seen =
      db.map txpool_row.without_double_spend_seen := by
  induction db with
  | nil => rfl
  | cons r rest ih =>
    unfold update_txpool_tx
    unfold get_txpool_tx_meta at h
    simp only [List.find?_cons] at h
    by_cases hr : r.id = txid
    · simp only [hr, decide_True, Option.map_some', Option.some.injEq] at h
      subst h
      rw [if_pos hr, List.map_cons, List.map_cons]
      rfl
    · simp only [hr, decide_False] at h
      rw [if_neg hr, List.map_cons, List.map_cons, ih h]

/-- The inner loop of `mark_double_spend` changes the table in `double_spend_seen` flags
only. -/
theorem mark_double_spend_ids_flag (ids : List hash) (db : List txpool_row) (changed : Bool) :
    (mark_double_spend_ids ids (db, changed)).1.map txpool_row.without_double_spend_seen =
      db.map txpool_row.without_double_spend_seen := by
  induction ids generalizing db changed with
  | nil => rfl
  | cons txid rest ih =>
    unfold mark_double_spend_ids
    cases hm : get_txpool_tx_meta db txid with
    | none => exact ih db changed
    | some m =>
      simp only
      split
      · rw [ih]
        exact update_txpool_tx_flag db txid m hm true
      · exact ih db changed

/-- The outer loop of `mark_double_spend` changes the table in `double_spend_seen` flags
only. -/
theorem mark_double_spend_loop_flag (index : List (key_image × List hash)) (vin : List txin_v)
    (db : List txpool_row) (changed : Bool) (r : List txpool_row × Bool)
    (h : mark_double_spend_loop index vin (db, changed) = some r) :
    r.1.map txpool_row.without_double_spend_seen =
      db.map txpool_row.without_double_spend_seen := by
  induction vin generalizing db changed with
  | nil =>
    simp only [mark_double_spend_loop, Option.some.injEq] at h
    subst h
    rfl
  | cons i rest ih =>
    unfold mark_double_spend_loop at h
    cases hk : i.k_image? with
    | none => simp [hk] at h
    | some k =>
      simp only [hk] at h
      cases hf : ki_find index k with
      | none =>
        simp only [hf] at h
        exact ih db changed h
      | some ids =>
        simp only [hf] at h
        have := ih (mark_double_spend_ids ids (db, changed)).1
          (mark_double_spend_ids ids (db, changed)).2 h
        rw [this]
        exact mark_double_spend_ids_flag ids db changed

/-- What `mark_double_spend` changes: `double_spend_seen` flags in the table, and the cookie by
at most one. -/
theorem mark_double_spend_effect (pool : tx_memory_pool) (tx : transaction) :
    ∃ db c, mark_double_spend pool tx = { pool with txpool := db, m_cookie := c } ∧
      db.map txpool_row.without_double_spend_seen =
        pool.txpool.map txpool_row.without_double_spend_seen ∧
      (c = pool.m_cookie ∨ c = pool.m_cookie + 1) := by
  unfold mark_double_spend
  cases h : mark_double_spend_loop pool.m_spent_key_images tx.vin (pool.txpool, false) with
  | none => exact ⟨pool.txpool, pool.m_cookie, rfl, rfl, Or.inl rfl⟩
  | some r =>
    obtain ⟨db, changed⟩ := r
    refine ⟨db, _, rfl, ?_, ?_⟩
    · exact mark_double_spend_loop_flag _ _ _ _ _ h
    · cases changed <;> simp

/-- A `return false` of `add_tx2_store` leaves the pool as `insert_key_images` left it. -/
theorem add_tx2_store_no (cfg : Config) (bc : Blockchain) (now : Nat) (pool : tx_memory_pool)
    (tx : transaction) (id : hash) (tx_weight : Nat) (tvc : tx_verification_context)
    (m : txpool_tx_meta_t) (tx_relay : relay_method) (version : Nat)
    (t : tx_verification_context) (p : tx_memory_pool)
    (h : add_tx2_store cfg bc now pool tx id tx_weight tvc m tx_relay version = inserted.no t p) :
    p = (insert_key_images cfg pool tx id tx_relay).2 := by
  unfold add_tx2_store at h
  split at h
  · rename_i pool1 h1
    rw [h1]
    simp only [inserted.no.injEq] at h
    exact h.2.symm
  · rename_i pool1 h1
    rw [h1]
    split at h
    · simp only [inserted.no.injEq] at h
      exact h.2.symm
    · split at h
      · simp only [inserted.no.injEq] at h
        exact h.2.symm
      · cases h

/-- A `return false` of the kept-by-block insertion leaves the pool as `insert_key_images` left
it, after the parsed transaction was cached. -/
theorem add_tx2_insert_kept_no (cfg : Config) (bc : Blockchain) (now : Nat)
    (pool : tx_memory_pool) (tx : transaction) (id : hash) (tx_weight : Nat)
    (tvc : tx_verification_context) (meta0 : txpool_tx_meta_t) (tx_relay : relay_method)
    (relayed : Bool) (version : Nat) (t : tx_verification_context) (p : tx_memory_pool)
    (h : add_tx2_insert_kept cfg bc now pool tx id tx_weight tvc meta0 tx_relay relayed version =
      inserted.no t p) :
    p = (insert_key_images cfg
      { pool with m_parsed_tx_cache := parsed_tx_cache_insert pool.m_parsed_tx_cache id tx }
      tx id tx_relay).2 := by
  unfold add_tx2_insert_kept at h
  simp only at h
  split at h
  · rename_i pool1 h1
    rw [h1]
    simp only [inserted.no.injEq] at h
    exact h.2.symm
  · rename_i pool1 h1
    rw [h1]
    split at h
    · simp only [inserted.no.injEq] at h
      exact h.2.symm
    · split at h
      · simp only [inserted.no.injEq] at h
        exact h.2.symm
      · cases h

/-- A `return false` of the insertion after a passed inputs check comes from `add_tx2_store`,
called on the pool (with the parsed transaction cached when kept by block) with the relay
method the Dandelion++ loop test leaves. -/
theorem add_tx2_insert_checked_no (cfg : Config) (bc : Blockchain) (now : Nat)
    (pool : tx_memory_pool) (tx : transaction) (id : hash) (tx_weight : Nat)
    (tvc : tx_verification_context) (meta0 : txpool_tx_meta_t) (max_used_block_height : Nat)
    (max_used_block_id : hash) (tx_relay : relay_method) (relayed : Bool) (version : Nat)
    (t : tx_verification_context) (p : tx_memory_pool)
    (h : add_tx2_insert_checked cfg bc now pool tx id tx_weight tvc meta0 max_used_block_height
      max_used_block_id tx_relay relayed version = inserted.no t p) :
    ∃ c m relay2,
      (tx_relay ≠ relay_method.block →
        relay2 ≠ relay_method.block ∧ c = pool.m_parsed_tx_cache) ∧
      add_tx2_store cfg bc now { pool with m_parsed_tx_cache := c } tx id tx_weight tvc m relay2
        version = inserted.no t p := by
  unfold add_tx2_insert_checked at h
  by_cases hk : tx_relay = relay_method.block
  · simp only [hk, decide_True, if_true] at h
    split at h
    · exact ⟨_, _, _, fun hc => absurd hk hc, h⟩
    · cases h
  · simp only [hk, decide_False, Bool.false_eq_true, if_false] at h
    split at h
    · exact ⟨pool.m_parsed_tx_cache, _, _,
        fun _ => ⟨add_tx2_loop_relay_ne_block _ _ hk, rfl⟩, h⟩
    · cases h

/-- What a `return false` of the inputs check and insertion leaves: the fee order, the weight,
the timed-out set and the table are untouched; with a relay method other than `block`, after a
false double-spend pre-check on supported inputs with pairwise distinct key images, the index
and the cookie are untouched as well. -/
theorem add_tx2_insert_branch_no (cfg : Config) (bc : Blockchain) (now : Nat)
    (pool : tx_memory_pool) (tx : transaction) (id : hash) (tx_weight : Nat)
    (tvc : tx_verification_context) (source : String) (tx_relay : relay_method)
    (relayed : Bool) (version : Nat) (t : tx_verification_context) (p : tx_memory_pool)
    (h : add_tx2_insert_branch cfg bc now pool tx id tx_weight tvc source tx_relay relayed
      version = inserted.no t p) :
    p.m_txs_by_fee_and_receive_time = pool.m_txs_by_fee_and_receive_time ∧
    p.m_txpool_weight = pool.m_txpool_weight ∧
    p.m_timed_out_transactions = pool.m_timed_out_transactions ∧
    p.txpool = pool.txpool ∧
    (tx_relay ≠ relay_method.block → (∀ i ∈ tx.vin, i.k_image?.isSome = true) →
      have_tx_keyimges_as_spent cfg pool tx id = false →
      (tx.vin.filterMap txin_v.k_image?).Nodup →
      p.m_spent_key_images = pool.m_spent_key_images ∧ p.m_cookie = pool.m_cookie) := by
  unfold add_tx2_insert_branch at h
  simp only at h
  obtain ⟨c, hc⟩ := check_tx_inputs_frame bc pool tx id tvc.failed
    (decide (tx_relay = relay_method.block))
  generalize check_tx_inputs bc pool tx id tvc.failed
    (decide (tx_relay = relay_method.block)) = r at hc h
  obtain ⟨res, h1, bid, tvc2, pool2⟩ := r
  simp only at hc h
  subst hc
  split at h
  · split at h
    · rename_i hkept
      have hp := add_tx2_insert_kept_no _ _ _ _ _ _ _ _ _ _ _ _ t p h
      rw [(insert_key_images_frame _ _ _ _ _).2] at hp
      subst hp
      refine ⟨rfl, rfl, rfl, rfl, ?_⟩
      intro hr
      simp [hr] at hkept
    · simp only [inserted.no.injEq] at h
      obtain ⟨_, rfl⟩ := h
      exact ⟨rfl, rfl, rfl, rfl, fun _ _ _ _ => ⟨rfl, rfl⟩⟩
  · obtain ⟨c2, m, relay2, hrel, hstore⟩ :=
      add_tx2_insert_checked_no _ _ _ _ _ _ _ _ _ _ _ _ _ _ t p h
    have hp := add_tx2_store_no _ _ _ _ _ _ _ _ _ _ _ t p hstore
    rw [(insert_key_images_frame _ _ _ _ _).2] at hp
    refine ⟨by rw [hp], by rw [hp], by rw [hp], by rw [hp], ?_⟩
    intro hr hsup hpre hnd
    exfalso
    have hloop : (insert_key_images_loop cfg pool.txpool id relay2 tx.vin
        pool.m_spent_key_images).1 = true := by
      apply insert_key_images_loop_true cfg pool.txpool id relay2 tx.vin _ hsup _ hnd
      intro i hi k hk
      exact have_tx_keyimg_as_spent_false cfg pool k id
        (have_tx_keyimges_as_spent_loop_false cfg pool id tx.vin hsup hpre i hi k hk)
    obtain ⟨t2, p2, hyes⟩ := add_tx2_store_yes cfg bc now
      { pool with m_input_cache := c, m_parsed_tx_cache := c2 } tx id tx_weight tvc2 m relay2
      version hloop
    rw [hyes] at hstore
    cases hstore

/-- C2 (amended).  Whenever `add_tx2` returns false, the fee order, `m_txpool_weight` and the
timed-out set are unchanged and the stored entries are unchanged except for their
`double_spend_seen` flags; when moreover the relay method is not `block` and the key images of
the transaction's inputs are pairwise distinct, the key-image index is unchanged and the cookie
is unchanged or incremented by one. -/
theorem add_tx2_false_frame (cfg : Config) (bc : Blockchain) (now : Nat)
    (pool : tx_memory_pool) (tx : transaction) (id : hash) (tx_weight : Nat)
    (tvc : tx_verification_context) (tx_relay : relay_method) (relayed : Bool) (version : Nat)
    (h : (add_tx2 cfg bc now pool tx id tx_weight tvc tx_relay relayed version).ret =
      some false) :
    (add_tx2 cfg bc now pool tx id tx_weight tvc tx_relay relayed
      version).pool.m_txs_by_fee_and_receive_time = pool.m_txs_by_fee_and_receive_time ∧
    (add_tx2 cfg bc now pool tx id tx_weight tvc tx_relay relayed
      version).pool.m_txpool_weight = pool.m_txpool_weight ∧
    (add_tx2 cfg bc now pool tx id tx_weight tvc tx_relay relayed
      version).pool.m_timed_out_transactions = pool.m_timed_out_transactions ∧
    (add_tx2 cfg bc now pool tx id tx_weight tvc tx_relay relayed
      version).pool.txpool.map txpool_row.without_double_spend_seen =
        pool.txpool.map txpool_row.without_double_spend_seen ∧
    (tx_relay ≠ relay_method.block → (tx.vin.filterMap txin_v.k_image?).Nodup →
      (add_tx2 cfg bc now pool tx id tx_weight tvc tx_relay relayed
        version).pool.m_spent_key_images = pool.m_spent_key_images ∧
      ((add_tx2 cfg bc now pool tx id tx_weight tvc tx_relay relayed
          version).pool.m_cookie = pool.m_cookie ∨
        (add_tx2 cfg bc now pool tx id tx_weight tvc tx_relay relayed
          version).pool.m_cookie = pool.m_cookie + 1)) := by
  have hr0 : ∀ r : add_tx2_result,
      add_tx2 cfg bc now pool tx id tx_weight tvc tx_relay relayed version = r →
      r.ret = some false →
      r.pool.m_txs_by_fee_and_receive_time = pool.m_txs_by_fee_and_receive_time ∧
      r.pool.m_txpool_weight = pool.m_txpool_weight ∧
      r.pool.m_timed_out_transactions = pool.m_timed_out_transactions ∧
      r.pool.txpool.map txpool_row.without_double_spend_seen =
        pool.txpool.map txpool_row.without_double_spend_seen ∧
      (tx_relay ≠ relay_method.block → (tx.vin.filterMap txin_v.k_image?).Nodup →
        r.pool.m_spent_key_images = pool.m_spent_key_images ∧
        (r.pool.m_cookie = pool.m_cookie ∨ r.pool.m_cookie = pool.m_cookie + 1)) := by
    intro r hr hret
    unfold add_tx2 at hr
    simp only at hr
    cases hc : add_tx2_checks cfg bc pool tx id tx_weight tvc tx_relay version with
    | abort f =>
      rw [hc] at hr
      subst hr
      cases hret
    | reject t =>
      rw [hc] at hr
      subst hr
      exact ⟨rfl, rfl, rfl, rfl, fun _ _ => ⟨rfl, Or.inl rfl⟩⟩
    | ok a =>
      obtain ⟨source, dest, tx_type, tvc1⟩ := a
      obtain ⟨_, hsup, _⟩ := add_tx2_checks_ok cfg bc pool tx id tx_weight tvc tx_relay version
        source dest tx_type tvc1 hc
      have hsup2 : ∀ i ∈ tx.vin, i.k_image?.isSome = true := by
        unfold check_inputs_types_supported at hsup
        exact List.all_eq_true.mp hsup
      rw [hc] at hr
      simp only at hr
      split at hr
      · obtain ⟨db, c, hm, hdb, hck⟩ := mark_double_spend_effect pool tx
        subst hr
        simp only [hm]
        exact ⟨trivial, trivial, trivial, hdb, fun _ _ => ⟨trivial, hck⟩⟩
      · rename_i hspent
        cases ho : bc.check_tx_outputs tx tvc1 with
        | mk ok2 tvc2 =>
          rw [ho] at hr
          cases ok2 with
          | false =>
            simp only at hr
            subst hr
            exact ⟨rfl, rfl, rfl, rfl, fun _ _ => ⟨rfl, Or.inl rfl⟩⟩
          | true =>
            simp only at hr
            unfold add_tx2_insert at hr
            cases hb : add_tx2_insert_branch cfg bc now pool tx id tx_weight tvc2 source
                tx_relay relayed version with
            | yes t p =>
              rw [hb] at hr
              subst hr
              simp [add_tx2_tail] at hret
            | no t p =>
              rw [hb] at hr
              subst hr
              obtain ⟨h1, h2, h3, h4, h5⟩ := add_tx2_insert_branch_no cfg bc now pool tx id
                tx_weight tvc2 source tx_relay relayed version t p hb
              refine ⟨h1, h2, h3, ?_, ?_⟩
              · show p.txpool.map _ = _
                rw [h4]
              · intro hr hnd
                have hpre : have_tx_keyimges_as_spent cfg pool tx id = false := by
                  have hk : decide (tx_relay = relay_method.block) = false := by simpa using hr
                  simpa [hk] using hspent
                obtain ⟨h6, h7⟩ := h5 hr hsup2 hpre hnd
                exact ⟨h6, Or.inl h7⟩
  exact hr0 _ rfl h

/-- C2 (amended) at a concrete input: the second spend of key image 101 is rejected, and the
fee order is the one before the call. -/
theorem add_tx2_false_frame_witness :
    (add_tx2 havenConfig example_chain 1001 example_pool example_double_spend_tx 14 2000
      empty_tvc relay_method.fluff false 20).ret = some false ∧
    (add_tx2 havenConfig example_chain 1001 example_pool example_double_spend_tx 14 2000
      empty_tvc relay_method.fluff false 20).pool.m_txs_by_fee_and_receive_time =
        example_pool.m_txs_by_fee_and_receive_time :=
  ⟨by decide,
    (add_tx2_false_frame havenConfig example_chain 1001 example_pool example_double_spend_tx 14
      2000 empty_tvc relay_method.fluff false 20 (by decide)).1⟩

/-- C2 (counterexample).  In the pool that holds the XHV transfer (key image 101, id 12),
`add_tx2` for a second transaction spending key image 101 returns false, and the pool is not
what it was: `mark_double_spend` has set `double_spend_seen` on entry 12 and incremented the
cookie. -/
theorem add_tx2_false_marks_double_spend :
    (add_tx2 havenConfig example_chain 1001 example_pool example_double_spend_tx 14 2000
      empty_tvc relay_method.fluff false 20).ret = some false ∧
    (add_tx2 havenConfig example_chain 1001 example_pool example_double_spend_tx 14 2000
      empty_tvc relay_method.fluff false 20).pool.m_cookie = example_pool.m_cookie + 1 ∧
    (get_txpool_tx_meta example_pool.txpool 12).map (fun m => m.double_spend_seen)
      = some false ∧
    (get_txpool_tx_meta (add_tx2 havenConfig example_chain 1001 example_pool
      example_double_spend_tx 14 2000 empty_tvc relay_method.fluff false 20).pool.txpool 12).map
        (fun m => m.double_spend_seen) = some true ∧
    (add_tx2 havenConfig example_chain 1001 example_pool example_double_spend_tx 14 2000
      empty_tvc relay_method.fluff false 20).pool ≠ example_pool := by
  decide

/-! ## The age of the price record -/

/-- The wrapping subtraction is the difference when nothing wraps. -/
theorem sub64_of_le (a b : Nat) (ha : a < 2 ^ 64) (hb : b ≤ a) : sub64 a b = a - b := by
  unfold sub64
  have hb' : b < 2 ^ 64 := by omega
  rw [Nat.mod_eq_of_lt ha, Nat.mod_eq_of_lt hb']
  have : a + (2 ^ 64 - b) = (a - b) + 2 ^ 64 := by omega
  rw [this, Nat.add_mod_right, Nat.mod_eq_of_lt (by omega)]

/-- From height `PRICING_RECORD_VALID_BLOCKS` on, where `current_height -
PRICING_RECORD_VALID_BLOCKS` does not wrap, `tx_pr_height_valid` accepts, for every id but the
exempted one, exactly the price records of the last `PRICING_RECORD_VALID_BLOCKS` blocks. -/
theorem tx_pr_height_valid_of_no_wrap (cfg : Config) (current_height pr_height : Nat)
    (tx_hash : hash) (hid : tx_hash ≠ pr_height_exception_tx) (hh : current_height < 2 ^ 64)
    (hw : cfg.PRICING_RECORD_VALID_BLOCKS ≤ current_height) :
    (tx_pr_height_valid cfg current_height pr_height tx_hash = true ↔
      pr_height < current_height ∧
        current_height - pr_height ≤ cfg.PRICING_RECORD_VALID_BLOCKS) := by
  unfold tx_pr_height_valid
  rw [sub64_of_le _ _ hh hw]
  by_cases h1 : pr_height ≥ current_height
  · simp [h1]
  · rw [if_neg h1]
    by_cases h2 : current_height - cfg.PRICING_RECORD_VALID_BLOCKS > pr_height
    · simp [h2, hid]; omega
    · simp [h2]; omega

/-- C11 (the code at the failing input).  With `PRICING_RECORD_VALID_BLOCKS = 10`, at chain
height 5 the price record of height 3 is younger than the chain tip and two blocks old, yet
`tx_pr_height_valid` rejects it for the (non-exempted) id 1: the 64-bit difference
`current_height - PRICING_RECORD_VALID_BLOCKS` wraps to `2 ^ 64 - 5`, which exceeds every price
record height. -/
theorem tx_pr_height_valid_wraps_below_window :
    tx_pr_height_valid havenConfig 5 3 1 = false ∧
    (1 : hash) ≠ pr_height_exception_tx ∧
    3 < 5 ∧ 5 - 3 ≤ havenConfig.PRICING_RECORD_VALID_BLOCKS ∧
    sub64 5 havenConfig.PRICING_RECORD_VALID_BLOCKS = 2 ^ 64 - 5 := by
  decide

/-! ## Amount conversion at the XHV price -/

/-- The XHV price `max(unused1, xUSD)` (ONSHORE) or `min(unused1, xUSD)` (every other type) is
not zero when both prices are not. -/
theorem xhv_rate_ne_zero (pr : pricing_record) (tt : transaction_type)
    (hma : pr.unused1 ≠ 0) (hspot : pr.xUSD ≠ 0) :
    (if tt = transaction_type.ONSHORE then max pr.unused1 pr.xUSD
      else min pr.unused1 pr.xUSD) ≠ 0 := by
  split
  · have := Nat.le_max_left pr.unused1 pr.xUSD
    omega
  · rcases Nat.le_total pr.unused1 pr.xUSD with h | h
    · rw [Nat.min_eq_left h]; exact hma
    · rw [Nat.min_eq_right h]; exact hspot

/-- The XHV price is a 64-bit value when both prices are. -/
theorem xhv_rate_lt (pr : pricing_record) (tt : transaction_type)
    (hma : pr.unused1 < 2 ^ 64) (hspot : pr.xUSD < 2 ^ 64) :
    (if tt = transaction_type.ONSHORE then max pr.unused1 pr.xUSD
      else min pr.unused1 pr.xUSD) < 2 ^ 64 := by
  split
  · exact max_lt hma hspot
  · exact lt_of_le_of_lt (Nat.min_le_left _ _) hma

/-- From the per-output-unlock epoch `get_xhv_amount` returns, for a non-zero XHV price, the
128-bit quotient cast to 64 bits. -/
theorem get_xhv_amount_post_pou (cfg : Config) (pr : pricing_record) (tt : transaction_type)
    (hf x : Nat) (hhf : hf ≥ cfg.HF_PER_OUTPUT_UNLOCK_VERSION)
    (hR : (if tt = transaction_type.ONSHORE then max pr.unused1 pr.xUSD
      else min pr.unused1 pr.xUSD) ≠ 0) :
    get_xhv_amount cfg x pr tt hf =
      some (x * 1000000000000 % 2 ^ 128 /
        (if tt = transaction_type.ONSHORE then max pr.unused1 pr.xUSD
          else min pr.unused1 pr.xUSD) % 2 ^ 64) := by
  unfold get_xhv_amount
  simp only [hhf, if_true]
  rw [if_neg hR]

/-- From the per-output-unlock epoch `get_xusd_amount` of an XHV amount returns the 128-bit
quotient cast to 64 bits. -/
theorem get_xusd_amount_xhv_post_pou (cfg : Config) (pr : pricing_record)
    (tt : transaction_type) (hf a : Nat) (hhf : hf ≥ cfg.HF_PER_OUTPUT_UNLOCK_VERSION) :
    get_xusd_amount cfg a "XHV" pr tt hf =
      some (a * (if tt = transaction_type.ONSHORE then max pr.unused1 pr.xUSD
          else min pr.unused1 pr.xUSD) % 2 ^ 128 / 1000000000000 % 2 ^ 64) := by
  unfold get_xusd_amount
  rw [if_neg (by decide)]
  simp only [hhf, if_true]

/-- C14 (counterexample).  At hard-fork version 19, with both XHV prices 0.5 (in units of
`10 ^ -12`), `get_xhv_amount` of the 64-bit amount `2 ^ 63` returns 0 while
`floor(2 ^ 63 * 10 ^ 12 / R) = 2 ^ 64`; with both prices 2, `get_xusd_amount` of `2 ^ 63` XHV
returns 0 while `floor(2 ^ 63 * R / 10 ^ 12) = 2 ^ 64`: the quotient is cast to 64 bits. -/
theorem get_xhv_amount_truncates :
    get_xhv_amount havenConfig 9223372036854775808 ⟨500000000000, 500000000000, [], 0⟩
      transaction_type.OFFSHORE 19 = some 0 ∧
    get_xusd_amount havenConfig 9223372036854775808 "XHV" ⟨2000000000000, 2000000000000, [], 0⟩
      transaction_type.OFFSHORE 19 = some 0 ∧
    9223372036854775808 < 2 ^ 64 ∧
    9223372036854775808 * 10 ^ 12 / min 500000000000 500000000000 = 2 ^ 64 ∧
    9223372036854775808 * min 2000000000000 2000000000000 / 10 ^ 12 = 2 ^ 64 := by
  decide

/-- C14 (amended).  For `hf_version ≥ HF_PER_OUTPUT_UNLOCK_VERSION`, 64-bit amounts and a price
record with non-zero 64-bit XHV prices, with `R = max(unused1, xUSD)` when the type is ONSHORE
and `R = min(unused1, xUSD)` for every other type: `get_xhv_amount(x, pr, tt, hf)` is
`floor(x * 10 ^ 12 / R)` modulo `2 ^ 64` and `get_xusd_amount(a, "XHV", pr, tt, hf)` is
`floor(a * R / 10 ^ 12)` modulo `2 ^ 64`; each is the quotient itself whenever that is below
`2 ^ 64`. -/
theorem xhv_price_conversion_rule (cfg : Config) (pr : pricing_record) (tt : transaction_type)
    (hf x a : Nat) (hhf : hf ≥ cfg.HF_PER_OUTPUT_UNLOCK_VERSION)
    (hma : pr.unused1 ≠ 0) (hspot : pr.xUSD ≠ 0)
    (hma64 : pr.unused1 < 2 ^ 64) (hspot64 : pr.xUSD < 2 ^ 64)
    (hx : x < 2 ^ 64) (ha : a < 2 ^ 64) :
    get_xhv_amount cfg x pr tt hf =
      some (x * 10 ^ 12 /
        (if tt = transaction_type.ONSHORE then max pr.unused1 pr.xUSD
          else min pr.unused1 pr.xUSD) % 2 ^ 64) ∧
    get_xusd_amount cfg a "XHV" pr tt hf =
      some (a * (if tt = transaction_type.ONSHORE then max pr.unused1 pr.xUSD
          else min pr.unused1 pr.xUSD) / 10 ^ 12 % 2 ^ 64) ∧
    (x * 10 ^ 12 /
        (if tt = transaction_type.ONSHORE then max pr.unused1 pr.xUSD
          else min pr.unused1 pr.xUSD) < 2 ^ 64 →
      get_xhv_amount cfg x pr tt hf =
        some (x * 10 ^ 12 /
          (if tt = transaction_type.ONSHORE then max pr.unused1 pr.xUSD
            else min pr.unused1 pr.xUSD))) ∧
    (a * (if tt = transaction_type.ONSHORE then max pr.unused1 pr.xUSD
          else min pr.unused1 pr.xUSD) / 10 ^ 12 < 2 ^ 64 →
      get_xusd_amount cfg a "XHV" pr tt hf =
        some (a * (if tt = transaction_type.ONSHORE then max pr.unused1 pr.xUSD
          else min pr.unused1 pr.xUSD) / 10 ^ 12)) := by
  have hR0 := xhv_rate_ne_zero pr tt hma hspot
  have hR64 := xhv_rate_lt pr tt hma64 hspot64
  rw [get_xhv_amount_post_pou cfg pr tt hf x hhf hR0,
    get_xusd_amount_xhv_post_pou cfg pr tt hf a hhf]
  generalize (if tt = transaction_type.ONSHORE then max pr.unused1 pr.xUSD
      else min pr.unused1 pr.xUSD) = R at hR0 hR64
  have h1 : x * 1000000000000 % 2 ^ 128 = x * 10 ^ 12 := by
    apply Nat.mod_eq_of_lt
    calc x * 1000000000000 < 2 ^ 64 * 1000000000000 :=
          Nat.mul_lt_mul_of_pos_right hx (by norm_num)
      _ < 2 ^ 128 := by norm_num
  have h2 : a * R % 2 ^ 128 = a * R := by
    apply Nat.mod_eq_of_lt
    calc a * R < 2 ^ 64 * 2 ^ 64 := Nat.mul_lt_mul'' ha hR64
      _ = 2 ^ 128 := by norm_num
  rw [h1, h2]
  have h3 : (1000000000000 : Nat) = 10 ^ 12 := by norm_num
  rw [h3]
  refine ⟨rfl, rfl, ?_, ?_⟩
  · intro h; rw [Nat.mod_eq_of_lt h]
  · intro h; rw [Nat.mod_eq_of_lt h]

/-- C14 (amended) at a concrete input: at hard-fork version 20, with the moving-average price
0.5 and the spot price 0.4, an ONSHORE converts 10^12 xUSD into 2 * 10^12 XHV (at `R = 0.5`) and
an OFFSHORE converts 10^12 XHV into 4 * 10^11 xUSD (at `R = 0.4`). -/
theorem xhv_price_conversion_rule_witness :
    get_xhv_amount havenConfig 1000000000000 example_pr transaction_type.ONSHORE 20 =
      some 2000000000000 ∧
    get_xusd_amount havenConfig 1000000000000 "XHV" example_pr transaction_type.OFFSHORE 20 =
      some 400000000000 :=
  ⟨((xhv_price_conversion_rule havenConfig example_pr transaction_type.ONSHORE 20
      1000000000000 1000000000000 (by decide) (by decide) (by decide) (by decide) (by decide)
      (by decide) (by decide)).2.2.1 (by decide)).trans (by decide),
    ((xhv_price_conversion_rule havenConfig example_pr transaction_type.OFFSHORE 20
      1000000000000 1000000000000 (by decide) (by decide) (by decide) (by decide) (by decide)
      (by decide) (by decide)).2.2.2 (by decide)).trans (by decide)⟩

/-- C15.  No round-trip gain: for `hf_version ≥ HF_PER_OUTPUT_UNLOCK_VERSION`, every amount `a`
and every price record with non-zero XHV prices, both conversions return, and converting `a`
XHV to xUSD at the OFFSHORE rate and the result back to XHV at the ONSHORE rate gives at most
`a`. -/
theorem no_round_trip_gain (cfg : Config) (pr : pricing_record) (hf a : Nat)
    (hhf : hf ≥ cfg.HF_PER_OUTPUT_UNLOCK_VERSION)
    (hma : pr.unused1 ≠ 0) (hspot : pr.xUSD ≠ 0) :
    ∃ xusd xhv,
      get_xusd_amount cfg a "XHV" pr transaction_type.OFFSHORE hf = some xusd ∧
      get_xhv_amount cfg xusd pr transaction_type.ONSHORE hf = some xhv ∧
      xhv ≤ a := by
  have hR0 := xhv_rate_ne_zero pr transaction_type.ONSHORE hma hspot
  refine ⟨_, _, get_xusd_amount_xhv_post_pou cfg pr transaction_type.OFFSHORE hf a hhf,
    get_xhv_amount_post_pou cfg pr transaction_type.ONSHORE hf _ hhf hR0, ?_⟩
  rw [if_neg (by decide), if_pos rfl]
  have hM : 0 < max pr.unused1 pr.xUSD := by
    have := Nat.le_max_left pr.unused1 pr.xUSD
    omega
  have hmM : min pr.unused1 pr.xUSD ≤ max pr.unused1 pr.xUSD :=
    le_trans (Nat.min_le_left _ _) (Nat.le_max_left _ _)
  generalize min pr.unused1 pr.xUSD = m at hmM
  generalize max pr.unused1 pr.xUSD = M at hM hmM
  apply le_trans (Nat.mod_le _ _)
  apply Nat.div_le_of_le_mul
  apply le_trans (Nat.mod_le _ _)
  calc a * m % 2 ^ 128 / 1000000000000 % 2 ^ 64 * 1000000000000
      ≤ a * m / 1000000000000 * 1000000000000 :=
        Nat.mul_le_mul_right _ (le_trans (Nat.mod_le _ _) (Nat.div_le_div_right (Nat.mod_le _ _)))
    _ ≤ a * m := Nat.div_mul_le_self _ _
    _ ≤ a * M := Nat.mul_le_mul_left _ hmM
    _ = M * a := Nat.mul_comm _ _

/-- C15 at a concrete input: at hard-fork version 20, with the moving-average price 0.5 and the
spot price 0.4, 10^12 XHV go to 4 * 10^11 xUSD and come back as 8 * 10^11 XHV. -/
theorem no_round_trip_gain_witness :
    get_xusd_amount havenConfig 1000000000000 "XHV" example_pr transaction_type.OFFSHORE 20 =
      some 400000000000 ∧
    get_xhv_amount havenConfig 400000000000 example_pr transaction_type.ONSHORE 20 =
      some 800000000000 ∧
    ∃ xusd xhv,
      get_xusd_amount havenConfig 1000000000000 "XHV" example_pr transaction_type.OFFSHORE 20 =
        some xusd ∧
      get_xhv_amount havenConfig xusd example_pr transaction_type.ONSHORE 20 = some xhv ∧
      xhv ≤ 1000000000000 :=
  ⟨by decide, by decide,
    no_round_trip_gain havenConfig example_pr 20 1000000000000 (by decide) (by decide)
      (by decide)⟩

/-! ## The transaction version gate -/

/-- C12 (counterexample).  `add_tx2` admits the XHV transfer with transaction version 6 both at
hard-fork version 18 (`HF_VERSION_HAVEN2 ≤ 18 < HF_PER_OUTPUT_UNLOCK_VERSION`, where the claim
asks for version 5) and at hard-fork version 21 (`≥ HF_VERSION_USE_COLLATERAL`, where the claim
asks for version 7): the gate tests `tx.version < 5` and, with `==`, the two hard-fork versions
19 and 20 only. -/
theorem add_tx2_admits_other_versions :
    (add_tx2 havenConfig example_chain 1000 (tx_memory_pool.init 1000000)
      example_v6_transfer_tx 12 2000 empty_tvc relay_method.fluff false 18).ret = some true ∧
    (add_tx2 havenConfig example_chain 1000 (tx_memory_pool.init 1000000)
      example_v6_transfer_tx 12 2000 empty_tvc relay_method.fluff false 21).ret = some true ∧
    example_v6_transfer_tx.version = 6 ∧
    havenConfig.HF_VERSION_HAVEN2 ≤ 18 ∧ 18 < havenConfig.HF_PER_OUTPUT_UNLOCK_VERSION ∧
    21 ≥ havenConfig.HF_VERSION_USE_COLLATERAL ∧
    havenConfig.COLLATERAL_TRANSACTION_VERSION = 7 := by
  decide

/-- C12 (amended).  Every transaction that `add_tx2` admits at hard-fork version `v` has
`tx.version ≥ 5`; it has `tx.version = POU_TRANSACTION_VERSION` when
`v = HF_PER_OUTPUT_UNLOCK_VERSION` and `tx.version = COLLATERAL_TRANSACTION_VERSION` when
`v = HF_VERSION_USE_COLLATERAL`. -/
theorem add_tx2_version_rule (cfg : Config) (bc : Blockchain) (now : Nat)
    (pool : tx_memory_pool) (tx : transaction) (id : hash) (tx_weight : Nat)
    (tvc : tx_verification_context) (tx_relay : relay_method) (relayed : Bool) (version : Nat)
    (h : (add_tx2 cfg bc now pool tx id tx_weight tvc tx_relay relayed version).ret = some true) :
    tx.version ≥ 5 ∧
    (version = cfg.HF_PER_OUTPUT_UNLOCK_VERSION → tx.version = cfg.POU_TRANSACTION_VERSION) ∧
    (version = cfg.HF_VERSION_USE_COLLATERAL →
      tx.version = cfg.COLLATERAL_TRANSACTION_VERSION) := by
  obtain ⟨source, dest, tx_type, tvc2, hc⟩ :=
    add_tx2_true_checks cfg bc now pool tx id tx_weight tvc tx_relay relayed version h
  obtain ⟨_, _, _, hv, _, _⟩ :=
    add_tx2_checks_ok cfg bc pool tx id tx_weight tvc tx_relay version source dest tx_type tvc2 hc
  unfold add_tx2_version_rejected at hv
  split_ifs at hv with h1 h2 h3
  refine ⟨by omega, ?_, ?_⟩
  · intro hp
    by_contra hne
    exact h2 ⟨hp, hne⟩
  · intro hp
    by_contra hne
    exact h3 ⟨hp, hne⟩

/-- C12 (amended) at a concrete input: the XHV transfer of version 7 is admitted at hard-fork
version 20. -/
theorem add_tx2_version_rule_witness :
    (add_tx2 havenConfig example_chain 1000 (tx_memory_pool.init 1000000)
      example_transfer_tx 12 2000 empty_tvc relay_method.fluff false 20).ret = some true ∧
    example_transfer_tx.version ≥ 5 ∧
    ((20 : Nat) = havenConfig.HF_PER_OUTPUT_UNLOCK_VERSION →
      example_transfer_tx.version = havenConfig.POU_TRANSACTION_VERSION) ∧
    ((20 : Nat) = havenConfig.HF_VERSION_USE_COLLATERAL →
      example_transfer_tx.version = havenConfig.COLLATERAL_TRANSACTION_VERSION) :=
  ⟨by decide,
    add_tx2_version_rule havenConfig example_chain 1000 (tx_memory_pool.init 1000000)
      example_transfer_tx 12 2000 empty_tvc relay_method.fluff false 20 (by decide)⟩

/-! ## The result flags of `add_tx2` -/

/-- The classification step rejects with `m_verifivation_failed` set and, when it passes,
leaves `m_verifivation_impossible` as it was. -/
theorem add_tx2_classify_flags (cfg : Config) (tx : transaction) (id : hash)
    (tvc : tx_verification_context) :
    (∀ t, add_tx2_classify cfg tx id tvc = checked.reject t → t.m_verifivation_failed = true) ∧
    (∀ s d ty t, add_tx2_classify cfg tx id tvc = checked.ok (s, d, ty, t) →
      t.m_verifivation_impossible = tvc.m_verifivation_impossible) := by
  unfold add_tx2_classify
  simp only
  split
  · split
    · exact ⟨fun t h => (by cases h; rfl), fun s d ty t h => (by cases h)⟩
    · split
      · exact ⟨fun t h => (by cases h; rfl), fun s d ty t h => (by cases h)⟩
      · exact ⟨fun t h => (by cases h), fun s d ty t h => (by cases h; rfl)⟩
  · exact ⟨fun t h => (by cases h), fun s d ty t h => (by cases h; rfl)⟩

/-- The loop over the outputs rejects with the context it was given, `m_verifivation_failed`
set. -/
theorem add_tx2_output_unlock_loop_reject (cfg : Config) (bc : Blockchain) (tx : transaction)
    (tvc : tx_verification_context) (source : String) (tx_type : transaction_type)
    (version current_height : Nat) (l : List Nat) (unlock_time : Nat)
    (t : tx_verification_context)
    (h : add_tx2_output_unlock_loop cfg bc tx tvc source tx_type version current_height l
      unlock_time = checked.reject t) : t = tvc.failed := by
  induction l generalizing unlock_time with
  | nil => cases h
  | cons i rest ih =>
    unfold add_tx2_output_unlock_loop at h
    split at h
    · exact ih _ h
    · split at h
      · cases h
      · split at h
        · exact ih _ h
        · split at h
          · cases h
          · simp only at h
            split at h
            · cases h; rfl
            · split at h
              · cases h; rfl
              · exact ih _ h

/-- The collateral checks reject with the context they were given, `m_verifivation_failed`
set. -/
theorem add_tx2_collateral_checks_reject (cfg : Config) (bc : Blockchain) (tx : transaction)
    (tvc : tx_verification_context) (tx_type : transaction_type) (current_height : Nat)
    (unlock_time : Nat) (t : tx_verification_context)
    (h : add_tx2_collateral_checks cfg bc tx tvc tx_type current_height unlock_time =
      checked.reject t) : t = tvc.failed := by
  unfold add_tx2_collateral_checks at h
  split at h
  · cases h; rfl
  split at h
  · cases h; rfl
  split at h
  · split at h
    · cases h
    · split at h
      · cases h; rfl
      · simp only at h
        split at h
        · cases h
        · rename_i t2 hs
          split at hs
          · split at hs <;> cases hs
          · cases hs
        · cases h; rfl
        · split at h
          · cases h
          · split at h <;> split at h <;> first | (cases h; rfl) | cases h
  · cases h

/-- The unlock-time checks reject with the context they were given, `m_verifivation_failed`
set. -/
theorem add_tx2_unlock_checks_reject (cfg : Config) (bc : Blockchain) (tx : transaction)
    (tvc : tx_verification_context) (source : String) (tx_type : transaction_type)
    (version current_height : Nat) (unlock_time : Nat) (t : tx_verification_context)
    (h : add_tx2_unlock_checks cfg bc tx tvc source tx_type version current_height unlock_time =
      checked.reject t) : t = tvc.failed := by
  unfold add_tx2_unlock_checks at h
  split at h
  · simp only at h
    split at h
    · cases h
    · rename_i t2 hs
      cases h
      split at hs
      · exact add_tx2_collateral_checks_reject _ _ _ _ _ _ _ _ hs
      · cases hs
    · split at h
      · cases h; rfl
      · exact add_tx2_output_unlock_loop_reject _ _ _ _ _ _ _ _ _ _ _ h
  · split at h
    · split at h
      · cases h; rfl
      · cases h
    · split at h
      · split at h
        · cases h; rfl
        · cases h
      · cases h

/-- The checks of a conversion reject with `m_verifivation_failed` set and, when they pass,
leave `m_verifivation_impossible` as it was. -/
theorem add_tx2_conversion_checks_flags (cfg : Config) (bc : Blockchain) (tx : transaction)
    (id : hash) (tvc : tx_verification_context) (source dest : String)
    (tx_type : transaction_type) (version : Nat) :
    (∀ t, add_tx2_conversion_checks cfg bc tx id tvc source dest tx_type version =
      checked.reject t → t.m_verifivation_failed = true) ∧
    (∀ t, add_tx2_conversion_checks cfg bc tx id tvc source dest tx_type version =
      checked.ok t → t.m_verifivation_impossible = tvc.m_verifivation_impossible) := by
  constructor
  · intro t h
    unfold add_tx2_conversion_checks at h
    simp only at h
    split at h
    · cases h; rfl
    split at h
    · cases h; rfl
    split at h
    · cases h; rfl
    split at h
    · cases h; rfl
    split at h
    · cases h; rfl
    split at h
    · cases h
    · rename_i t2 hs
      cases h
      rw [add_tx2_unlock_checks_reject _ _ _ _ _ _ _ _ _ _ hs]
      rfl
    · split at h
      · cases h
      · split at h
        · cases h; rfl
        · cases h
  · intro t h
    unfold add_tx2_conversion_checks at h
    simp only at h
    split at h
    · cases h
    split at h
    · cases h
    rename_i tvc3 hpr
    split at h
    · cases h
    split at h
    · cases h
    split at h
    · cases h
    split at h
    · cases h
    · cases h
    split at h
    · cases h
    split at h
    · cases h
    simp only [checked.ok.injEq] at h
    subst h
    split at hpr
    · cases hb : bc.get_block_pricing_record tx.pricing_record_height with
      | none => simp [hb] at hpr
      | some pr =>
        simp only [hb, Option.map_some', Option.some.injEq] at hpr
        subst hpr
        rfl
    · simp only [Option.some.injEq] at hpr
      subst hpr
      rfl

/-- The checks that precede the key-image test reject with `m_verifivation_failed` set and,
when they pass, leave `m_verifivation_impossible` as it was. -/
theorem add_tx2_checks_flags (cfg : Config) (bc : Blockchain) (pool : tx_memory_pool)
    (tx : transaction) (id : hash) (tx_weight : Nat) (tvc : tx_verification_context)
    (tx_relay : relay_method) (version : Nat) :
    (∀ t, add_tx2_checks cfg bc pool tx id tx_weight tvc tx_relay version = checked.reject t →
      t.m_verifivation_failed = true) ∧
    (∀ s d ty t, add_tx2_checks cfg bc pool tx id tx_weight tvc tx_relay version =
      checked.ok (s, d, ty, t) →
      t.m_verifivation_impossible = tvc.m_verifivation_impossible) := by
  constructor
  · intro t h
    unfold add_tx2_checks at h
    simp only at h
    split at h
    · cases h; rfl
    split at h
    · cases h; rfl
    split at h
    · cases h; rfl
    split at h
    · cases h; rfl
    split at h
    · cases h; rfl
    split at h
    · cases h
    · rename_i t2 hs
      cases h
      exact (add_tx2_classify_flags cfg tx id tvc).1 _ hs
    rename_i s d ty tvc1 hc
    split at h
    · cases h
    · rename_i t2 hs
      cases h
      split at hs
      · exact (add_tx2_conversion_checks_flags cfg bc tx id tvc1 s d ty version).1 _ hs
      · split at hs
        · cases hs; rfl
        · cases hs
    split at h
    · cases h; rfl
    split at h
    · cases h; rfl
    · cases h
  · intro s d ty t h
    obtain ⟨_, _, _, _, ⟨tvc1, hcl, hconv, htr⟩, _⟩ :=
      add_tx2_checks_ok cfg bc pool tx id tx_weight tvc tx_relay version s d ty t h
    have h1 := (add_tx2_classify_flags cfg tx id tvc).2 _ _ _ _ hcl
    by_cases hsd : s = d
    · rw [(htr hsd).2, h1]
    · rw [(add_tx2_conversion_checks_flags cfg bc tx id tvc1 s d ty version).2 _ (hconv hsd), h1]


/-- The context the pool's `check_tx_inputs` leaves has `m_verifivation_failed` set and
`m_verifivation_impossible` clear, when the context it is given has, the chain's input check
does not clear the first nor touch the second, and every cached context has them so. -/
theorem check_tx_inputs_flags (bc : Blockchain) (pool : tx_memory_pool) (tx : transaction)
    (txid : hash) (tvc : tx_verification_context) (kept_by_block : Bool)
    (hin_f : ∀ tx t k, t.m_verifivation_failed = true →
      (bc.check_tx_inputs tx t k).2.2.2.m_verifivation_failed = true)
    (hin_i : ∀ tx t k, (bc.check_tx_inputs tx t k).2.2.2.m_verifivation_impossible =
      t.m_verifivation_impossible)
    (hcache : ∀ c ∈ pool.m_input_cache,
      c.2.2.1.m_verifivation_failed = true ∧ c.2.2.1.m_verifivation_impossible = false)
    (hf : tvc.m_verifivation_failed = true) (hi : tvc.m_verifivation_impossible = false) :
    (check_tx_inputs bc pool tx txid tvc kept_by_block).2.2.2.1.m_verifivation_failed = true ∧
    (check_tx_inputs bc pool tx txid tvc kept_by_block).2.2.2.1.m_verifivation_impossible
      = false := by
  unfold check_tx_inputs
  split
  · rename_i x ret ctvc h bid hfind
    split at hfind
    · have hm := List.mem_of_find?_eq_some hfind
      exact hcache _ hm
    · cases hfind
  · have h1 := hin_f tx tvc kept_by_block hf
    have h2 := hin_i tx tvc kept_by_block
    generalize bc.check_tx_inputs tx tvc kept_by_block = r at h1 h2
    obtain ⟨ret, h, bid, tvc1⟩ := r
    simp only at h1 h2 ⊢
    split
    · exact ⟨h1, h2.trans hi⟩
    · exact ⟨h1, h2.trans hi⟩

/-- The computation of the fee-order key changes no flag of the context. -/
theorem add_tx2_emplace_flags (cfg : Config) (bc : Blockchain) (m : txpool_tx_meta_t)
    (tvc : tx_verification_context) (id : hash) (tx_weight receive_time version : Nat)
    (order : List tx_by_fee_and_receive_time_entry) (tvc1 : tx_verification_context)
    (order1 : List tx_by_fee_and_receive_time_entry)
    (h : add_tx2_emplace cfg bc m tvc id tx_weight receive_time version order =
      some (tvc1, order1)) :
    tvc1.m_verifivation_failed = tvc.m_verifivation_failed ∧
    tvc1.m_verifivation_impossible = tvc.m_verifivation_impossible ∧
    tvc1.m_added_to_pool = tvc.m_added_to_pool := by
  unfold add_tx2_emplace at h
  simp only at h
  split at h
  · cases h
  · simp only [Option.some.injEq, Prod.mk.injEq] at h
    rw [← h.1]
    split
    · split <;> exact ⟨rfl, rfl, rfl⟩
    · exact ⟨rfl, rfl, rfl⟩

/-- Lines 732-737 set `m_added_to_pool` and leave the two failure flags as they are. -/
theorem add_tx2_added_flags (m : txpool_tx_meta_t) (tx_relay : relay_method)
    (tvc : tx_verification_context) :
    (add_tx2_added m tx_relay tvc).m_added_to_pool = true ∧
    (add_tx2_added m tx_relay tvc).m_verifivation_impossible = tvc.m_verifivation_impossible ∧
    (add_tx2_added m tx_relay tvc).m_verifivation_failed = tvc.m_verifivation_failed := by
  unfold add_tx2_added
  split <;> exact ⟨rfl, rfl, rfl⟩

/-- A `return false` of `add_tx2_store` leaves the context as it was; when the store reaches the
common tail, `m_added_to_pool` is set and `m_verifivation_impossible` is as it was. -/
theorem add_tx2_store_flags (cfg : Config) (bc : Blockchain) (now : Nat) (pool : tx_memory_pool)
    (tx : transaction) (id : hash) (tx_weight : Nat) (tvc : tx_verification_context)
    (m : txpool_tx_meta_t) (tx_relay : relay_method) (version : Nat) :
    (∀ t p, add_tx2_store cfg bc now pool tx id tx_weight tvc m tx_relay version =
      inserted.no t p → t = tvc) ∧
    (∀ t p, add_tx2_store cfg bc now pool tx id tx_weight tvc m tx_relay version =
      inserted.yes t p →
      t.m_added_to_pool = true ∧
        t.m_verifivation_impossible = tvc.m_verifivation_impossible) := by
  unfold add_tx2_store
  split
  · exact ⟨fun t p h => (by cases h; rfl), fun t p h => (by cases h)⟩
  · split
    · exact ⟨fun t p h => (by cases h; rfl), fun t p h => (by cases h)⟩
    · split
      · exact ⟨fun t p h => (by cases h; rfl), fun t p h => (by cases h)⟩
      · rename_i tvc1 order he
        have hfl := add_tx2_emplace_flags _ _ _ _ _ _ _ _ _ _ _ he
        refine ⟨fun t p h => (by cases h), fun t p h => ?_⟩
        cases h
        have ha := add_tx2_added_flags m tx_relay tvc1
        exact ⟨ha.1, ha.2.1.trans hfl.2.1⟩

/-- The insertion after a passed inputs check either is `add_tx2_store` on the pool (up to the
parsed-transaction cache), or reaches the common tail without storing. -/
theorem add_tx2_insert_checked_shape (cfg : Config) (bc : Blockchain) (now : Nat)
    (pool : tx_memory_pool) (tx : transaction) (id : hash) (tx_weight : Nat)
    (tvc : tx_verification_context) (meta0 : txpool_tx_meta_t) (max_used_block_height : Nat)
    (max_used_block_id : hash) (tx_relay : relay_method) (relayed : Bool) (version : Nat) :
    (∃ c m r, add_tx2_insert_checked cfg bc now pool tx id tx_weight tvc meta0
      max_used_block_height max_used_block_id tx_relay relayed version =
        add_tx2_store cfg bc now { pool with m_parsed_tx_cache := c } tx id tx_weight tvc m r
          version) ∨
    (∃ c m r, add_tx2_insert_checked cfg bc now pool tx id tx_weight tvc meta0
      max_used_block_height max_used_block_id tx_relay relayed version =
        inserted.yes (add_tx2_added m r tvc) { pool with m_parsed_tx_cache := c }) := by
  unfold add_tx2_insert_checked
  by_cases hk : tx_relay = relay_method.block
  · simp only [hk, decide_True, if_true]
    split
    · exact Or.inl ⟨_, _, _, rfl⟩
    · exact Or.inr ⟨_, _, _, rfl⟩
  · simp only [hk, decide_False, Bool.false_eq_true, if_false]
    split
    · exact Or.inl ⟨pool.m_parsed_tx_cache, _, _, rfl⟩
    · exact Or.inr ⟨pool.m_parsed_tx_cache, _, _, rfl⟩

/-- The insertion after a passed inputs check: a `return false` leaves the context as it was;
otherwise `m_added_to_pool` is set and `m_verifivation_impossible` is as it was. -/
theorem add_tx2_insert_checked_flags (cfg : Config) (bc : Blockchain) (now : Nat)
    (pool : tx_memory_pool) (tx : transaction) (id : hash) (tx_weight : Nat)
    (tvc : tx_verification_context) (meta0 : txpool_tx_meta_t) (max_used_block_height : Nat)
    (max_used_block_id : hash) (tx_relay : relay_method) (relayed : Bool) (version : Nat) :
    (∀ t p, add_tx2_insert_checked cfg bc now pool tx id tx_weight tvc meta0
      max_used_block_height max_used_block_id tx_relay relayed version = inserted.no t p →
      t = tvc) ∧
    (∀ t p, add_tx2_insert_checked cfg bc now pool tx id tx_weight tvc meta0
      max_used_block_height max_used_block_id tx_relay relayed version = inserted.yes t p →
      t.m_added_to_pool = true ∧
        t.m_verifivation_impossible = tvc.m_verifivation_impossible) := by
  rcases add_tx2_insert_checked_shape cfg bc now pool tx id tx_weight tvc meta0
    max_used_block_height max_used_block_id tx_relay relayed version with
    ⟨c, m, r, h⟩ | ⟨c, m, r, h⟩
  · rw [h]
    exact add_tx2_store_flags _ _ _ _ _ _ _ _ _ _ _
  · rw [h]
    refine ⟨fun t p h => (by cases h), fun t p h => ?_⟩
    cases h
    have ha := add_tx2_added_flags m r tvc
    exact ⟨ha.1, ha.2.1⟩

/-- The kept-by-block insertion: a `return false` leaves the context as it was; otherwise
`m_added_to_pool` and `m_verifivation_impossible` are set. -/
theorem add_tx2_insert_kept_flags (cfg : Config) (bc : Blockchain) (now : Nat)
    (pool : tx_memory_pool) (tx : transaction) (id : hash) (tx_weight : Nat)
    (tvc : tx_verification_context) (meta0 : txpool_tx_meta_t) (tx_relay : relay_method)
    (relayed : Bool) (version : Nat) :
    (∀ t p, add_tx2_insert_kept cfg bc now pool tx id tx_weight tvc meta0 tx_relay relayed
      version = inserted.no t p → t = tvc) ∧
    (∀ t p, add_tx2_insert_kept cfg bc now pool tx id tx_weight tvc meta0 tx_relay relayed
      version = inserted.yes t p →
      t.m_added_to_pool = true ∧ t.m_verifivation_impossible = true) := by
  unfold add_tx2_insert_kept
  simp only
  split
  · exact ⟨fun t p h => (by cases h; rfl), fun t p h => (by cases h)⟩
  · split
    · exact ⟨fun t p h => (by cases h; rfl), fun t p h => (by cases h)⟩
    · split
      · exact ⟨fun t p h => (by cases h; rfl), fun t p h => (by cases h)⟩
      · refine ⟨fun t p h => (by cases h), fun t p h => ?_⟩
        cases h
        exact ⟨rfl, rfl⟩


/-- For a transaction kept by block the pool's `check_tx_inputs` returns what the chain's input
check returns. -/
theorem check_tx_inputs_kept (bc : Blockchain) (pool : tx_memory_pool) (tx : transaction)
    (txid : hash) (tvc : tx_verification_context) :
    (check_tx_inputs bc pool tx txid tvc true).1 = (bc.check_tx_inputs tx tvc true).1 := by
  unfold check_tx_inputs
  simp only [Bool.not_true, Bool.false_eq_true, if_false]

/-- The inputs check and insertion: a `return false` has `m_verifivation_failed` set; on reaching
the common tail `m_added_to_pool` is set, and `m_verifivation_impossible` is set exactly when
the relay method is `block` and the chain's input check failed. -/
theorem add_tx2_insert_branch_flags (cfg : Config) (bc : Blockchain) (now : Nat)
    (pool : tx_memory_pool) (tx : transaction) (id : hash) (tx_weight : Nat)
    (tvc : tx_verification_context) (source : String) (tx_relay : relay_method)
    (relayed : Bool) (version : Nat)
    (hin_f : ∀ tx t k, t.m_verifivation_failed = true →
      (bc.check_tx_inputs tx t k).2.2.2.m_verifivation_failed = true)
    (hin_i : ∀ tx t k, (bc.check_tx_inputs tx t k).2.2.2.m_verifivation_impossible =
      t.m_verifivation_impossible)
    (hcache : ∀ c ∈ pool.m_input_cache,
      c.2.2.1.m_verifivation_failed = true ∧ c.2.2.1.m_verifivation_impossible = false)
    (hi : tvc.m_verifivation_impossible = false) :
    (∀ t p, add_tx2_insert_branch cfg bc now pool tx id tx_weight tvc source tx_relay relayed
      version = inserted.no t p → t.m_verifivation_failed = true) ∧
    (∀ t p, add_tx2_insert_branch cfg bc now pool tx id tx_weight tvc source tx_relay relayed
      version = inserted.yes t p →
      t.m_added_to_pool = true ∧
      (t.m_verifivation_impossible = true ↔
        tx_relay = relay_method.block ∧ (bc.check_tx_inputs tx tvc.failed true).1 = false)) := by
  have hfl := check_tx_inputs_flags bc pool tx id tvc.failed
    (decide (tx_relay = relay_method.block)) hin_f hin_i hcache rfl hi
  have hkept : tx_relay = relay_method.block →
      (check_tx_inputs bc pool tx id tvc.failed (decide (tx_relay = relay_method.block))).1 =
        (bc.check_tx_inputs tx tvc.failed true).1 := by
    intro hk
    rw [hk]
    exact check_tx_inputs_kept bc pool tx id tvc.failed
  unfold add_tx2_insert_branch
  simp only
  generalize check_tx_inputs bc pool tx id tvc.failed
    (decide (tx_relay = relay_method.block)) = r at hfl hkept ⊢
  obtain ⟨res, h1, bid, tvc2, pool2⟩ := r
  simp only at hfl hkept ⊢
  split
  · rename_i hres
    have hres' : res = false := by simpa using hres
    split
    · rename_i hk
      have hk' : tx_relay = relay_method.block := by simpa using hk
      have hkf := add_tx2_insert_kept_flags cfg bc now pool2 tx id tx_weight tvc2
        { txpool_tx_meta_t.zero with fee_asset_type := source } tx_relay relayed version
      refine ⟨fun t p h => ?_, fun t p h => ?_⟩
      · rw [hkf.1 t p h]; exact hfl.1
      · refine ⟨(hkf.2 t p h).1, ?_⟩
        constructor
        · intro _
          exact ⟨hk', by rw [← hkept hk', hres']⟩
        · intro _
          exact (hkf.2 t p h).2
    · exact ⟨fun t p h => (by cases h; rfl), fun t p h => (by cases h)⟩
  · rename_i hres
    have hres' : res = true := by simpa using hres
    have hcf := add_tx2_insert_checked_flags cfg bc now pool2 tx id tx_weight tvc2
      { txpool_tx_meta_t.zero with fee_asset_type := source } h1 bid tx_relay relayed version
    refine ⟨fun t p h => ?_, fun t p h => ?_⟩
    · rw [hcf.1 t p h]; exact hfl.1
    · refine ⟨(hcf.2 t p h).1, ?_⟩
      rw [(hcf.2 t p h).2, hfl.2]
      constructor
      · intro hc; cases hc
      · intro ⟨hk, hc⟩
        rw [← hkept hk, hres'] at hc
        cases hc


/-- Removing the row of one id leaves the lookup of every other id as it is. -/
theorem get_txpool_tx_meta_remove_ne (db : List txpool_row) (id id2 : hash) (h : id ≠ id2) :
    get_txpool_tx_meta (remove_txpool_tx db id2) id = get_txpool_tx_meta db id := by
  unfold get_txpool_tx_meta remove_txpool_tx
  congr 1
  induction db with
  | nil => rfl
  | cons r rest ih =>
    by_cases h2 : r.id = id2
    · have hq : decide (r.id ≠ id2) = false := by simp [h2]
      have hp : decide (r.id = id) = false := by
        simp only [decide_eq_false_iff_not]
        exact fun hc => h (hc.symm.trans h2)
      simp only [List.filter_cons, List.find?_cons, hq, hp, Bool.false_eq_true, if_false]
      exact ih
    · have hq : decide (r.id ≠ id2) = true := by simp [h2]
      simp only [List.filter_cons, List.find?_cons, hq, if_true]
      cases hp : decide (r.id = id)
      · exact ih
      · rfl

/-- The loop of `prune` keeps the entry of an id whose metadata has `kept_by_block`. -/
theorem prune_loop_keeps (bytes : Nat) (id : hash) (m : txpool_tx_meta_t)
    (hm : m.kept_by_block = true) (l : List tx_by_fee_and_receive_time_entry)
    (pool : tx_memory_pool) (changed : Bool)
    (h : get_txpool_tx_meta pool.txpool id = some m) :
    get_txpool_tx_meta (prune_loop bytes l (pool, changed)).2.1.txpool id = some m := by
  induction l generalizing pool changed with
  | nil => exact h
  | cons it rest ih =>
    unfold prune_loop
    split
    · exact h
    · split
      · exact h
      · rename_i m2 hm2
        split
        · exact ih pool changed h
        · rename_i hk
          split
          · exact h
          · apply ih
            rw [remove_transaction_keyimages_frame]
            have hne : id ≠ it.id := by
              intro hc
              rw [← hc, h] at hm2
              cases hm2
              exact hk hm
            simp only
            rw [get_txpool_tx_meta_remove_ne _ _ _ hne]
            exact h

/-- The function `prune` keeps the entry of an id whose metadata has `kept_by_block`. -/
theorem prune_keeps (pool : tx_memory_pool) (bytes : Nat) (id : hash) (m : txpool_tx_meta_t)
    (hm : m.kept_by_block = true) (h : get_txpool_tx_meta pool.txpool id = some m) :
    get_txpool_tx_meta (prune pool bytes).txpool id = some m := by
  unfold prune
  simp only
  have := prune_loop_keeps (if bytes = 0 then pool.m_txpool_max_weight else bytes) id m hm
    pool.m_txs_by_fee_and_receive_time.tail.reverse pool false h
  generalize prune_loop (if bytes = 0 then pool.m_txpool_max_weight else bytes)
    pool.m_txs_by_fee_and_receive_time.tail.reverse (pool, false) = r at this
  obtain ⟨c, p, ch⟩ := r
  cases c
  · exact h
  · exact this


/-- After `add_txpool_tx` the id is stored with the metadata given. -/
theorem get_txpool_tx_meta_add (db : List txpool_row) (id : hash) (blob : transaction)
    (m : txpool_tx_meta_t) (db1 : List txpool_row)
    (h : add_txpool_tx db id blob m = some db1) : get_txpool_tx_meta db1 id = some m := by
  unfold add_txpool_tx at h
  split at h
  · cases h
  · rename_i hany
    simp only [Option.some.injEq] at h
    rw [← h]
    unfold get_txpool_tx_meta
    rw [List.find?_append]
    have hnone : List.find? (fun r => decide (r.id = id)) db = none := by
      rw [List.find?_eq_none]
      intro r hr hc
      apply hany
      rw [List.any_eq_true]
      exact ⟨r, hr, hc⟩
    rw [hnone]
    simp [List.find?_cons]

/-- When the kept-by-block insertion reaches the common tail, the id is stored with the relay
method of the call. -/
theorem add_tx2_insert_kept_stored (cfg : Config) (bc : Blockchain) (now : Nat)
    (pool : tx_memory_pool) (tx : transaction) (id : hash) (tx_weight : Nat)
    (tvc : tx_verification_context) (meta0 : txpool_tx_meta_t) (tx_relay : relay_method)
    (relayed : Bool) (version : Nat) (t : tx_verification_context) (p : tx_memory_pool)
    (h : add_tx2_insert_kept cfg bc now pool tx id tx_weight tvc meta0 tx_relay relayed version =
      inserted.yes t p) :
    ∃ m, get_txpool_tx_meta p.txpool id = some m ∧ m.relay = tx_relay := by
  unfold add_tx2_insert_kept at h
  simp only at h
  split at h
  · cases h
  · split at h
    · cases h
    · rename_i pool1 _ db hdb
      split at h
      · cases h
      · simp only [inserted.yes.injEq] at h
        rw [← h.2]
        exact ⟨_, get_txpool_tx_meta_add _ _ _ _ _ hdb, rfl⟩

/-- For the relay method `block` and a failed input check, the insertion is the kept-by-block
one. -/
theorem add_tx2_insert_branch_kept (cfg : Config) (bc : Blockchain) (now : Nat)
    (pool : tx_memory_pool) (tx : transaction) (id : hash) (tx_weight : Nat)
    (tvc : tx_verification_context) (source : String) (tx_relay : relay_method)
    (relayed : Bool) (version : Nat) (hk : tx_relay = relay_method.block)
    (hfail : (bc.check_tx_inputs tx tvc.failed true).1 = false) :
    ∃ pool2 tvc2 meta0,
      add_tx2_insert_branch cfg bc now pool tx id tx_weight tvc source tx_relay relayed version =
        add_tx2_insert_kept cfg bc now pool2 tx id tx_weight tvc2 meta0 tx_relay relayed
          version := by
  have hkept := check_tx_inputs_kept bc pool tx id tvc.failed
  rw [hfail] at hkept
  unfold add_tx2_insert_branch
  simp only [hk, decide_True]
  generalize check_tx_inputs bc pool tx id tvc.failed true = r at hkept ⊢
  obtain ⟨res, h1, bid, tvc2, pool2⟩ := r
  simp only at hkept ⊢
  subst hkept
  simp only [Bool.not_false, if_true]
  exact ⟨_, _, _, rfl⟩

/-- C16 (amended).  For every call of `add_tx2` started with a verification context whose
`m_verifivation_impossible` is clear, on a pool whose cached input-check contexts have
`m_verifivation_failed` set and `m_verifivation_impossible` clear, against chain checks that do
not clear `m_verifivation_failed` and do not touch `m_verifivation_impossible`: if it returns
false then `m_verifivation_failed` is set; if it returns true then `m_added_to_pool` is set,
`m_verifivation_failed` is clear, and `m_verifivation_impossible` is set exactly when the relay
method is `block` and the chain's input check failed (on `tvc1`, the context the output check
left, with the failure assumed), in which case the transaction is stored with
`kept_by_block`. -/
theorem add_tx2_result_flags (cfg : Config) (bc : Blockchain) (now : Nat)
    (pool : tx_memory_pool) (tx : transaction) (id : hash) (tx_weight : Nat)
    (tvc : tx_verification_context) (tx_relay : relay_method) (relayed : Bool) (version : Nat)
    (himp : tvc.m_verifivation_impossible = false)
    (hin_f : ∀ tx t k, t.m_verifivation_failed = true →
      (bc.check_tx_inputs tx t k).2.2.2.m_verifivation_failed = true)
    (hin_i : ∀ tx t k, (bc.check_tx_inputs tx t k).2.2.2.m_verifivation_impossible =
      t.m_verifivation_impossible)
    (hout_i : ∀ tx t, (bc.check_tx_outputs tx t).2.m_verifivation_impossible =
      t.m_verifivation_impossible)
    (hcache : ∀ c ∈ pool.m_input_cache,
      c.2.2.1.m_verifivation_failed = true ∧ c.2.2.1.m_verifivation_impossible = false) :
    ((add_tx2 cfg bc now pool tx id tx_weight tvc tx_relay relayed version).ret = some false →
      (add_tx2 cfg bc now pool tx id tx_weight tvc tx_relay relayed
        version).tvc.m_verifivation_failed = true) ∧
    ((add_tx2 cfg bc now pool tx id tx_weight tvc tx_relay relayed version).ret = some true →
      (add_tx2 cfg bc now pool tx id tx_weight tvc tx_relay relayed
        version).tvc.m_added_to_pool = true ∧
      (add_tx2 cfg bc now pool tx id tx_weight tvc tx_relay relayed
        version).tvc.m_verifivation_failed = false ∧
      ∃ source dest tx_type tvc0 tvc1,
        add_tx2_checks cfg bc pool tx id tx_weight tvc tx_relay version =
          checked.ok (source, dest, tx_type, tvc0) ∧
        bc.check_tx_outputs tx tvc0 = (true, tvc1) ∧
        ((add_tx2 cfg bc now pool tx id tx_weight tvc tx_relay relayed
            version).tvc.m_verifivation_impossible = true ↔
          tx_relay = relay_method.block ∧
            (bc.check_tx_inputs tx tvc1.failed true).1 = false) ∧
        (tx_relay = relay_method.block →
          (bc.check_tx_inputs tx tvc1.failed true).1 = false →
          ∃ m, get_txpool_tx_meta (add_tx2 cfg bc now pool tx id tx_weight tvc tx_relay relayed
            version).pool.txpool id = some m ∧ m.kept_by_block = true)) := by
  have hr0 : ∀ r, add_tx2 cfg bc now pool tx id tx_weight tvc tx_relay relayed version = r →
      (r.ret = some false → r.tvc.m_verifivation_failed = true) ∧
      (r.ret = some true →
        r.tvc.m_added_to_pool = true ∧ r.tvc.m_verifivation_failed = false ∧
        ∃ source dest tx_type tvc0 tvc1,
          add_tx2_checks cfg bc pool tx id tx_weight tvc tx_relay version =
            checked.ok (source, dest, tx_type, tvc0) ∧
          bc.check_tx_outputs tx tvc0 = (true, tvc1) ∧
          (r.tvc.m_verifivation_impossible = true ↔
            tx_relay = relay_method.block ∧
              (bc.check_tx_inputs tx tvc1.failed true).1 = false) ∧
          (tx_relay = relay_method.block →
            (bc.check_tx_inputs tx tvc1.failed true).1 = false →
            ∃ m, get_txpool_tx_meta r.pool.txpool id = some m ∧ m.kept_by_block = true)) := by
    intro r hr
    unfold add_tx2 at hr
    simp only at hr
    have hck := add_tx2_checks_flags cfg bc pool tx id tx_weight tvc tx_relay version
    cases hc : add_tx2_checks cfg bc pool tx id tx_weight tvc tx_relay version with
    | abort f =>
      rw [hc] at hr
      simp only at hr
      subst hr
      exact ⟨fun h => (by cases h), fun h => (by cases h)⟩
    | reject t =>
      rw [hc] at hr
      simp only at hr
      subst hr
      exact ⟨fun _ => hck.1 t hc, fun h => (by cases h)⟩
    | ok a =>
      obtain ⟨source, dest, tx_type, tvc0⟩ := a
      rw [hc] at hr
      simp only at hr
      have h0 : tvc0.m_verifivation_impossible = false :=
        (hck.2 source dest tx_type tvc0 hc).trans himp
      split at hr
      · subst hr
        exact ⟨fun _ => rfl, fun h => (by cases h)⟩
      · have ho := hout_i tx tvc0
        cases hout : bc.check_tx_outputs tx tvc0 with
        | mk ok tvc1 =>
          rw [hout] at hr ho
          simp only at ho
          cases ok
          · simp only at hr
            subst hr
            exact ⟨fun _ => rfl, fun h => (by cases h)⟩
          · simp only at hr
            unfold add_tx2_insert at hr
            have hb := add_tx2_insert_branch_flags cfg bc now pool tx id tx_weight tvc1 source
              tx_relay relayed version hin_f hin_i hcache (ho.trans h0)
            cases hi : add_tx2_insert_branch cfg bc now pool tx id tx_weight tvc1 source
                tx_relay relayed version with
            | no t p =>
              rw [hi] at hr
              unfold add_tx2_tail at hr
              subst hr
              exact ⟨fun _ => hb.1 t p hi, fun h => (by cases h)⟩
            | yes t p =>
              rw [hi] at hr
              unfold add_tx2_tail at hr
              simp only at hr
              subst hr
              refine ⟨fun h => (by cases h), fun _ => ⟨(hb.2 t p hi).1, rfl, source, dest,
                tx_type, tvc0, tvc1, rfl, hout, (hb.2 t p hi).2, ?_⟩⟩
              intro hk hfail
              obtain ⟨pool2, tvc2, meta0, hkb⟩ := add_tx2_insert_branch_kept cfg bc now pool tx
                id tx_weight tvc1 source tx_relay relayed version hk hfail
              rw [hkb] at hi
              obtain ⟨m, hm, hrel⟩ := add_tx2_insert_kept_stored _ _ _ _ _ _ _ _ _ _ _ _ t p hi
              have hkm : m.kept_by_block = true := by
                unfold txpool_tx_meta_t.kept_by_block
                rw [hrel, hk]
                rfl
              exact ⟨m, prune_keeps _ _ id m hkm hm, hkm⟩
  exact hr0 _ rfl


/-- C16 (counterexample).  In the pool whose input cache holds, for id 12, a context with
`m_verifivation_impossible` set, a call of `add_tx2` for id 12 with the relay method `fluff`,
started with every flag clear, returns true with `m_verifivation_impossible` set: on a cache hit
the pool's `check_tx_inputs` replaces the context of the call by the cached one. -/
theorem add_tx2_takes_cached_context :
    (add_tx2 havenConfig example_chain 2000 example_stem_pool example_transfer_tx 12 2000
      empty_tvc relay_method.fluff false 20).ret = some true ∧
    (add_tx2 havenConfig example_chain 2000 example_stem_pool example_transfer_tx 12 2000
      empty_tvc relay_method.fluff false 20).tvc.m_verifivation_impossible = true ∧
    empty_tvc.m_verifivation_failed = false ∧ empty_tvc.m_verifivation_impossible = false ∧
    empty_tvc.m_added_to_pool = false ∧
    relay_method.fluff ≠ relay_method.block ∧
    example_stem_pool.m_input_cache.map (fun c => (c.1, c.2.1, c.2.2.1.m_verifivation_impossible))
      = [(12, true, true)] := by
  decide

/-- C16 (amended) at a concrete input: on the pool that holds the XHV transfer 12 (whose input
cache holds the context of that admission), against a chain whose input check fails, a second
XHV transfer relayed as `block` under id 13 is admitted with `m_added_to_pool` and
`m_verifivation_impossible` set and `m_verifivation_failed` clear; against the chain whose
input check passes, `m_verifivation_impossible` stays clear. -/
theorem add_tx2_result_flags_witness :
    example_pool.m_input_cache.map (fun c => c.1) = [12] ∧
    (add_tx2 havenConfig example_chain_failing_inputs 1001 example_pool
      example_second_transfer_tx 13 2000 empty_tvc relay_method.block false 20).ret = some true ∧
    (add_tx2 havenConfig example_chain_failing_inputs 1001 example_pool
      example_second_transfer_tx 13 2000 empty_tvc relay_method.block false
        20).tvc.m_added_to_pool = true ∧
    (add_tx2 havenConfig example_chain_failing_inputs 1001 example_pool
      example_second_transfer_tx 13 2000 empty_tvc relay_method.block false
        20).tvc.m_verifivation_failed = false ∧
    (add_tx2 havenConfig example_chain_failing_inputs 1001 example_pool
      example_second_transfer_tx 13 2000 empty_tvc relay_method.block false
        20).tvc.m_verifivation_impossible = true ∧
    (add_tx2 havenConfig example_chain 1001 example_pool
      example_second_transfer_tx 13 2000 empty_tvc relay_method.block false
        20).tvc.m_verifivation_impossible = false :=
  have h := (add_tx2_result_flags havenConfig example_chain_failing_inputs 1001
    example_pool example_second_transfer_tx 13 2000 empty_tvc relay_method.block
    false 20 rfl (fun _ _ _ h => h) (fun _ _ _ => rfl) (fun _ _ => rfl)
    (by decide)).2 (by decide)
  ⟨by decide, by decide, h.1, h.2.1, by decide, by decide⟩

/-! ## The unlock windows of converted outputs -/

/-- The test of lines 391-394 holds exactly of the outputs that carry the asset. -/
theorem output_is_source_asset_iff (target : txout_target_v) (asset : String) :
    output_is_source_asset target asset = true ↔ target.asset_tag? = some asset := by
  cases target <;> simp [output_is_source_asset, txout_target_v.asset_tag?, eq_comm]

/-- When the loop over the outputs passes, every visited output that is neither skipped as
collateral nor of the source asset has an unlock time of at least the expected period. -/
theorem add_tx2_output_unlock_loop_ok (cfg : Config) (bc : Blockchain) (tx : transaction)
    (tvc : tx_verification_context) (source : String) (tx_type : transaction_type)
    (version current_height : Nat) (l : List Nat) (unlock_time ut : Nat)
    (h : add_tx2_output_unlock_loop cfg bc tx tvc source tx_type version current_height l
      unlock_time = checked.ok ut) :
    ∀ i ∈ l, ∀ out, tx.vout.get? i = some out →
      output_is_source_asset out.target source = false →
      ¬ ((tx_type = transaction_type.OFFSHORE ∨ tx_type = transaction_type.ONSHORE) ∧
        i ∈ tx.collateral_indices) →
      ∃ t W, tx.output_unlock_times.get? i = some t ∧
        expected_unlock_time cfg bc tx_type version = some W ∧
        W ≤ get_tx_unlock_time t tx.pricing_record_height current_height := by
  induction l generalizing unlock_time with
  | nil => intro i hi; cases hi
  | cons j rest ih =>
    unfold add_tx2_output_unlock_loop at h
    intro i hi out hout hsrc hskip
    split at h
    · rename_i hsk
      rcases List.mem_cons.mp hi with rfl | hi
      · exact absurd hsk hskip
      · exact ih _ h i hi out hout hsrc hskip
    · split at h
      · cases h
      · rename_i outj houtj
        split at h
        · rename_i hs
          rcases List.mem_cons.mp hi with rfl | hi
          · rw [hout] at houtj
            cases houtj
            rw [hs] at hsrc
            cases hsrc
          · exact ih _ h i hi out hout hsrc hskip
        · split at h
          · cases h
          · rename_i t ht
            simp only at h
            split at h
            · cases h
            · rename_i W hW
              split at h
              · cases h
              · rename_i hlt
                rcases List.mem_cons.mp hi with rfl | hi
                · exact ⟨t, W, ht, hW, Nat.le_of_not_lt hlt⟩
                · exact ih _ h i hi out hout hsrc hskip

/-- When the collateral checks of an OFFSHORE or ONSHORE pass, there are two collateral indices
and the output at the first one is locked for at least the collateral period. -/
theorem add_tx2_collateral_checks_ok (cfg : Config) (bc : Blockchain) (tx : transaction)
    (tvc : tx_verification_context) (tx_type : transaction_type) (current_height : Nat)
    (unlock_time ut : Nat)
    (h : add_tx2_collateral_checks cfg bc tx tvc tx_type current_height unlock_time =
      checked.ok ut)
    (hty : tx_type = transaction_type.OFFSHORE ∨ tx_type = transaction_type.ONSHORE) :
    tx.collateral_indices.length = 2 ∧
    ∃ t, tx.output_unlock_times.get? (tx.collateral_indices.getD 0 0) = some t ∧
      (if bc.get_nettype = network_type.TESTNET ∨ bc.get_nettype = network_type.STAGENET
        then cfg.TX_V6_ONSHORE_UNLOCK_BLOCKS_TESTNET else cfg.TX_V7_ONSHORE_UNLOCK_BLOCKS) ≤
        get_tx_unlock_time t tx.pricing_record_height current_height := by
  unfold add_tx2_collateral_checks at h
  split at h
  · cases h
  rename_i hlen
  split at h
  · cases h
  split at h
  · cases h
  split at h
  · cases h
  simp only at h
  split at h
  · cases h
  · cases h
  · cases h
  split at h
  · cases h
  rename_i t ht
  refine ⟨by simpa using hlen, t, ht, ?_⟩
  generalize (if bc.get_nettype = network_type.TESTNET ∨ bc.get_nettype = network_type.STAGENET
    then cfg.TX_V6_ONSHORE_UNLOCK_BLOCKS_TESTNET else cfg.TX_V7_ONSHORE_UNLOCK_BLOCKS) = E at h ⊢
  split at h
  · cases h
  rename_i hlt
  exact Nat.le_of_not_lt hlt

/-- From the per-output-unlock epoch, passed unlock checks mean: one unlock time per output, the
collateral checks passed (from the collateral epoch), and the loop over the outputs passed. -/
theorem add_tx2_unlock_checks_post_pou (cfg : Config) (bc : Blockchain) (tx : transaction)
    (tvc : tx_verification_context) (source : String) (tx_type : transaction_type)
    (version current_height unlock_time ut : Nat)
    (hv : version ≥ cfg.HF_PER_OUTPUT_UNLOCK_VERSION)
    (h : add_tx2_unlock_checks cfg bc tx tvc source tx_type version current_height unlock_time =
      checked.ok ut) :
    tx.output_unlock_times.length = tx.vout.length ∧
    ∃ ut1,
      (version ≥ cfg.HF_VERSION_USE_COLLATERAL →
        add_tx2_collateral_checks cfg bc tx tvc tx_type current_height unlock_time =
          checked.ok ut1) ∧
      add_tx2_output_unlock_loop cfg bc tx tvc source tx_type version current_height
        (List.range tx.vout.length) ut1 = checked.ok ut := by
  unfold add_tx2_unlock_checks at h
  rw [if_pos hv] at h
  simp only at h
  split at h
  · cases h
  · cases h
  rename_i ut1 hcol
  split at h
  · cases h
  rename_i hlen
  refine ⟨by simpa using hlen, ut1, ?_, h⟩
  intro hc
  rw [if_pos hc] at hcol
  exact hcol

/-- From the collateral epoch the period expected of a converted ONSHORE output is the one
expected of the collateral output. -/
theorem expected_unlock_time_onshore (cfg : Config) (bc : Blockchain) (version : Nat)
    (hc : version ≥ cfg.HF_VERSION_USE_COLLATERAL) :
    expected_unlock_time cfg bc transaction_type.ONSHORE version =
      some (if bc.get_nettype = network_type.TESTNET ∨ bc.get_nettype = network_type.STAGENET
        then cfg.TX_V6_ONSHORE_UNLOCK_BLOCKS_TESTNET else cfg.TX_V7_ONSHORE_UNLOCK_BLOCKS) := by
  unfold expected_unlock_time
  simp [hc]

/-- Each of the four conversion types has an expected unlock period. -/
theorem expected_unlock_time_isSome (cfg : Config) (bc : Blockchain)
    (tx_type : transaction_type) (version : Nat)
    (h : tx_type = transaction_type.OFFSHORE ∨ tx_type = transaction_type.ONSHORE ∨
      tx_type = transaction_type.XUSD_TO_XASSET ∨ tx_type = transaction_type.XASSET_TO_XUSD) :
    ∃ W, expected_unlock_time cfg bc tx_type version = some W := by
  unfold expected_unlock_time
  rcases h with h | h | h | h <;> subst h <;> simp

/-- Above height 973672 a positive lower bound on `get_tx_unlock_time` is a lower bound on the
difference of the unlock time and the price record height. -/
theorem get_tx_unlock_time_late (t p h W : Nat) (hh : h > 973672) (hW : 0 < W)
    (hle : W ≤ get_tx_unlock_time t p h) : p + W ≤ t := by
  unfold get_tx_unlock_time at hle
  rw [if_pos hh] at hle
  split at hle <;> omega

/-- C13 (counterexample).  First part: at hard-fork version 20 and chain height 1000000
`add_tx2` admits an OFFSHORE whose output 0 carries xUSD, the destination asset, with the
unlock time 0 (an unlock period of 0 blocks, where 15120 are required), because index 0 is
listed in `collateral_indices = [1, 0]` and the loop skips every listed index of an OFFSHORE or
ONSHORE; with `collateral_indices = [1, 2]` the same transaction is rejected.  Second part: at
hard-fork version 19 and chain height 95 it admits an xUSD to XBTC conversion whose XBTC output
has the unlock time 0 and the price record height 90: up to height 973672 `get_tx_unlock_time`
is the difference modulo `2 ^ 64`. -/
theorem add_tx2_admits_unlocked_converted_output :
    (add_tx2 havenConfig example_late_chain 1000 (tx_memory_pool.init 1000000)
      example_offshore_tx 15 2000 empty_tvc relay_method.fluff false 20).ret = some true ∧
    add_tx2_classify havenConfig example_offshore_tx 15 empty_tvc =
      checked.ok ("XHV", "XUSD", transaction_type.OFFSHORE,
        { empty_tvc with m_source_asset := "XHV", m_dest_asset := "XUSD",
                         m_type := transaction_type.OFFSHORE }) ∧
    20 ≥ havenConfig.HF_PER_OUTPUT_UNLOCK_VERSION ∧
    example_offshore_tx.vout.get? 0 = some ⟨0, txout_target_v.txout_offshore 1⟩ ∧
    (txout_target_v.txout_offshore 1).asset_tag? = some "XUSD" ∧
    example_offshore_tx.output_unlock_times.get? 0 = some 0 ∧
    get_tx_unlock_time 0 example_offshore_tx.pricing_record_height
      example_late_chain.get_current_blockchain_height = 0 ∧
    expected_unlock_time havenConfig example_late_chain transaction_type.OFFSHORE 20 =
      some 15120 ∧
    (add_tx2 havenConfig example_late_chain 1000 (tx_memory_pool.init 1000000)
      { example_offshore_tx with collateral_indices := [1, 2] } 15 2000 empty_tvc
      relay_method.fluff false 20).ret = some false ∧
    (add_tx2 havenConfig example_chain 1000 (tx_memory_pool.init 1000000)
      example_unlocked_xbtc_tx 11 2000 empty_tvc relay_method.fluff false 19).ret = some true ∧
    example_unlocked_xbtc_tx.vout.get? 1 = some ⟨0, txout_target_v.txout_xasset 2 "XBTC"⟩ ∧
    example_unlocked_xbtc_tx.output_unlock_times.get? 1 = some 0 ∧
    example_unlocked_xbtc_tx.pricing_record_height = 90 ∧
    get_tx_unlock_time 0 90 example_chain.get_current_blockchain_height = 2 ^ 64 - 90 ∧
    expected_unlock_time havenConfig example_chain transaction_type.XUSD_TO_XASSET 19 =
      some 1440 := by
  decide

/-- C13 (amended).  For every conversion transaction that `add_tx2` admits at a hard-fork version
`≥ HF_PER_OUTPUT_UNLOCK_VERSION`, `output_unlock_times` has exactly one entry per output, and
with `W` the full unlock period of the transaction type, network and version
(`expected_unlock_time`): every output that carries the destination asset and whose index is not
listed in `collateral_indices` of an OFFSHORE or ONSHORE satisfies
`get_tx_unlock_time(output_unlock_times[i], pricing_record_height, current_height) ≥ W`; from
the collateral epoch so does the ONSHORE collateral output, at `collateral_indices[0]`. -/
theorem add_tx2_output_unlock_rule (cfg : Config) (bc : Blockchain) (now : Nat)
    (pool : tx_memory_pool) (tx : transaction) (id : hash) (tx_weight : Nat)
    (tvc : tx_verification_context) (tx_relay : relay_method) (relayed : Bool) (version : Nat)
    (h : (add_tx2 cfg bc now pool tx id tx_weight tvc tx_relay relayed version).ret = some true)
    (hv : version ≥ cfg.HF_PER_OUTPUT_UNLOCK_VERSION) :
    ∃ source dest tx_type tvc1,
      add_tx2_classify cfg tx id tvc = checked.ok (source, dest, tx_type, tvc1) ∧
      (source ≠ dest →
        tx.output_unlock_times.length = tx.vout.length ∧
        ∃ W, expected_unlock_time cfg bc tx_type version = some W ∧
          (∀ i out, tx.vout.get? i = some out → out.target.asset_tag? = some dest →
            ¬ ((tx_type = transaction_type.OFFSHORE ∨ tx_type = transaction_type.ONSHORE) ∧
              i ∈ tx.collateral_indices) →
            ∃ t, tx.output_unlock_times.get? i = some t ∧
              W ≤ get_tx_unlock_time t tx.pricing_record_height
                bc.get_current_blockchain_height) ∧
          (version ≥ cfg.HF_VERSION_USE_COLLATERAL → tx_type = transaction_type.ONSHORE →
            ∃ t, tx.output_unlock_times.get? (tx.collateral_indices.getD 0 0) = some t ∧
              W ≤ get_tx_unlock_time t tx.pricing_record_height
                bc.get_current_blockchain_height)) := by
  obtain ⟨source, dest, tx_type, tvc2, hc⟩ :=
    add_tx2_true_checks cfg bc now pool tx id tx_weight tvc tx_relay relayed version h
  obtain ⟨_, _, _, _, ⟨tvc1, hcl, hconv, _⟩, _⟩ :=
    add_tx2_checks_ok cfg bc pool tx id tx_weight tvc tx_relay version source dest tx_type tvc2 hc
  refine ⟨source, dest, tx_type, tvc1, hcl, ?_⟩
  intro hsd
  obtain ⟨_, _, hrate, ut, hut, _⟩ :=
    add_tx2_conversion_checks_ok cfg bc tx id tvc1 source dest tx_type version tvc2 (hconv hsd)
  have hty := add_tx2_rate_rejected_false cfg tvc2.pr source dest tx_type version hrate
  obtain ⟨hlen, ut1, hcol, hloop⟩ :=
    add_tx2_unlock_checks_post_pou cfg bc tx tvc2 source tx_type version _ _ ut hv hut
  obtain ⟨W, hW⟩ := expected_unlock_time_isSome cfg bc tx_type version hty
  refine ⟨hlen, W, hW, ?_, ?_⟩
  · intro i out hout htag hskip
    have hi : i ∈ List.range tx.vout.length := by
      rw [List.mem_range]
      exact (List.get?_eq_some.mp hout).1
    have hsrc : output_is_source_asset out.target source = false := by
      cases hs : output_is_source_asset out.target source with
      | false => rfl
      | true =>
        rw [output_is_source_asset_iff, htag] at hs
        cases hs
        exact absurd rfl hsd
    obtain ⟨t, W2, ht, hW2, hle⟩ := add_tx2_output_unlock_loop_ok cfg bc tx tvc2 source tx_type
      version _ _ ut1 ut hloop i hi out hout hsrc hskip
    rw [hW] at hW2
    cases hW2
    exact ⟨t, ht, hle⟩
  · intro hcv hon
    subst hon
    obtain ⟨_, t, ht, hle⟩ := add_tx2_collateral_checks_ok cfg bc tx tvc2 _ _ _ ut1 (hcol hcv)
      (Or.inr rfl)
    rw [expected_unlock_time_onshore cfg bc version hcv] at hW
    cases hW
    exact ⟨t, ht, hle⟩

/-- C13 (amended) at a concrete input: the xUSD to XBTC conversion whose XBTC output is locked
for 1440 blocks past the price record is admitted at hard-fork version 19. -/
theorem add_tx2_output_unlock_rule_witness :
    (add_tx2 havenConfig example_chain 1000 (tx_memory_pool.init 1000000)
      example_xusd_to_xbtc_tx 11 2000 empty_tvc relay_method.fluff false 19).ret = some true ∧
    get_tx_unlock_time 1530 example_xusd_to_xbtc_tx.pricing_record_height
      example_chain.get_current_blockchain_height = 1440 ∧
    ∃ source dest tx_type tvc1,
      add_tx2_classify havenConfig example_xusd_to_xbtc_tx 11 empty_tvc =
        checked.ok (source, dest, tx_type, tvc1) ∧
      (source ≠ dest →
        example_xusd_to_xbtc_tx.output_unlock_times.length =
          example_xusd_to_xbtc_tx.vout.length ∧
        ∃ W, expected_unlock_time havenConfig example_chain tx_type 19 = some W ∧
          (∀ i out, example_xusd_to_xbtc_tx.vout.get? i = some out →
            out.target.asset_tag? = some dest →
            ¬ ((tx_type = transaction_type.OFFSHORE ∨ tx_type = transaction_type.ONSHORE) ∧
              i ∈ example_xusd_to_xbtc_tx.collateral_indices) →
            ∃ t, example_xusd_to_xbtc_tx.output_unlock_times.get? i = some t ∧
              W ≤ get_tx_unlock_time t example_xusd_to_xbtc_tx.pricing_record_height
                example_chain.get_current_blockchain_height) ∧
          (19 ≥ havenConfig.HF_VERSION_USE_COLLATERAL → tx_type = transaction_type.ONSHORE →
            ∃ t, example_xusd_to_xbtc_tx.output_unlock_times.get?
                (example_xusd_to_xbtc_tx.collateral_indices.getD 0 0) = some t ∧
              W ≤ get_tx_unlock_time t example_xusd_to_xbtc_tx.pricing_record_height
                example_chain.get_current_blockchain_height)) :=
  ⟨by decide, by decide,
    add_tx2_output_unlock_rule havenConfig example_chain 1000 (tx_memory_pool.init 1000000)
      example_xusd_to_xbtc_tx 11 2000 empty_tvc relay_method.fluff false 19 (by decide)
      (by decide)⟩

/-! ## The timed-out set -/

/-- The loop of `prune` leaves the timed-out set as it is. -/
theorem prune_loop_timed_out (bytes : Nat) (l : List tx_by_fee_and_receive_time_entry)
    (pool : tx_memory_pool) (changed : Bool) :
    (prune_loop bytes l (pool, changed)).2.1.m_timed_out_transactions =
      pool.m_timed_out_transactions := by
  induction l generalizing pool changed with
  | nil => rfl
  | cons it rest ih =>
    unfold prune_loop
    split
    · rfl
    · split
      · rfl
      · split
        · exact ih pool changed
        · split
          · rfl
          · rw [ih, remove_transaction_keyimages_frame]

/-- The function `prune` leaves the timed-out set as it is. -/
theorem prune_timed_out (pool : tx_memory_pool) (bytes : Nat) :
    (prune pool bytes).m_timed_out_transactions = pool.m_timed_out_transactions := by
  unfold prune
  simp only
  have := prune_loop_timed_out (if bytes = 0 then pool.m_txpool_max_weight else bytes)
    pool.m_txs_by_fee_and_receive_time.tail.reverse pool false
  split <;> rename_i h <;> rw [h] at this <;> exact this

/-- The function `take_tx` leaves the timed-out set as it is. -/
theorem take_tx_timed_out (pool : tx_memory_pool) (id : hash) :
    (take_tx pool id).2.m_timed_out_transactions = pool.m_timed_out_transactions := by
  unfold take_tx
  cases h1 : get_txpool_tx_meta pool.txpool id with
  | none => rfl
  | some m =>
    cases h2 : get_txpool_tx_blob pool.txpool id with
    | none => rfl
    | some blob =>
      simp only [remove_transaction_keyimages_frame]
      cases find_tx_in_sorted_container pool id <;> rfl

/-- The removal loop of `remove_stuck_transactions` leaves the timed-out set as it is. -/
theorem remove_stuck_apply_timed_out (remove : List (hash × Nat)) (pool : tx_memory_pool) :
    (remove_stuck_apply remove pool).m_timed_out_transactions =
      pool.m_timed_out_transactions := by
  induction remove generalizing pool with
  | nil => rfl
  | cons entry rest ih =>
    unfold remove_stuck_apply
    split
    · exact ih pool
    · rw [ih, remove_transaction_keyimages_frame]

/-- The scan of `remove_stuck_transactions` keeps every id of the timed-out set and adds the id
of every entry it puts on the `remove` list. -/
theorem remove_stuck_scan_timed_out (cfg : Config) (bc_height now : Nat)
    (rows : List txpool_row) (pool : tx_memory_pool) (remove : List (hash × Nat)) :
    (∀ x ∈ pool.m_timed_out_transactions,
      x ∈ (remove_stuck_scan cfg bc_height now rows (pool, remove)).1.m_timed_out_transactions) ∧
    (∀ e ∈ (remove_stuck_scan cfg bc_height now rows (pool, remove)).2,
      e ∈ remove ∨
      e.1 ∈ (remove_stuck_scan cfg bc_height now rows
        (pool, remove)).1.m_timed_out_transactions) := by
  induction rows generalizing pool remove with
  | nil => exact ⟨fun x hx => hx, fun e he => Or.inl he⟩
  | cons row rest ih =>
    unfold remove_stuck_scan
    simp only
    split
    · have hadd : ∀ p : tx_memory_pool, row.id ∈
          (if row.id ∈ p.m_timed_out_transactions then p.m_timed_out_transactions
            else p.m_timed_out_transactions ++ [row.id]) := by
        intro p
        split
        · assumption
        · simp
      have hmono : ∀ p : tx_memory_pool, ∀ x ∈ p.m_timed_out_transactions, x ∈
          (if row.id ∈ p.m_timed_out_transactions then p.m_timed_out_transactions
            else p.m_timed_out_transactions ++ [row.id]) := by
        intro p x hx
        split
        · exact hx
        · exact List.mem_append_left _ hx
      refine ⟨fun x hx => (ih _ _).1 x ?_, fun e he => ?_⟩
      · apply hmono
        cases find_tx_in_sorted_container pool row.id <;> exact hx
      · rcases (ih _ _).2 e he with h | h
        · rcases List.mem_append.mp h with h | h
          · exact Or.inl h
          · right
            simp only [List.mem_singleton] at h
            rw [h]
            exact (ih _ _).1 _ (hadd _)
        · exact Or.inr h
    · exact ih pool remove

/-- The function `remove_stuck_transactions` keeps every id of the timed-out set and adds the id
of every entry its scan marks for removal. -/
theorem remove_stuck_transactions_timed_out (cfg : Config) (bc : Blockchain) (now : Nat)
    (pool : tx_memory_pool) :
    (∀ x ∈ pool.m_timed_out_transactions,
      x ∈ (remove_stuck_transactions cfg bc now pool).m_timed_out_transactions) ∧
    (∀ e ∈ (remove_stuck_scan cfg bc.get_current_blockchain_height now pool.txpool
        (pool, [])).2,
      e.1 ∈ (remove_stuck_transactions cfg bc now pool).m_timed_out_transactions) := by
  have h := remove_stuck_scan_timed_out cfg bc.get_current_blockchain_height now pool.txpool
    pool []
  unfold remove_stuck_transactions
  generalize remove_stuck_scan cfg bc.get_current_blockchain_height now pool.txpool (pool, [])
    = r at h ⊢
  obtain ⟨pool1, remove⟩ := r
  simp only at h ⊢
  have h2 : ∀ e ∈ remove, e.1 ∈ pool1.m_timed_out_transactions := by
    intro e he
    rcases h.2 e he with hc | hc
    · cases hc
    · exact hc
  split
  · simp only [remove_stuck_apply_timed_out]
    exact ⟨h.1, h2⟩
  · exact ⟨h.1, h2⟩

/-- The kept-by-block insertion leaves the timed-out set as it is. -/
theorem add_tx2_insert_kept_timed_out (cfg : Config) (bc : Blockchain) (now : Nat)
    (pool : tx_memory_pool) (tx : transaction) (id : hash) (tx_weight : Nat)
    (tvc : tx_verification_context) (meta0 : txpool_tx_meta_t) (tx_relay : relay_method)
    (relayed : Bool) (version : Nat) :
    (add_tx2_insert_kept cfg bc now pool tx id tx_weight tvc meta0 tx_relay relayed
      version).pool.m_timed_out_transactions = pool.m_timed_out_transactions := by
  have hf := (insert_key_images_frame cfg
    { pool with m_parsed_tx_cache := parsed_tx_cache_insert pool.m_parsed_tx_cache id tx }
    tx id tx_relay).2
  unfold add_tx2_insert_kept
  simp only
  split
  · rename_i pool1 h1
    rw [h1] at hf
    simp only at hf
    rw [hf]
    rfl
  · rename_i pool1 h1
    rw [h1] at hf
    simp only at hf
    split
    · rw [hf]; rfl
    · split
      · rw [hf]; rfl
      · rw [hf]; rfl

/-- The inputs check and insertion leave the timed-out set as it is. -/
theorem add_tx2_insert_branch_timed_out (cfg : Config) (bc : Blockchain) (now : Nat)
    (pool : tx_memory_pool) (tx : transaction) (id : hash) (tx_weight : Nat)
    (tvc : tx_verification_context) (source : String) (tx_relay : relay_method)
    (relayed : Bool) (version : Nat) :
    (add_tx2_insert_branch cfg bc now pool tx id tx_weight tvc source tx_relay relayed
      version).pool.m_timed_out_transactions = pool.m_timed_out_transactions := by
  unfold add_tx2_insert_branch
  simp only
  obtain ⟨c, hc⟩ := check_tx_inputs_frame bc pool tx id tvc.failed
    (decide (tx_relay = relay_method.block))
  generalize check_tx_inputs bc pool tx id tvc.failed
    (decide (tx_relay = relay_method.block)) = r at hc ⊢
  obtain ⟨res, h1, bid, tvc2, pool2⟩ := r
  simp only at hc ⊢
  subst hc
  split
  · split
    · rw [add_tx2_insert_kept_timed_out]
    · rfl
  · rcases add_tx2_insert_checked_shape cfg bc now { pool with m_input_cache := c } tx id
      tx_weight tvc2 { txpool_tx_meta_t.zero with fee_asset_type := source } h1 bid tx_relay
      relayed version with ⟨c2, m, r, h⟩ | ⟨c2, m, r, h⟩
    · rw [h]
      obtain ⟨db, order, hs⟩ := add_tx2_store_pool cfg bc now
        { pool with m_input_cache := c, m_parsed_tx_cache := c2 } tx id tx_weight tvc2 m r
        version
      rw [hs, (insert_key_images_frame _ _ _ _ _).2]
    · rw [h]
      rfl

/-- The function `add_tx2` leaves the timed-out set as it is, whatever it returns. -/
theorem add_tx2_timed_out (cfg : Config) (bc : Blockchain) (now : Nat) (pool : tx_memory_pool)
    (tx : transaction) (id : hash) (tx_weight : Nat) (tvc : tx_verification_context)
    (tx_relay : relay_method) (relayed : Bool) (version : Nat) :
    (add_tx2 cfg bc now pool tx id tx_weight tvc tx_relay relayed
      version).pool.m_timed_out_transactions = pool.m_timed_out_transactions := by
  unfold add_tx2
  simp only
  split
  · rfl
  · rfl
  · split
    · obtain ⟨db, c, h⟩ := mark_double_spend_frame pool tx
      rw [h]
    · split
      · rfl
      · unfold add_tx2_insert
        rename_i source _ _ _ _ _ _ tvc2 _
        have hb := add_tx2_insert_branch_timed_out cfg bc now pool tx id tx_weight tvc2 source
          tx_relay relayed version
        generalize add_tx2_insert_branch cfg bc now pool tx id tx_weight tvc2 source
          tx_relay relayed version = r at hb ⊢
        cases r with
        | no t p => exact hb
        | yes t p =>
          unfold add_tx2_tail
          simp only
          rw [prune_timed_out]
          exact hb

/-- No id ever leaves the timed-out set. -/
theorem reachable_from_timed_out (cfg : Config) (start pool : tx_memory_pool)
    (h : reachable_from cfg start pool) :
    ∀ x ∈ start.m_timed_out_transactions, x ∈ pool.m_timed_out_transactions := by
  induction h with
  | refl => exact fun x hx => hx
  | add_tx2 pool bc now tx id tx_weight tvc tx_relay relayed version _ ih =>
    rw [add_tx2_timed_out]
    exact ih
  | take_tx pool id _ ih =>
    rw [take_tx_timed_out]
    exact ih
  | prune pool bytes _ ih =>
    rw [prune_timed_out]
    exact ih
  | remove_stuck_transactions pool bc now _ ih =>
    exact fun x hx => (remove_stuck_transactions_timed_out cfg bc now pool).1 x (ih x hx)

/-- For a relay method other than `block` the checks reject a timed-out id at once. -/
theorem add_tx2_checks_timed_out (cfg : Config) (bc : Blockchain) (pool : tx_memory_pool)
    (tx : transaction) (id : hash) (tx_weight : Nat) (tvc : tx_verification_context)
    (tx_relay : relay_method) (version : Nat) (hr : tx_relay ≠ relay_method.block)
    (hid : id ∈ pool.m_timed_out_transactions) :
    add_tx2_checks cfg bc pool tx id tx_weight tvc tx_relay version =
      checked.reject tvc.failed := by
  unfold add_tx2_checks
  simp only
  rw [if_pos]
  simp only [Bool.not_eq_true', decide_eq_false_iff_not]
  exact ⟨hr, hid⟩

/-- C17.  Every id that `remove_stuck_transactions` marks for removal (puts on its `remove`
list) is in `m_timed_out_transactions` when it returns, and in every later pool state; there,
every call of `add_tx2` for that id with a relay method other than `block` returns false with
`m_verifivation_failed` set and leaves the pool as it is, and the legacy `add_tx` returns false
with `m_verifivation_failed` set in its opening checks; with the relay method `block` the
checks of `add_tx2` come out as they would with any other timed-out set, and the opening checks
of `add_tx` let a transaction of non-zero version through. -/
theorem timed_out_not_readmitted (cfg : Config) (bc0 : Blockchain) (now0 : Nat)
    (pool0 pool : tx_memory_pool) (e : hash × Nat)
    (he : e ∈ (remove_stuck_scan cfg bc0.get_current_blockchain_height now0 pool0.txpool
      (pool0, [])).2)
    (hlater : reachable_from cfg (remove_stuck_transactions cfg bc0 now0 pool0) pool) :
    e.1 ∈ (remove_stuck_transactions cfg bc0 now0 pool0).m_timed_out_transactions ∧
    e.1 ∈ pool.m_timed_out_transactions ∧
    (∀ (bc : Blockchain) (now : Nat) (tx : transaction) (tx_weight : Nat)
        (tvc : tx_verification_context) (tx_relay : relay_method) (relayed : Bool)
        (version : Nat), tx_relay ≠ relay_method.block →
      (add_tx2 cfg bc now pool tx e.1 tx_weight tvc tx_relay relayed version).ret = some false ∧
      (add_tx2 cfg bc now pool tx e.1 tx_weight tvc tx_relay relayed
        version).tvc.m_verifivation_failed = true ∧
      (add_tx2 cfg bc now pool tx e.1 tx_weight tvc tx_relay relayed version).pool = pool) ∧
    (∀ (tx : transaction) (tvc : tx_verification_context) (tx_relay : relay_method),
      tx_relay ≠ relay_method.block →
      ∃ t, add_tx_opening pool tx e.1 tvc tx_relay = some t ∧ t.m_verifivation_failed = true) ∧
    (∀ (bc : Blockchain) (tx : transaction) (tx_weight : Nat) (tvc : tx_verification_context)
        (version : Nat) (s : List hash),
      add_tx2_checks cfg bc pool tx e.1 tx_weight tvc relay_method.block version =
        add_tx2_checks cfg bc { pool with m_timed_out_transactions := s } tx e.1 tx_weight tvc
          relay_method.block version) ∧
    (∀ (tx : transaction) (tvc : tx_verification_context), tx.version ≠ 0 →
      add_tx_opening pool tx e.1 tvc relay_method.block = none) := by
  have h1 := (remove_stuck_transactions_timed_out cfg bc0 now0 pool0).2 e he
  have h2 := reachable_from_timed_out cfg _ pool hlater _ h1
  refine ⟨h1, h2, ?_, ?_, ?_, ?_⟩
  · intro bc now tx tx_weight tvc tx_relay relayed version hr
    have hc := add_tx2_checks_timed_out cfg bc pool tx e.1 tx_weight tvc tx_relay version hr h2
    unfold add_tx2
    simp [hc, tx_verification_context.failed]
  · intro tx tvc tx_relay hr
    unfold add_tx_opening
    simp only
    split
    · exact ⟨_, rfl, rfl⟩
    · rw [if_pos]
      · exact ⟨_, rfl, rfl⟩
      · simp only [Bool.not_eq_true', decide_eq_false_iff_not]
        exact ⟨hr, h2⟩
  · intro bc tx tx_weight tvc version s
    unfold add_tx2_checks
    simp
  · intro tx tvc hv
    unfold add_tx_opening
    simp [hv]

/-- C17 at a concrete input: in the pool that holds the XHV transfer received at time 1000 under
id 12, `remove_stuck_transactions` at time 100000 marks id 12; afterwards `add_tx2` for id 12
returns false with the relay method `fluff` and true with the relay method `block`. -/
theorem timed_out_not_readmitted_witness :
    ((12, 2000) : hash × Nat) ∈ (remove_stuck_scan havenConfig
      example_chain.get_current_blockchain_height 100000 example_pool.txpool
      (example_pool, [])).2 ∧
    (12 : hash) ∈
      (remove_stuck_transactions havenConfig example_chain 100000 example_pool
        ).m_timed_out_transactions ∧
    (add_tx2 havenConfig example_chain 100001
      (remove_stuck_transactions havenConfig example_chain 100000 example_pool)
      example_transfer_tx 12 2000 empty_tvc relay_method.fluff false 20).ret = some false ∧
    (add_tx2 havenConfig example_chain 100001
      (remove_stuck_transactions havenConfig example_chain 100000 example_pool)
      example_transfer_tx 12 2000 empty_tvc relay_method.block false 20).ret = some true :=
  ⟨by decide,
    (timed_out_not_readmitted havenConfig example_chain 100000 example_pool
      (remove_stuck_transactions havenConfig example_chain 100000 example_pool) (12, 2000)
      (by decide) reachable_from.refl).1,
    ((timed_out_not_readmitted havenConfig example_chain 100000 example_pool
      (remove_stuck_transactions havenConfig example_chain 100000 example_pool) (12, 2000)
      (by decide) reachable_from.refl).2.2.1 example_chain 100001 example_transfer_tx 2000
      empty_tvc relay_method.fluff false 20 (by decide)).1,
    by decide⟩

/-! ## The weight counter and the indices -/

/-- C18 (the code at the failing input).  The XHV transfer (weight 2000) is admitted under id 12
with the relay method `stem` and then again, at a later time, with the relay method `fluff`
(the upgrade of a stored entry): both calls return true, the pool is reachable from the empty
pool, it stores the one entry 12 of weight 2000, and `m_txpool_weight` is 4000.  The counter
is 4000 as well when the second call comes with the relay method `stem` again. -/
theorem readmission_counts_weight_twice :
    (add_tx2 havenConfig example_chain 1000 (tx_memory_pool.init 1000000) example_transfer_tx 12
      2000 empty_tvc relay_method.stem false 20).ret = some true ∧
    (add_tx2 havenConfig example_chain 2000 example_stem_admitted_pool example_transfer_tx 12
      2000 empty_tvc relay_method.fluff false 20).ret = some true ∧
    reachable_from havenConfig (tx_memory_pool.init 1000000) example_readmitted_pool ∧
    example_stem_admitted_pool.m_txpool_weight = 2000 ∧
    example_stem_admitted_pool.txpool.map (fun r => (r.id, r.meta_.weight)) = [(12, 2000)] ∧
    example_readmitted_pool.txpool.map (fun r => (r.id, r.meta_.weight)) = [(12, 2000)] ∧
    (example_readmitted_pool.txpool.map (fun r => r.meta_.weight)).sum = 2000 ∧
    example_readmitted_pool.m_txpool_weight = 4000 ∧
    (add_tx2 havenConfig example_chain 2000 example_stem_admitted_pool example_transfer_tx 12
      2000 empty_tvc relay_method.stem false 20).ret = some true ∧
    (add_tx2 havenConfig example_chain 2000 example_stem_admitted_pool example_transfer_tx 12
      2000 empty_tvc relay_method.stem false 20).pool.m_txpool_weight = 4000 :=
  ⟨by decide, by decide,
    reachable_from.add_tx2 _ _ _ _ _ _ _ _ _ _
      (reachable_from.add_tx2 _ _ _ _ _ _ _ _ _ _ reachable_from.refl),
    by decide, by decide, by decide, by decide, by decide, by decide, by decide⟩

/-- C19 (the code at the failing input).  After the XHV transfer was admitted under id 12 with
the relay method `stem` at time 1000 and again with the relay method `fluff` at time 2000, the
fee order lists id 12 twice (once per receive time) while the store holds one entry; after
`take_tx` of id 12 the store and the key-image index are empty and the fee order still lists
id 12. -/
theorem readmission_duplicates_fee_order_entry :
    reachable_from havenConfig (tx_memory_pool.init 1000000) example_readmitted_pool ∧
    reachable_from havenConfig (tx_memory_pool.init 1000000)
      (take_tx example_readmitted_pool 12).2 ∧
    example_readmitted_pool.m_txs_by_fee_and_receive_time.map
      (fun e => (e.id, e.receive_time)) = [(12, 1000), (12, 2000)] ∧
    example_readmitted_pool.txpool.map (fun r => r.id) = [12] ∧
    example_readmitted_pool.m_spent_key_images = [(101, [12])] ∧
    (take_tx example_readmitted_pool 12).1.isSome = true ∧
    (take_tx example_readmitted_pool 12).2.txpool = [] ∧
    (take_tx example_readmitted_pool 12).2.m_spent_key_images = [] ∧
    (take_tx example_readmitted_pool 12).2.m_txs_by_fee_and_receive_time.map
      (fun e => (e.id, e.receive_time)) = [(12, 2000)] :=
  ⟨reachable_from.add_tx2 _ _ _ _ _ _ _ _ _ _
      (reachable_from.add_tx2 _ _ _ _ _ _ _ _ _ _ reachable_from.refl),
    reachable_from.take_tx _ _
      (reachable_from.add_tx2 _ _ _ _ _ _ _ _ _ _
        (reachable_from.add_tx2 _ _ _ _ _ _ _ _ _ _ reachable_from.refl)),
    by decide, by decide, by decide, by decide, by decide, by decide, by decide⟩

/-! ## Pruning -/

/-- After `remove_txpool_tx` the id is not stored. -/
theorem get_txpool_tx_meta_remove_self (db : List txpool_row) (id : hash) :
    get_txpool_tx_meta (remove_txpool_tx db id) id = none := by
  unfold get_txpool_tx_meta remove_txpool_tx
  rw [Option.map_eq_none', List.find?_eq_none]
  intro r hr
  have := (List.mem_filter.mp hr).2
  simpa using this

/-- An entry found after `remove_txpool_tx` is an entry of another id that was there before. -/
theorem get_txpool_tx_meta_of_remove (db : List txpool_row) (id id2 : hash)
    (m : txpool_tx_meta_t) (h : get_txpool_tx_meta (remove_txpool_tx db id2) id = some m) :
    id ≠ id2 ∧ get_txpool_tx_meta db id = some m := by
  by_cases hc : id = id2
  · subst hc
    rw [get_txpool_tx_meta_remove_self] at h
    cases h
  · rw [get_txpool_tx_meta_remove_ne _ _ _ hc] at h
    exact ⟨hc, h⟩

/-- An id whose metadata is stored has its blob stored. -/
theorem get_txpool_tx_blob_of_meta (db : List txpool_row) (id : hash) (m : txpool_tx_meta_t)
    (h : get_txpool_tx_meta db id = some m) : ∃ tx, get_txpool_tx_blob db id = some tx := by
  unfold get_txpool_tx_meta at h
  unfold get_txpool_tx_blob
  cases hf : List.find? (fun r => decide (r.id = id)) db with
  | none => rw [hf] at h; cases h
  | some r => exact ⟨r.blob, rfl⟩

/-- An id whose metadata is stored is the id of a row of the table. -/
theorem get_txpool_tx_meta_mem (db : List txpool_row) (id : hash) (m : txpool_tx_meta_t)
    (h : get_txpool_tx_meta db id = some m) : ∃ r ∈ db, r.id = id := by
  unfold get_txpool_tx_meta at h
  cases hf : List.find? (fun r => decide (r.id = id)) db with
  | none => rw [hf] at h; cases h
  | some r =>
    exact ⟨r, List.mem_of_find?_eq_some hf, by simpa using List.find?_some hf⟩

/-- The loop of `prune`, over entries with distinct stored ids: it completes, every entry it
leaves was there before, and either the weight is within the limit or every visited id that is
still stored has `kept_by_block`. -/
theorem prune_loop_rule (bytes : Nat) (l : List tx_by_fee_and_receive_time_entry)
    (pool : tx_memory_pool) (changed : Bool)
    (hstored : ∀ e ∈ l, (get_txpool_tx_meta pool.txpool e.id).isSome = true)
    (hnodup : (l.map (fun e => e.id)).Nodup) :
    (prune_loop bytes l (pool, changed)).1 = true ∧
    (∀ id m, get_txpool_tx_meta (prune_loop bytes l (pool, changed)).2.1.txpool id = some m →
      get_txpool_tx_meta pool.txpool id = some m) ∧
    ((prune_loop bytes l (pool, changed)).2.1.m_txpool_weight ≤ bytes ∨
      ∀ e ∈ l, ∀ m,
        get_txpool_tx_meta (prune_loop bytes l (pool, changed)).2.1.txpool e.id = some m →
        m.kept_by_block = true) := by
  induction l generalizing pool changed with
  | nil =>
    refine ⟨rfl, fun id m h => h, Or.inr ?_⟩
    intro e he
    cases he
  | cons it rest ih =>
    have hnd : it.id ∉ rest.map (fun e => e.id) ∧ (rest.map (fun e => e.id)).Nodup :=
      List.nodup_cons.mp hnodup
    have hit := hstored it (List.mem_cons_self _ _)
    obtain ⟨m2, hm2⟩ := Option.isSome_iff_exists.mp hit
    unfold prune_loop
    split
    · rename_i hw
      exact ⟨rfl, fun id m h => h, Or.inl hw⟩
    · rw [hm2]
      simp only
      split
      · rename_i hk
        have ih1 := ih pool changed (fun e he => hstored e (List.mem_cons_of_mem _ he)) hnd.2
        refine ⟨ih1.1, ih1.2.1, ?_⟩
        rcases ih1.2.2 with hl | hr
        · exact Or.inl hl
        · right
          intro e he m hm
          rcases List.mem_cons.mp he with rfl | he
          · have := ih1.2.1 _ _ hm
            rw [hm2] at this
            cases this
            exact hk
          · exact hr e he m hm
      · rename_i hk
        obtain ⟨tx, htx⟩ := get_txpool_tx_blob_of_meta _ _ _ hm2
        rw [htx]
        simp only
        have key : ∀ P : tx_memory_pool, P.txpool = remove_txpool_tx pool.txpool it.id →
            ((prune_loop bytes rest (P, true)).1 = true ∧
            (∀ id m, get_txpool_tx_meta (prune_loop bytes rest (P, true)).2.1.txpool id = some m →
              get_txpool_tx_meta pool.txpool id = some m) ∧
            ((prune_loop bytes rest (P, true)).2.1.m_txpool_weight ≤ bytes ∨
              ∀ e ∈ it :: rest, ∀ m,
                get_txpool_tx_meta (prune_loop bytes rest (P, true)).2.1.txpool e.id = some m →
                m.kept_by_block = true)) := by
          intro P hP
          have ih1 := ih P true
            (by
              intro e he
              rw [hP]
              have hne : e.id ≠ it.id := by
                intro hc
                apply hnd.1
                rw [← hc]
                exact List.mem_map.mpr ⟨e, he, rfl⟩
              rw [get_txpool_tx_meta_remove_ne _ _ _ hne]
              exact hstored e (List.mem_cons_of_mem _ he))
            hnd.2
          rw [hP] at ih1
          refine ⟨ih1.1, ?_, ?_⟩
          · intro id m hm
            exact (get_txpool_tx_meta_of_remove _ _ _ _ (ih1.2.1 id m hm)).2
          · rcases ih1.2.2 with hl | hr
            · exact Or.inl hl
            · right
              intro e he m hm
              rcases List.mem_cons.mp he with rfl | he
              · exact absurd rfl (get_txpool_tx_meta_of_remove _ _ _ _ (ih1.2.1 _ m hm)).1
              · exact hr e he m hm
        exact key _ (by rw [remove_transaction_keyimages_frame])

/-- C20 (counterexample).  The pool that holds the one XHV transfer (id 12, weight 2000, relay
method `fluff`) is left as it is by `prune(1000)`: the weight 2000 exceeds the limit and the
remaining entry does not have `kept_by_block`.  The loop never visits the first entry of the fee
order. -/
theorem prune_leaves_first_entry :
    example_pool.m_txs_by_fee_and_receive_time.map (fun e => e.id) = [12] ∧
    example_pool.txpool.map (fun r => (r.id, r.meta_.weight, r.meta_.kept_by_block)) =
      [(12, 2000, false)] ∧
    example_pool.m_txpool_weight = 2000 ∧
    prune example_pool 1000 = example_pool ∧
    ¬ (prune example_pool 1000).m_txpool_weight ≤ 1000 := by
  decide

/-- C20 (amended).  After `prune(B)` returns, with `B > 0`, on a non-empty pool whose fee order
lists exactly the ids of the stored entries, each once: either `m_txpool_weight ≤ B`, or every
entry remaining in the pool other than the first entry of the fee order has `kept_by_block`
set. -/
theorem prune_rule (pool : tx_memory_pool) (bytes : Nat) (hb : 0 < bytes)
    (hne : pool.m_txs_by_fee_and_receive_time ≠ [])
    (hstored : ∀ e ∈ pool.m_txs_by_fee_and_receive_time,
      (get_txpool_tx_meta pool.txpool e.id).isSome = true)
    (hnodup : (pool.m_txs_by_fee_and_receive_time.map (fun e => e.id)).Nodup)
    (hlisted : ∀ r ∈ pool.txpool, ∃ e ∈ pool.m_txs_by_fee_and_receive_time, e.id = r.id) :
    ∃ first rest, pool.m_txs_by_fee_and_receive_time = first :: rest ∧
      ((prune pool bytes).m_txpool_weight ≤ bytes ∨
        ∀ id m, get_txpool_tx_meta (prune pool bytes).txpool id = some m → id ≠ first.id →
          m.kept_by_block = true) := by
  cases hord : pool.m_txs_by_fee_and_receive_time with
  | nil => exact absurd hord hne
  | cons first rest =>
    refine ⟨first, rest, rfl, ?_⟩
    rw [hord] at hstored hnodup hlisted
    have hnd : first.id ∉ rest.map (fun e => e.id) ∧ (rest.map (fun e => e.id)).Nodup :=
      List.nodup_cons.mp hnodup
    have hloop := prune_loop_rule bytes rest.reverse pool false
      (fun e he => hstored e (List.mem_cons_of_mem _ (List.mem_reverse.mp he)))
      (by
        rw [List.map_reverse]
        exact List.nodup_reverse.mpr hnd.2)
    unfold prune
    simp only [hord, List.tail_cons, Nat.pos_iff_ne_zero.mp hb, if_false]
    generalize prune_loop bytes rest.reverse (pool, false) = r at hloop
    obtain ⟨c, p1, ch⟩ := r
    simp only at hloop
    obtain ⟨hc, hsub, hdis⟩ := hloop
    subst hc
    simp only
    rcases hdis with hl | hr
    · exact Or.inl hl
    · right
      intro id m hm hid
      obtain ⟨r, hrm, hrid⟩ := get_txpool_tx_meta_mem _ _ _ (hsub id m hm)
      obtain ⟨e, he, heid⟩ := hlisted r hrm
      rcases List.mem_cons.mp he with rfl | he
      · exact absurd (hrid.symm.trans heid.symm).symm (fun h => hid (h ▸ rfl))
      · have := hr e (List.mem_reverse.mpr he) m
        rw [heid, hrid] at this
        exact this hm

/-- C20 (amended) at a concrete input: in the pool of the two XHV transfers (ids 12 and 13, weight
2000 each) `prune(3000)` evicts entry 13, the one with the lower fee rate, and leaves the
weight 2000. -/
theorem prune_rule_witness :
    (prune example_two_tx_pool 3000).txpool.map (fun r => r.id) = [12] ∧
    (prune example_two_tx_pool 3000).m_txpool_weight = 2000 ∧
    ∃ first rest, example_two_tx_pool.m_txs_by_fee_and_receive_time = first :: rest ∧
      ((prune example_two_tx_pool 3000).m_txpool_weight ≤ 3000 ∨
        ∀ id m, get_txpool_tx_meta (prune example_two_tx_pool 3000).txpool id = some m →
          id ≠ first.id → m.kept_by_block = true) :=
  ⟨by decide, by decide,
    prune_rule example_two_tx_pool 3000 (by decide) (by decide) (by decide) (by decide)
      (by decide)⟩

/-! ## Double-spend marking -/

/-- The metadata `update_txpool_tx` leaves under an id: the new metadata under the updated id
when it is stored, the old metadata under every other id. -/
theorem get_txpool_tx_meta_update (db : List txpool_row) (id id2 : hash)
    (m : txpool_tx_meta_t) :
    get_txpool_tx_meta (update_txpool_tx db id m) id2 =
      if id2 = id then (get_txpool_tx_meta db id).map (fun _ => m)
      else get_txpool_tx_meta db id2 := by
  induction db with
  | nil => simp [update_txpool_tx, get_txpool_tx_meta]
  | cons r rest ih =>
    unfold update_txpool_tx
    by_cases h : r.id = id
    · subst h
      rw [if_pos rfl]
      by_cases h2 : id2 = r.id
      · subst h2; simp [get_txpool_tx_meta, List.find?_cons]
      · have h3 : ¬ r.id = id2 := fun e => h2 e.symm
        rw [if_neg h2]
        simp [get_txpool_tx_meta, List.find?_cons, h3]
    · rw [if_neg h]
      by_cases h2 : id2 = id
      · subst h2
        rw [if_pos rfl] at ih ⊢
        simp only [get_txpool_tx_meta, List.find?_cons, h, decide_False] at ih ⊢
        exact ih
      · rw [if_neg h2] at ih ⊢
        by_cases h3 : r.id = id2
        · simp [get_txpool_tx_meta, List.find?_cons, h3]
        · simp only [get_txpool_tx_meta, List.find?_cons, h3, decide_False] at ih ⊢
          exact ih

/-- Setting a flag that is already set leaves the metadata as they are. -/
theorem double_spend_seen_set_of_set (m : txpool_tx_meta_t) (h : m.double_spend_seen = true) :
    { m with double_spend_seen := true } = m := by
  cases m
  simp only [txpool_tx_meta_t.mk.injEq, true_and] at h ⊢
  simp_all

/-- The metadata the inner loop of `mark_double_spend` leaves under an id: the flag is set when
the id is one of the visited ids, nothing else changes. -/
theorem mark_double_spend_ids_meta (ids : List hash) (db : List txpool_row) (changed : Bool)
    (id : hash) :
    get_txpool_tx_meta (mark_double_spend_ids ids (db, changed)).1 id =
      (get_txpool_tx_meta db id).map
        (fun m => if id ∈ ids then { m with double_spend_seen := true } else m) := by
  induction ids generalizing db changed with
  | nil => simp [mark_double_spend_ids]
  | cons txid rest ih =>
    unfold mark_double_spend_ids
    cases hm : get_txpool_tx_meta db txid with
    | none =>
      simp only
      rw [ih]
      by_cases he : id = txid
      · subst he; simp [hm]
      · simp [he]
    | some m =>
      simp only
      by_cases hd : m.double_spend_seen = true
      · simp only [hd, Bool.not_true, Bool.false_eq_true, if_false]
        rw [ih]
        by_cases he : id = txid
        · subst he
          simp only [hm, Option.map_some', List.mem_cons, true_or, if_true]
          by_cases hr : id ∈ rest <;> simp [hr, double_spend_seen_set_of_set m hd]
        · simp [he]
      · have hd2 : m.double_spend_seen = false := by simpa using hd
        simp only [hd2, Bool.not_false, if_true]
        rw [ih, get_txpool_tx_meta_update]
        by_cases he : id = txid
        · subst he
          simp only [hm, Option.map_some', List.mem_cons, true_or, if_true]
          by_cases hr : id ∈ rest <;> simp [hr]
        · simp [he]

/-- The metadata the outer loop of `mark_double_spend` leaves under an id. -/
theorem mark_double_spend_loop_meta (index : List (key_image × List hash)) (vin : List txin_v)
    (db : List txpool_row) (changed : Bool) (r : List txpool_row × Bool)
    (h : mark_double_spend_loop index vin (db, changed) = some r) (id : hash) :
    get_txpool_tx_meta r.1 id =
      (get_txpool_tx_meta db id).map
        (fun m => if marked_ids index vin id then { m with double_spend_seen := true }
          else m) := by
  induction vin generalizing db changed with
  | nil =>
    simp only [mark_double_spend_loop, Option.some.injEq] at h
    subst h
    simp [marked_ids]
  | cons i rest ih =>
    unfold mark_double_spend_loop at h
    cases hk : i.k_image? with
    | none => simp [hk] at h
    | some k =>
      simp only [hk] at h
      cases hf : ki_find index k with
      | none =>
        simp only [hf] at h
        rw [ih db changed h]
        simp [marked_ids, hk, hf]
      | some ids =>
        simp only [hf] at h
        have := ih (mark_double_spend_ids ids (db, changed)).1
          (mark_double_spend_ids ids (db, changed)).2 h
        rw [this, mark_double_spend_ids_meta]
        cases hg : get_txpool_tx_meta db id with
        | none => simp
        | some m =>
          simp only [Option.map_some', marked_ids, List.any_cons, hk, hf, Option.getD_some,
            Bool.or_eq_true, decide_eq_true_eq]
          by_cases h1 : id ∈ ids
          · by_cases h2 : (rest.any fun i =>
                match i.k_image? with
                | some k => decide (id ∈ (ki_find index k).getD [])
                | none => false) = true
            · simp [h1, h2]
            · simp [h1, h2]
          · simp [h1]

/-- The loop of `mark_double_spend` ends early exactly on a transaction with an input that is
none of the four spend variants. -/
theorem mark_double_spend_loop_isSome (index : List (key_image × List hash))
    (vin : List txin_v) (acc : List txpool_row × Bool) :
    (mark_double_spend_loop index vin acc).isSome = vin.all (fun i => i.k_image?.isSome) := by
  induction vin generalizing acc with
  | nil => simp [mark_double_spend_loop]
  | cons i rest ih =>
    unfold mark_double_spend_loop
    cases hk : i.k_image? with
    | none => simp [hk]
    | some k =>
      simp only [List.all_cons, hk, Option.isSome_some, Bool.true_and]
      cases ki_find index k <;> exact ih _

/-- Setting the flag of a stored entry whose flag is clear adds one flagged row. -/
theorem flagged_rows_update (db : List txpool_row) (id : hash) (m : txpool_tx_meta_t)
    (hm : get_txpool_tx_meta db id = some m) (hd : m.double_spend_seen = false) :
    flagged_rows (update_txpool_tx db id { m with double_spend_seen := true }) =
      flagged_rows db + 1 := by
  induction db with
  | nil => simp [get_txpool_tx_meta] at hm
  | cons r rest ih =>
    unfold update_txpool_tx
    by_cases h : r.id = id
    · have hr : r.meta_ = m := by
        simpa [get_txpool_tx_meta, List.find?_cons, h] using hm
      have hr2 : r.meta_.double_spend_seen = false := by rw [hr]; exact hd
      simp [h, flagged_rows, List.filter_cons, hr2]
    · have hm2 : get_txpool_tx_meta rest id = some m := by
        simpa [get_txpool_tx_meta, List.find?_cons, h] using hm
      have := ih hm2
      simp only [h, if_false]
      simp only [flagged_rows, List.filter_cons] at this ⊢
      by_cases hr : r.meta_.double_spend_seen = true
      · simp only [hr, if_true, List.length_cons]; omega
      · simp only [hr, Bool.false_eq_true, if_false]; exact this

/-- The inner loop of `mark_double_spend` sets `changed` exactly when it sets a flag: when it
leaves `changed` clear the table is the one it started from, and when it raises `changed` the
table has more flagged rows. -/
theorem mark_double_spend_ids_changed (ids : List hash) (db : List txpool_row)
    (changed : Bool) :
    flagged_rows db ≤ flagged_rows (mark_double_spend_ids ids (db, changed)).1 ∧
    ((mark_double_spend_ids ids (db, changed)).2 = false →
      (mark_double_spend_ids ids (db, changed)).1 = db ∧ changed = false) ∧
    ((mark_double_spend_ids ids (db, changed)).2 = true → changed = false →
      flagged_rows db < flagged_rows (mark_double_spend_ids ids (db, changed)).1) ∧
    (changed = true → (mark_double_spend_ids ids (db, changed)).2 = true) := by
  induction ids generalizing db changed with
  | nil =>
    rw [show mark_double_spend_ids [] (db, changed) = (db, changed) from rfl]
    exact ⟨Nat.le_refl _, fun h => ⟨rfl, h⟩, fun h1 h2 => by simp_all, fun h => h⟩
  | cons txid rest ih =>
    unfold mark_double_spend_ids
    cases hm : get_txpool_tx_meta db txid with
    | none => exact ih db changed
    | some m =>
      simp only
      by_cases hd : m.double_spend_seen = true
      · simp only [hd, Bool.not_true, Bool.false_eq_true, if_false]
        exact ih db changed
      · have hd2 : m.double_spend_seen = false := by simpa using hd
        simp only [hd2, Bool.not_false, if_true]
        have hu := flagged_rows_update db txid m hm hd2
        obtain ⟨i1, i2, _, i4⟩ :=
          ih (update_txpool_tx db txid { m with double_spend_seen := true }) true
        refine ⟨by omega, ?_, ?_, fun _ => i4 rfl⟩
        · intro h; rw [i4 rfl] at h; cases h
        · intro _ _; omega

/-- The outer loop of `mark_double_spend` sets `changed` exactly when it sets a flag. -/
theorem mark_double_spend_loop_changed (index : List (key_image × List hash))
    (vin : List txin_v) (db : List txpool_row) (changed : Bool) (r : List txpool_row × Bool)
    (h : mark_double_spend_loop index vin (db, changed) = some r) :
    flagged_rows db ≤ flagged_rows r.1 ∧
    (r.2 = false → r.1 = db ∧ changed = false) ∧
    (r.2 = true → changed = false → flagged_rows db < flagged_rows r.1) := by
  induction vin generalizing db changed with
  | nil =>
    simp only [mark_double_spend_loop, Option.some.injEq] at h
    subst h
    exact ⟨Nat.le_refl _, fun h => ⟨rfl, h⟩, fun h1 h2 => by simp_all⟩
  | cons i rest ih =>
    unfold mark_double_spend_loop at h
    cases hk : i.k_image? with
    | none => simp [hk] at h
    | some k =>
      simp only [hk] at h
      cases hf : ki_find index k with
      | none => simp only [hf] at h; exact ih db changed h
      | some ids =>
        simp only [hf] at h
        obtain ⟨j1, j2, j3⟩ := ih (mark_double_spend_ids ids (db, changed)).1
          (mark_double_spend_ids ids (db, changed)).2 h
        obtain ⟨i1, i2, i3, i4⟩ := mark_double_spend_ids_changed ids db changed
        refine ⟨by omega, ?_, ?_⟩
        · intro hr
          obtain ⟨e1, e2⟩ := j2 hr
          obtain ⟨e3, e4⟩ := i2 e2
          exact ⟨by rw [e1, e3], e4⟩
        · intro hr hc
          cases hi : (mark_double_spend_ids ids (db, changed)).2 with
          | false => have := j3 hr hi; omega
          | true => have := i3 hi hc; omega

/-- The inner loop of `mark_double_spend` does nothing on a table in which every visited entry
is flagged already. -/
theorem mark_double_spend_ids_done (ids : List hash) (db : List txpool_row) (changed : Bool)
    (hd : ∀ id ∈ ids, ∀ m, get_txpool_tx_meta db id = some m → m.double_spend_seen = true) :
    mark_double_spend_ids ids (db, changed) = (db, changed) := by
  induction ids with
  | nil => simp [mark_double_spend_ids]
  | cons txid rest ih =>
    unfold mark_double_spend_ids
    have ih2 := ih (fun id hid => hd id (List.mem_cons_of_mem _ hid))
    cases hm : get_txpool_tx_meta db txid with
    | none => exact ih2
    | some m =>
      have := hd txid (List.mem_cons_self _ _) m hm
      simp only [this, Bool.not_true, Bool.false_eq_true, if_false]
      exact ih2

/-- The outer loop of `mark_double_spend` does nothing on a table in which every entry it
visits is flagged already. -/
theorem mark_double_spend_loop_done (index : List (key_image × List hash)) (vin : List txin_v)
    (db : List txpool_row) (changed : Bool)
    (hs : vin.all (fun i => i.k_image?.isSome) = true)
    (hd : ∀ id, marked_ids index vin id = true →
      ∀ m, get_txpool_tx_meta db id = some m → m.double_spend_seen = true) :
    mark_double_spend_loop index vin (db, changed) = some (db, changed) := by
  induction vin with
  | nil => simp [mark_double_spend_loop]
  | cons i rest ih =>
    unfold mark_double_spend_loop
    simp only [List.all_cons, Bool.and_eq_true] at hs
    cases hk : i.k_image? with
    | none => simp [hk] at hs
    | some k =>
      simp only
      have ih2 := ih hs.2 (fun id hid => hd id (by
        simp only [marked_ids, List.any_cons, Bool.or_eq_true] at hid ⊢
        exact Or.inr hid))
      cases hf : ki_find index k with
      | none => exact ih2
      | some ids =>
        simp only
        rw [mark_double_spend_ids_done ids db changed]
        · exact ih2
        · intro id hid
          apply hd id
          simp only [marked_ids, List.any_cons, hk, hf, Option.getD_some, Bool.or_eq_true,
            decide_eq_true_eq]
          exact Or.inl hid

/-- An id is visited by `mark_double_spend` exactly when the index records it under the key
image of an input. -/
theorem marked_ids_iff (index : List (key_image × List hash)) (vin : List txin_v) (id : hash) :
    marked_ids index vin id = true ↔
      ∃ i k ids, i ∈ vin ∧ i.k_image? = some k ∧ ki_find index k = some ids ∧ id ∈ ids := by
  simp only [marked_ids, List.any_eq_true]
  constructor
  · rintro ⟨i, hi, h⟩
    cases hk : i.k_image? with
    | none => simp [hk] at h
    | some k =>
      simp only [hk, decide_eq_true_eq] at h
      cases hf : ki_find index k with
      | none => simp [hf] at h
      | some ids => exact ⟨i, k, ids, hi, hk, hf, by simpa [hf] using h⟩
  · rintro ⟨i, k, ids, hi, hk, hf, hid⟩
    exact ⟨i, hi, by simp [hk, hf, hid]⟩

/-- On a transaction with an input that is none of the four spend variants,
`mark_double_spend` returns at that input and leaves the pool as it was.  Both callers test
`check_inputs_types_supported` first (lines 179 and 778), so no such transaction reaches
it. -/
theorem mark_double_spend_other_input (pool : tx_memory_pool) (tx : transaction)
    (h : check_inputs_types_supported tx = false) : mark_double_spend pool tx = pool := by
  have hsome := mark_double_spend_loop_isSome pool.m_spent_key_images tx.vin (pool.txpool, false)
  simp only [check_inputs_types_supported] at h
  rw [h] at hsome
  cases hl : mark_double_spend_loop pool.m_spent_key_images tx.vin (pool.txpool, false) with
  | none => simp [mark_double_spend, hl]
  | some r =>
    rw [hl] at hsome
    cases hsome

/-- Claim C21: for a transaction with supported input types, the transactions that
`mark_double_spend` is called with (both callers test `check_inputs_types_supported` first,
lines 179 and 778), `mark_double_spend(tx)` sets `double_spend_seen` on every stored entry
whose id the key-image index records under the key image of an input of `tx`.  It changes
nothing else: the metadata stored under every other id are untouched, no row is removed or
changed in anything but this flag, and every member other than the table and the cookie (the
key-image index, the fee order, `m_txpool_weight`) is untouched.  The cookie is incremented
exactly when the table changed, and a second call with the same transaction changes
nothing. -/
theorem mark_double_spend_rule (pool : tx_memory_pool) (tx : transaction) :
    (check_inputs_types_supported tx = true →
      ∀ i k ids id m, i ∈ tx.vin → i.k_image? = some k →
        ki_find pool.m_spent_key_images k = some ids → id ∈ ids →
        get_txpool_tx_meta pool.txpool id = some m →
        get_txpool_tx_meta (mark_double_spend pool tx).txpool id =
          some { m with double_spend_seen := true }) ∧
    (∀ id, (∀ i k ids, i ∈ tx.vin → i.k_image? = some k →
        ki_find pool.m_spent_key_images k = some ids → id ∉ ids) →
      get_txpool_tx_meta (mark_double_spend pool tx).txpool id =
        get_txpool_tx_meta pool.txpool id) ∧
    (∃ db c, mark_double_spend pool tx = { pool with txpool := db, m_cookie := c } ∧
      db.map txpool_row.without_double_spend_seen =
        pool.txpool.map txpool_row.without_double_spend_seen) ∧
    (mark_double_spend pool tx).m_cookie =
      (if (mark_double_spend pool tx).txpool = pool.txpool then pool.m_cookie
        else pool.m_cookie + 1) ∧
    mark_double_spend (mark_double_spend pool tx) tx = mark_double_spend pool tx := by
  have hsome := mark_double_spend_loop_isSome pool.m_spent_key_images tx.vin (pool.txpool, false)
  cases hl : mark_double_spend_loop pool.m_spent_key_images tx.vin (pool.txpool, false) with
  | none =>
    have hp : mark_double_spend pool tx = pool := by simp [mark_double_spend, hl]
    rw [hl] at hsome
    refine ⟨?_, fun _ _ => by rw [hp], ⟨pool.txpool, pool.m_cookie, hp, rfl⟩,
      by rw [hp]; simp, by rw [hp, hp]⟩
    intro hs
    simp only [check_inputs_types_supported] at hs
    rw [hs] at hsome
    cases hsome
  | some r =>
    obtain ⟨db, changed⟩ := r
    have hp : mark_double_spend pool tx =
        { pool with txpool := db,
                    m_cookie := if changed then pool.m_cookie + 1 else pool.m_cookie } := by
      simp [mark_double_spend, hl]
    have hmeta := mark_double_spend_loop_meta _ _ _ _ _ hl
    have hch := mark_double_spend_loop_changed _ _ _ _ _ hl
    have hsup : tx.vin.all (fun i => i.k_image?.isSome) = true := by
      rw [hl] at hsome; exact hsome.symm
    refine ⟨?_, ?_, ⟨db, _, hp, mark_double_spend_loop_flag _ _ _ _ _ hl⟩, ?_, ?_⟩
    · intro _ i k ids id m hi hk hf hid hm
      rw [hp]
      have hmk : marked_ids pool.m_spent_key_images tx.vin id = true :=
        (marked_ids_iff _ _ _).2 ⟨i, k, ids, hi, hk, hf, hid⟩
      have := hmeta id
      simp only [hm, hmk, if_true, Option.map_some'] at this
      exact this
    · intro id hid
      rw [hp]
      have hmk : marked_ids pool.m_spent_key_images tx.vin id = false := by
        cases hq : marked_ids pool.m_spent_key_images tx.vin id with
        | false => rfl
        | true =>
          obtain ⟨i, k, ids, hi, hk, hf, hin⟩ := (marked_ids_iff _ _ _).1 hq
          exact absurd hin (hid i k ids hi hk hf)
      have := hmeta id
      simp only [hmk, Bool.false_eq_true, if_false, Option.map_id'] at this
      exact this
    · rw [hp]
      cases hc : changed with
      | false =>
        have := (hch.2.1 hc).1
        simp only at this
        simp [this]
      | true =>
        have := hch.2.2 hc rfl
        simp only at this
        have hne : db ≠ pool.txpool := fun e => by rw [e] at this; omega
        simp [hne]
    · rw [hp]
      unfold mark_double_spend
      simp only
      rw [mark_double_spend_loop_done pool.m_spent_key_images tx.vin db false hsup]
      · simp
      · intro id hmk m hm
        have := hmeta id
        simp only [hmk, if_true] at this
        rw [hm] at this
        cases hg : get_txpool_tx_meta pool.txpool id with
        | none => simp [hg] at this
        | some m0 =>
          simp only [hg, Option.map_some', Option.some.injEq] at this
          rw [this]

/-- The early return at a concrete input, outside the transactions the callers pass: the index
of `example_pool` records the stored id 12 under the key image 101, the second input of
`example_marker_double_spend_tx` carries that key image, its first input is none of the four
spend variants, so that `check_inputs_types_supported` refuses the transaction, and
`mark_double_spend` would leave the `double_spend_seen` flag of entry 12 clear. -/
theorem mark_double_spend_stops_at_other_input :
    check_inputs_types_supported example_marker_double_spend_tx = false ∧
    ki_find example_pool.m_spent_key_images 101 = some [12] ∧
    txin_v.txin_to_key 0 101 ∈ example_marker_double_spend_tx.vin ∧
    (get_txpool_tx_meta example_pool.txpool 12).map (fun m => m.double_spend_seen) =
      some false ∧
    (get_txpool_tx_meta (mark_double_spend example_pool
      example_marker_double_spend_tx).txpool 12).map (fun m => m.double_spend_seen) =
      some false := by
  decide

/-- Claim C21 at a concrete input: on `example_pool` the double spend of key image 101 gets
the flag of entry 12 set and the cookie incremented, and a second call changes nothing. -/
theorem mark_double_spend_rule_witness :
    check_inputs_types_supported example_double_spend_tx = true ∧
    (get_txpool_tx_meta (mark_double_spend example_pool example_double_spend_tx).txpool
      12).map (fun m => m.double_spend_seen) = some true ∧
    (mark_double_spend example_pool example_double_spend_tx).m_cookie =
      example_pool.m_cookie + 1 ∧
    mark_double_spend (mark_double_spend example_pool example_double_spend_tx)
      example_double_spend_tx = mark_double_spend example_pool example_double_spend_tx :=
  ⟨by decide, by decide, by decide,
    (mark_double_spend_rule example_pool example_double_spend_tx).2.2.2.2⟩

/-! ## The cookie -/

/-- The function `insert_key_images` never lowers the cookie. -/
theorem insert_key_images_cookie (cfg : Config) (pool : tx_memory_pool) (tx : transaction)
    (id : hash) (tx_relay : relay_method) :
    pool.m_cookie ≤ (insert_key_images cfg pool tx id tx_relay).2.m_cookie := by
  rw [(insert_key_images_frame cfg pool tx id tx_relay).2]
  simp only
  split <;> omega

/-- The function `remove_transaction_keyimages` never lowers the cookie. -/
theorem remove_transaction_keyimages_cookie (pool : tx_memory_pool) (tx : transaction)
    (actual_hash : hash) :
    pool.m_cookie ≤ (remove_transaction_keyimages pool tx actual_hash).2.m_cookie := by
  rw [remove_transaction_keyimages_frame]
  simp only
  split <;> omega

/-- The loop of `prune` never lowers the cookie and never clears `changed`; when it leaves
`changed` clear, it leaves the pool as it found it. -/
theorem prune_loop_cookie (bytes : Nat) (l : List tx_by_fee_and_receive_time_entry)
    (pool : tx_memory_pool) (changed : Bool) :
    pool.m_cookie ≤ (prune_loop bytes l (pool, changed)).2.1.m_cookie ∧
    (changed = true → (prune_loop bytes l (pool, changed)).2.2 = true) ∧
    ((prune_loop bytes l (pool, changed)).2.2 = false →
      (prune_loop bytes l (pool, changed)).2.1 = pool) := by
  induction l generalizing pool changed with
  | nil =>
    rw [show prune_loop bytes [] (pool, changed) = (true, pool, changed) from rfl]
    exact ⟨Nat.le_refl _, fun h => h, fun _ => rfl⟩
  | cons it rest ih =>
    unfold prune_loop
    split
    · exact ⟨Nat.le_refl _, fun h => h, fun _ => rfl⟩
    · split
      · exact ⟨Nat.le_refl _, fun h => h, fun _ => rfl⟩
      · split
        · exact ih pool changed
        · split
          · exact ⟨Nat.le_refl _, fun h => h, fun _ => rfl⟩
          · have key : ∀ P : tx_memory_pool, pool.m_cookie ≤ P.m_cookie →
                pool.m_cookie ≤ (prune_loop bytes rest (P, true)).2.1.m_cookie ∧
                (changed = true → (prune_loop bytes rest (P, true)).2.2 = true) ∧
                ((prune_loop bytes rest (P, true)).2.2 = false →
                  (prune_loop bytes rest (P, true)).2.1 = pool) := by
              intro P hP
              obtain ⟨i1, i2, _⟩ := ih P true
              refine ⟨by omega, fun _ => i2 rfl, ?_⟩
              intro hf
              rw [i2 rfl] at hf
              cases hf
            apply key
            refine Nat.le_trans ?_ (remove_transaction_keyimages_cookie _ _ _)
            exact Nat.le_refl _

/-- The function `prune` never lowers the cookie, and a call whose loop runs to its end either
leaves the pool as it found it or increments the cookie. -/
theorem prune_cookie (pool : tx_memory_pool) (bytes : Nat) :
    pool.m_cookie ≤ (prune pool bytes).m_cookie ∧
    ((prune_loop (if bytes = 0 then pool.m_txpool_max_weight else bytes)
        pool.m_txs_by_fee_and_receive_time.tail.reverse (pool, false)).1 = true →
      prune pool bytes = pool ∨ pool.m_cookie < (prune pool bytes).m_cookie) := by
  have h := prune_loop_cookie (if bytes = 0 then pool.m_txpool_max_weight else bytes)
    pool.m_txs_by_fee_and_receive_time.tail.reverse pool false
  unfold prune
  simp only
  generalize prune_loop (if bytes = 0 then pool.m_txpool_max_weight else bytes)
    pool.m_txs_by_fee_and_receive_time.tail.reverse (pool, false) = r at h ⊢
  obtain ⟨completed, pool1, changed⟩ := r
  simp only at h ⊢
  cases completed with
  | false =>
    simp only
    exact ⟨h.1, fun hc => by cases hc⟩
  | true =>
    simp only
    cases changed with
    | false =>
      have := h.2.2 rfl
      subst this
      simp
    | true =>
      simp only [if_true]
      exact ⟨by omega, fun _ => Or.inr (by omega)⟩

/-- The function `take_tx` either leaves the pool as it found it or increments the cookie. -/
theorem take_tx_cookie (pool : tx_memory_pool) (id : hash) :
    (take_tx pool id).2 = pool ∨ pool.m_cookie < (take_tx pool id).2.m_cookie := by
  unfold take_tx
  cases h1 : get_txpool_tx_meta pool.txpool id with
  | none => left; rfl
  | some m =>
    cases h2 : get_txpool_tx_blob pool.txpool id with
    | none => left; rfl
    | some blob =>
      right
      simp only [remove_transaction_keyimages_frame]
      cases find_tx_in_sorted_container pool id <;> simp only <;> split <;> omega

/-- The removal loop of `remove_stuck_transactions` never lowers the cookie. -/
theorem remove_stuck_apply_cookie (remove : List (hash × Nat)) (pool : tx_memory_pool) :
    pool.m_cookie ≤ (remove_stuck_apply remove pool).m_cookie := by
  induction remove generalizing pool with
  | nil => exact Nat.le_refl _
  | cons entry rest ih =>
    unfold remove_stuck_apply
    split
    · exact ih pool
    · have key : ∀ P : tx_memory_pool, pool.m_cookie ≤ P.m_cookie →
          pool.m_cookie ≤ (remove_stuck_apply rest P).m_cookie :=
        fun P hP => Nat.le_trans hP (ih P)
      apply key
      refine Nat.le_trans ?_ (remove_transaction_keyimages_cookie _ _ _)
      exact Nat.le_refl _

/-- The scan of `remove_stuck_transactions` leaves the cookie as it is, never shortens the
`remove` list, and leaves the pool as it found it when the list stays empty. -/
theorem remove_stuck_scan_cookie (cfg : Config) (bc_height now : Nat)
    (rows : List txpool_row) (pool : tx_memory_pool) (remove : List (hash × Nat)) :
    (remove_stuck_scan cfg bc_height now rows (pool, remove)).1.m_cookie = pool.m_cookie ∧
    remove.length ≤ (remove_stuck_scan cfg bc_height now rows (pool, remove)).2.length ∧
    ((remove_stuck_scan cfg bc_height now rows (pool, remove)).2 = [] →
      (remove_stuck_scan cfg bc_height now rows (pool, remove)).1 = pool) := by
  induction rows generalizing pool remove with
  | nil =>
    rw [show remove_stuck_scan cfg bc_height now [] (pool, remove) = (pool, remove) from rfl]
    exact ⟨rfl, Nat.le_refl _, fun _ => rfl⟩
  | cons row rest ih =>
    unfold remove_stuck_scan
    simp only
    split
    · have key : ∀ P : tx_memory_pool, P.m_cookie = pool.m_cookie →
          (remove_stuck_scan cfg bc_height now rest
            (P, remove ++ [(row.id, row.meta_.weight)])).1.m_cookie = pool.m_cookie ∧
          remove.length ≤ (remove_stuck_scan cfg bc_height now rest
            (P, remove ++ [(row.id, row.meta_.weight)])).2.length ∧
          ((remove_stuck_scan cfg bc_height now rest
            (P, remove ++ [(row.id, row.meta_.weight)])).2 = [] →
            (remove_stuck_scan cfg bc_height now rest
              (P, remove ++ [(row.id, row.meta_.weight)])).1 = pool) := by
        intro P hP
        obtain ⟨i1, i2, _⟩ := ih P (remove ++ [(row.id, row.meta_.weight)])
        simp only [List.length_append, List.length_singleton] at i2
        refine ⟨by rw [i1, hP], by omega, ?_⟩
        intro he
        rw [he] at i2
        simp at i2
      apply key
      cases find_tx_in_sorted_container pool row.id <;> rfl
    · exact ih pool remove

/-- The function `remove_stuck_transactions` either leaves the pool as it found it or
increments the cookie. -/
theorem remove_stuck_transactions_cookie (cfg : Config) (bc : Blockchain) (now : Nat)
    (pool : tx_memory_pool) :
    remove_stuck_transactions cfg bc now pool = pool ∨
      pool.m_cookie < (remove_stuck_transactions cfg bc now pool).m_cookie := by
  have h := remove_stuck_scan_cookie cfg bc.get_current_blockchain_height now pool.txpool
    pool []
  unfold remove_stuck_transactions
  generalize remove_stuck_scan cfg bc.get_current_blockchain_height now pool.txpool (pool, [])
    = r at h ⊢
  obtain ⟨pool1, remove⟩ := r
  simp only at h ⊢
  split
  · right
    have := remove_stuck_apply_cookie remove pool1
    simp only
    omega
  · rename_i hne
    left
    apply h.2.2
    simpa using hne

/-- The function `mark_double_spend` either leaves the pool as it found it or increments the
cookie. -/
theorem mark_double_spend_cookie (pool : tx_memory_pool) (tx : transaction) :
    mark_double_spend pool tx = pool ∨
      (mark_double_spend pool tx).m_cookie = pool.m_cookie + 1 := by
  unfold mark_double_spend
  cases hl : mark_double_spend_loop pool.m_spent_key_images tx.vin (pool.txpool, false) with
  | none => left; rfl
  | some r =>
    obtain ⟨db, changed⟩ := r
    have hch := mark_double_spend_loop_changed _ _ _ _ _ hl
    cases changed with
    | false =>
      left
      have := (hch.2.1 rfl).1
      simp only at this
      subst this
      rfl
    | true => right; rfl

/-- The kept-by-block insertion never lowers the cookie, and increments it when it reaches the
common tail. -/
theorem add_tx2_insert_kept_cookie (cfg : Config) (bc : Blockchain) (now : Nat)
    (pool : tx_memory_pool) (tx : transaction) (id : hash) (tx_weight : Nat)
    (tvc : tx_verification_context) (meta0 : txpool_tx_meta_t) (tx_relay : relay_method)
    (relayed : Bool) (version : Nat) :
    pool.m_cookie ≤ (add_tx2_insert_kept cfg bc now pool tx id tx_weight tvc meta0 tx_relay
      relayed version).pool.m_cookie := by
  have hf := insert_key_images_cookie cfg
    { pool with m_parsed_tx_cache := parsed_tx_cache_insert pool.m_parsed_tx_cache id tx }
    tx id tx_relay
  unfold add_tx2_insert_kept
  simp only
  split
  · rename_i pool1 h1
    rw [h1] at hf
    exact hf
  · rename_i pool1 h1
    rw [h1] at hf
    split
    · exact hf
    · split
      · exact hf
      · exact hf

/-- The inputs check and insertion never lower the cookie. -/
theorem add_tx2_insert_branch_cookie (cfg : Config) (bc : Blockchain) (now : Nat)
    (pool : tx_memory_pool) (tx : transaction) (id : hash) (tx_weight : Nat)
    (tvc : tx_verification_context) (source : String) (tx_relay : relay_method)
    (relayed : Bool) (version : Nat) :
    pool.m_cookie ≤ (add_tx2_insert_branch cfg bc now pool tx id tx_weight tvc source tx_relay
      relayed version).pool.m_cookie := by
  unfold add_tx2_insert_branch
  simp only
  obtain ⟨c, hc⟩ := check_tx_inputs_frame bc pool tx id tvc.failed
    (decide (tx_relay = relay_method.block))
  generalize check_tx_inputs bc pool tx id tvc.failed
    (decide (tx_relay = relay_method.block)) = r at hc ⊢
  obtain ⟨res, h1, bid, tvc2, pool2⟩ := r
  simp only at hc ⊢
  subst hc
  split
  · split
    · exact add_tx2_insert_kept_cookie cfg bc now { pool with m_input_cache := c } tx id
        tx_weight _ _ tx_relay relayed version
    · exact Nat.le_refl _
  · rcases add_tx2_insert_checked_shape cfg bc now { pool with m_input_cache := c } tx id
      tx_weight tvc2 { txpool_tx_meta_t.zero with fee_asset_type := source } h1 bid tx_relay
      relayed version with ⟨c2, m, r, h⟩ | ⟨c2, m, r, h⟩
    · rw [h]
      obtain ⟨db, order, hs⟩ := add_tx2_store_pool cfg bc now
        { pool with m_input_cache := c, m_parsed_tx_cache := c2 } tx id tx_weight tvc2 m r
        version
      rw [hs]
      exact insert_key_images_cookie cfg
        { pool with m_input_cache := c, m_parsed_tx_cache := c2 } tx id r
    · rw [h]
      exact Nat.le_refl _

/-- The inputs check, the insertion and the common tail never lower the cookie; they raise it
when the call returns true, and they leave the table as it was when the call returns false. -/
theorem add_tx2_insert_cookie (cfg : Config) (bc : Blockchain) (now : Nat)
    (pool : tx_memory_pool) (tx : transaction) (id : hash) (tx_weight : Nat)
    (tvc : tx_verification_context) (source : String) (tx_relay : relay_method)
    (relayed : Bool) (version : Nat) :
    pool.m_cookie ≤ (add_tx2_insert cfg bc now pool tx id tx_weight tvc source tx_relay relayed
      version).pool.m_cookie ∧
    ((add_tx2_insert cfg bc now pool tx id tx_weight tvc source tx_relay relayed
        version).ret = some true →
      pool.m_cookie < (add_tx2_insert cfg bc now pool tx id tx_weight tvc source tx_relay
        relayed version).pool.m_cookie) ∧
    ((add_tx2_insert cfg bc now pool tx id tx_weight tvc source tx_relay relayed
        version).ret ≠ some true →
      (add_tx2_insert cfg bc now pool tx id tx_weight tvc source tx_relay relayed
        version).pool.txpool ≠ pool.txpool →
      pool.m_cookie < (add_tx2_insert cfg bc now pool tx id tx_weight tvc source tx_relay
        relayed version).pool.m_cookie) := by
  unfold add_tx2_insert
  have hle := add_tx2_insert_branch_cookie cfg bc now pool tx id tx_weight tvc source tx_relay
    relayed version
  cases hb : add_tx2_insert_branch cfg bc now pool tx id tx_weight tvc source tx_relay relayed
    version with
  | no t p =>
    rw [hb] at hle
    have htab := (add_tx2_insert_branch_no _ _ _ _ _ _ _ _ _ _ _ _ t p hb).2.2.2.1
    simp only [add_tx2_tail]
    exact ⟨hle, fun hc => (by cases hc), fun _ hne => absurd htab hne⟩
  | yes t p =>
    rw [hb] at hle
    simp only [add_tx2_tail, inserted.pool] at hle ⊢
    have hp := (prune_cookie
      { p with m_txpool_weight := (p.m_txpool_weight + tx_weight) % 2 ^ 64,
               m_cookie := p.m_cookie + 1 } p.m_txpool_max_weight).1
    simp only at hp
    exact ⟨by omega, fun _ => (by omega), fun hc => absurd rfl hc⟩

/-- The function `add_tx2` never lowers the cookie; it raises the cookie when it returns true,
and when it does not return true but leaves a table other than the one it found. -/
theorem add_tx2_cookie (cfg : Config) (bc : Blockchain) (now : Nat) (pool : tx_memory_pool)
    (tx : transaction) (id : hash) (tx_weight : Nat) (tvc : tx_verification_context)
    (tx_relay : relay_method) (relayed : Bool) (version : Nat) :
    pool.m_cookie ≤
      (add_tx2 cfg bc now pool tx id tx_weight tvc tx_relay relayed version).pool.m_cookie ∧
    ((add_tx2 cfg bc now pool tx id tx_weight tvc tx_relay relayed version).ret = some true →
      pool.m_cookie <
        (add_tx2 cfg bc now pool tx id tx_weight tvc tx_relay relayed version).pool.m_cookie) ∧
    ((add_tx2 cfg bc now pool tx id tx_weight tvc tx_relay relayed version).ret ≠ some true →
      (add_tx2 cfg bc now pool tx id tx_weight tvc tx_relay relayed version).pool.txpool ≠
        pool.txpool →
      pool.m_cookie <
        (add_tx2 cfg bc now pool tx id tx_weight tvc tx_relay relayed version).pool.m_cookie) := by
  have same : ∀ (o : Option Bool) (t : tx_verification_context), o ≠ some true →
      pool.m_cookie ≤ (add_tx2_result.mk o t pool).pool.m_cookie ∧
      ((add_tx2_result.mk o t pool).ret = some true →
        pool.m_cookie < (add_tx2_result.mk o t pool).pool.m_cookie) ∧
      ((add_tx2_result.mk o t pool).ret ≠ some true →
        (add_tx2_result.mk o t pool).pool.txpool ≠ pool.txpool →
        pool.m_cookie < (add_tx2_result.mk o t pool).pool.m_cookie) :=
    fun o t ho => ⟨Nat.le_refl _, fun h => absurd h ho, fun _ h => absurd rfl h⟩
  unfold add_tx2
  simp only
  split
  · exact same _ _ (by simp)
  · exact same _ _ (by simp)
  · split
    · simp only
      rcases mark_double_spend_cookie pool tx with h | h
      · rw [h]
        exact ⟨Nat.le_refl _, fun hc => (by cases hc), fun _ hne => absurd rfl hne⟩
      · exact ⟨by omega, fun hc => (by cases hc), fun _ _ => (by omega)⟩
    · split
      · exact same _ _ (by simp)
      · exact add_tx2_insert_cookie _ _ _ _ _ _ _ _ _ _ _ _

/-- The function `set_relayed` leaves every member but the table as it is. -/
theorem set_relayed_cookie (pool : tx_memory_pool) (hashes : List hash)
    (method : relay_method) (now : Nat) (embargo : hash → Nat) :
    (set_relayed pool hashes method now embargo).m_cookie = pool.m_cookie ∧
    (set_relayed pool hashes method now embargo).m_spent_key_images =
      pool.m_spent_key_images ∧
    (set_relayed pool hashes method now embargo).m_txs_by_fee_and_receive_time =
      pool.m_txs_by_fee_and_receive_time :=
  ⟨rfl, rfl, rfl⟩

/-! ## Filling a block template -/

/-- The frame relation is reflexive. -/
theorem template_frame_refl (pool : tx_memory_pool) : template_frame pool pool :=
  ⟨pool.txpool, pool.m_input_cache, rfl, rfl⟩

/-- The frame relation is transitive. -/
theorem template_frame_trans (a b c : tx_memory_pool) (h1 : template_frame a b)
    (h2 : template_frame b c) : template_frame a c := by
  obtain ⟨db1, c1, e1, s1⟩ := h1
  obtain ⟨db2, c2, e2, s2⟩ := h2
  subst e1
  subst e2
  exact ⟨db2, c2, rfl, by rw [s2]; exact s1⟩

/-- The blob stored under an id is read off the `stored` projection of the table. -/
theorem get_txpool_tx_blob_stored (db : List txpool_row) (id : hash) :
    get_txpool_tx_blob db id =
      ((db.map txpool_row.stored).find? (fun s => s.1 = id)).map (fun s => s.2.1) := by
  induction db with
  | nil => rfl
  | cons r rest ih =>
    simp only [get_txpool_tx_blob, List.map_cons, List.find?_cons] at ih ⊢
    by_cases h : r.id = id
    · simp [h, txpool_row.stored]
    · simp only [h, decide_False, txpool_row.stored]
      exact ih

/-- The weight stored under an id is read off the `stored` projection of the table. -/
theorem get_txpool_tx_meta_stored (db : List txpool_row) (id : hash) :
    (get_txpool_tx_meta db id).map (fun m => m.weight) =
      ((db.map txpool_row.stored).find? (fun s => s.1 = id)).map (fun s => s.2.2) := by
  induction db with
  | nil => rfl
  | cons r rest ih =>
    simp only [get_txpool_tx_meta, List.map_cons, List.find?_cons] at ih ⊢
    by_cases h : r.id = id
    · simp [h, txpool_row.stored]
    · simp only [h, decide_False, txpool_row.stored]
      exact ih

/-- Writing back metadata with the stored weight keeps the `stored` projection of the table. -/
theorem update_txpool_tx_stored (db : List txpool_row) (id : hash) (m m1 : txpool_tx_meta_t)
    (hm : get_txpool_tx_meta db id = some m) (hw : m1.weight = m.weight) :
    (update_txpool_tx db id m1).map txpool_row.stored = db.map txpool_row.stored := by
  induction db with
  | nil => rfl
  | cons r rest ih =>
    unfold update_txpool_tx
    by_cases h : r.id = id
    · have hr : r.meta_ = m := by
        simpa [get_txpool_tx_meta, List.find?_cons, h] using hm
      simp [h, txpool_row.stored, hw, hr]
    · have hm2 : get_txpool_tx_meta rest id = some m := by
        simpa [get_txpool_tx_meta, List.find?_cons, h] using hm
      simp only [h, if_false, List.map_cons, ih hm2]

/-- Under the frame relation the blob and the weight stored under an id are the same. -/
theorem template_frame_lookup (pool P : tx_memory_pool) (h : template_frame pool P)
    (id : hash) :
    get_txpool_tx_blob P.txpool id = get_txpool_tx_blob pool.txpool id ∧
    (get_txpool_tx_meta P.txpool id).map (fun m => m.weight) =
      (get_txpool_tx_meta pool.txpool id).map (fun m => m.weight) := by
  obtain ⟨db, c, e, s⟩ := h
  subst e
  simp only [get_txpool_tx_blob_stored, get_txpool_tx_meta_stored, s, and_self]

/-- The inputs check of the readiness test keeps the weight and writes to the input-check
cache only. -/
theorem ready_check_inputs_frame (bc : Blockchain) (env : template_env)
    (pool : tx_memory_pool) (txd : txpool_tx_meta_t) (txid : hash) (txblob : transaction) :
    (ready_check_inputs bc env pool txd txid txblob).2.1.weight = txd.weight ∧
    ∃ c, (ready_check_inputs bc env pool txd txid txblob).2.2 =
      { pool with m_input_cache := c } := by
  unfold ready_check_inputs
  obtain ⟨c, hc⟩ := check_tx_inputs_frame bc pool txblob txid env.local_tvc false
  generalize check_tx_inputs bc pool txblob txid env.local_tvc false = r at hc ⊢
  obtain ⟨res, h1, bid, tvc2, pool2⟩ := r
  simp only at hc ⊢
  subst hc
  split
  · exact ⟨rfl, c, rfl⟩
  · exact ⟨rfl, c, rfl⟩

/-- The readiness test keeps the weight and writes to the input-check cache only. -/
theorem is_transaction_ready_to_go_frame (bc : Blockchain) (env : template_env)
    (pool : tx_memory_pool) (txd : txpool_tx_meta_t) (txid : hash) (txblob : transaction) :
    (is_transaction_ready_to_go bc env pool txd txid txblob).2.1.weight = txd.weight ∧
    ∃ c, (is_transaction_ready_to_go bc env pool txd txid txblob).2.2 =
      { pool with m_input_cache := c } := by
  have key : ∀ r : Bool × txpool_tx_meta_t × tx_memory_pool,
      (r.2.1.weight = txd.weight ∧ ∃ c, r.2.2 = { pool with m_input_cache := c }) →
      ((match r with
        | (false, txd, pool1) => (false, txd, pool1)
        | (true, txd, pool1) =>
          if env.have_tx_keyimges_as_spent txblob then
            (false, { txd with double_spend_seen := true }, pool1)
          else (true, txd, pool1) : Bool × txpool_tx_meta_t × tx_memory_pool).2.1.weight
          = txd.weight ∧
        ∃ c, (match r with
        | (false, txd, pool1) => (false, txd, pool1)
        | (true, txd, pool1) =>
          if env.have_tx_keyimges_as_spent txblob then
            (false, { txd with double_spend_seen := true }, pool1)
          else (true, txd, pool1) : Bool × txpool_tx_meta_t × tx_memory_pool).2.2
          = { pool with m_input_cache := c }) := by
    rintro ⟨b, m1, P⟩ ⟨hw, c, hc⟩
    simp only at hw hc
    cases b with
    | false => exact ⟨hw, c, hc⟩
    | true =>
      simp only
      split
      · exact ⟨hw, c, hc⟩
      · exact ⟨hw, c, hc⟩
  unfold is_transaction_ready_to_go
  simp only
  apply key
  have hsame : (txd.weight = txd.weight ∧
      ∃ c, pool = { pool with m_input_cache := c }) := ⟨rfl, pool.m_input_cache, rfl⟩
  split
  · split
    · exact hsame
    · exact ready_check_inputs_frame bc env pool txd txid txblob
  · split
    · exact hsame
    · split
      · exact hsame
      · exact ready_check_inputs_frame bc env pool txd txid txblob

/-- The readiness test with its write-back keeps the weight and stays within the frame. -/
theorem template_ready_frame (bc : Blockchain) (env : template_env) (pool : tx_memory_pool)
    (id : hash) (m : txpool_tx_meta_t) (txblob : transaction)
    (hm : get_txpool_tx_meta pool.txpool id = some m) :
    (template_ready bc env pool id m txblob).2.1.weight = m.weight ∧
    template_frame pool (template_ready bc env pool id m txblob).2.2 := by
  obtain ⟨hw, c, hc⟩ := is_transaction_ready_to_go_frame bc env pool m id txblob
  unfold template_ready
  generalize is_transaction_ready_to_go bc env pool m id txblob = r at hw hc ⊢
  obtain ⟨ready, m1, pool1⟩ := r
  simp only at hw hc ⊢
  subst hc
  refine ⟨hw, ?_⟩
  split
  · exact ⟨_, c, rfl, update_txpool_tx_stored pool.txpool id m m1 hm hw⟩
  · exact ⟨pool.txpool, c, rfl, rfl⟩

/-- What `template_select` gives when it takes the candidate: the candidate passed the key-image
test, has an asset pair and a type, passed the conversion tests, and the state is the one
`template_accept` builds. -/
theorem template_select_pass (cfg : Config) (bc : Blockchain) (env : template_env)
    (p : template_params) (st : template_state) (id : hash) (m : txpool_tx_meta_t)
    (tx : transaction) (fee coinbase : Nat) (st2 : template_state)
    (h : template_select cfg bc env p st id m tx fee coinbase = verdict.pass st2) :
    ∃ source dest tx_type conv,
      have_key_images st.k_images tx.vin = false ∧
      get_tx_asset_types cfg tx id "" false = (true, source, dest) ∧
      get_tx_type cfg source dest = some tx_type ∧
      template_conversion cfg bc env p st id tx source dest tx_type = verdict.pass conv ∧
      st2 = template_accept cfg p st id m tx source dest fee coinbase conv := by
  unfold template_select at h
  split at h
  · cases h
  · rename_i hk
    split at h
    · cases h
    · rename_i source dest hat
      split at h
      · cases h
      · rename_i tx_type htt
        split at h
        · rename_i conv hconv
          simp only [verdict.pass.injEq] at h
          exact ⟨source, dest, tx_type, conv, by simpa using hk, hat, htt, hconv, h.symm⟩
        · cases h
        · cases h
        · cases h

/-- One iteration of the loop of `fill_block_template` either leaves the state as it is up to
the frame of the pool, or takes the entry into the template. -/
theorem fill_block_template_step_cases (cfg : Config) (bc : Blockchain) (env : template_env)
    (p : template_params) (pool0 : tx_memory_pool) (e : tx_by_fee_and_receive_time_entry)
    (st : template_state) (hf : template_frame pool0 st.pool) :
    (∃ P, template_frame pool0 P ∧
      (fill_block_template_step cfg bc env p e st =
          template_step_result.next { st with pool := P } ∨
        fill_block_template_step cfg bc env p e st =
          template_step_result.stop { st with pool := P } ∨
        fill_block_template_step cfg bc env p e st =
          template_step_result.thrown { st with pool := P })) ∨
    (∃ P m tx source dest tx_type fee coinbase conv, template_frame pool0 P ∧
      template_accepted cfg bc env p pool0 { st with pool := P } e m tx source dest tx_type
        conv ∧
      fill_block_template_step cfg bc env p e st =
        template_step_result.next
          (template_accept cfg p { st with pool := P } e.id m tx source dest fee coinbase
            conv)) := by
  have hst : st = { st with pool := st.pool } := rfl
  unfold fill_block_template_step
  cases hm : get_txpool_tx_meta st.pool.txpool e.id with
  | none => exact Or.inl ⟨st.pool, hf, Or.inl rfl⟩
  | some m =>
    simp only
    cases hw : template_weight_and_reward cfg env p st e m with
    | skip => exact Or.inl ⟨st.pool, hf, Or.inl rfl⟩
    | stop => exact Or.inl ⟨st.pool, hf, Or.inr (Or.inl rfl)⟩
    | thrown => exact Or.inl ⟨st.pool, hf, Or.inr (Or.inr rfl)⟩
    | pass a =>
      obtain ⟨fee, coinbase⟩ := a
      simp only
      cases hb : get_txpool_tx_blob st.pool.txpool e.id with
      | none => exact Or.inl ⟨st.pool, hf, Or.inr (Or.inr rfl)⟩
      | some txblob =>
        simp only
        obtain ⟨hwt, hfr⟩ := template_ready_frame bc env st.pool e.id m txblob hm
        generalize template_ready bc env st.pool e.id m txblob = r at hwt hfr ⊢
        obtain ⟨ready, m1, pool1⟩ := r
        simp only at hwt hfr ⊢
        have hf1 : template_frame pool0 pool1 := template_frame_trans _ _ _ hf hfr
        cases ready with
        | false => exact Or.inl ⟨pool1, hf1, Or.inl rfl⟩
        | true =>
          simp only
          cases hs : template_select cfg bc env p { st with pool := pool1 } e.id m1 txblob fee
              coinbase with
          | skip => exact Or.inl ⟨pool1, hf1, Or.inl rfl⟩
          | stop => exact Or.inl ⟨pool1, hf1, Or.inr (Or.inl rfl)⟩
          | thrown => exact Or.inl ⟨pool1, hf1, Or.inr (Or.inr rfl)⟩
          | pass st2 =>
            right
            obtain ⟨source, dest, tx_type, conv, h1, h2, h3, h4, h5⟩ :=
              template_select_pass cfg bc env p _ _ _ _ _ _ st2 hs
            refine ⟨pool1, m1, txblob, source, dest, tx_type, fee, coinbase, conv, hf1,
              ⟨?_, ?_, ?_, h1, h2, h3, h4⟩, by rw [h5]⟩
            · rw [← (template_frame_lookup pool0 st.pool hf e.id).1]; exact hb
            · rw [← (template_frame_lookup pool0 st.pool hf e.id).2, hm, hwt]; rfl
            · simp only [hwt]
              unfold template_weight_and_reward at hw
              split at hw
              · cases hw
              · split at hw
                · cases hw
                · assumption

/-- Induction over the loop of `fill_block_template`: a property of the state that does not
depend on the pool, holds at the start and is kept whenever an entry is taken into the template
holds at the end; the pool stays within the frame. -/
theorem fill_block_template_loop_induction (cfg : Config) (bc : Blockchain)
    (env : template_env) (p : template_params) (pool0 : tx_memory_pool)
    (Inv : template_state → Prop)
    (hpool : ∀ st P, Inv st → Inv { st with pool := P })
    (l : List tx_by_fee_and_receive_time_entry)
    (hacc : ∀ st e m tx source dest tx_type fee coinbase conv, e ∈ l → Inv st →
      template_accepted cfg bc env p pool0 st e m tx source dest tx_type conv →
      Inv (template_accept cfg p st e.id m tx source dest fee coinbase conv))
    (st : template_state) (hf : template_frame pool0 st.pool) (hinv : Inv st) :
    Inv (fill_block_template_loop cfg bc env p l st).2 ∧
    template_frame pool0 (fill_block_template_loop cfg bc env p l st).2.pool := by
  induction l generalizing st with
  | nil => exact ⟨hinv, hf⟩
  | cons e rest ih =>
    have ih2 := ih (fun st e2 m tx source dest tx_type fee coinbase conv he2 =>
      hacc st e2 m tx source dest tx_type fee coinbase conv (List.mem_cons_of_mem _ he2))
    unfold fill_block_template_loop
    rcases fill_block_template_step_cases cfg bc env p pool0 e st hf with
      ⟨P, hP, h | h | h⟩ | ⟨P, m, tx, source, dest, tx_type, fee, coinbase, conv, hP, hfacts, h⟩
    · rw [h]
      exact ih2 _ hP (hpool st P hinv)
    · rw [h]
      exact ⟨hpool st P hinv, hP⟩
    · rw [h]
      exact ⟨hpool st P hinv, hP⟩
    · rw [h]
      apply ih2
      · exact hP
      · exact hacc _ e m tx source dest tx_type fee coinbase conv (List.mem_cons_self _ _)
          (hpool st P hinv) hfacts

/-- A successful `fill_block_template` returns the state its loop leaves. -/
theorem fill_block_template_true (cfg : Config) (bc : Blockchain) (env : template_env)
    (pool : tx_memory_pool) (median_weight already_generated_coins : Nat)
    (fee_map offshore_fee_map xasset_fee_map : List (String × Nat)) (version : Nat)
    (h : (fill_block_template cfg bc env pool median_weight already_generated_coins fee_map
      offshore_fee_map xasset_fee_map version).ret = some true) :
    ∃ best_coinbase,
      env.get_block_reward median_weight 0 already_generated_coins version =
        some best_coinbase ∧
      (fill_block_template cfg bc env pool median_weight already_generated_coins fee_map
        offshore_fee_map xasset_fee_map version).st =
      (fill_block_template_loop cfg bc env
        (fill_block_template_params cfg bc env median_weight already_generated_coins version)
        pool.m_txs_by_fee_and_receive_time
        (template_state.start pool fee_map offshore_fee_map xasset_fee_map best_coinbase)).2 := by
  unfold fill_block_template at h ⊢
  simp only at h ⊢
  cases hr : env.get_block_reward median_weight 0 already_generated_coins version with
  | none => simp [hr] at h
  | some best_coinbase =>
    simp only [hr] at h ⊢
    refine ⟨best_coinbase, rfl, ?_⟩
    split at h
    · rename_i st heq
      simp only [template_state.start]
      rw [heq]
    · cases h

/-- The state `fill_block_template` leaves is, in everything but the table of an abandoned
call, the state its loop leaves, or the state before the loop. -/
theorem fill_block_template_tx_hashes (cfg : Config) (bc : Blockchain) (env : template_env)
    (pool : tx_memory_pool) (median_weight already_generated_coins : Nat)
    (fee_map offshore_fee_map xasset_fee_map : List (String × Nat)) (version : Nat) :
    (fill_block_template cfg bc env pool median_weight already_generated_coins fee_map
      offshore_fee_map xasset_fee_map version).st.tx_hashes = [] ∨
    ∃ best_coinbase,
      (fill_block_template cfg bc env pool median_weight already_generated_coins fee_map
        offshore_fee_map xasset_fee_map version).st.tx_hashes =
      (fill_block_template_loop cfg bc env
        (fill_block_template_params cfg bc env median_weight already_generated_coins version)
        pool.m_txs_by_fee_and_receive_time
        (template_state.start pool fee_map offshore_fee_map xasset_fee_map
          best_coinbase)).2.tx_hashes := by
  unfold fill_block_template
  simp only
  cases hr : env.get_block_reward median_weight 0 already_generated_coins version with
  | none => left; rfl
  | some best_coinbase =>
    right
    refine ⟨best_coinbase, ?_⟩
    simp only [template_state.start]
    split <;> rename_i st heq <;> rw [heq]

/-- The weight invariant of the loop of `fill_block_template`: every id taken is stored,
`total_weight` is the sum of the stored weights of the ids taken, in `size_t`, and does not
exceed `max_total_weight`. -/
theorem fill_block_template_loop_weight (cfg : Config) (bc : Blockchain) (env : template_env)
    (p : template_params) (pool : tx_memory_pool) (l : List tx_by_fee_and_receive_time_entry)
    (st : template_state) (hf : template_frame pool st.pool)
    (h1 : ∀ id ∈ st.tx_hashes, (get_txpool_tx_meta pool.txpool id).isSome = true)
    (h2 : st.total_weight = (stored_weights pool st.tx_hashes).sum % 2 ^ 64)
    (h3 : st.total_weight ≤ p.max_total_weight) :
    (∀ id ∈ (fill_block_template_loop cfg bc env p l st).2.tx_hashes,
      (get_txpool_tx_meta pool.txpool id).isSome = true) ∧
    (fill_block_template_loop cfg bc env p l st).2.total_weight =
      (stored_weights pool (fill_block_template_loop cfg bc env p l st).2.tx_hashes).sum
        % 2 ^ 64 ∧
    (fill_block_template_loop cfg bc env p l st).2.total_weight ≤ p.max_total_weight := by
  refine (fill_block_template_loop_induction cfg bc env p pool
    (fun st => (∀ id ∈ st.tx_hashes, (get_txpool_tx_meta pool.txpool id).isSome = true) ∧
      st.total_weight = (stored_weights pool st.tx_hashes).sum % 2 ^ 64 ∧
      st.total_weight ≤ p.max_total_weight)
    (fun st P h => h) l ?_ st hf ⟨h1, h2, h3⟩).1
  intro st e m tx source dest tx_type fee coinbase conv _ hinv hacc
  obtain ⟨i1, i2, i3⟩ := hinv
  obtain ⟨_, a2, a3, _⟩ := hacc
  have hsome : (get_txpool_tx_meta pool.txpool e.id).isSome = true := by
    cases hg : get_txpool_tx_meta pool.txpool e.id with
    | none => simp [hg] at a2
    | some _ => rfl
  simp only [template_accept]
  refine ⟨?_, ?_, by omega⟩
  · intro id hid
    rcases List.mem_append.mp hid with h | h
    · exact i1 id h
    · simp only [List.mem_singleton] at h
      rw [h]; exact hsome
  · simp only [stored_weights, List.map_append, List.sum_append, List.map_cons, List.map_nil,
      List.sum_cons, List.sum_nil, a2, Option.getD_some, Nat.add_zero]
    simp only [stored_weights] at i2
    rw [i2]
    simp [Nat.add_mod]

/-- Claim C23: on every successful return of `fill_block_template`, every id it selected is
stored, `total_weight` is the sum of the stored weights of the selected transactions as a
`size_t` value (the sum itself whenever that is below 2^64) and is at most `max_total_weight`,
which is `2 * median_weight - CRYPTONOTE_COINBASE_BLOB_RESERVED_SIZE` from version 5 on and
`130 * median_weight / 100 - CRYPTONOTE_COINBASE_BLOB_RESERVED_SIZE` before it (as `size_t`
values: the two formulas hold as written whenever they do not wrap). -/
theorem fill_block_template_weight_rule (cfg : Config) (bc : Blockchain) (env : template_env)
    (pool : tx_memory_pool) (median_weight already_generated_coins : Nat)
    (fee_map offshore_fee_map xasset_fee_map : List (String × Nat)) (version : Nat)
    (h : (fill_block_template cfg bc env pool median_weight already_generated_coins fee_map
      offshore_fee_map xasset_fee_map version).ret = some true) :
    (∀ id ∈ (fill_block_template cfg bc env pool median_weight already_generated_coins fee_map
        offshore_fee_map xasset_fee_map version).st.tx_hashes,
      (get_txpool_tx_meta pool.txpool id).isSome = true) ∧
    (fill_block_template cfg bc env pool median_weight already_generated_coins fee_map
        offshore_fee_map xasset_fee_map version).st.total_weight =
      (stored_weights pool (fill_block_template cfg bc env pool median_weight
        already_generated_coins fee_map offshore_fee_map xasset_fee_map
        version).st.tx_hashes).sum % 2 ^ 64 ∧
    ((stored_weights pool (fill_block_template cfg bc env pool median_weight
        already_generated_coins fee_map offshore_fee_map xasset_fee_map
        version).st.tx_hashes).sum < 2 ^ 64 →
      (fill_block_template cfg bc env pool median_weight already_generated_coins fee_map
        offshore_fee_map xasset_fee_map version).st.total_weight =
      (stored_weights pool (fill_block_template cfg bc env pool median_weight
        already_generated_coins fee_map offshore_fee_map xasset_fee_map
        version).st.tx_hashes).sum) ∧
    (fill_block_template cfg bc env pool median_weight already_generated_coins fee_map
        offshore_fee_map xasset_fee_map version).st.total_weight ≤
      max_total_weight cfg median_weight version ∧
    (5 ≤ version → cfg.CRYPTONOTE_COINBASE_BLOB_RESERVED_SIZE ≤ 2 * median_weight →
      2 * median_weight < 2 ^ 64 →
      max_total_weight cfg median_weight version =
        2 * median_weight - cfg.CRYPTONOTE_COINBASE_BLOB_RESERVED_SIZE) ∧
    (version < 5 → cfg.CRYPTONOTE_COINBASE_BLOB_RESERVED_SIZE ≤ 130 * median_weight / 100 →
      130 * median_weight < 2 ^ 64 →
      max_total_weight cfg median_weight version =
        130 * median_weight / 100 - cfg.CRYPTONOTE_COINBASE_BLOB_RESERVED_SIZE) := by
  obtain ⟨best_coinbase, _, hst⟩ := fill_block_template_true cfg bc env pool median_weight
    already_generated_coins fee_map offshore_fee_map xasset_fee_map version h
  rw [hst]
  obtain ⟨w1, w2, w3⟩ := fill_block_template_loop_weight cfg bc env
    (fill_block_template_params cfg bc env median_weight already_generated_coins version)
    pool pool.m_txs_by_fee_and_receive_time
    (template_state.start pool fee_map offshore_fee_map xasset_fee_map best_coinbase)
    (template_frame_refl pool) (fun id hid => by simp [template_state.start] at hid)
    (by simp [template_state.start, stored_weights])
    (by simp [template_state.start])
  refine ⟨w1, w2, ?_, w3, ?_, ?_⟩
  · intro hlt
    rw [w2, Nat.mod_eq_of_lt hlt]
  · intro hv hr hm
    unfold max_total_weight
    simp only [ge_iff_le, hv, if_true]
    rw [Nat.mod_eq_of_lt hm]
    exact sub64_of_le _ _ hm hr
  · intro hv hr hm
    unfold max_total_weight
    have hv2 : ¬ version ≥ 5 := by omega
    simp only [hv2, if_false]
    rw [Nat.mod_eq_of_lt hm]
    exact sub64_of_le _ _ (by omega) hr

/-- Claim C23 at a concrete input: on the pool that holds the two transfers of weight 2000, at
version 20 and median weight 300000, both are selected, `total_weight` is 4000 and
`max_total_weight` is 599400. -/
theorem fill_block_template_weight_rule_witness :
    (fill_block_template havenConfig example_chain example_template_env example_two_tx_pool
      300000 1000000 [] [] [] 20).ret = some true ∧
    (fill_block_template havenConfig example_chain example_template_env example_two_tx_pool
      300000 1000000 [] [] [] 20).st.tx_hashes = [12, 13] ∧
    (fill_block_template havenConfig example_chain example_template_env example_two_tx_pool
      300000 1000000 [] [] [] 20).st.total_weight = 4000 ∧
    stored_weights example_two_tx_pool [12, 13] = [2000, 2000] ∧
    max_total_weight havenConfig 300000 20 = 599400 :=
  ⟨by decide, by decide,
    ((fill_block_template_weight_rule havenConfig example_chain example_template_env
      example_two_tx_pool 300000 1000000 [] [] [] 20 (by decide)).2.1).trans (by decide),
    by decide, by decide⟩

/-- A transaction that `get_tx_asset_types` accepts outside a miner transaction has inputs of
the four spend variants only. -/
theorem get_tx_asset_types_supported (cfg : Config) (tx : transaction) (txid : hash)
    (destination0 source destination : String)
    (h : get_tx_asset_types cfg tx txid destination0 false = (true, source, destination)) :
    ∀ i ∈ tx.vin, i.k_image?.isSome = true := by
  obtain ⟨sat, _, _, hs, _⟩ := get_tx_asset_types_true cfg tx txid destination0 false source
    destination h
  obtain ⟨_, _, h3, h4, _⟩ := source_asset_types_loop_some false tx.vin [] sat hs
  intro i hi
  have t := h3 i hi
  have g := h4 rfl i hi
  cases i with
  | txin_gen height => exact absurd rfl (g height)
  | txin_to_script => simp [txin_v.asset_tag?] at t
  | txin_to_scripthash => simp [txin_v.asset_tag?] at t
  | txin_to_key _ _ => rfl
  | txin_offshore _ _ => rfl
  | txin_onshore _ _ => rfl
  | txin_xasset _ _ _ => rfl

/-- When `have_key_images` returns false on inputs of the four spend variants, none of their
key images is in the set. -/
theorem have_key_images_false (k_images : List key_image) (vin : List txin_v)
    (hs : ∀ i ∈ vin, i.k_image?.isSome = true) (h : have_key_images k_images vin = false) :
    ∀ k ∈ vin.filterMap txin_v.k_image?, k ∉ k_images := by
  induction vin with
  | nil => simp
  | cons i rest ih =>
    unfold have_key_images at h
    cases hk : i.k_image? with
    | none =>
      have := hs i (List.mem_cons_self _ _)
      simp [hk] at this
    | some k0 =>
      simp only [hk] at h
      split at h
      · cases h
      · rename_i hn
        intro k hkm
        simp only [List.filterMap_cons, hk, List.mem_cons] at hkm
        rcases hkm with e | e
        · rw [e]; exact hn
        · exact ih (fun j hj => hs j (List.mem_cons_of_mem _ hj)) h k e

/-- On inputs of the four spend variants whose key images are pairwise distinct and not in
the set, `append_key_images` adds every one of them. -/
theorem append_key_images_all (vin : List txin_v) (k_images : List key_image)
    (hs : ∀ i ∈ vin, i.k_image?.isSome = true)
    (hnd : (vin.filterMap txin_v.k_image?).Nodup)
    (hdis : ∀ k ∈ vin.filterMap txin_v.k_image?, k ∉ k_images) :
    append_key_images vin k_images = (true, k_images ++ vin.filterMap txin_v.k_image?) := by
  induction vin generalizing k_images with
  | nil => simp [append_key_images]
  | cons i rest ih =>
    unfold append_key_images
    cases hk : i.k_image? with
    | none =>
      have := hs i (List.mem_cons_self _ _)
      simp [hk] at this
    | some k0 =>
      simp only [List.filterMap_cons, hk] at hnd hdis ⊢
      have hn : k0 ∉ k_images := hdis k0 (List.mem_cons_self _ _)
      simp only [hn, if_false]
      rw [ih (k_images ++ [k0]) (fun j hj => hs j (List.mem_cons_of_mem _ hj))
        (List.nodup_cons.mp hnd).2]
      · simp
      · intro k hkm hc
        rcases List.mem_append.mp hc with h | h
        · exact hdis k (List.mem_cons_of_mem _ hkm) h
        · simp only [List.mem_singleton] at h
          rw [h] at hkm
          exact (List.nodup_cons.mp hnd).1 hkm

/-- The key-image invariant of the loop of `fill_block_template`, when the transactions stored
under the ids of the fee order have pairwise distinct key images: every id taken is stored,
the key images of the transactions taken are in `k_images`, and no two transactions taken share
one. -/
theorem fill_block_template_loop_key_images (cfg : Config) (bc : Blockchain)
    (env : template_env) (p : template_params) (pool : tx_memory_pool)
    (l : List tx_by_fee_and_receive_time_entry)
    (hnd : ∀ e ∈ l, ∀ tx, get_txpool_tx_blob pool.txpool e.id = some tx → tx.key_images.Nodup)
    (st : template_state) (hf : template_frame pool st.pool)
    (h1 : ∀ id ∈ st.tx_hashes, (get_txpool_tx_blob pool.txpool id).isSome = true)
    (h2 : ∀ id ∈ st.tx_hashes, ∀ tx, get_txpool_tx_blob pool.txpool id = some tx →
      ∀ k ∈ tx.key_images, k ∈ st.k_images)
    (h3 : (st.tx_hashes.filterMap (get_txpool_tx_blob pool.txpool)).Pairwise
      (fun (a b : transaction) => ∀ k ∈ a.key_images, k ∉ b.key_images)) :
    (∀ id ∈ (fill_block_template_loop cfg bc env p l st).2.tx_hashes,
      (get_txpool_tx_blob pool.txpool id).isSome = true) ∧
    ((fill_block_template_loop cfg bc env p l st).2.tx_hashes.filterMap
      (get_txpool_tx_blob pool.txpool)).Pairwise
      (fun (a b : transaction) => ∀ k ∈ a.key_images, k ∉ b.key_images) := by
  have key := (fill_block_template_loop_induction cfg bc env p pool
    (fun st => (∀ id ∈ st.tx_hashes, (get_txpool_tx_blob pool.txpool id).isSome = true) ∧
      (∀ id ∈ st.tx_hashes, ∀ tx, get_txpool_tx_blob pool.txpool id = some tx →
        ∀ k ∈ tx.key_images, k ∈ st.k_images) ∧
      (st.tx_hashes.filterMap (get_txpool_tx_blob pool.txpool)).Pairwise
        (fun (a b : transaction) => ∀ k ∈ a.key_images, k ∉ b.key_images))
    (fun st P h => h) l ?_ st hf ⟨h1, h2, h3⟩).1
  · exact ⟨key.1, key.2.2⟩
  intro st e m tx source dest tx_type fee coinbase conv he hinv hacc
  obtain ⟨i1, i2, i3⟩ := hinv
  obtain ⟨a1, _, _, a4, a5, _⟩ := hacc
  have hsup := get_tx_asset_types_supported cfg tx e.id "" source dest a5
  have hdis := have_key_images_false st.k_images tx.vin hsup a4
  have happ := append_key_images_all tx.vin st.k_images hsup (hnd e he tx a1) hdis
  simp only [template_accept, happ]
  refine ⟨?_, ?_, ?_⟩
  · intro id hid
    rcases List.mem_append.mp hid with h | h
    · exact i1 id h
    · simp only [List.mem_singleton] at h
      rw [h, a1]; rfl
  · intro id hid tx2 htx2 k hk
    rcases List.mem_append.mp hid with h | h
    · exact List.mem_append_left _ (i2 id h tx2 htx2 k hk)
    · simp only [List.mem_singleton] at h
      rw [h, a1] at htx2
      cases htx2
      exact List.mem_append_right _ hk
  · simp only [List.filterMap_append, List.filterMap_cons, List.filterMap_nil, a1]
    rw [List.pairwise_append]
    refine ⟨i3, List.pairwise_singleton _ _, ?_⟩
    intro a ha b hb k hk hkb
    simp only [List.mem_singleton] at hb
    rw [hb] at hkb
    obtain ⟨id, hid, hida⟩ := List.mem_filterMap.mp ha
    exact hdis k hkb (i2 id hid a hida k hk)

/-- Claim C24: every id that one run of `fill_block_template` selects is stored, and no key
image occurs in the inputs of two different selected transactions: a candidate with a key
image of a transaction taken earlier is skipped.  The stored transactions are the well-formed
ones, none of which spends one key image twice among its own inputs; `append_key_images` calls
a repeated key image an internal error (lines 2303-2318). -/
theorem fill_block_template_key_image_rule (cfg : Config) (bc : Blockchain)
    (env : template_env) (pool : tx_memory_pool) (median_weight already_generated_coins : Nat)
    (fee_map offshore_fee_map xasset_fee_map : List (String × Nat)) (version : Nat)
    (hnd : ∀ e ∈ pool.m_txs_by_fee_and_receive_time, ∀ tx,
      get_txpool_tx_blob pool.txpool e.id = some tx → tx.key_images.Nodup) :
    (∀ id ∈ (fill_block_template cfg bc env pool median_weight already_generated_coins fee_map
        offshore_fee_map xasset_fee_map version).st.tx_hashes,
      (get_txpool_tx_blob pool.txpool id).isSome = true) ∧
    ((fill_block_template cfg bc env pool median_weight already_generated_coins fee_map
        offshore_fee_map xasset_fee_map version).st.tx_hashes.filterMap
      (get_txpool_tx_blob pool.txpool)).Pairwise
      (fun (a b : transaction) => ∀ k ∈ a.key_images, k ∉ b.key_images) := by
  rcases fill_block_template_tx_hashes cfg bc env pool median_weight already_generated_coins
    fee_map offshore_fee_map xasset_fee_map version with h | ⟨best_coinbase, h⟩
  · rw [h]
    exact ⟨fun id hid => (by cases hid), List.Pairwise.nil⟩
  · rw [h]
    exact fill_block_template_loop_key_images cfg bc env _ pool _ hnd
      (template_state.start pool fee_map offshore_fee_map xasset_fee_map best_coinbase)
      (template_frame_refl pool) (fun id hid => by simp [template_state.start] at hid)
      (fun id hid => by simp [template_state.start] at hid)
      (by simp [template_state.start])

/-- Why the stored transactions are taken to be well formed: were a transaction stored whose
inputs carry the key image 131 twice and 132 once (id 21; the inputs check of the example
chain accepts everything) next to a transaction that spends 132 (id 22), `append_key_images`
would stop at the second 131, the internal error whose result line 2687 does not read, and
never record 132, and the key-image test of id 22 would pass. -/
theorem fill_block_template_selects_shared_key_image :
    (fill_block_template havenConfig example_chain example_template_env
      example_shared_key_image_pool 300000 1000000 [] [] [] 20).ret = some true ∧
    (fill_block_template havenConfig example_chain example_template_env
      example_shared_key_image_pool 300000 1000000 [] [] [] 20).st.tx_hashes = [21, 22] ∧
    get_txpool_tx_blob example_shared_key_image_pool.txpool 21 =
      some example_repeated_key_image_tx ∧
    get_txpool_tx_blob example_shared_key_image_pool.txpool 22 =
      some example_key_image_132_tx ∧
    132 ∈ example_repeated_key_image_tx.key_images ∧
    132 ∈ example_key_image_132_tx.key_images ∧
    append_key_images example_repeated_key_image_tx.vin [] = (false, [131]) := by
  decide

/-- Claim C24 at a concrete input: the two transfers of `example_two_tx_pool` have one key
image each, both are selected and they share none. -/
theorem fill_block_template_key_image_rule_witness :
    (fill_block_template havenConfig example_chain example_template_env example_two_tx_pool
      300000 1000000 [] [] [] 20).st.tx_hashes = [12, 13] ∧
    ((fill_block_template havenConfig example_chain example_template_env example_two_tx_pool
      300000 1000000 [] [] [] 20).st.tx_hashes.filterMap
      (get_txpool_tx_blob example_two_tx_pool.txpool)).Pairwise
      (fun (a b : transaction) => ∀ k ∈ a.key_images, k ∉ b.key_images) :=
  ⟨by decide,
    (fill_block_template_key_image_rule havenConfig example_chain example_template_env
      example_two_tx_pool 300000 1000000 [] [] [] 20 (by decide)).2⟩

/-- What a passed block cap test says from the collateral epoch on: for an offshore or onshore
there is an acceptable price record, the value is the amount burnt or minted as `uint64_t`, and
the running total with it stays within the cap; for every other type the value is 0. -/
theorem template_block_cap_pass (cfg : Config) (p : template_params) (st : template_state)
    (tx : transaction) (tx_type : transaction_type) (conv : Nat)
    (hv : p.version ≥ cfg.HF_VERSION_USE_COLLATERAL)
    (h : template_block_cap cfg p st tx tx_type = verdict.pass conv) :
    (tx_type = transaction_type.OFFSHORE →
      p.have_valid_pr = true ∧ conv = tx.amount_burnt % 2 ^ 64 ∧
      (st.total_conversion_xhv + conv) % 2 ^ 64 ≤ p.block_cap_xhv) ∧
    (tx_type = transaction_type.ONSHORE →
      p.have_valid_pr = true ∧ conv = tx.amount_minted % 2 ^ 64 ∧
      (st.total_conversion_xhv + conv) % 2 ^ 64 ≤ p.block_cap_xhv) ∧
    (tx_type ≠ transaction_type.OFFSHORE → tx_type ≠ transaction_type.ONSHORE → conv = 0) := by
  unfold template_block_cap at h
  by_cases h1 : tx_type = transaction_type.OFFSHORE
  · subst h1
    simp only [hv, true_and, true_or, if_true, reduceCtorEq, if_false] at h
    split at h
    · cases h
    · rename_i hp
      split at h
      · cases h
      · rename_i hc
        simp only [verdict.pass.injEq] at h
        subst h
        refine ⟨fun _ => ⟨by simpa using hp, rfl, by omega⟩, fun hc2 => (by cases hc2),
          fun hc2 => absurd rfl hc2⟩
  · by_cases h2 : tx_type = transaction_type.ONSHORE
    · subst h2
      simp only [hv, true_and, or_true, if_true, reduceCtorEq, if_false] at h
      split at h
      · cases h
      · rename_i hp
        split at h
        · cases h
        · rename_i hc
          simp only [verdict.pass.injEq] at h
          subst h
          refine ⟨fun hc2 => (by cases hc2), fun _ => ⟨by simpa using hp, by simp, by omega⟩,
            fun _ hc2 => absurd rfl hc2⟩
    · simp only [h1, h2, or_self, and_false, if_false, verdict.pass.injEq] at h
      exact ⟨fun hc => absurd hc h1, fun hc => absurd hc h2, fun _ _ => h.symm⟩

/-- What passed conversion tests say: a transfer counts 0, a conversion passed the block cap
test with the value returned. -/
theorem template_conversion_pass (cfg : Config) (bc : Blockchain) (env : template_env)
    (p : template_params) (st : template_state) (id : hash) (tx : transaction)
    (source dest : String) (tx_type : transaction_type) (conv : Nat)
    (h : template_conversion cfg bc env p st id tx source dest tx_type = verdict.pass conv) :
    (source = dest → conv = 0) ∧
    (source ≠ dest → template_block_cap cfg p st tx tx_type = verdict.pass conv) := by
  unfold template_conversion at h
  by_cases hsd : source = dest
  · simp only [hsd, ne_eq, not_true_eq_false, if_false, verdict.pass.injEq] at h
    exact ⟨fun _ => h.symm, fun hc => absurd hsd hc⟩
  · simp only [ne_eq, hsd, not_false_eq_true, if_true] at h
    refine ⟨fun hc => absurd hc hsd, fun _ => ?_⟩
    cases hb : template_block_cap cfg p st tx tx_type with
    | pass c =>
      simp only [hb] at h
      split at h
      · cases h
      · split at h
        · simp only [verdict.pass.injEq] at h
          rw [h]
        · cases h
        · cases h
        · cases h
    | skip => simp [hb] at h
    | stop => simp [hb] at h
    | thrown => simp [hb] at h

/-- The type `get_tx_type` gives a pair of equal assets is none of the conversions. -/
theorem get_tx_type_same (cfg : Config) (source : String) (tx_type : transaction_type)
    (h : get_tx_type cfg source source = some tx_type) :
    tx_type = transaction_type.TRANSFER ∨ tx_type = transaction_type.OFFSHORE_TRANSFER ∨
      tx_type = transaction_type.XASSET_TRANSFER := by
  unfold get_tx_type at h
  split_ifs at h <;> simp_all

/-- The type `get_tx_type` gives a pair of different assets is one of the four conversions. -/
theorem get_tx_type_conversion (cfg : Config) (source dest : String)
    (tx_type : transaction_type) (hne : source ≠ dest)
    (h : get_tx_type cfg source dest = some tx_type) :
    tx_type = transaction_type.OFFSHORE ∨ tx_type = transaction_type.ONSHORE ∨
      tx_type = transaction_type.XUSD_TO_XASSET ∨ tx_type = transaction_type.XASSET_TO_XUSD := by
  unfold get_tx_type at h
  split_ifs at h <;> simp_all

/-- What a taken entry counts towards the running conversion total, from the collateral epoch
on: its capped amount as `uint64_t`, with which the running total stays within the cap. -/
theorem template_accepted_conversion (cfg : Config) (bc : Blockchain) (env : template_env)
    (p : template_params) (pool0 : tx_memory_pool) (st : template_state)
    (e : tx_by_fee_and_receive_time_entry) (m : txpool_tx_meta_t) (tx : transaction)
    (source dest : String) (tx_type : transaction_type) (conv : Nat)
    (hv : p.version ≥ cfg.HF_VERSION_USE_COLLATERAL)
    (ht : st.total_conversion_xhv ≤ p.block_cap_xhv)
    (h : template_accepted cfg bc env p pool0 st e m tx source dest tx_type conv) :
    conv = capped_conversion_amount cfg tx e.id % 2 ^ 64 ∧
    (st.total_conversion_xhv + conv) % 2 ^ 64 ≤ p.block_cap_xhv := by
  obtain ⟨_, _, _, _, a5, a6, a7⟩ := h
  obtain ⟨c1, c2⟩ := template_conversion_pass cfg bc env p st e.id tx source dest tx_type conv a7
  have hzero : conv = 0 → (st.total_conversion_xhv + conv) % 2 ^ 64 ≤ p.block_cap_xhv := by
    intro hz
    rw [hz, Nat.add_zero]
    exact Nat.le_trans (Nat.mod_le _ _) ht
  by_cases hsd : source = dest
  · have hz := c1 hsd
    subst hsd
    refine ⟨?_, hzero hz⟩
    rw [hz]
    rcases get_tx_type_same cfg source tx_type a6 with h | h | h <;>
      simp [capped_conversion_amount, a5, a6, h]
  · obtain ⟨b1, b2, b3⟩ := template_block_cap_pass cfg p st tx tx_type conv hv (c2 hsd)
    by_cases h1 : tx_type = transaction_type.OFFSHORE
    · obtain ⟨_, hc, hle⟩ := b1 h1
      refine ⟨?_, hle⟩
      simp [capped_conversion_amount, a5, a6, h1, hc]
    · by_cases h2 : tx_type = transaction_type.ONSHORE
      · obtain ⟨_, hc, hle⟩ := b2 h2
        refine ⟨?_, hle⟩
        simp [capped_conversion_amount, a5, a6, h2, hc]
      · have hz := b3 h1 h2
        refine ⟨?_, hzero hz⟩
        rw [hz]
        rcases get_tx_type_conversion cfg source dest tx_type hsd a6 with h | h | h | h
        · exact absurd h h1
        · exact absurd h h2
        · simp [capped_conversion_amount, a5, a6, h]
        · simp [capped_conversion_amount, a5, a6, h]

/-- The conversion invariant of the loop of `fill_block_template` from the collateral epoch on:
`total_conversion_xhv` is the sum of the capped amounts of the transactions taken, in
`uint64_t`, and stays within the block cap. -/
theorem fill_block_template_loop_conversion (cfg : Config) (bc : Blockchain)
    (env : template_env) (p : template_params) (pool : tx_memory_pool)
    (l : List tx_by_fee_and_receive_time_entry)
    (hv : p.version ≥ cfg.HF_VERSION_USE_COLLATERAL)
    (st : template_state) (hf : template_frame pool st.pool)
    (h1 : st.total_conversion_xhv =
      (capped_conversion_amounts cfg pool st.tx_hashes).sum % 2 ^ 64)
    (h2 : st.total_conversion_xhv ≤ p.block_cap_xhv) :
    (fill_block_template_loop cfg bc env p l st).2.total_conversion_xhv =
      (capped_conversion_amounts cfg pool
        (fill_block_template_loop cfg bc env p l st).2.tx_hashes).sum % 2 ^ 64 ∧
    (fill_block_template_loop cfg bc env p l st).2.total_conversion_xhv ≤ p.block_cap_xhv := by
  refine (fill_block_template_loop_induction cfg bc env p pool
    (fun st => st.total_conversion_xhv =
        (capped_conversion_amounts cfg pool st.tx_hashes).sum % 2 ^ 64 ∧
      st.total_conversion_xhv ≤ p.block_cap_xhv)
    (fun st P h => h) l ?_ st hf ⟨h1, h2⟩).1
  intro st e m tx source dest tx_type fee coinbase conv _ hinv hacc
  obtain ⟨i1, i2⟩ := hinv
  obtain ⟨hc, hle⟩ := template_accepted_conversion cfg bc env p pool st e m tx source dest
    tx_type conv hv i2 hacc
  have a1 := hacc.1
  simp only [template_accept]
  refine ⟨?_, hle⟩
  simp only [capped_conversion_amounts, List.map_append, List.sum_append, List.map_cons,
    List.map_nil, List.sum_cons, List.sum_nil, a1, Nat.add_zero]
  simp only [capped_conversion_amounts] at i1
  rw [i1, hc]
  simp [Nat.add_mod]

/-- Claim C25, with the sum taken as the code takes it, in `uint64_t`: from the collateral
epoch on, the sum of `amount_burnt` over the selected offshores and of `amount_minted` over the
selected onshores, reduced modulo 2^64, is at most `block_cap_xhv`, the value of
`get_block_cap`; the sum itself is at most the cap whenever it is below 2^64. -/
theorem fill_block_template_conversion_cap_rule (cfg : Config) (bc : Blockchain)
    (env : template_env) (pool : tx_memory_pool) (median_weight already_generated_coins : Nat)
    (fee_map offshore_fee_map xasset_fee_map : List (String × Nat)) (version : Nat)
    (hv : version ≥ cfg.HF_VERSION_USE_COLLATERAL) :
    (capped_conversion_amounts cfg pool
      (fill_block_template cfg bc env pool median_weight already_generated_coins fee_map
        offshore_fee_map xasset_fee_map version).st.tx_hashes).sum % 2 ^ 64 ≤
      (fill_block_template_params cfg bc env median_weight already_generated_coins
        version).block_cap_xhv ∧
    ((capped_conversion_amounts cfg pool
      (fill_block_template cfg bc env pool median_weight already_generated_coins fee_map
        offshore_fee_map xasset_fee_map version).st.tx_hashes).sum < 2 ^ 64 →
      (capped_conversion_amounts cfg pool
        (fill_block_template cfg bc env pool median_weight already_generated_coins fee_map
          offshore_fee_map xasset_fee_map version).st.tx_hashes).sum ≤
        (fill_block_template_params cfg bc env median_weight already_generated_coins
          version).block_cap_xhv) := by
  have key : (capped_conversion_amounts cfg pool
      (fill_block_template cfg bc env pool median_weight already_generated_coins fee_map
        offshore_fee_map xasset_fee_map version).st.tx_hashes).sum % 2 ^ 64 ≤
      (fill_block_template_params cfg bc env median_weight already_generated_coins
        version).block_cap_xhv := by
    rcases fill_block_template_tx_hashes cfg bc env pool median_weight already_generated_coins
      fee_map offshore_fee_map xasset_fee_map version with h | ⟨best_coinbase, h⟩
    · rw [h]
      simp [capped_conversion_amounts]
    · rw [h]
      obtain ⟨w1, w2⟩ := fill_block_template_loop_conversion cfg bc env
        (fill_block_template_params cfg bc env median_weight already_generated_coins version)
        pool pool.m_txs_by_fee_and_receive_time hv
        (template_state.start pool fee_map offshore_fee_map xasset_fee_map best_coinbase)
        (template_frame_refl pool) (by simp [template_state.start, capped_conversion_amounts])
        (by simp [template_state.start])
      rw [← w1]
      exact w2
  refine ⟨key, fun hlt => ?_⟩
  rw [Nat.mod_eq_of_lt hlt] at key
  exact key

/-- Claim C25, counterexample: `add_tx2` admits two offshores that burn 2^63 atomic units each,
and at version 20, with a block cap of 2^63, `fill_block_template` selects both: the sum
`total_conversion_xhv + conversion_this_tx_xhv` of line 2628 wraps to 0 for the second one.  The
amounts burnt by the selected offshores sum to 2^64, twice the cap. -/
theorem fill_block_template_exceeds_block_cap :
    (fill_block_template havenConfig example_late_chain example_template_env
      example_large_offshore_pool 300000 1000000 [] [] [] 20).ret = some true ∧
    (fill_block_template havenConfig example_late_chain example_template_env
      example_large_offshore_pool 300000 1000000 [] [] [] 20).st.tx_hashes = [31, 32] ∧
    capped_conversion_amounts havenConfig example_large_offshore_pool [31, 32] =
      [9223372036854775808, 9223372036854775808] ∧
    (fill_block_template_params havenConfig example_late_chain example_template_env 300000
      1000000 20).block_cap_xhv = 9223372036854775808 ∧
    ¬ (capped_conversion_amounts havenConfig example_large_offshore_pool [31, 32]).sum ≤
      (fill_block_template_params havenConfig example_late_chain example_template_env 300000
        1000000 20).block_cap_xhv := by
  decide

/-- Claim C25 at a concrete input: the offshore that burns 1000 atomic units is selected at
version 20, and 1000 is within the block cap. -/
theorem fill_block_template_conversion_cap_rule_witness :
    (fill_block_template havenConfig example_late_chain example_template_env
      example_offshore_pool 300000 1000000 [] [] [] 20).st.tx_hashes = [33] ∧
    capped_conversion_amounts havenConfig example_offshore_pool [33] = [1000] ∧
    (capped_conversion_amounts havenConfig example_offshore_pool
      (fill_block_template havenConfig example_late_chain example_template_env
        example_offshore_pool 300000 1000000 [] [] [] 20).st.tx_hashes).sum % 2 ^ 64 ≤
      (fill_block_template_params havenConfig example_late_chain example_template_env 300000
        1000000 20).block_cap_xhv :=
  ⟨by decide, by decide,
    (fill_block_template_conversion_cap_rule havenConfig example_late_chain
      example_template_env example_offshore_pool 300000 1000000 [] [] [] 20 (by decide)).1⟩

/-- The invariant of the loop of `fill_block_template` without an acceptable price record, from
the collateral epoch on: every transaction taken is stored, has an asset pair and a type, and
the type is neither offshore nor onshore. -/
theorem fill_block_template_loop_without_pr (cfg : Config) (bc : Blockchain)
    (env : template_env) (p : template_params) (pool : tx_memory_pool)
    (l : List tx_by_fee_and_receive_time_entry)
    (hv : p.version ≥ cfg.HF_VERSION_USE_COLLATERAL) (hpr : p.have_valid_pr = false)
    (st : template_state) (hf : template_frame pool st.pool)
    (h1 : ∀ id ∈ st.tx_hashes, ∃ tx source dest tx_type,
      get_txpool_tx_blob pool.txpool id = some tx ∧
      get_tx_asset_types cfg tx id "" false = (true, source, dest) ∧
      get_tx_type cfg source dest = some tx_type ∧
      tx_type ≠ transaction_type.OFFSHORE ∧ tx_type ≠ transaction_type.ONSHORE) :
    ∀ id ∈ (fill_block_template_loop cfg bc env p l st).2.tx_hashes,
      ∃ tx source dest tx_type,
        get_txpool_tx_blob pool.txpool id = some tx ∧
        get_tx_asset_types cfg tx id "" false = (true, source, dest) ∧
        get_tx_type cfg source dest = some tx_type ∧
        tx_type ≠ transaction_type.OFFSHORE ∧ tx_type ≠ transaction_type.ONSHORE := by
  refine (fill_block_template_loop_induction cfg bc env p pool
    (fun st => ∀ id ∈ st.tx_hashes, ∃ tx source dest tx_type,
      get_txpool_tx_blob pool.txpool id = some tx ∧
      get_tx_asset_types cfg tx id "" false = (true, source, dest) ∧
      get_tx_type cfg source dest = some tx_type ∧
      tx_type ≠ transaction_type.OFFSHORE ∧ tx_type ≠ transaction_type.ONSHORE)
    (fun st P h => h) l ?_ st hf h1).1
  intro st e m tx source dest tx_type fee coinbase conv _ hinv hacc
  obtain ⟨a1, _, _, _, a5, a6, a7⟩ := hacc
  obtain ⟨c1, c2⟩ := template_conversion_pass cfg bc env p st e.id tx source dest tx_type conv a7
  simp only [template_accept]
  intro id hid
  rcases List.mem_append.mp hid with h | h
  · exact hinv id h
  · simp only [List.mem_singleton] at h
    rw [h]
    refine ⟨tx, source, dest, tx_type, a1, a5, a6, ?_⟩
    by_cases hsd : source = dest
    · subst hsd
      rcases get_tx_type_same cfg source tx_type a6 with h | h | h <;> simp [h]
    · obtain ⟨b1, b2, _⟩ := template_block_cap_pass cfg p st tx tx_type conv hv (c2 hsd)
      constructor
      · intro hc
        have := (b1 hc).1
        rw [hpr] at this
        cases this
      · intro hc
        have := (b2 hc).1
        rw [hpr] at this
        cases this

/-- The explicit test of `have_valid_pr` (line 2617), with no premise on the chain: when
`get_latest_acceptable_pr` fails and the version is at least `HF_VERSION_USE_COLLATERAL`, every
transaction `fill_block_template` selects is stored, has an asset pair and a type, and is
neither an offshore nor an onshore. -/
theorem fill_block_template_without_pr_shore (cfg : Config) (bc : Blockchain)
    (env : template_env) (pool : tx_memory_pool) (median_weight already_generated_coins : Nat)
    (fee_map offshore_fee_map xasset_fee_map : List (String × Nat)) (version : Nat)
    (hpr : bc.get_latest_acceptable_pr = none)
    (hv : version ≥ cfg.HF_VERSION_USE_COLLATERAL) :
    ∀ id ∈ (fill_block_template cfg bc env pool median_weight already_generated_coins fee_map
        offshore_fee_map xasset_fee_map version).st.tx_hashes,
      ∃ tx source dest tx_type,
        get_txpool_tx_blob pool.txpool id = some tx ∧
        get_tx_asset_types cfg tx id "" false = (true, source, dest) ∧
        get_tx_type cfg source dest = some tx_type ∧
        tx_type ≠ transaction_type.OFFSHORE ∧ tx_type ≠ transaction_type.ONSHORE ∧
        (source ≠ dest →
          tx_type = transaction_type.XUSD_TO_XASSET ∨
            tx_type = transaction_type.XASSET_TO_XUSD) := by
  have key : ∀ id ∈ (fill_block_template cfg bc env pool median_weight already_generated_coins
      fee_map offshore_fee_map xasset_fee_map version).st.tx_hashes,
      ∃ tx source dest tx_type,
        get_txpool_tx_blob pool.txpool id = some tx ∧
        get_tx_asset_types cfg tx id "" false = (true, source, dest) ∧
        get_tx_type cfg source dest = some tx_type ∧
        tx_type ≠ transaction_type.OFFSHORE ∧ tx_type ≠ transaction_type.ONSHORE := by
    rcases fill_block_template_tx_hashes cfg bc env pool median_weight already_generated_coins
      fee_map offshore_fee_map xasset_fee_map version with h | ⟨best_coinbase, h⟩
    · rw [h]
      intro id hid
      cases hid
    · rw [h]
      exact fill_block_template_loop_without_pr cfg bc env
        (fill_block_template_params cfg bc env median_weight already_generated_coins version)
        pool pool.m_txs_by_fee_and_receive_time hv
        (by simp [fill_block_template_params, hpr])
        (template_state.start pool fee_map offshore_fee_map xasset_fee_map best_coinbase)
        (template_frame_refl pool) (fun id hid => by simp [template_state.start] at hid)
  intro id hid
  obtain ⟨tx, source, dest, tx_type, k1, k2, k3, k4, k5⟩ := key id hid
  refine ⟨tx, source, dest, tx_type, k1, k2, k3, k4, k5, fun hsd => ?_⟩
  rcases get_tx_type_conversion cfg source dest tx_type hsd k3 with h | h | h | h
  · exact absurd h k4
  · exact absurd h k5
  · exact Or.inl h
  · exact Or.inr h

/-- Why the chain is taken to be consistent: `example_chain_without_pr` reports no acceptable
price record while its block 90, five blocks back, still holds the record the stored xUSD to
XBTC conversion was built with, and the proof-of-value test of the example accepts it.  On
that chain the conversion is selected: the test of `have_valid_pr` at line 2617 is reached for
offshores and onshores only, and a conversion between xUSD and an xAsset is kept out by the
age test of its price record and the proof-of-value test. -/
theorem fill_block_template_selects_xasset_conversion_without_pr :
    example_chain_without_pr.get_latest_acceptable_pr = none ∧
    (fill_block_template havenConfig example_chain_without_pr example_template_env
      example_xasset_conversion_pool 300000 1000000 [] [] [] 20).ret = some true ∧
    (fill_block_template havenConfig example_chain_without_pr example_template_env
      example_xasset_conversion_pool 300000 1000000 [] [] [] 20).st.tx_hashes = [14] ∧
    get_txpool_tx_blob example_xasset_conversion_pool.txpool 14 =
      some example_v7_xusd_to_xbtc_tx ∧
    get_tx_asset_types havenConfig example_v7_xusd_to_xbtc_tx 14 "" false =
      (true, "XUSD", "XBTC") ∧
    get_tx_type havenConfig "XUSD" "XBTC" = some transaction_type.XUSD_TO_XASSET := by
  decide

/-- The function `fill_block_template` writes to the table and to the input-check cache
only. -/
theorem fill_block_template_pool (cfg : Config) (bc : Blockchain) (env : template_env)
    (pool : tx_memory_pool) (median_weight already_generated_coins : Nat)
    (fee_map offshore_fee_map xasset_fee_map : List (String × Nat)) (version : Nat) :
    ∃ db c, (fill_block_template cfg bc env pool median_weight already_generated_coins fee_map
      offshore_fee_map xasset_fee_map version).st.pool =
        { pool with txpool := db, m_input_cache := c } := by
  unfold fill_block_template
  simp only
  cases hr : env.get_block_reward median_weight 0 already_generated_coins version with
  | none => exact ⟨pool.txpool, pool.m_input_cache, rfl⟩
  | some best_coinbase =>
    simp only
    obtain ⟨_, db, c, hp, _⟩ := fill_block_template_loop_induction cfg bc env
      (fill_block_template_params cfg bc env median_weight already_generated_coins version)
      pool (fun _ => True) (fun _ _ h => h) pool.m_txs_by_fee_and_receive_time
      (fun _ _ _ _ _ _ _ _ _ _ _ _ _ => trivial)
      { pool := pool, tx_hashes := [], total_weight := 0, total_fee_xhv := 0,
        total_conversion_xhv := 0, best_coinbase := best_coinbase, k_images := [],
        fee_map := fee_map, offshore_fee_map := offshore_fee_map,
        xasset_fee_map := xasset_fee_map }
      (template_frame_refl pool) trivial
    split <;> rename_i st heq <;> rw [heq] at hp <;> simp only at hp ⊢
    · exact ⟨db, c, hp⟩
    · rw [hp]
      exact ⟨pool.txpool, c, rfl⟩

/-- Claim C22, for the operations that raise the cookie: none of `add_tx2`, `take_tx`, `prune`,
`remove_stuck_transactions`, `mark_double_spend`, `set_relayed` and `fill_block_template` lowers
the cookie.  `take_tx`, `remove_stuck_transactions` and `mark_double_spend` raise it whenever
they change the pool at all; `add_tx2` raises it when it returns true and when it leaves a
table other than the one it found; `prune` raises it when its loop runs to its end and changes
the pool.  `set_relayed` and `fill_block_template` leave the cookie as it is. -/
theorem cookie_rule (cfg : Config) (bc : Blockchain) (env : template_env)
    (pool : tx_memory_pool) :
    (∀ now tx id tx_weight tvc tx_relay relayed version,
      pool.m_cookie ≤
        (add_tx2 cfg bc now pool tx id tx_weight tvc tx_relay relayed version).pool.m_cookie) ∧
    (∀ id, pool.m_cookie ≤ (take_tx pool id).2.m_cookie) ∧
    (∀ bytes, pool.m_cookie ≤ (prune pool bytes).m_cookie) ∧
    (∀ now, pool.m_cookie ≤ (remove_stuck_transactions cfg bc now pool).m_cookie) ∧
    (∀ tx, pool.m_cookie ≤ (mark_double_spend pool tx).m_cookie) ∧
    (∀ now tx id tx_weight tvc tx_relay relayed version,
      (add_tx2 cfg bc now pool tx id tx_weight tvc tx_relay relayed version).ret = some true →
      pool.m_cookie <
        (add_tx2 cfg bc now pool tx id tx_weight tvc tx_relay relayed version).pool.m_cookie) ∧
    (∀ now tx id tx_weight tvc tx_relay relayed version,
      (add_tx2 cfg bc now pool tx id tx_weight tvc tx_relay relayed version).ret ≠ some true →
      (add_tx2 cfg bc now pool tx id tx_weight tvc tx_relay relayed version).pool.txpool ≠
        pool.txpool →
      pool.m_cookie <
        (add_tx2 cfg bc now pool tx id tx_weight tvc tx_relay relayed version).pool.m_cookie) ∧
    (∀ id, (take_tx pool id).2 = pool ∨ pool.m_cookie < (take_tx pool id).2.m_cookie) ∧
    (∀ bytes,
      (prune_loop (if bytes = 0 then pool.m_txpool_max_weight else bytes)
        pool.m_txs_by_fee_and_receive_time.tail.reverse (pool, false)).1 = true →
      prune pool bytes = pool ∨ pool.m_cookie < (prune pool bytes).m_cookie) ∧
    (∀ now, remove_stuck_transactions cfg bc now pool = pool ∨
      pool.m_cookie < (remove_stuck_transactions cfg bc now pool).m_cookie) ∧
    (∀ tx, mark_double_spend pool tx = pool ∨
      pool.m_cookie < (mark_double_spend pool tx).m_cookie) ∧
    (∀ hashes method now embargo,
      (set_relayed pool hashes method now embargo).m_cookie = pool.m_cookie) ∧
    (∀ median_weight already_generated_coins fee_map offshore_fee_map xasset_fee_map version,
      (fill_block_template cfg bc env pool median_weight already_generated_coins fee_map
        offshore_fee_map xasset_fee_map version).st.pool.m_cookie = pool.m_cookie) := by
  refine ⟨?_, ?_, ?_, ?_, ?_, ?_, ?_, ?_, ?_, ?_, ?_, ?_, ?_⟩
  · intro now tx id tx_weight tvc tx_relay relayed version
    exact (add_tx2_cookie cfg bc now pool tx id tx_weight tvc tx_relay relayed version).1
  · intro id
    rcases take_tx_cookie pool id with h | h
    · rw [h]
    · omega
  · intro bytes
    exact (prune_cookie pool bytes).1
  · intro now
    rcases remove_stuck_transactions_cookie cfg bc now pool with h | h
    · rw [h]
    · omega
  · intro tx
    rcases mark_double_spend_cookie pool tx with h | h
    · rw [h]
    · omega
  · intro now tx id tx_weight tvc tx_relay relayed version
    exact (add_tx2_cookie cfg bc now pool tx id tx_weight tvc tx_relay relayed version).2.1
  · intro now tx id tx_weight tvc tx_relay relayed version
    exact (add_tx2_cookie cfg bc now pool tx id tx_weight tvc tx_relay relayed version).2.2
  · exact take_tx_cookie pool
  · intro bytes
    exact (prune_cookie pool bytes).2
  · intro now
    exact remove_stuck_transactions_cookie cfg bc now pool
  · intro tx
    rcases mark_double_spend_cookie pool tx with h | h
    · exact Or.inl h
    · exact Or.inr (by omega)
  · intro hashes method now embargo
    rfl
  · intro median_weight already_generated_coins fee_map offshore_fee_map xasset_fee_map version
    obtain ⟨db, c, h⟩ := fill_block_template_pool cfg bc env pool median_weight
      already_generated_coins fee_map offshore_fee_map xasset_fee_map version
    rw [h]

/-- Claim C22, counterexample: on `example_pool`, `set_relayed` for the stored id 12 sets the
`relayed` flag and the relay time of the entry, and `fill_block_template`, when the chain holds
the key image of entry 12 spent, writes the raised `double_spend_seen` flag back to the entry;
both leave the cookie as it is. -/
theorem set_relayed_and_template_keep_cookie :
    (get_txpool_tx_meta example_pool.txpool 12).map (fun m => (m.relayed, m.last_relayed_time))
      = some (false, time_max) ∧
    (get_txpool_tx_meta (set_relayed example_pool [12] relay_method.fluff 5000
      (fun _ => 0)).txpool 12).map (fun m => (m.relayed, m.last_relayed_time))
      = some (true, 5000) ∧
    (set_relayed example_pool [12] relay_method.fluff 5000 (fun _ => 0)).m_cookie =
      example_pool.m_cookie ∧
    (get_txpool_tx_meta example_pool.txpool 12).map (fun m => m.double_spend_seen)
      = some false ∧
    (fill_block_template havenConfig example_chain example_template_env_spent example_pool
      300000 1000000 [] [] [] 20).ret = some true ∧
    (get_txpool_tx_meta (fill_block_template havenConfig example_chain
      example_template_env_spent example_pool 300000 1000000 [] [] [] 20).st.pool.txpool
      12).map (fun m => m.double_spend_seen) = some true ∧
    (fill_block_template havenConfig example_chain example_template_env_spent example_pool
      300000 1000000 [] [] [] 20).st.pool.m_cookie = example_pool.m_cookie := by
  decide

/-- An early return of `prune` can change the indexes and leave the cookie as it is: on
`example_dangling_pool`, `prune(1000)` removes the entry of id 13 first, where
`remove_transaction_keyimages` fails at the second occurrence of the key image 120 and does not
raise the cookie, and returns at the fee-order entry of id 12, which has no metadata.  The
key image 120 and the fee-order entry of id 13 are gone, the cookie is the one before the
call. -/
theorem prune_early_return_keeps_cookie :
    example_dangling_pool.m_txs_by_fee_and_receive_time.map (fun e => e.id) = [11, 12, 13] ∧
    get_txpool_tx_meta example_dangling_pool.txpool 12 = none ∧
    ki_find example_dangling_pool.m_spent_key_images 120 = some [13] ∧
    (prune example_dangling_pool 1000).m_txs_by_fee_and_receive_time.map (fun e => e.id) =
      [11, 12] ∧
    ki_find (prune example_dangling_pool 1000).m_spent_key_images 120 = none ∧
    (prune example_dangling_pool 1000).m_cookie = example_dangling_pool.m_cookie := by
  decide

/-! ## The miner transaction -/

/-- What the loop over `fee_map` appends to `tx.vout`: outputs of currencies other than XHV
only, and none at all when every entry other than XHV is 0. -/
theorem miner_tx_xasset_outputs_append (cfg : Config) (env : miner_tx_env)
    (height hard_fork_version : Nat) (offshore_fee_map xasset_fee_map : List (String × Nat))
    (fee_map : List (String × Nat)) (idx : Nat) (vout vout2 : List tx_out)
    (h : miner_tx_xasset_outputs cfg env height hard_fork_version offshore_fee_map
      xasset_fee_map fee_map idx vout = some vout2) :
    ∃ ext, vout2 = vout ++ ext ∧ (∀ o ∈ ext, o.target.is_to_key = false) ∧
      ((∀ e ∈ fee_map, e.1 = "XHV" ∨ e.2 = 0) → ext = []) := by
  induction fee_map generalizing idx vout with
  | nil =>
    simp only [miner_tx_xasset_outputs, Option.some.injEq] at h
    exact ⟨[], by simp [h], fun o ho => (by cases ho), fun _ => rfl⟩
  | cons e rest ih =>
    unfold miner_tx_xasset_outputs at h
    by_cases h1 : e.1 = "XHV"
    · simp only [h1, if_true] at h
      obtain ⟨ext, e1, e2, e3⟩ := ih idx vout h
      exact ⟨ext, e1, e2, fun hz => e3 (fun x hx => hz x (List.mem_cons_of_mem _ hx))⟩
    · simp only [h1, if_false] at h
      by_cases h2 : e.2 = 0
      · simp only [h2, ne_eq, not_true_eq_false, if_false] at h
        obtain ⟨ext, e1, e2, e3⟩ := ih idx vout h
        exact ⟨ext, e1, e2, fun hz => e3 (fun x hx => hz x (List.mem_cons_of_mem _ hx))⟩
      · simp only [ne_eq, h2, not_false_eq_true, if_true] at h
        cases hd : env.derive_public_key idx with
        | none => simp [hd] at h
        | some key =>
          cases hg : env.get_deterministic_output_key (idx + 1) with
          | none => simp [hd, hg] at h
          | some gov_key =>
            simp only [hd, hg] at h
            obtain ⟨ext, e1, e2, _⟩ := ih _ _ h
            refine ⟨⟨(xasset_rewards cfg height hard_fork_version e.2
                (fee_map_get offshore_fee_map e.1) (fee_map_get xasset_fee_map e.1)).1,
                xasset_target e.1 key⟩ ::
              ⟨(xasset_rewards cfg height hard_fork_version e.2
                (fee_map_get offshore_fee_map e.1) (fee_map_get xasset_fee_map e.1)).2,
                xasset_target e.1 gov_key⟩ :: ext, by rw [e1]; simp, ?_, ?_⟩
            · intro o ho
              simp only [List.mem_cons] at ho
              rcases ho with ho | ho | ho
              · rw [ho]; simp only [xasset_target]; split <;> rfl
              · rw [ho]; simp only [xasset_target]; split <;> rfl
              · exact e2 o ho
            · intro hz
              rcases hz e (List.mem_cons_self _ _) with hc | hc
              · exact absurd hc h1
              · exact absurd hc h2

/-- The two outputs of a currency other than XHV with a non-zero entry in `fee_map` stand next
to each other in what the loop over `fee_map` leaves in `tx.vout`, with the amounts of
`xasset_rewards`. -/
theorem miner_tx_xasset_outputs_entry (cfg : Config) (env : miner_tx_env)
    (height hard_fork_version : Nat) (offshore_fee_map xasset_fee_map : List (String × Nat))
    (fee_map : List (String × Nat)) (idx : Nat) (vout vout2 : List tx_out)
    (h : miner_tx_xasset_outputs cfg env height hard_fork_version offshore_fee_map
      xasset_fee_map fee_map idx vout = some vout2)
    (e : String × Nat) (he : e ∈ fee_map) (h1 : e.1 ≠ "XHV") (h2 : e.2 ≠ 0) :
    ∃ before after key gov_key,
      vout2 = before ++
        [⟨(xasset_rewards cfg height hard_fork_version e.2 (fee_map_get offshore_fee_map e.1)
            (fee_map_get xasset_fee_map e.1)).1, xasset_target e.1 key⟩,
         ⟨(xasset_rewards cfg height hard_fork_version e.2 (fee_map_get offshore_fee_map e.1)
            (fee_map_get xasset_fee_map e.1)).2, xasset_target e.1 gov_key⟩] ++ after := by
  induction fee_map generalizing idx vout with
  | nil => cases he
  | cons x rest ih =>
    unfold miner_tx_xasset_outputs at h
    by_cases hx1 : x.1 = "XHV"
    · simp only [hx1, if_true] at h
      rcases List.mem_cons.mp he with hh | hh
      · rw [hh] at h1; exact absurd hx1 h1
      · exact ih idx vout h hh
    · simp only [hx1, if_false] at h
      by_cases hx2 : x.2 = 0
      · simp only [hx2, ne_eq, not_true_eq_false, if_false] at h
        rcases List.mem_cons.mp he with hh | hh
        · rw [hh] at h2; exact absurd hx2 h2
        · exact ih idx vout h hh
      · simp only [ne_eq, hx2, not_false_eq_true, if_true] at h
        cases hd : env.derive_public_key idx with
        | none => simp [hd] at h
        | some key =>
          cases hg : env.get_deterministic_output_key (idx + 1) with
          | none => simp [hd, hg] at h
          | some gov_key =>
            simp only [hd, hg] at h
            rcases List.mem_cons.mp he with hh | hh
            · obtain ⟨ext, e1, _, _⟩ := miner_tx_xasset_outputs_append _ _ _ _ _ _ _ _ _ _ h
              refine ⟨vout, ext, key, gov_key, ?_⟩
              rw [e1, hh]
            · exact ih _ _ h hh

/-- The shape of the two XHV outputs, from version 3 with coins already generated: the miner
output carries the reward less the governance share plus the XHV fees, the governance output
the governance share, from `HF_VERSION_OFFSHORE_FULL` on with the XHV conversion fees. -/
theorem miner_tx_xhv_outputs_shape (cfg : Config) (env : miner_tx_env)
    (height already_generated_coins : Nat) (fee_map offshore_fee_map : List (String × Nat))
    (hard_fork_version base_reward : Nat) (vout : List tx_out)
    (hv : hard_fork_version ≥ 3) (hg : already_generated_coins ≠ 0)
    (h : miner_tx_xhv_outputs cfg env height already_generated_coins fee_map offshore_fee_map
      hard_fork_version base_reward = some vout) :
    ∃ key gov_key,
      vout =
        [⟨(base_reward - base_reward / 20 + fee_map_get fee_map "XHV") % 2 ^ 64,
            txout_target_v.txout_to_key key⟩,
         ⟨if hard_fork_version ≥ cfg.HF_VERSION_OFFSHORE_FULL then
            (base_reward / 20 + fee_map_get offshore_fee_map "XHV") % 2 ^ 64
          else base_reward / 20, txout_target_v.txout_to_key gov_key⟩] := by
  unfold miner_tx_xhv_outputs at h
  simp only [hv, hg, ne_eq, not_false_eq_true, and_self, decide_True, if_true,
    get_governance_reward] at h
  split at h
  · cases h
  · cases hd : env.derive_public_key 0 with
    | none => simp [hd] at h
    | some key =>
      cases hk : env.get_deterministic_output_key 1 with
      | none => simp [hd, hk] at h
      | some gov_key =>
        simp only [hd, hk] at h
        split at h
        · cases h
        · simp only [Option.some.injEq] at h
          exact ⟨key, gov_key, by rw [← h]; rfl⟩

/-- The outputs of a successful `construct_miner_tx`: the outputs of `miner_tx_xhv_outputs` for
the base reward of `get_block_reward`, followed from `HF_VERSION_OFFSHORE_FULL` on by what the
loop over `fee_map` appends. -/
theorem construct_miner_tx_vout (cfg : Config) (env : miner_tx_env)
    (height median_weight already_generated_coins current_block_weight : Nat)
    (fee_map offshore_fee_map xasset_fee_map : List (String × Nat)) (tx0 tx : transaction)
    (hard_fork_version base_reward : Nat)
    (hb : env.get_block_reward median_weight current_block_weight already_generated_coins
      hard_fork_version = some base_reward)
    (h : construct_miner_tx cfg env height median_weight already_generated_coins
      current_block_weight fee_map offshore_fee_map xasset_fee_map tx0 hard_fork_version =
        some tx) :
    ∃ vout, miner_tx_xhv_outputs cfg env height already_generated_coins fee_map
        offshore_fee_map hard_fork_version base_reward = some vout ∧
      ((hard_fork_version ≥ cfg.HF_VERSION_OFFSHORE_FULL ∧
          miner_tx_xasset_outputs cfg env height hard_fork_version offshore_fee_map
            xasset_fee_map fee_map 2 vout = some tx.vout) ∨
        (¬ hard_fork_version ≥ cfg.HF_VERSION_OFFSHORE_FULL ∧ tx.vout = vout)) := by
  unfold construct_miner_tx at h
  cases hx : env.sorted_extra with
  | none => simp [hx] at h
  | some extra =>
    simp only [hx, hb] at h
    cases ho : miner_tx_xhv_outputs cfg env height already_generated_coins fee_map
        offshore_fee_map hard_fork_version base_reward with
    | none => simp [ho] at h
    | some vout =>
      simp only [ho] at h
      refine ⟨vout, rfl, ?_⟩
      by_cases hf : hard_fork_version ≥ cfg.HF_VERSION_OFFSHORE_FULL
      · simp only [hf, if_true] at h
        cases hl : miner_tx_xasset_outputs cfg env height hard_fork_version offshore_fee_map
            xasset_fee_map fee_map 2 vout with
        | none => simp [hl] at h
        | some vout2 =>
          simp only [hl, Option.some.injEq] at h
          left
          refine ⟨hf, ?_⟩
          rw [← h]
      · simp only [hf, if_false, Option.some.injEq] at h
        right
        refine ⟨hf, ?_⟩
        rw [← h]

/-- Claim C27: for `hard_fork_version ≥ 3` and `already_generated_coins ≠ 0`, whenever
`construct_miner_tx` succeeds with the base reward `B` of `get_block_reward`, the governance
share of the base reward is `B / 20`; output 0, the miner output, carries
`B - B / 20 + fee_map["XHV"]` as a `uint64_t` value (that sum itself when it is below 2^64);
output 1, the governance output, carries the governance share (with the XHV conversion fees
from `HF_VERSION_OFFSHORE_FULL` on); the two shares of the base reward sum to `B`; and when no
entry of `fee_map` other than XHV is non-zero the transaction has exactly two outputs. -/
theorem construct_miner_tx_base_reward_rule (cfg : Config) (env : miner_tx_env)
    (height median_weight already_generated_coins current_block_weight : Nat)
    (fee_map offshore_fee_map xasset_fee_map : List (String × Nat)) (tx0 tx : transaction)
    (hard_fork_version base_reward : Nat)
    (hv : hard_fork_version ≥ 3) (hg : already_generated_coins ≠ 0)
    (hb : env.get_block_reward median_weight current_block_weight already_generated_coins
      hard_fork_version = some base_reward)
    (h : construct_miner_tx cfg env height median_weight already_generated_coins
      current_block_weight fee_map offshore_fee_map xasset_fee_map tx0 hard_fork_version =
        some tx) :
    get_governance_reward height base_reward = base_reward / 20 ∧
    (base_reward - base_reward / 20) + base_reward / 20 = base_reward ∧
    (∃ key, tx.vout.get? 0 =
      some ⟨(base_reward - base_reward / 20 + fee_map_get fee_map "XHV") % 2 ^ 64,
        txout_target_v.txout_to_key key⟩) ∧
    (base_reward - base_reward / 20 + fee_map_get fee_map "XHV" < 2 ^ 64 →
      (tx.vout.get? 0).map (fun o => o.amount) =
        some (base_reward - base_reward / 20 + fee_map_get fee_map "XHV")) ∧
    (∃ gov_key, tx.vout.get? 1 =
      some ⟨if hard_fork_version ≥ cfg.HF_VERSION_OFFSHORE_FULL then
          (base_reward / 20 + fee_map_get offshore_fee_map "XHV") % 2 ^ 64
        else base_reward / 20, txout_target_v.txout_to_key gov_key⟩) ∧
    ((∀ e ∈ fee_map, e.1 = "XHV" ∨ e.2 = 0) → tx.vout.length = 2) := by
  obtain ⟨vout, hx, hrest⟩ := construct_miner_tx_vout cfg env height median_weight
    already_generated_coins current_block_weight fee_map offshore_fee_map xasset_fee_map tx0 tx
    hard_fork_version base_reward hb h
  obtain ⟨key, gov_key, hvout⟩ := miner_tx_xhv_outputs_shape cfg env height
    already_generated_coins fee_map offshore_fee_map hard_fork_version base_reward vout hv hg hx
  have hsplit : (base_reward - base_reward / 20) + base_reward / 20 = base_reward := by omega
  have hshape : ∃ ext, tx.vout = vout ++ ext ∧
      ((∀ e ∈ fee_map, e.1 = "XHV" ∨ e.2 = 0) → ext = []) := by
    rcases hrest with ⟨_, hl⟩ | ⟨_, hl⟩
    · obtain ⟨ext, e1, _, e3⟩ := miner_tx_xasset_outputs_append _ _ _ _ _ _ _ _ _ _ hl
      exact ⟨ext, e1, e3⟩
    · exact ⟨[], by simp [hl], fun _ => rfl⟩
  obtain ⟨ext, he, hz⟩ := hshape
  refine ⟨rfl, hsplit, ⟨key, ?_⟩, ?_, ⟨gov_key, ?_⟩, ?_⟩
  · rw [he, hvout]; rfl
  · intro hlt
    rw [he, hvout]
    simp only [List.cons_append, List.get?_cons_zero, Option.map_some', Nat.mod_eq_of_lt hlt]
  · rw [he, hvout]; rfl
  · intro hzero
    rw [he, hz hzero, hvout]
    rfl

/-- Claim C27 at a concrete input: at height 50000 and version 20, with a base reward of 60
coins and empty fee maps, the miner transaction has two outputs, of 57 coins for the miner and
3 coins for the governance wallet, and unlocks at height 50060. -/
theorem construct_miner_tx_base_reward_rule_witness :
    (construct_miner_tx havenConfig example_miner_tx_env 50000 300000 1000000 1000 [] [] []
      example_transfer_tx 20).map (fun tx => (tx.vout, tx.unlock_time)) =
      some ([⟨57000000000000, txout_target_v.txout_to_key 500⟩,
        ⟨3000000000000, txout_target_v.txout_to_key 601⟩], 50060) ∧
    ∀ tx, construct_miner_tx havenConfig example_miner_tx_env 50000 300000 1000000 1000 [] []
      [] example_transfer_tx 20 = some tx → tx.vout.length = 2 :=
  ⟨by decide, fun tx h =>
    (construct_miner_tx_base_reward_rule havenConfig example_miner_tx_env 50000 300000 1000000
      1000 [] [] [] example_transfer_tx tx 20 60000000000000 (by decide) (by decide) rfl
      h).2.2.2.2.2 (fun e he => by cases he)⟩

/-- A successful `construct_miner_tx` got a base reward from `get_block_reward`. -/
theorem construct_miner_tx_reward (cfg : Config) (env : miner_tx_env)
    (height median_weight already_generated_coins current_block_weight : Nat)
    (fee_map offshore_fee_map xasset_fee_map : List (String × Nat)) (tx0 tx : transaction)
    (hard_fork_version : Nat)
    (h : construct_miner_tx cfg env height median_weight already_generated_coins
      current_block_weight fee_map offshore_fee_map xasset_fee_map tx0 hard_fork_version =
        some tx) :
    ∃ base_reward, env.get_block_reward median_weight current_block_weight
      already_generated_coins hard_fork_version = some base_reward := by
  unfold construct_miner_tx at h
  cases hx : env.sorted_extra with
  | none => simp [hx] at h
  | some extra =>
    cases hb : env.get_block_reward median_weight current_block_weight already_generated_coins
        hard_fork_version with
    | none => simp [hx, hb] at h
    | some base_reward => exact ⟨base_reward, rfl⟩

/-- Claim C28, with the XHV conversion fees: for `hard_fork_version ≥ 3` and
`already_generated_coins ≠ 0`, the XHV outputs of a successful `construct_miner_tx` are output
0 and output 1; output 0 carries `B - B / 20 + fee_map["XHV"]` and output 1 carries `B / 20`,
from `HF_VERSION_OFFSHORE_FULL` on plus `offshore_fee_map["XHV"]`, each as a `uint64_t` value.
The two amounts sum, as `uint64_t` values, to the base reward `B` plus `fee_map["XHV"]` plus,
from `HF_VERSION_OFFSHORE_FULL` on, `offshore_fee_map["XHV"]`; when neither addition wraps they
sum to exactly that. -/
theorem construct_miner_tx_xhv_outputs_rule (cfg : Config) (env : miner_tx_env)
    (height median_weight already_generated_coins current_block_weight : Nat)
    (fee_map offshore_fee_map xasset_fee_map : List (String × Nat)) (tx0 tx : transaction)
    (hard_fork_version base_reward : Nat)
    (hv : hard_fork_version ≥ 3) (hg : already_generated_coins ≠ 0)
    (hb : env.get_block_reward median_weight current_block_weight already_generated_coins
      hard_fork_version = some base_reward)
    (h : construct_miner_tx cfg env height median_weight already_generated_coins
      current_block_weight fee_map offshore_fee_map xasset_fee_map tx0 hard_fork_version =
        some tx) :
    ∃ miner governance : tx_out,
      tx.vout.filter (fun o => o.target.is_to_key) = [miner, governance] ∧
      tx.vout.get? 0 = some miner ∧ tx.vout.get? 1 = some governance ∧
      miner.amount = (base_reward - base_reward / 20 + fee_map_get fee_map "XHV") % 2 ^ 64 ∧
      governance.amount =
        (if hard_fork_version ≥ cfg.HF_VERSION_OFFSHORE_FULL then
          (base_reward / 20 + fee_map_get offshore_fee_map "XHV") % 2 ^ 64
        else base_reward / 20) ∧
      (miner.amount + governance.amount) % 2 ^ 64 =
        (base_reward + fee_map_get fee_map "XHV" +
          (if hard_fork_version ≥ cfg.HF_VERSION_OFFSHORE_FULL then
            fee_map_get offshore_fee_map "XHV" else 0)) % 2 ^ 64 ∧
      (base_reward - base_reward / 20 + fee_map_get fee_map "XHV" < 2 ^ 64 →
        base_reward / 20 + fee_map_get offshore_fee_map "XHV" < 2 ^ 64 →
        miner.amount + governance.amount =
          base_reward + fee_map_get fee_map "XHV" +
            (if hard_fork_version ≥ cfg.HF_VERSION_OFFSHORE_FULL then
              fee_map_get offshore_fee_map "XHV" else 0)) := by
  obtain ⟨vout, hx, hrest⟩ := construct_miner_tx_vout cfg env height median_weight
    already_generated_coins current_block_weight fee_map offshore_fee_map xasset_fee_map tx0 tx
    hard_fork_version base_reward hb h
  obtain ⟨key, gov_key, hvout⟩ := miner_tx_xhv_outputs_shape cfg env height
    already_generated_coins fee_map offshore_fee_map hard_fork_version base_reward vout hv hg hx
  have hshape : ∃ ext, tx.vout = vout ++ ext ∧ (∀ o ∈ ext, o.target.is_to_key = false) := by
    rcases hrest with ⟨_, hl⟩ | ⟨_, hl⟩
    · obtain ⟨ext, e1, e2, _⟩ := miner_tx_xasset_outputs_append _ _ _ _ _ _ _ _ _ _ hl
      exact ⟨ext, e1, e2⟩
    · exact ⟨[], by simp [hl], fun o ho => (by cases ho)⟩
  obtain ⟨ext, he, hext⟩ := hshape
  have hfil : ext.filter (fun o => o.target.is_to_key) = [] := by
    rw [List.filter_eq_nil_iff]
    intro o ho
    simp [hext o ho]
  refine ⟨⟨(base_reward - base_reward / 20 + fee_map_get fee_map "XHV") % 2 ^ 64,
      txout_target_v.txout_to_key key⟩,
    ⟨if hard_fork_version ≥ cfg.HF_VERSION_OFFSHORE_FULL then
        (base_reward / 20 + fee_map_get offshore_fee_map "XHV") % 2 ^ 64
      else base_reward / 20, txout_target_v.txout_to_key gov_key⟩, ?_, ?_, ?_, rfl, rfl, ?_, ?_⟩
  · rw [he, hvout, List.filter_append, hfil]
    rfl
  · rw [he, hvout]; rfl
  · rw [he, hvout]; rfl
  · simp only
    split
    · rw [← Nat.add_mod]
      congr 1
      omega
    · rw [Nat.mod_add_mod]
      congr 1
      omega
  · intro h1 h2
    simp only [Nat.mod_eq_of_lt h1]
    split
    · rw [Nat.mod_eq_of_lt h2]; omega
    · omega

/-- Claim C28, counterexample: at version 20, with a base reward of 60 coins, `fee_map["XHV"]`
= 100 and `offshore_fee_map["XHV"]` = 7, the miner output carries 57 coins and 100 atomic units
and the governance output 3 coins and 7 atomic units: the XHV outputs sum to the base reward
plus 107, not plus `fee_map["XHV"]` = 100. -/
theorem construct_miner_tx_adds_conversion_fee :
    (construct_miner_tx havenConfig example_miner_tx_env 50000 300000 1000000 1000
      [("XHV", 100)] [("XHV", 7)] [] example_transfer_tx 20).map
        (fun tx => tx.vout.map (fun o => o.amount)) =
      some [57000000000100, 3000000000007] ∧
    example_miner_tx_env.get_block_reward 300000 1000 1000000 20 = some 60000000000000 ∧
    57000000000100 + 3000000000007 ≠ 60000000000000 + fee_map_get [("XHV", 100)] "XHV" := by
  decide

/-- Claim C28 at a concrete input: with `fee_map["XHV"]` = 100 and no conversion fees the two
XHV outputs carry 57 coins and 100 atomic units and 3 coins. -/
theorem construct_miner_tx_xhv_outputs_rule_witness :
    (construct_miner_tx havenConfig example_miner_tx_env 50000 300000 1000000 1000
      [("XHV", 100)] [] [] example_transfer_tx 20).map
        (fun tx => tx.vout.map (fun o => o.amount)) =
      some [57000000000100, 3000000000000] ∧
    ∀ tx, construct_miner_tx havenConfig example_miner_tx_env 50000 300000 1000000 1000
      [("XHV", 100)] [] [] example_transfer_tx 20 = some tx →
      ∃ miner governance : tx_out,
        tx.vout.filter (fun o => o.target.is_to_key) = [miner, governance] ∧
        miner.amount + governance.amount = 60000000000000 + 100 :=
  ⟨by decide, fun tx h => by
    obtain ⟨miner, governance, h1, _, _, _, _, _, h6⟩ :=
      construct_miner_tx_xhv_outputs_rule havenConfig example_miner_tx_env 50000 300000 1000000
        1000 [("XHV", 100)] [] [] example_transfer_tx tx 20 60000000000000 (by decide)
        (by decide) rfl h
    exact ⟨miner, governance, h1, h6 (by decide) (by decide)⟩⟩

/-- What the xAsset conversion fee `f` adds from the collateral epoch on: a fifth of it, rounded
down, to the miner amount and four fifths of it, rounded down, to the governance amount. -/
theorem xasset_fee_split_collateral (cfg : Config) (hard_fork_version f : Nat)
    (hcol : hard_fork_version ≥ cfg.HF_VERSION_USE_COLLATERAL)
    (hfee : hard_fork_version ≥ cfg.HF_VERSION_XASSET_FEES_V2) (hx : f < 2 ^ 64) :
    xasset_fee_split cfg hard_fork_version f = (f / 5, f * 4 / 5) := by
  unfold xasset_fee_split
  simp only [hfee, hcol, if_true]
  by_cases h0 : f = 0
  · subst h0; rfl
  · simp only [ne_eq, h0, not_false_eq_true, if_true]
    have h1 : f / 5 < 2 ^ 64 := by omega
    have h2 : f * 4 < 2 ^ 128 := by
      have : (2 : Nat) ^ 128 = 2 ^ 64 * 2 ^ 64 := by norm_num
      omega
    have h3 : f * 4 / 5 < 2 ^ 64 := by omega
    rw [Nat.mod_eq_of_lt h1, Nat.mod_eq_of_lt h2, Nat.mod_eq_of_lt h3]

/-- Claim C29, with the rounding: from the collateral epoch on (with the epochs of the xAsset
fees and of the offshore outputs reached), for every entry of `fee_map` other than XHV with a
non-zero fee and with the xAsset conversion fee `f = xasset_fee_map[asset]`, a successful
`construct_miner_tx` adds `f / 5` to the miner amount of that asset and `f * 4 / 5` to its
governance amount, both rounded down; the two additions sum to `f` when 5 divides `f` and to
`f - 1` otherwise.  The two outputs of the asset stand next to each other in `tx.vout` and
carry, as `uint64_t` values, the fee less its twentieth plus `f / 5`, and the twentieth (with
the conversion fee `offshore_fee_map[asset]`) plus `f * 4 / 5`. -/
theorem construct_miner_tx_xasset_fee_rule (cfg : Config) (env : miner_tx_env)
    (height median_weight already_generated_coins current_block_weight : Nat)
    (fee_map offshore_fee_map xasset_fee_map : List (String × Nat)) (tx0 tx : transaction)
    (hard_fork_version : Nat) (asset : String) (fee : Nat)
    (hcol : hard_fork_version ≥ cfg.HF_VERSION_USE_COLLATERAL)
    (hfee : hard_fork_version ≥ cfg.HF_VERSION_XASSET_FEES_V2)
    (hfull : hard_fork_version ≥ cfg.HF_VERSION_OFFSHORE_FULL)
    (h : construct_miner_tx cfg env height median_weight already_generated_coins
      current_block_weight fee_map offshore_fee_map xasset_fee_map tx0 hard_fork_version =
        some tx)
    (he : (asset, fee) ∈ fee_map) (h1 : asset ≠ "XHV") (h2 : fee ≠ 0)
    (hx : fee_map_get xasset_fee_map asset < 2 ^ 64) :
    xasset_fee_split cfg hard_fork_version (fee_map_get xasset_fee_map asset) =
      (fee_map_get xasset_fee_map asset / 5, fee_map_get xasset_fee_map asset * 4 / 5) ∧
    fee_map_get xasset_fee_map asset / 5 + fee_map_get xasset_fee_map asset * 4 / 5 =
      (if fee_map_get xasset_fee_map asset % 5 = 0 then fee_map_get xasset_fee_map asset
        else fee_map_get xasset_fee_map asset - 1) ∧
    ∃ before after key gov_key,
      tx.vout = before ++
        [⟨(fee - fee / 20 + fee_map_get xasset_fee_map asset / 5) % 2 ^ 64,
            xasset_target asset key⟩,
         ⟨((if fee_map_get offshore_fee_map asset ≠ 0 then
              (fee / 20 + fee_map_get offshore_fee_map asset) % 2 ^ 64
            else fee / 20) + fee_map_get xasset_fee_map asset * 4 / 5) % 2 ^ 64,
            xasset_target asset gov_key⟩] ++ after := by
  have hs := xasset_fee_split_collateral cfg hard_fork_version
    (fee_map_get xasset_fee_map asset) hcol hfee hx
  refine ⟨hs, ?_, ?_⟩
  · split <;> omega
  · obtain ⟨base_reward, hb⟩ := construct_miner_tx_reward cfg env height median_weight
      already_generated_coins current_block_weight fee_map offshore_fee_map xasset_fee_map tx0
      tx hard_fork_version h
    obtain ⟨vout, _, hrest⟩ := construct_miner_tx_vout cfg env height median_weight
      already_generated_coins current_block_weight fee_map offshore_fee_map xasset_fee_map tx0
      tx hard_fork_version base_reward hb h
    rcases hrest with ⟨_, hl⟩ | ⟨hn, _⟩
    · obtain ⟨before, after, key, gov_key, hv⟩ := miner_tx_xasset_outputs_entry cfg env height
        hard_fork_version offshore_fee_map xasset_fee_map fee_map 2 vout tx.vout hl
        (asset, fee) he h1 h2
      refine ⟨before, after, key, gov_key, ?_⟩
      rw [hv]
      simp only [xasset_rewards, hs, get_governance_reward]
    · exact absurd hfull hn

/-- Claim C29, counterexample: at version 20 an xAsset conversion fee of 1 atomic unit adds
nothing to either amount, and one of 9 adds 1 and 7.  With `fee_map["XUSD"]` = 100 the two xUSD
outputs of the miner transaction carry 95 and 5 whether `xasset_fee_map["XUSD"]` is 1 or
absent. -/
theorem construct_miner_tx_drops_fee_remainder :
    xasset_fee_split havenConfig 20 1 = (0, 0) ∧
    xasset_fee_split havenConfig 20 9 = (1, 7) ∧
    (construct_miner_tx havenConfig example_miner_tx_env 50000 300000 1000000 1000
      [("XUSD", 100)] [] [("XUSD", 1)] example_transfer_tx 20).map
        (fun tx => tx.vout.map (fun o => o.amount)) =
      some [57000000000000, 3000000000000, 95, 5] ∧
    (construct_miner_tx havenConfig example_miner_tx_env 50000 300000 1000000 1000
      [("XUSD", 100)] [] [] example_transfer_tx 20).map
        (fun tx => tx.vout.map (fun o => o.amount)) =
      some [57000000000000, 3000000000000, 95, 5] := by
  decide

/-- Claim C29 at a concrete input: with `fee_map["XUSD"]` = 100 and `xasset_fee_map["XUSD"]` =
10 the miner amount of xUSD is 95 + 2 and the governance amount 5 + 8. -/
theorem construct_miner_tx_xasset_fee_rule_witness :
    (construct_miner_tx havenConfig example_miner_tx_env 50000 300000 1000000 1000
      [("XUSD", 100)] [] [("XUSD", 10)] example_transfer_tx 20).map
        (fun tx => tx.vout.map (fun o => o.amount)) =
      some [57000000000000, 3000000000000, 97, 13] ∧
    xasset_fee_split havenConfig 20 (fee_map_get [("XUSD", 10)] "XUSD") =
      (fee_map_get [("XUSD", 10)] "XUSD" / 5, fee_map_get [("XUSD", 10)] "XUSD" * 4 / 5) :=
  ⟨by decide,
    (construct_miner_tx_xasset_fee_rule havenConfig example_miner_tx_env 50000 300000 1000000
      1000 [("XUSD", 100)] [] [("XUSD", 10)] example_transfer_tx
      ((construct_miner_tx havenConfig example_miner_tx_env 50000 300000 1000000 1000
        [("XUSD", 100)] [] [("XUSD", 10)] example_transfer_tx 20).getD example_transfer_tx)
      20 "XUSD" 100 (by decide) (by decide) (by decide) (by decide) (by decide) (by decide)
      (by decide) (by decide)).1⟩

/-! ## Collateral -/

/-- The loop that sums the market capitalisation of the xAssets ends without an exception when
every entry of the supply other than XHV has a non-zero price. -/
theorem mcap_xassets_loop_isSome (cfg : Config) (pr : pricing_record)
    (amounts : List (String × Nat)) (acc : Nat)
    (hp : ∀ i ∈ amounts, i.1 ≠ "XHV" → pr.rate i.1 ≠ 0) :
    (mcap_xassets_loop cfg pr amounts acc).isSome = true := by
  induction amounts generalizing acc with
  | nil => rfl
  | cons i rest ih =>
    unfold mcap_xassets_loop
    have ih2 := fun a => ih a (fun j hj => hp j (List.mem_cons_of_mem _ hj))
    by_cases h : i.1 = "XHV"
    · simp only [h, if_true]
      exact ih2 _
    · simp only [h, if_false, div128, hp i (List.mem_cons_self _ _) h]
      exact ih2 _

/-- Claim C30, for a price record that prices the supply: when every entry of the circulating
supply other than XHV has a non-zero price (and `COIN` is not 0), `get_collateral_requirements`
returns true with `collateral = 0` for the five transaction types that need no collateral,
TRANSFER, OFFSHORE_TRANSFER, XASSET_TRANSFER, XUSD_TO_XASSET and XASSET_TO_XUSD, whatever the
amount. -/
theorem get_collateral_requirements_without_collateral (cfg : Config)
    (vbs : transaction_type → Nat → Nat → Nat → Nat → Nat) (tx_type : transaction_type)
    (amount : Nat) (pr : pricing_record) (amounts : List (String × Nat))
    (hcoin : cfg.COIN ≠ 0)
    (hp : ∀ i ∈ amounts, i.1 ≠ "XHV" → pr.rate i.1 ≠ 0)
    (ht : tx_type = transaction_type.TRANSFER ∨ tx_type = transaction_type.OFFSHORE_TRANSFER ∨
      tx_type = transaction_type.XASSET_TRANSFER ∨ tx_type = transaction_type.XUSD_TO_XASSET ∨
      tx_type = transaction_type.XASSET_TO_XUSD) :
    get_collateral_requirements cfg vbs tx_type amount pr amounts =
      collateral_result.required 0 := by
  unfold get_collateral_requirements
  have hs := mcap_xassets_loop_isSome cfg pr amounts 0 hp
  cases hm : mcap_xassets_loop cfg pr amounts 0 with
  | none => rw [hm] at hs; cases hs
  | some mcap =>
    simp only [div128, hcoin, if_false]
    rcases ht with h | h | h | h | h <;> subst h <;> simp

/-- Claim C30, counterexample: for each of the five transaction types that need no collateral,
on the all-zero price record and a circulating supply that lists xUSD,
`get_collateral_requirements` ends in the exception of a `uint128_t` division by zero (line
747) instead of returning true with `collateral = 0`: the loop over the supply divides by the
price of each listed asset before the transaction type is looked at. -/
theorem get_collateral_requirements_throws_on_zero_price :
    (⟨0, 0, [], 0⟩ : pricing_record).rate "XUSD" = 0 ∧
    get_collateral_requirements havenConfig example_template_env.vbs
      transaction_type.TRANSFER 0 ⟨0, 0, [], 0⟩
      [("XHV", 18000000000000000000), ("XUSD", 5000000000000000)] =
        collateral_result.thrown ∧
    get_collateral_requirements havenConfig example_template_env.vbs
      transaction_type.OFFSHORE_TRANSFER 0 ⟨0, 0, [], 0⟩
      [("XHV", 18000000000000000000), ("XUSD", 5000000000000000)] =
        collateral_result.thrown ∧
    get_collateral_requirements havenConfig example_template_env.vbs
      transaction_type.XASSET_TRANSFER 0 ⟨0, 0, [], 0⟩
      [("XHV", 18000000000000000000), ("XUSD", 5000000000000000)] =
        collateral_result.thrown ∧
    get_collateral_requirements havenConfig example_template_env.vbs
      transaction_type.XUSD_TO_XASSET 0 ⟨0, 0, [], 0⟩
      [("XHV", 18000000000000000000), ("XUSD", 5000000000000000)] =
        collateral_result.thrown ∧
    get_collateral_requirements havenConfig example_template_env.vbs
      transaction_type.XASSET_TO_XUSD 0 ⟨0, 0, [], 0⟩
      [("XHV", 18000000000000000000), ("XUSD", 5000000000000000)] =
        collateral_result.thrown := by
  decide

/-- Claim C30 at a concrete input: on a price record that prices xUSD at 0.50, with the same
circulating supply, the call returns true with `collateral = 0` for a transfer and for an xUSD
to xAsset conversion of 1000 atomic units. -/
theorem get_collateral_requirements_without_collateral_witness :
    (∀ i ∈ [("XHV", 18000000000000000000), ("XUSD", 5000000000000000)], i.1 ≠ "XHV" →
      (⟨0, 0, [("XUSD", 500000000000)], 0⟩ : pricing_record).rate i.1 ≠ 0) ∧
    get_collateral_requirements havenConfig example_template_env.vbs
      transaction_type.TRANSFER 0 ⟨0, 0, [("XUSD", 500000000000)], 0⟩
      [("XHV", 18000000000000000000), ("XUSD", 5000000000000000)] =
        collateral_result.required 0 ∧
    get_collateral_requirements havenConfig example_template_env.vbs
      transaction_type.XUSD_TO_XASSET 1000 ⟨0, 0, [("XUSD", 500000000000)], 0⟩
      [("XHV", 18000000000000000000), ("XUSD", 5000000000000000)] =
        collateral_result.required 0 :=
  ⟨by decide,
    get_collateral_requirements_without_collateral havenConfig example_template_env.vbs
      transaction_type.TRANSFER 0 ⟨0, 0, [("XUSD", 500000000000)], 0⟩
      [("XHV", 18000000000000000000), ("XUSD", 5000000000000000)] (by decide) (by decide)
      (Or.inl rfl),
    get_collateral_requirements_without_collateral havenConfig example_template_env.vbs
      transaction_type.XUSD_TO_XASSET 1000 ⟨0, 0, [("XUSD", 500000000000)], 0⟩
      [("XHV", 18000000000000000000), ("XUSD", 5000000000000000)] (by decide) (by decide)
      (Or.inr (Or.inr (Or.inr (Or.inl rfl))))⟩

/-! ## Insertion into the key-image index and its removal -/

/-- The set assigned to a key is the set found under it. -/
theorem ki_find_ki_set_self (m : List (key_image × List hash)) (k : key_image)
    (v : List hash) : ki_find (ki_set m k v) k = some v := by
  unfold ki_set ki_find
  by_cases h : m.any (fun e => e.1 = k) = true
  · rw [if_pos h]
    induction m with
    | nil => simp at h
    | cons e rest ih =>
      by_cases he : e.1 = k
      · simp [List.find?_cons, he]
      · have hr : rest.any (fun e => e.1 = k) = true := by
          simpa [he] using h
        simp only [List.map_cons, he, if_false, List.find?_cons, decide_False]
        exact ih hr
  · rw [if_neg h]
    have hn : ∀ e ∈ m, ¬ e.1 = k := by
      intro e he hk
      exact h (List.any_eq_true.mpr ⟨e, he, by simp [hk]⟩)
    rw [List.find?_append]
    have : m.find? (fun e => decide (e.1 = k)) = none := by
      rw [List.find?_eq_none]
      intro e he
      simp [hn e he]
    simp [this]

/-- No set is found under an erased key. -/
theorem ki_find_ki_erase_self (m : List (key_image × List hash)) (k : key_image) :
    ki_find (ki_erase m k) k = none := by
  unfold ki_erase ki_find
  have : (m.filter (fun e => decide (e.1 ≠ k))).find? (fun e => decide (e.1 = k)) = none := by
    rw [List.find?_eq_none]
    intro e he
    have := (List.mem_filter.mp he).2
    simpa using this
  simp [this]

/-- Erasing one key leaves the lookup of every other key as it is. -/
theorem ki_find_ki_erase_ne (m : List (key_image × List hash)) (k k2 : key_image)
    (hk : k2 ≠ k) : ki_find (ki_erase m k) k2 = ki_find m k2 := by
  unfold ki_erase ki_find
  congr 1
  induction m with
  | nil => rfl
  | cons e rest ih =>
    by_cases he : e.1 = k
    · have h2 : ¬ e.1 = k2 := fun h => hk (h.symm.trans he)
      rw [List.filter_cons_of_neg (by simp [he]), List.find?_cons_of_neg _ (by simp [h2])]
      exact ih
    · rw [List.filter_cons_of_pos (by simp [he])]
      by_cases h2 : e.1 = k2
      · rw [List.find?_cons_of_pos _ (by simp [h2]), List.find?_cons_of_pos _ (by simp [h2])]
      · rw [List.find?_cons_of_neg _ (by simp [h2]), List.find?_cons_of_neg _ (by simp [h2])]
        exact ih

/-- The loop of `insert_key_images` on supported inputs with pairwise distinct key images, for
an id recorded under none of them, when the relay method is `block` or none of the key images
has a recorded id: it returns true and appends the id to the set of each of these key
images. -/
theorem insert_key_images_loop_lookup (cfg : Config) (db : List txpool_row) (id : hash)
    (tx_relay : relay_method) (vin : List txin_v) (m : List (key_image × List hash))
    (hsup : ∀ i ∈ vin, i.k_image?.isSome = true)
    (hnd : (vin.filterMap txin_v.k_image?).Nodup)
    (hid : ∀ k ∈ vin.filterMap txin_v.k_image?, id ∉ (ki_find m k).getD [])
    (hrel : tx_relay = relay_method.block ∨
      ∀ k ∈ vin.filterMap txin_v.k_image?, (ki_find m k).getD [] = []) :
    (insert_key_images_loop cfg db id tx_relay vin m).1 = true ∧
    ∀ k, ki_find (insert_key_images_loop cfg db id tx_relay vin m).2 k =
      if k ∈ vin.filterMap txin_v.k_image? then some ((ki_find m k).getD [] ++ [id])
      else ki_find m k := by
  induction vin generalizing m with
  | nil => exact ⟨rfl, fun k => by simp [insert_key_images_loop]⟩
  | cons i rest ih =>
    have hi := hsup i (List.mem_cons_self _ _)
    cases hk : i.k_image? with
    | none => rw [hk] at hi; cases hi
    | some k =>
      have hkeys : (i :: rest).filterMap txin_v.k_image? =
          k :: rest.filterMap txin_v.k_image? := by
        simp [List.filterMap_cons, hk]
      rw [hkeys] at hnd hid hrel
      have hknot : k ∉ rest.filterMap txin_v.k_image? := (List.nodup_cons.mp hnd).1
      have hS : id ∉ (ki_find m k).getD [] := hid k (List.mem_cons_self _ _)
      have hstep : insert_key_images_loop cfg db id tx_relay (i :: rest) m =
          insert_key_images_loop cfg db id tx_relay rest
            (ki_set m k ((ki_find m k).getD [] ++ [id])) := by
        rw [insert_key_images_loop]
        simp only [hk]
        rcases hrel with h | h
        · simp [h, hS]
        · have h0 := h k (List.mem_cons_self _ _)
          simp [h0]
      have hfind : ∀ q ∈ rest.filterMap txin_v.k_image?,
          ki_find (ki_set m k ((ki_find m k).getD [] ++ [id])) q = ki_find m q := by
        intro q hq
        exact ki_find_ki_set_ne m k q _ (fun e => hknot (e ▸ hq))
      obtain ⟨r1, r2⟩ := ih (ki_set m k ((ki_find m k).getD [] ++ [id]))
        (fun j hj => hsup j (List.mem_cons_of_mem _ hj)) (List.nodup_cons.mp hnd).2
        (fun q hq => by rw [hfind q hq]; exact hid q (List.mem_cons_of_mem _ hq))
        (hrel.imp (fun h => h) (fun h q hq => by
          rw [hfind q hq]; exact h q (List.mem_cons_of_mem _ hq)))
      rw [hstep, hkeys]
      refine ⟨r1, fun q => ?_⟩
      rw [r2 q]
      by_cases hq : q ∈ rest.filterMap txin_v.k_image?
      · simp [hq, hfind q hq]
      · by_cases hqk : q = k
        · subst hqk
          simp [hq, ki_find_ki_set_self]
        · simp [hq, hqk, ki_find_ki_set_ne m k q _ hqk]

/-- The loop of `remove_transaction_keyimages` on supported inputs with pairwise distinct key
images, each of which has the id recorded: it returns true, takes the id out of the set of each
of these key images and drops the sets it empties. -/
theorem remove_transaction_keyimages_loop_lookup (actual_hash : hash) (vin : List txin_v)
    (m : List (key_image × List hash))
    (hsup : ∀ i ∈ vin, i.k_image?.isSome = true)
    (hnd : (vin.filterMap txin_v.k_image?).Nodup)
    (hin : ∀ k ∈ vin.filterMap txin_v.k_image?, ∃ S, ki_find m k = some S ∧ actual_hash ∈ S) :
    (remove_transaction_keyimages_loop actual_hash vin m).1 = true ∧
    ∀ k, ki_find (remove_transaction_keyimages_loop actual_hash vin m).2 k =
      if k ∈ vin.filterMap txin_v.k_image? then
        (ki_find m k).bind (fun S =>
          if S.erase actual_hash = [] then none else some (S.erase actual_hash))
      else ki_find m k := by
  induction vin generalizing m with
  | nil => exact ⟨rfl, fun k => by simp [remove_transaction_keyimages_loop]⟩
  | cons i rest ih =>
    have hi := hsup i (List.mem_cons_self _ _)
    cases hk : i.k_image? with
    | none => rw [hk] at hi; cases hi
    | some k =>
      have hkeys : (i :: rest).filterMap txin_v.k_image? =
          k :: rest.filterMap txin_v.k_image? := by
        simp [List.filterMap_cons, hk]
      rw [hkeys] at hnd hin
      have hknot : k ∉ rest.filterMap txin_v.k_image? := (List.nodup_cons.mp hnd).1
      obtain ⟨S, hS, hmem⟩ := hin k (List.mem_cons_self _ _)
      have hlen : ¬ S.length = 0 := by
        intro h0
        rw [List.length_eq_zero] at h0
        rw [h0] at hmem
        cases hmem
      by_cases he : S.erase actual_hash = []
      · have hstep : remove_transaction_keyimages_loop actual_hash (i :: rest) m =
            remove_transaction_keyimages_loop actual_hash rest (ki_erase m k) := by
          rw [remove_transaction_keyimages_loop]
          simp only [hk, hS, hlen, if_false, hmem, not_true_eq_false, he, List.length_nil,
            if_true]
        have hfind : ∀ q ∈ rest.filterMap txin_v.k_image?,
            ki_find (ki_erase m k) q = ki_find m q := by
          intro q hq
          exact ki_find_ki_erase_ne m k q (fun e => hknot (e ▸ hq))
        obtain ⟨r1, r2⟩ := ih (ki_erase m k)
          (fun j hj => hsup j (List.mem_cons_of_mem _ hj)) (List.nodup_cons.mp hnd).2
          (fun q hq => by rw [hfind q hq]; exact hin q (List.mem_cons_of_mem _ hq))
        rw [hstep, hkeys]
        refine ⟨r1, fun q => ?_⟩
        rw [r2 q]
        by_cases hq : q ∈ rest.filterMap txin_v.k_image?
        · simp [hq, hfind q hq]
        · by_cases hqk : q = k
          · subst hqk
            rw [if_neg hq, if_pos (List.mem_cons_self _ _), ki_find_ki_erase_self, hS,
              Option.some_bind, if_pos he]
          · simp [hq, hqk, ki_find_ki_erase_ne m k q hqk]
      · have hlen2 : ¬ (S.erase actual_hash).length = 0 := by
          intro h0
          exact he (List.length_eq_zero.mp h0)
        have hstep : remove_transaction_keyimages_loop actual_hash (i :: rest) m =
            remove_transaction_keyimages_loop actual_hash rest
              (ki_set m k (S.erase actual_hash)) := by
          rw [remove_transaction_keyimages_loop]
          simp only [hk, hS, hlen, if_false, hmem, not_true_eq_false, hlen2]
        have hfind : ∀ q ∈ rest.filterMap txin_v.k_image?,
            ki_find (ki_set m k (S.erase actual_hash)) q = ki_find m q := by
          intro q hq
          exact ki_find_ki_set_ne m k q _ (fun e => hknot (e ▸ hq))
        obtain ⟨r1, r2⟩ := ih (ki_set m k (S.erase actual_hash))
          (fun j hj => hsup j (List.mem_cons_of_mem _ hj)) (List.nodup_cons.mp hnd).2
          (fun q hq => by rw [hfind q hq]; exact hin q (List.mem_cons_of_mem _ hq))
        rw [hstep, hkeys]
        refine ⟨r1, fun q => ?_⟩
        rw [r2 q]
        by_cases hq : q ∈ rest.filterMap txin_v.k_image?
        · simp [hq, hfind q hq]
        · by_cases hqk : q = k
          · subst hqk
            rw [if_neg hq, if_pos (List.mem_cons_self _ _), ki_find_ki_set_self, hS,
              Option.some_bind, if_neg he]
          · simp [hq, hqk, ki_find_ki_set_ne m k q _ hqk]

/-- Assigning a non-empty set keeps "no recorded set is empty". -/
theorem ki_set_nonempty (m : List (key_image × List hash)) (k : key_image) (v : List hash)
    (hm : ∀ e ∈ m, e.2 ≠ []) (hv : v ≠ []) : ∀ e ∈ ki_set m k v, e.2 ≠ [] := by
  unfold ki_set
  split
  · intro e he
    obtain ⟨e0, he0, rfl⟩ := List.mem_map.mp he
    split
    · exact hv
    · exact hm e0 he0
  · intro e he
    rcases List.mem_append.mp he with he | he
    · exact hm e he
    · simp only [List.mem_singleton] at he
      subst he
      exact hv

/-- The loop of `insert_key_images` keeps "no recorded set is empty", whether it returns true
or false. -/
theorem insert_key_images_loop_nonempty (cfg : Config) (db : List txpool_row) (id : hash)
    (tx_relay : relay_method) (vin : List txin_v) (m : List (key_image × List hash))
    (hm : ∀ e ∈ m, e.2 ≠ []) :
    ∀ e ∈ (insert_key_images_loop cfg db id tx_relay vin m).2, e.2 ≠ [] := by
  induction vin generalizing m with
  | nil => simpa [insert_key_images_loop] using hm
  | cons i rest ih =>
    unfold insert_key_images_loop
    cases hk : i.k_image? with
    | none => simpa using hm
    | some k =>
      simp only
      split
      · exact hm
      · split
        · split
          · exact ih m hm
          · exact hm
        · exact ih _ (ki_set_nonempty m k _ hm (by simp))

/-- The loop of `remove_transaction_keyimages` keeps "no recorded set is empty", whether it
returns true or false. -/
theorem remove_transaction_keyimages_loop_nonempty (actual_hash : hash) (vin : List txin_v)
    (m : List (key_image × List hash)) (hm : ∀ e ∈ m, e.2 ≠ []) :
    ∀ e ∈ (remove_transaction_keyimages_loop actual_hash vin m).2, e.2 ≠ [] := by
  induction vin generalizing m with
  | nil => simpa [remove_transaction_keyimages_loop] using hm
  | cons i rest ih =>
    unfold remove_transaction_keyimages_loop
    cases hk : i.k_image? with
    | none => simpa using hm
    | some k =>
      simp only
      cases hf : ki_find m k with
      | none => simpa using hm
      | some ids =>
        simp only
        split
        · exact hm
        · split
          · exact hm
          · split
            · exact ih _ (fun e he => hm e (List.mem_filter.mp he).1)
            · rename_i h3
              exact ih _ (ki_set_nonempty m k _ hm
                (fun h0 => h3 (by rw [h0]; rfl)))

/-- Claim C39: for a transaction with supported input types and pairwise distinct key images,
when `have_tx_keyimges_as_spent(tx, id)` returns false on a pool state, then
`insert_key_images(tx, id, tx_relay)` on that state returns true and increments the cookie:
neither the `one_txid` assertion nor the duplicate-insert assertion fails.  This holds for every
relay method, the ones other than `block` of the claim and `block` itself. -/
theorem insert_key_images_after_precheck (cfg : Config) (pool : tx_memory_pool)
    (tx : transaction) (id : hash) (tx_relay : relay_method)
    (hsup : check_inputs_types_supported tx = true)
    (hnd : tx.key_images.Nodup)
    (hpre : have_tx_keyimges_as_spent cfg pool tx id = false) :
    (insert_key_images cfg pool tx id tx_relay).1 = true ∧
    (insert_key_images cfg pool tx id tx_relay).2.m_cookie = pool.m_cookie + 1 := by
  have hs : ∀ i ∈ tx.vin, i.k_image?.isSome = true := by
    simpa [check_inputs_types_supported] using hsup
  have hloop := insert_key_images_loop_true cfg pool.txpool id tx_relay tx.vin
    pool.m_spent_key_images hs
    (fun i hi k hk => have_tx_keyimg_as_spent_false cfg pool k id
      (have_tx_keyimges_as_spent_loop_false cfg pool id tx.vin hs hpre i hi k hk))
    hnd
  have hf := insert_key_images_frame cfg pool tx id tx_relay
  rw [hf.1, hf.2, hloop]
  exact ⟨rfl, rfl⟩

/-- Claim C39 at a concrete input: on the pool that holds the transfer of id 12, the pre-check
of the second transfer (key image 108, id 13) returns false, and `insert_key_images` with the
relay method `fluff` returns true and records the id 13 under the key image 108. -/
theorem insert_key_images_after_precheck_witness :
    have_tx_keyimges_as_spent havenConfig example_pool example_second_transfer_tx 13 = false ∧
    (insert_key_images havenConfig example_pool example_second_transfer_tx 13
      relay_method.fluff).1 = true ∧
    ki_find (insert_key_images havenConfig example_pool example_second_transfer_tx 13
      relay_method.fluff).2.m_spent_key_images 108 = some [13] :=
  ⟨by decide,
    (insert_key_images_after_precheck havenConfig example_pool example_second_transfer_tx 13
      relay_method.fluff (by decide) (by decide) (by decide)).1,
    by decide⟩

/-- Claim C40, for the relay method `block` or key images without a recorded id: for an index
without an empty set, a transaction with supported input types and pairwise distinct key
images, and an id recorded under none of these key images, when the relay method is `block` or
none of the key images has an entry in the index, `insert_key_images(tx, id, tx_relay)`
followed by `remove_transaction_keyimages(tx, id)` both return true, every key image is looked
up to the set it had before the two calls, and the index holds no empty set. -/
theorem insert_then_remove_key_images (cfg : Config) (pool : tx_memory_pool)
    (tx : transaction) (id : hash) (tx_relay : relay_method)
    (hsup : check_inputs_types_supported tx = true)
    (hnd : tx.key_images.Nodup)
    (hne : ∀ e ∈ pool.m_spent_key_images, e.2 ≠ [])
    (hid : ∀ k ∈ tx.key_images, ∀ ids, ki_find pool.m_spent_key_images k = some ids → id ∉ ids)
    (hrel : tx_relay = relay_method.block ∨
      ∀ k ∈ tx.key_images, ki_find pool.m_spent_key_images k = none) :
    (insert_key_images cfg pool tx id tx_relay).1 = true ∧
    (remove_transaction_keyimages (insert_key_images cfg pool tx id tx_relay).2 tx id).1 =
      true ∧
    (∀ k, ki_find (remove_transaction_keyimages (insert_key_images cfg pool tx id tx_relay).2
        tx id).2.m_spent_key_images k = ki_find pool.m_spent_key_images k) ∧
    (∀ e ∈ (remove_transaction_keyimages (insert_key_images cfg pool tx id tx_relay).2
        tx id).2.m_spent_key_images, e.2 ≠ []) := by
  have hs : ∀ i ∈ tx.vin, i.k_image?.isSome = true := by
    simpa [check_inputs_types_supported] using hsup
  have hnd2 : (tx.vin.filterMap txin_v.k_image?).Nodup := hnd
  obtain ⟨a1, a2⟩ := insert_key_images_loop_lookup cfg pool.txpool id tx_relay tx.vin
    pool.m_spent_key_images hs hnd2
    (fun k hk => by
      cases hf : ki_find pool.m_spent_key_images k with
      | none => simp
      | some ids => simpa using hid k hk ids hf)
    (hrel.imp (fun h => h) (fun h k hk => by rw [h k hk]; rfl))
  have hf := insert_key_images_frame cfg pool tx id tx_relay
  obtain ⟨b1, b2⟩ := remove_transaction_keyimages_loop_lookup id tx.vin
    (insert_key_images_loop cfg pool.txpool id tx_relay tx.vin pool.m_spent_key_images).2
    hs hnd2 (fun k hk => ⟨_, by rw [a2 k, if_pos hk], by simp⟩)
  have hidx : (insert_key_images cfg pool tx id tx_relay).2.m_spent_key_images =
      (insert_key_images_loop cfg pool.txpool id tx_relay tx.vin pool.m_spent_key_images).2 := by
    rw [hf.2]
  have hrem : ∀ P : tx_memory_pool,
      (remove_transaction_keyimages P tx id).1 =
        (remove_transaction_keyimages_loop id tx.vin P.m_spent_key_images).1 ∧
      (remove_transaction_keyimages P tx id).2.m_spent_key_images =
        (remove_transaction_keyimages_loop id tx.vin P.m_spent_key_images).2 := by
    intro P
    unfold remove_transaction_keyimages
    split <;> rename_i h <;> simp [h]
  obtain ⟨c1, c2⟩ := hrem (insert_key_images cfg pool tx id tx_relay).2
  rw [hidx] at c1 c2
  refine ⟨by rw [hf.1]; exact a1, by rw [c1]; exact b1, ?_, ?_⟩
  · intro k
    rw [c2, b2 k]
    by_cases hk : k ∈ tx.vin.filterMap txin_v.k_image?
    · rw [if_pos hk, a2 k, if_pos hk, Option.some_bind]
      cases hfk : ki_find pool.m_spent_key_images k with
      | none => simp
      | some ids =>
        have hni : id ∉ ids := hid k hk ids hfk
        have hne2 : ids ≠ [] := hne _ (ki_find_mem _ k ids hfk)
        have he : (ids ++ [id]).erase id = ids := by
          rw [List.erase_append_right _ hni]
          simp
        simp [he, hne2]
    · rw [if_neg hk, a2 k, if_neg hk]
  · rw [c2]
    exact remove_transaction_keyimages_loop_nonempty id tx.vin _
      (insert_key_images_loop_nonempty cfg pool.txpool id tx_relay tx.vin _ hne)

/-- Claim C40, counterexample: on the pool that records the key image 101 under the id 12,
`insert_key_images` of a transaction that spends 101, for the id 13 (recorded under no key
image) and the relay method `fluff`, returns false at its `one_txid` assertion; and on an index
that holds an empty set for the key image 108, the two calls return true and leave no entry
for 108. -/
theorem insert_key_images_fails_on_recorded_key_image :
    ki_find example_pool.m_spent_key_images 101 = some [12] ∧
    example_double_spend_tx.key_images = [101] ∧
    (insert_key_images havenConfig example_pool example_double_spend_tx 13
      relay_method.fluff).1 = false ∧
    ki_find ({ example_pool with m_spent_key_images := [(108, [])] } :
      tx_memory_pool).m_spent_key_images 108 = some [] ∧
    (insert_key_images havenConfig { example_pool with m_spent_key_images := [(108, [])] }
      example_second_transfer_tx 13 relay_method.fluff).1 = true ∧
    (remove_transaction_keyimages
      (insert_key_images havenConfig { example_pool with m_spent_key_images := [(108, [])] }
        example_second_transfer_tx 13 relay_method.fluff).2
      example_second_transfer_tx 13).1 = true ∧
    ki_find (remove_transaction_keyimages
      (insert_key_images havenConfig { example_pool with m_spent_key_images := [(108, [])] }
        example_second_transfer_tx 13 relay_method.fluff).2
      example_second_transfer_tx 13).2.m_spent_key_images 108 = none := by
  decide

/-- Claim C40 at a concrete input: on the pool that records the key image 101 under the id 12,
inserting the same key image for the id 13 with the relay method `block` and removing it again
returns true twice and leaves the set of 101 as it was. -/
theorem insert_then_remove_key_images_witness :
    (insert_key_images havenConfig example_pool example_double_spend_tx 13
      relay_method.block).1 = true ∧
    ki_find (insert_key_images havenConfig example_pool example_double_spend_tx 13
      relay_method.block).2.m_spent_key_images 101 = some [12, 13] ∧
    ki_find (remove_transaction_keyimages (insert_key_images havenConfig example_pool
      example_double_spend_tx 13 relay_method.block).2 example_double_spend_tx
      13).2.m_spent_key_images 101 = ki_find example_pool.m_spent_key_images 101 :=
  ⟨by decide, by decide,
    (insert_then_remove_key_images havenConfig example_pool example_double_spend_tx 13
      relay_method.block (by decide) (by decide) (by decide) (by decide)
      (Or.inl rfl)).2.2.1 101⟩

/-! ## Stale price records -/

/-- The `remove` list of the scan of `remove_stuck_transactions` holds the rows that satisfy
`remove_stuck_selected`, in table order. -/
theorem remove_stuck_scan_remove (cfg : Config) (bc_height now : Nat) (rows : List txpool_row)
    (pool : tx_memory_pool) (remove : List (hash × Nat)) :
    (remove_stuck_scan cfg bc_height now rows (pool, remove)).2 =
      remove ++ (rows.filter (remove_stuck_selected cfg bc_height now)).map
        (fun row => (row.id, row.meta_.weight)) := by
  induction rows generalizing pool remove with
  | nil => simp [remove_stuck_scan]
  | cons row rest ih =>
    unfold remove_stuck_scan
    simp only
    by_cases hc : remove_stuck_selected cfg bc_height now row = true
    · have hc2 := hc
      simp only [remove_stuck_selected, remove_stuck_invalid_pr] at hc2
      rw [if_pos (by simpa using hc2), ih, List.filter_cons_of_pos hc]
      simp
    · have hc2 := hc
      simp only [remove_stuck_selected, remove_stuck_invalid_pr] at hc2
      rw [if_neg (by simpa using hc2), ih, List.filter_cons_of_neg hc]

/-- Claim C34, with the one-block buffer of the scan: the scan of `remove_stuck_transactions`
puts on its `remove` list the rows that satisfy `remove_stuck_selected`.  For a row that is not
timed out, with a price record height `p`, `0 < p < h`, the row is selected at chain height `h`
exactly when `h - p ≥ PRICING_RECORD_VALID_BLOCKS`; for an id other than the exempted one and
`PRICING_RECORD_VALID_BLOCKS ≤ h + 1` that is exactly when `tx_pr_height_valid(h + 1, p, id)`
rejects it, one block before `tx_pr_height_valid(h, p, id)` does: a row that
`tx_pr_height_valid` accepts at height `h` is not selected at height `h` unless its price
record is exactly `PRICING_RECORD_VALID_BLOCKS` blocks old. -/
theorem remove_stuck_invalid_pr_rule (cfg : Config) (h now : Nat) (row : txpool_row)
    (hp0 : 0 < row.blob.pricing_record_height) (hph : row.blob.pricing_record_height < h)
    (hh : h + 1 < 2 ^ 64)
    (hfresh : sub64 now row.meta_.receive_time ≤ cfg.CRYPTONOTE_MEMPOOL_TX_LIVETIME ∧
      sub64 now row.meta_.receive_time ≤ cfg.CRYPTONOTE_MEMPOOL_TX_FROM_ALT_BLOCK_LIVETIME) :
    (∀ rows pool, (remove_stuck_scan cfg h now rows (pool, [])).2 =
      (rows.filter (remove_stuck_selected cfg h now)).map
        (fun r => (r.id, r.meta_.weight))) ∧
    (remove_stuck_selected cfg h now row = remove_stuck_invalid_pr cfg h row.blob) ∧
    (remove_stuck_selected cfg h now row = true ↔
      h - row.blob.pricing_record_height ≥ cfg.PRICING_RECORD_VALID_BLOCKS) ∧
    (row.id ≠ pr_height_exception_tx → cfg.PRICING_RECORD_VALID_BLOCKS ≤ h + 1 →
      (remove_stuck_selected cfg h now row = true ↔
        tx_pr_height_valid cfg (h + 1) row.blob.pricing_record_height row.id = false)) ∧
    (row.id ≠ pr_height_exception_tx → cfg.PRICING_RECORD_VALID_BLOCKS ≤ h →
      tx_pr_height_valid cfg h row.blob.pricing_record_height row.id = true →
      h - row.blob.pricing_record_height ≠ cfg.PRICING_RECORD_VALID_BLOCKS →
      remove_stuck_selected cfg h now row = false) := by
  have hsel : remove_stuck_selected cfg h now row = remove_stuck_invalid_pr cfg h row.blob := by
    unfold remove_stuck_selected
    have h1 : ¬ sub64 now row.meta_.receive_time > cfg.CRYPTONOTE_MEMPOOL_TX_LIVETIME := by
      omega
    have h2 : ¬ sub64 now row.meta_.receive_time >
        cfg.CRYPTONOTE_MEMPOOL_TX_FROM_ALT_BLOCK_LIVETIME := by omega
    simp [h1, h2]
  have hinv : remove_stuck_invalid_pr cfg h row.blob = true ↔
      h - row.blob.pricing_record_height ≥ cfg.PRICING_RECORD_VALID_BLOCKS := by
    unfold remove_stuck_invalid_pr
    rw [sub64_of_le _ _ (by omega) (by omega),
      Nat.mod_eq_of_lt (by omega : h - row.blob.pricing_record_height + 1 < 2 ^ 64)]
    simp only [gt_iff_lt, hp0, true_and, decide_eq_true_eq, ge_iff_le]
    omega
  refine ⟨fun rows pool => by
      rw [remove_stuck_scan_remove]; rfl, hsel, by rw [hsel]; exact hinv, ?_, ?_⟩
  · intro hid hV
    rw [hsel, hinv]
    have hv := tx_pr_height_valid_of_no_wrap cfg (h + 1) row.blob.pricing_record_height row.id
      hid hh hV
    constructor
    · intro hge
      cases hc : tx_pr_height_valid cfg (h + 1) row.blob.pricing_record_height row.id with
      | false => rfl
      | true =>
        have := (hv.mp hc).2
        omega
    · intro hf
      by_contra hlt
      have : tx_pr_height_valid cfg (h + 1) row.blob.pricing_record_height row.id = true :=
        hv.mpr ⟨by omega, by omega⟩
      rw [hf] at this
      cases this
  · intro hid hV hacc hne
    have hv := (tx_pr_height_valid_of_no_wrap cfg h row.blob.pricing_record_height row.id
      hid (by omega) hV).mp hacc
    rw [hsel]
    cases hc : remove_stuck_invalid_pr cfg h row.blob with
    | false => rfl
    | true =>
      have := hinv.mp hc
      omega

/-- Claim C34, counterexample: at chain height 1000000, with a price record of height 999990,
`tx_pr_height_valid` accepts (the record is `PRICING_RECORD_VALID_BLOCKS` = 10 blocks old) and
`add_tx2` admits the offshore under the id 34; `remove_stuck_transactions` at the same height
and the same moment takes it out of the pool and adds its id to the timed-out set. -/
theorem remove_stuck_evicts_accepted_record :
    tx_pr_height_valid havenConfig 1000000 999990 34 = true ∧
    (34 : hash) ≠ pr_height_exception_tx ∧
    example_aged_chain.get_current_blockchain_height = 1000000 ∧
    example_aged_offshore_tx.pricing_record_height = 999990 ∧
    (add_tx2 havenConfig example_aged_chain 1000 (tx_memory_pool.init 1000000)
      example_aged_offshore_tx 34 2000 empty_tvc relay_method.fluff false 20).ret =
        some true ∧
    (get_txpool_tx_meta (add_tx2 havenConfig example_aged_chain 1000
      (tx_memory_pool.init 1000000) example_aged_offshore_tx 34 2000 empty_tvc
      relay_method.fluff false 20).pool.txpool 34).isSome = true ∧
    get_txpool_tx_meta (remove_stuck_transactions havenConfig example_aged_chain 1000
      (add_tx2 havenConfig example_aged_chain 1000 (tx_memory_pool.init 1000000)
        example_aged_offshore_tx 34 2000 empty_tvc relay_method.fluff false 20).pool).txpool
      34 = none ∧
    (remove_stuck_transactions havenConfig example_aged_chain 1000
      (add_tx2 havenConfig example_aged_chain 1000 (tx_memory_pool.init 1000000)
        example_aged_offshore_tx 34 2000 empty_tvc relay_method.fluff false 20).pool
      ).m_timed_out_transactions = [34] := by
  decide

/-- Claim C34 at a concrete input: at chain height 95 a row with the price record of height 90
is not selected, and one with the price record of height 85 is. -/
theorem remove_stuck_invalid_pr_rule_witness :
    remove_stuck_selected havenConfig 95 1000
      ⟨14, example_xusd_to_xbtc_tx, { txpool_tx_meta_t.zero with receive_time := 1000 }⟩ =
        false ∧
    remove_stuck_selected havenConfig 95 1000
      ⟨14, { example_xusd_to_xbtc_tx with pricing_record_height := 85 },
        { txpool_tx_meta_t.zero with receive_time := 1000 }⟩ = true ∧
    (remove_stuck_selected havenConfig 95 1000
      ⟨14, { example_xusd_to_xbtc_tx with pricing_record_height := 85 },
        { txpool_tx_meta_t.zero with receive_time := 1000 }⟩ = true ↔
      95 - 85 ≥ havenConfig.PRICING_RECORD_VALID_BLOCKS) :=
  ⟨by decide, by decide,
    (remove_stuck_invalid_pr_rule havenConfig 95 1000
      ⟨14, { example_xusd_to_xbtc_tx with pricing_record_height := 85 },
        { txpool_tx_meta_t.zero with receive_time := 1000 }⟩
      (by decide) (by decide) (by decide) (by decide)).2.2.1⟩

/-! ## Divisions and vector reads of admission -/

/-- The recomputation of the conversion fee divides by zero in no case when the exchange-rate
checks passed and, for a conversion between xUSD and an xAsset, one of the two XHV prices is
not zero. -/
theorem conversion_fee_check_isSome (cfg : Config) (tx : transaction) (pr : pricing_record)
    (source dest : String) (tx_type : transaction_type) (version unlock_time : Nat)
    (hr : add_tx2_rate_rejected cfg pr source dest tx_type version = false)
    (hx : tx_type = transaction_type.XUSD_TO_XASSET ∨
      tx_type = transaction_type.XASSET_TO_XUSD → max pr.xUSD pr.unused1 ≠ 0) :
    (conversion_fee_check cfg tx pr source tx_type version unlock_time).isSome = true := by
  unfold add_tx2_rate_rejected at hr
  unfold conversion_fee_check
  simp only
  by_cases h1 : tx_type = transaction_type.OFFSHORE
  · simp [h1]
  · by_cases h2 : tx_type = transaction_type.ONSHORE
    · subst h2
      simp only [or_true, if_true] at hr
      have hu : pr.unused1 ≠ 0 := by
        intro h0
        simp [h0] at hr
      have hm : max pr.xUSD pr.unused1 ≠ 0 := by
        have := Nat.le_max_right pr.xUSD pr.unused1
        omega
      simp only [h1, if_false, if_true, div128, hm]
      split
      · split <;> rfl
      · split <;> rfl
    · by_cases h3 : tx_type = transaction_type.XUSD_TO_XASSET
      · subst h3
        have hm := hx (Or.inl rfl)
        simp only [h1, h2, if_false, if_true, div128, hm]
        split
        · split <;> rfl
        · rfl
      · by_cases h4 : tx_type = transaction_type.XASSET_TO_XUSD
        · subst h4
          have hm := hx (Or.inr rfl)
          have hs : pr.rate source ≠ 0 := by
            intro h0
            simp [h0] at hr
          simp only [h1, h2, h3, if_false, if_true, div128, hm, hs]
          split
          · split <;> rfl
          · rfl
        · simp [h1, h2, h3, h4]

/-- Claim C36, the failing input: at version 23, on a price record that carries the XBTC and
XJPY rates and no XHV price, the exchange-rate checks pass for the xUSD to XBTC conversion and
for the XJPY to xUSD conversion, `max(pr.xUSD, pr.unused1)` is 0, and the checks of `add_tx2` end
in the division by zero of the fee scaling (lines 496 and 522): the call does not return. -/
theorem add_tx2_divides_by_zero_xhv_price :
    add_tx2_rate_rejected havenConfig example_pr_without_xhv_price "XUSD" "XBTC"
      transaction_type.XUSD_TO_XASSET 23 = false ∧
    add_tx2_rate_rejected havenConfig example_pr_without_xhv_price "XJPY" "XUSD"
      transaction_type.XASSET_TO_XUSD 23 = false ∧
    example_pr_without_xhv_price.rate "XJPY" ≠ 0 ∧
    max example_pr_without_xhv_price.xUSD example_pr_without_xhv_price.unused1 = 0 ∧
    get_tx_asset_types havenConfig example_v7_xusd_to_xbtc_tx 14 "" false =
      (true, "XUSD", "XBTC") ∧
    get_tx_asset_types havenConfig example_v7_xjpy_to_xusd_tx 15 "" false =
      (true, "XJPY", "XUSD") ∧
    add_tx2_checks havenConfig example_chain_without_xhv_price (tx_memory_pool.init 1000000)
      example_v7_xusd_to_xbtc_tx 14 2000 empty_tvc relay_method.fluff 23 =
        checked.abort fault.division_by_zero ∧
    (add_tx2 havenConfig example_chain_without_xhv_price 1000 (tx_memory_pool.init 1000000)
      example_v7_xusd_to_xbtc_tx 14 2000 empty_tvc relay_method.fluff false 23).ret = none ∧
    add_tx2_checks havenConfig example_chain_without_xhv_price (tx_memory_pool.init 1000000)
      example_v7_xjpy_to_xusd_tx 15 2000 empty_tvc relay_method.fluff 23 =
        checked.abort fault.division_by_zero ∧
    (add_tx2 havenConfig example_chain_without_xhv_price 1000 (tx_memory_pool.init 1000000)
      example_v7_xjpy_to_xusd_tx 15 2000 empty_tvc relay_method.fluff false 23).ret = none := by
  decide

/-- The loop over the outputs reads `tx.vout` and `tx.output_unlock_times` within bounds when
the two vectors have the same size and the indices are below it. -/
theorem add_tx2_output_unlock_loop_in_bounds (cfg : Config) (bc : Blockchain)
    (tx : transaction) (tvc : tx_verification_context) (source : String)
    (tx_type : transaction_type) (version current_height : Nat) (l : List Nat)
    (unlock_time : Nat) (hlen : tx.output_unlock_times.length = tx.vout.length)
    (hl : ∀ i ∈ l, i < tx.vout.length) (f : fault) :
    add_tx2_output_unlock_loop cfg bc tx tvc source tx_type version current_height l
      unlock_time ≠ checked.abort f := by
  induction l generalizing unlock_time with
  | nil => simp [add_tx2_output_unlock_loop]
  | cons i rest ih =>
    have hi := hl i (List.mem_cons_self _ _)
    have ih2 := fun u => ih u (fun j hj => hl j (List.mem_cons_of_mem _ hj))
    unfold add_tx2_output_unlock_loop
    split
    · exact ih2 _
    · obtain ⟨out, hout⟩ : ∃ out, tx.vout.get? i = some out :=
        ⟨_, List.get?_eq_get hi⟩
      obtain ⟨t, ht⟩ : ∃ t, tx.output_unlock_times.get? i = some t :=
        ⟨_, List.get?_eq_get (by omega)⟩
      simp only [hout, ht]
      split
      · exact ih2 _
      · split
        · simp
        · split
          · simp
          · exact ih2 _

/-- The collateral checks read `tx.vout` within bounds; they end in a read past the end only at
`tx.output_unlock_times[tx.collateral_indices[0]]` (line 362), for an OFFSHORE or ONSHORE whose
`output_unlock_times` is not longer than that index. -/
theorem add_tx2_collateral_checks_abort (cfg : Config) (bc : Blockchain) (tx : transaction)
    (tvc : tx_verification_context) (tx_type : transaction_type) (current_height : Nat)
    (unlock_time : Nat) (f : fault)
    (h : add_tx2_collateral_checks cfg bc tx tvc tx_type current_height unlock_time =
      checked.abort f) :
    f = fault.index_out_of_range ∧
    (tx_type = transaction_type.OFFSHORE ∨ tx_type = transaction_type.ONSHORE) ∧
    tx.collateral_indices.getD 0 0 < tx.vout.length ∧
    tx.output_unlock_times.length ≤ tx.collateral_indices.getD 0 0 := by
  unfold add_tx2_collateral_checks at h
  split at h
  · cases h
  · rename_i hlen
    split at h
    · cases h
    · rename_i hany
      have hlen2 : tx.collateral_indices.length = 2 := by
        by_contra hc
        exact hlen hc
      have hall : ∀ i ∈ tx.collateral_indices, i < tx.vout.length := by
        intro i hi
        by_contra hc
        apply hany
        rw [List.any_eq_true]
        exact ⟨i, hi, by simpa using hc⟩
      obtain ⟨a, b, hab⟩ : ∃ a b, tx.collateral_indices = [a, b] := by
        match hci : tx.collateral_indices, hlen2 with
        | [a, b], _ => exact ⟨a, b, rfl⟩
      have ha : a < tx.vout.length := hall a (by rw [hab]; simp)
      have hb : b < tx.vout.length := hall b (by rw [hab]; simp)
      have h0 : tx.collateral_indices.getD 0 0 = a := by rw [hab]; rfl
      have h1 : tx.collateral_indices.getD 1 0 = b := by rw [hab]; rfl
      rw [h0, h1] at h
      rw [h0]
      split at h
      · rename_i hty
        obtain ⟨out0, hout0⟩ : ∃ out, tx.vout.get? a = some out := ⟨_, List.get?_eq_get ha⟩
        obtain ⟨out1, hout1⟩ : ∃ out, tx.vout.get? b = some out := ⟨_, List.get?_eq_get hb⟩
        simp only [hout0, hout1] at h
        split at h
        · cases h
        · by_cases hon : tx_type = transaction_type.ONSHORE
          · simp only [hon, if_true] at h
            cases hk : out1.target.is_to_key
            · simp [hk] at h
            · simp only [hk, Bool.not_true] at h
              cases hg : tx.output_unlock_times.get? a with
              | none =>
                simp only [hg] at h
                cases h
                exact ⟨rfl, hty, ha, List.get?_eq_none.mp hg⟩
              | some t =>
                simp only [hg] at h
                split_ifs at h
          · simp only [hon, if_false] at h
            cases hg : tx.output_unlock_times.get? a with
            | none =>
              simp only [hg] at h
              cases h
              exact ⟨rfl, hty, ha, List.get?_eq_none.mp hg⟩
            | some t =>
              simp only [hg] at h
              split_ifs at h
      · cases h

/-- The unlock-time checks of `add_tx2` read `tx.vout` and `tx.output_unlock_times` within
bounds but for one read: they end in a read past the end only from the collateral epoch, for an
OFFSHORE or ONSHORE, at `tx.output_unlock_times[tx.collateral_indices[0]]`, when
`output_unlock_times` is not longer than that index (which is below the number of outputs). -/
theorem add_tx2_unlock_checks_abort (cfg : Config) (bc : Blockchain) (tx : transaction)
    (tvc : tx_verification_context) (source : String) (tx_type : transaction_type)
    (version current_height : Nat) (unlock_time : Nat) (f : fault)
    (h : add_tx2_unlock_checks cfg bc tx tvc source tx_type version current_height unlock_time =
      checked.abort f) :
    f = fault.index_out_of_range ∧
    version ≥ cfg.HF_VERSION_USE_COLLATERAL ∧
    (tx_type = transaction_type.OFFSHORE ∨ tx_type = transaction_type.ONSHORE) ∧
    tx.collateral_indices.getD 0 0 < tx.vout.length ∧
    tx.output_unlock_times.length ≤ tx.collateral_indices.getD 0 0 := by
  unfold add_tx2_unlock_checks at h
  split at h
  · simp only at h
    by_cases hv : version ≥ cfg.HF_VERSION_USE_COLLATERAL
    · simp only [hv, if_true] at h
      cases hc : add_tx2_collateral_checks cfg bc tx tvc tx_type current_height unlock_time with
      | abort f2 =>
        simp only [hc] at h
        cases h
        obtain ⟨a, b, c, d⟩ := add_tx2_collateral_checks_abort cfg bc tx tvc tx_type
          current_height unlock_time f hc
        exact ⟨a, hv, b, c, d⟩
      | reject t =>
        simp only [hc] at h
        cases h
      | ok u =>
        simp only [hc] at h
        split at h
        · cases h
        · rename_i hlen
          exact absurd h (add_tx2_output_unlock_loop_in_bounds cfg bc tx tvc source tx_type
            version current_height _ u (by simpa using hlen)
            (fun i hi => List.mem_range.mp hi) f)
    · simp only [hv, if_false] at h
      split at h
      · cases h
      · rename_i hlen
        exact absurd h (add_tx2_output_unlock_loop_in_bounds cfg bc tx tvc source tx_type
          version current_height _ unlock_time (by simpa using hlen)
          (fun i hi => List.mem_range.mp hi) f)
  · split at h
    · split at h <;> cases h
    · split at h
      · split at h <;> cases h
      · cases h

/-- Claim C37, the failing input: at version 20 the offshore with three outputs, the collateral
indices `[1, 0]` and an empty `output_unlock_times` passes the checks of the collateral indices
(both are below the number of outputs), and `add_tx2` reads `tx.output_unlock_times[1]` (line
362) before the size check of line 376: the read is past the end of the vector. -/
theorem add_tx2_reads_past_output_unlock_times :
    example_offshore_without_unlock_times_tx.vout.length = 3 ∧
    example_offshore_without_unlock_times_tx.collateral_indices = [1, 0] ∧
    example_offshore_without_unlock_times_tx.output_unlock_times.length = 0 ∧
    get_tx_asset_types havenConfig example_offshore_without_unlock_times_tx 35 "" false =
      (true, "XHV", "XUSD") ∧
    add_tx2_checks havenConfig example_late_chain (tx_memory_pool.init 1000000)
      example_offshore_without_unlock_times_tx 35 2000 empty_tvc relay_method.fluff 20 =
        checked.abort fault.index_out_of_range ∧
    (add_tx2 havenConfig example_late_chain 1000 (tx_memory_pool.init 1000000)
      example_offshore_without_unlock_times_tx 35 2000 empty_tvc relay_method.fluff false
      20).ret = none := by
  decide

/-! ## The expected reward -/

/-- From version 5 on a candidate passes the coinbase test only with a coinbase that is not
below the best one so far. -/
theorem template_weight_and_reward_pass (cfg : Config) (env : template_env)
    (p : template_params) (st : template_state) (e : tx_by_fee_and_receive_time_entry)
    (m : txpool_tx_meta_t) (fee coinbase : Nat) (hv : p.version ≥ 5)
    (h : template_weight_and_reward cfg env p st e m = verdict.pass (fee, coinbase)) :
    st.best_coinbase ≤ coinbase := by
  unfold template_weight_and_reward at h
  by_cases h1 : m.pruned = true
  · rw [if_pos h1] at h
    cases h
  · rw [if_neg h1] at h
    by_cases h2 : p.max_total_weight < (st.total_weight + m.weight) % 2 ^ 64
    · rw [if_pos h2] at h
      cases h
    · rw [if_neg h2, if_pos hv] at h
      cases hr : env.get_block_reward p.median_weight ((st.total_weight + m.weight) % 2 ^ 64)
          p.already_generated_coins p.version with
      | none =>
        rw [hr] at h
        cases h
      | some block_reward =>
        rw [hr] at h
        simp only at h
        split_ifs at h <;>
          (simp only [verdict.pass.injEq, Prod.mk.injEq] at h
           rw [← h.2]
           exact Nat.le_of_not_lt (by assumption))

/-- From version 5 on one iteration of the loop of `fill_block_template` does not lower
`best_coinbase`. -/
theorem fill_block_template_step_best_coinbase (cfg : Config) (bc : Blockchain)
    (env : template_env) (p : template_params) (e : tx_by_fee_and_receive_time_entry)
    (st : template_state) (hv : p.version ≥ 5) :
    st.best_coinbase ≤ (fill_block_template_step cfg bc env p e st).state.best_coinbase := by
  unfold fill_block_template_step
  cases hm : get_txpool_tx_meta st.pool.txpool e.id with
  | none => exact Nat.le_refl _
  | some m =>
    simp only
    cases hw : template_weight_and_reward cfg env p st e m with
    | skip => exact Nat.le_refl _
    | stop => exact Nat.le_refl _
    | thrown => exact Nat.le_refl _
    | pass fc =>
      obtain ⟨fee, coinbase⟩ := fc
      have hcb := template_weight_and_reward_pass cfg env p st e m fee coinbase hv hw
      simp only
      cases hb : get_txpool_tx_blob st.pool.txpool e.id with
      | none => exact Nat.le_refl _
      | some txblob =>
        simp only
        rcases hr : template_ready bc env st.pool e.id m txblob with ⟨ready, m1, pool1⟩
        cases ready with
        | false => exact Nat.le_refl _
        | true =>
          simp only
          cases hs : template_select cfg bc env p { st with pool := pool1 } e.id m1 txblob fee
              coinbase with
          | skip => exact Nat.le_refl _
          | stop => exact Nat.le_refl _
          | thrown => exact Nat.le_refl _
          | pass st2 =>
            obtain ⟨source, dest, tx_type, conv, _, _, _, _, h5⟩ :=
              template_select_pass cfg bc env p { st with pool := pool1 } e.id m1 txblob fee
                coinbase st2 hs
            simp only [template_step_result.state]
            rw [h5]
            exact hcb

/-- From version 5 on the loop of `fill_block_template` does not lower `best_coinbase`. -/
theorem fill_block_template_loop_best_coinbase (cfg : Config) (bc : Blockchain)
    (env : template_env) (p : template_params) (hv : p.version ≥ 5)
    (l : List tx_by_fee_and_receive_time_entry) (st : template_state) :
    st.best_coinbase ≤ (fill_block_template_loop cfg bc env p l st).2.best_coinbase := by
  induction l generalizing st with
  | nil => exact Nat.le_refl _
  | cons e rest ih =>
    have hstep := fill_block_template_step_best_coinbase cfg bc env p e st hv
    unfold fill_block_template_loop
    cases hs : fill_block_template_step cfg bc env p e st with
    | next st1 =>
      rw [hs] at hstep
      exact Nat.le_trans hstep (ih st1)
    | stop st1 =>
      rw [hs] at hstep
      exact hstep
    | thrown st1 =>
      rw [hs] at hstep
      exact hstep

/-- Claim C38, from version 5 on: on every successful return of `fill_block_template` at a
version of at least 5, `expected_reward` (the final `best_coinbase`) is at least the block
reward of the empty block computed at the start, and no iteration of the loop, whether it
accepts its candidate or not, lowers `best_coinbase`. -/
theorem fill_block_template_expected_reward_rule (cfg : Config) (bc : Blockchain)
    (env : template_env) (pool : tx_memory_pool) (median_weight already_generated_coins : Nat)
    (fee_map offshore_fee_map xasset_fee_map : List (String × Nat)) (version : Nat)
    (hv : version ≥ 5)
    (h : (fill_block_template cfg bc env pool median_weight already_generated_coins fee_map
      offshore_fee_map xasset_fee_map version).ret = some true) :
    (∃ baseline,
      env.get_block_reward median_weight 0 already_generated_coins version = some baseline ∧
      baseline ≤ (fill_block_template cfg bc env pool median_weight already_generated_coins
        fee_map offshore_fee_map xasset_fee_map version).st.best_coinbase) ∧
    (∀ e st, st.best_coinbase ≤
      (fill_block_template_step cfg bc env
        (fill_block_template_params cfg bc env median_weight already_generated_coins version)
        e st).state.best_coinbase) := by
  constructor
  · obtain ⟨best_coinbase, h1, h2⟩ := fill_block_template_true cfg bc env pool median_weight
      already_generated_coins fee_map offshore_fee_map xasset_fee_map version h
    refine ⟨best_coinbase, h1, ?_⟩
    rw [h2]
    exact fill_block_template_loop_best_coinbase cfg bc env
      (fill_block_template_params cfg bc env median_weight already_generated_coins version) hv
      pool.m_txs_by_fee_and_receive_time
      (template_state.start pool fee_map offshore_fee_map xasset_fee_map best_coinbase)
  · intro e st
    exact fill_block_template_step_best_coinbase cfg bc env _ e st hv

/-- Claim C38, counterexample: at version 4, on the pool that holds the two transfers,
`fill_block_template` returns true with both selected and `expected_reward` = 0, while the block
reward of the empty block is 60 coins: before version 5 `coinbase` keeps its initial 0 and line
2686 assigns it to `best_coinbase`. -/
theorem fill_block_template_zero_reward_before_v5 :
    example_template_env.get_block_reward 300000 0 1000000 4 = some 60000000000000 ∧
    (fill_block_template havenConfig example_chain example_template_env example_two_tx_pool
      300000 1000000 [] [] [] 4).ret = some true ∧
    (fill_block_template havenConfig example_chain example_template_env example_two_tx_pool
      300000 1000000 [] [] [] 4).st.tx_hashes = [12, 13] ∧
    (fill_block_template havenConfig example_chain example_template_env example_two_tx_pool
      300000 1000000 [] [] [] 4).st.best_coinbase = 0 := by
  decide

/-- Claim C38 at a concrete input: at version 20 both transfers are selected and
`expected_reward` is the block reward of 60 coins plus their fees of 1000 and 500. -/
theorem fill_block_template_expected_reward_rule_witness :
    (fill_block_template havenConfig example_chain example_template_env example_two_tx_pool
      300000 1000000 [] [] [] 20).st.best_coinbase = 60000000001500 ∧
    ∃ baseline,
      example_template_env.get_block_reward 300000 0 1000000 20 = some baseline ∧
      baseline ≤ (fill_block_template havenConfig example_chain example_template_env
        example_two_tx_pool 300000 1000000 [] [] [] 20).st.best_coinbase :=
  ⟨by decide,
    (fill_block_template_expected_reward_rule havenConfig example_chain example_template_env
      example_two_tx_pool 300000 1000000 [] [] [] 20 (by decide) (by decide)).1⟩

/-! ## The transaction `construct_tx_with_tx_key` builds -/

/-- What a `return true` of `construct_tx_with_tx_key` says: the loop over the destinations
ran to its end, and the fields of the transaction are the ones it left, with the burnt fee
share added and the conversion fee converted. -/
theorem construct_tx_built (cfg : Config) (env : construct_tx_env) (a : construct_tx_args)
    (tx : transaction) (h : construct_tx_with_tx_key cfg env a = construct_tx_result.built tx) :
    ∃ outs fee offshore_fee,
      construct_tx_outputs_loop cfg env a (construct_tx_version cfg a.hf_version)
        (a.ordered_destinations env) 0 construct_tx_outputs.start = some outs ∧
      construct_tx_fee_to_xhv cfg a.tx_type a.strSource a.pr a.hf_version
        (construct_tx_offshore_fee cfg a) = some offshore_fee ∧
      tx.rct_signatures = env.genRctSimple fee offshore_fee ∧
      tx.amount_burnt =
        construct_tx_burn_fee cfg a (construct_tx_offshore_fee cfg a) outs.amount_burnt ∧
      tx.amount_minted = outs.amount_minted ∧
      tx.output_unlock_times = outs.output_unlock_times ∧
      tx.collateral_indices = outs.collateral_indices ∧
      tx.vout = outs.vout.map (fun out => { out with amount := 0 }) ∧
      tx.unlock_time = a.unlock_time ∧
      tx.version = construct_tx_version cfg a.hf_version ∧
      tx.pricing_record_height = (if a.strSource ≠ a.strDest then a.current_height else 0) ∧
      (a.strSource ≠ a.strDest → tx.amount_burnt ≠ 0 ∧ tx.amount_minted ≠ 0) := by
  unfold construct_tx_with_tx_key at h
  split at h
  · cases h
  simp only at h
  split at h
  · cases h
  split at h
  · cases h
  split at h
  · cases h
  split at h
  · cases h
  split at h
  · cases h
  rename_i extra _ ins _
  unfold construct_tx_finish at h
  simp only at h
  split at h
  · cases h
  split at h
  · cases h
  rename_i outs ho
  split at h
  · cases h
  split at h
  · cases h
  split at h
  · cases h
  split at h
  · cases h
  rename_i hz
  split at h
  · cases h
  rename_i ofee hfee
  split at h
  · cases h
  cases h
  refine ⟨outs, _, ofee, ho, hfee, rfl, rfl, rfl, rfl, rfl, rfl, rfl, rfl, rfl, ?_⟩
  intro hne
  simp only [hne, ne_eq, not_false_eq_true, true_and, not_or] at hz
  exact hz

/-- The type `get_tx_type` gives a pair of different assets names the source asset: XHV for
an OFFSHORE, xUSD for an ONSHORE and an XUSD_TO_XASSET, an xAsset for an XASSET_TO_XUSD. -/
theorem get_tx_type_source (cfg : Config) (source dest : String) (tx_type : transaction_type)
    (hne : source ≠ dest) (h : get_tx_type cfg source dest = some tx_type) :
    (tx_type = transaction_type.OFFSHORE ∧ source = "XHV") ∨
    (tx_type = transaction_type.ONSHORE ∧ source = "XUSD") ∨
    (tx_type = transaction_type.XUSD_TO_XASSET ∧ source = "XUSD") ∨
    (tx_type = transaction_type.XASSET_TO_XUSD ∧ source ≠ "XHV" ∧ source ≠ "XUSD") := by
  unfold get_tx_type at h
  split_ifs at h <;> simp_all

/-- For a cross-asset transaction whose type is the one of its asset pair, a converted
destination adds its source-asset amount to the amount burnt and its destination-asset amount
to the amount minted, in `uint64_t`; every other destination leaves both as they are. -/
theorem construct_tx_burnt_minted_eq (cfg : Config) (env : construct_tx_env)
    (a : construct_tx_args) (i : Nat) (d : tx_destination_entry_asset) (b m : Nat)
    (hne : a.strSource ≠ a.strDest)
    (hty : get_tx_type cfg a.strSource a.strDest = some a.tx_type) :
    construct_tx_burnt_minted a d (construct_tx_output env i d) b m =
      if d.asset_type = a.strDest ∧ d.is_collateral = false then
        ((b + d.amount_in a.strSource) % 2 ^ 64, (m + d.amount_in a.strDest) % 2 ^ 64)
      else (b, m) := by
  unfold construct_tx_burnt_minted
  rw [if_pos hne]
  by_cases hc : d.asset_type = a.strDest ∧ d.is_collateral = false
  · rw [if_pos hc, if_pos (by simpa using hc)]
    have hout : (construct_tx_output env i d).amount = d.amount_in a.strDest := by
      unfold construct_tx_output tx_destination_entry_asset.amount_in
      rw [← hc.1]
      simp only
      split
      · rfl
      · split <;> rfl
    rw [hout]
    rcases get_tx_type_source cfg a.strSource a.strDest a.tx_type hne hty with
      ⟨h1, h2⟩ | ⟨h1, h2⟩ | ⟨h1, h2⟩ | ⟨h1, h2, h3⟩
    · simp [h1, h2, tx_destination_entry_asset.amount_in]
    · simp [h1, h2, tx_destination_entry_asset.amount_in]
    · simp [h1, h2, tx_destination_entry_asset.amount_in]
    · simp [h1, h2, h3, tx_destination_entry_asset.amount_in]
  · rw [if_neg hc, if_neg (by simpa using hc)]

/-- The amounts the loop over the destinations leaves: the amount minted is the sum of the
destination-asset amounts, the amount burnt the sum of the source-asset amounts, of the
converted destinations, added in `uint64_t` to what the loop started from. -/
theorem construct_tx_outputs_loop_amounts (cfg : Config) (env : construct_tx_env)
    (a : construct_tx_args) (v : Nat) (ds : List tx_destination_entry_asset) (i : Nat)
    (st st2 : construct_tx_outputs) (hne : a.strSource ≠ a.strDest)
    (hty : get_tx_type cfg a.strSource a.strDest = some a.tx_type)
    (hb : st.amount_burnt < 2 ^ 64) (hm : st.amount_minted < 2 ^ 64)
    (h : construct_tx_outputs_loop cfg env a v ds i st = some st2) :
    st2.amount_minted = (st.amount_minted +
      ((converted_destinations a ds).map (fun d => d.amount_in a.strDest)).sum) % 2 ^ 64 ∧
    st2.amount_burnt = (st.amount_burnt +
      ((converted_destinations a ds).map (fun d => d.amount_in a.strSource)).sum) % 2 ^ 64 := by
  induction ds generalizing i st with
  | nil =>
    unfold construct_tx_outputs_loop at h
    cases h
    simp only [converted_destinations, List.filter_nil, List.map_nil, List.sum_nil,
      Nat.add_zero]
    exact ⟨(Nat.mod_eq_of_lt hm).symm, (Nat.mod_eq_of_lt hb).symm⟩
  | cons d rest ih =>
    unfold construct_tx_outputs_loop at h
    split at h
    · cases h
    · simp only at h
      split at h
      · cases h
      · rename_i unlock ci hu
        rw [construct_tx_burnt_minted_eq cfg env a i d _ _ hne hty] at h
        by_cases hc : d.asset_type = a.strDest ∧ d.is_collateral = false
        · rw [if_pos hc] at h
          obtain ⟨r1, r2⟩ := ih _ _ (by exact Nat.mod_lt _ (by norm_num))
            (by exact Nat.mod_lt _ (by norm_num)) h
          have hf : converted_destinations a (d :: rest) =
              d :: converted_destinations a rest := by
            unfold converted_destinations
            rw [List.filter_cons_of_pos (by simpa using hc)]
          rw [r1, r2, hf]
          simp only [List.map_cons, List.sum_cons]
          constructor
          · rw [Nat.mod_add_mod, Nat.add_assoc]
          · rw [Nat.mod_add_mod, Nat.add_assoc]
        · rw [if_neg hc] at h
          obtain ⟨r1, r2⟩ := ih _ _ (by exact hb) (by exact hm) h
          have hf : converted_destinations a (d :: rest) = converted_destinations a rest := by
            unfold converted_destinations
            rw [List.filter_cons_of_neg (by simpa using hc)]
          rw [r1, r2, hf]
          exact ⟨rfl, rfl⟩

/-- For a same-asset transaction the loop over the destinations leaves the amounts burnt and
minted as they are. -/
theorem construct_tx_outputs_loop_same_asset (cfg : Config) (env : construct_tx_env)
    (a : construct_tx_args) (v : Nat) (ds : List tx_destination_entry_asset) (i : Nat)
    (st st2 : construct_tx_outputs) (heq : a.strSource = a.strDest)
    (h : construct_tx_outputs_loop cfg env a v ds i st = some st2) :
    st2.amount_burnt = st.amount_burnt ∧ st2.amount_minted = st.amount_minted := by
  induction ds generalizing i st with
  | nil =>
    unfold construct_tx_outputs_loop at h
    cases h
    exact ⟨rfl, rfl⟩
  | cons d rest ih =>
    unfold construct_tx_outputs_loop at h
    split at h
    · cases h
    · simp only at h
      split at h
      · cases h
      · have hbm : ∀ out b m, construct_tx_burnt_minted a d out b m = (b, m) := by
          intro out b m
          unfold construct_tx_burnt_minted
          rw [if_neg (by simpa using heq)]
        rw [hbm] at h
        obtain ⟨r1, r2⟩ := ih _ _ h
        exact ⟨r1, r2⟩

/-- Claim C31, with the burnt share of the conversion fee: for a transaction that
`construct_tx_with_tx_key` builds, whose type is the one `get_tx_type` gives its asset pair, with
the sums taken in `uint64_t` over the converted destinations (those that carry the destination
asset and are not collateral): for different assets `tx.amount_minted` is the sum of the
destination-asset amounts; `tx.amount_burnt` is the sum of the source-asset amounts for an
OFFSHORE and an ONSHORE at every version and for every type before the xAsset-fees-v2 epoch and
from the collateral epoch on, and that sum plus four fifths of the conversion fee, rounded
down, for a conversion between xUSD and an xAsset from the xAsset-fees-v2 epoch up to the
collateral epoch; for equal assets both are 0.  The sums do not depend on the order
`std::shuffle` leaves the destinations in. -/
theorem construct_tx_amounts_rule (cfg : Config) (env : construct_tx_env)
    (a : construct_tx_args) (tx : transaction)
    (hty : get_tx_type cfg a.strSource a.strDest = some a.tx_type)
    (h : construct_tx_with_tx_key cfg env a = construct_tx_result.built tx) :
    (a.strSource ≠ a.strDest →
      tx.amount_minted =
        ((converted_destinations a (a.ordered_destinations env)).map
          (fun d => d.amount_in a.strDest)).sum % 2 ^ 64 ∧
      ((a.hf_version < cfg.HF_VERSION_XASSET_FEES_V2 ∨
          a.hf_version ≥ cfg.HF_VERSION_USE_COLLATERAL ∨
          a.tx_type = transaction_type.OFFSHORE ∨ a.tx_type = transaction_type.ONSHORE) →
        tx.amount_burnt =
          ((converted_destinations a (a.ordered_destinations env)).map
            (fun d => d.amount_in a.strSource)).sum % 2 ^ 64) ∧
      (a.hf_version ≥ cfg.HF_VERSION_XASSET_FEES_V2 →
        a.hf_version < cfg.HF_VERSION_USE_COLLATERAL →
        (a.tx_type = transaction_type.XUSD_TO_XASSET ∨
          a.tx_type = transaction_type.XASSET_TO_XUSD) →
        tx.amount_burnt =
          (((converted_destinations a (a.ordered_destinations env)).map
              (fun d => d.amount_in a.strSource)).sum % 2 ^ 64 +
            ((construct_tx_offshore_fee cfg a * 4) % 2 ^ 64) / 5) % 2 ^ 64)) ∧
    (a.strSource = a.strDest → tx.amount_burnt = 0 ∧ tx.amount_minted = 0) ∧
    ((a.ordered_destinations env).Perm a.destinations → ∀ asset,
      ((converted_destinations a (a.ordered_destinations env)).map
        (fun d => d.amount_in asset)).sum =
      ((converted_destinations a a.destinations).map (fun d => d.amount_in asset)).sum) := by
  obtain ⟨outs, fee, ofee, ho, _, _, hb, hm, _⟩ := construct_tx_built cfg env a tx h
  refine ⟨fun hne => ?_, fun heq => ?_, fun hp asset => ?_⟩
  · obtain ⟨r1, r2⟩ := construct_tx_outputs_loop_amounts cfg env a _ _ 0
      construct_tx_outputs.start outs hne hty (by simp [construct_tx_outputs.start])
      (by simp [construct_tx_outputs.start]) ho
    simp only [construct_tx_outputs.start, Nat.zero_add] at r1 r2
    refine ⟨by rw [hm, r1], fun hc => ?_, fun h1 h2 h3 => ?_⟩
    · rw [hb, r2]
      unfold construct_tx_burn_fee
      rcases hc with hc | hc | hc | hc
      · rw [if_neg (fun hx => by omega)]
      · split
        · rw [if_neg (by omega)]
        · rfl
      · rw [if_neg (fun hx => by
          rcases hx.2 with hx | hx <;> rw [hx] at hc <;> cases hc)]
      · rw [if_neg (fun hx => by
          rcases hx.2 with hx | hx <;> rw [hx] at hc <;> cases hc)]
    · rw [hb, r2]
      unfold construct_tx_burn_fee
      rw [if_pos ⟨h1, h3⟩, if_pos h2]
  · obtain ⟨r1, r2⟩ := construct_tx_outputs_loop_same_asset cfg env a _ _ 0
      construct_tx_outputs.start outs heq ho
    rw [heq] at hty
    have hs := get_tx_type_same cfg a.strDest a.tx_type hty
    refine ⟨?_, by rw [hm, r2]; rfl⟩
    rw [hb, r1]
    unfold construct_tx_burn_fee
    rw [if_neg (fun hx => by
      rcases hx.2 with hx | hx <;> rw [hx] at hs <;> simp at hs)]
    rfl
  · unfold converted_destinations
    exact ((hp.filter _).map _).sum_eq

/-- Claim C31, counterexample: at hard-fork version 18, between the xAsset-fees-v2 epoch and
the collateral epoch, the xUSD to XBTC conversion whose one converted destination carries 1000
atomic units of xUSD is built with `amount_burnt` = 1004: the 1000 of the destination and four
fifths of the conversion fee of 5.  At version 20, two converted destinations whose xUSD
amounts add up to 2^64 + 1000 give `amount_burnt` = 1000, the sum in `uint64_t`; and the same
pair of assets passed with the transaction type OFFSHORE gives `amount_burnt` = 7, the XHV
amount of the converted destination, not its 1000 atomic units of xUSD. -/
theorem construct_tx_adds_fee_to_amount_burnt :
    get_tx_type havenConfig "XUSD" "XBTC" = some transaction_type.XUSD_TO_XASSET ∧
    (converted_destinations example_xusd_to_xbtc_args
      example_xusd_to_xbtc_args.destinations).map (fun d => d.amount_in "XUSD") = [1000] ∧
    construct_tx_offshore_fee havenConfig example_xusd_to_xbtc_args = 5 ∧
    (match construct_tx_with_tx_key havenConfig example_construct_tx_env
        example_xusd_to_xbtc_args with
      | construct_tx_result.built tx => some (tx.amount_burnt, tx.amount_minted)
      | _ => none) = some (1004, 5) ∧
    (converted_destinations example_wrapping_xusd_to_xbtc_args
      example_wrapping_xusd_to_xbtc_args.destinations).map (fun d => d.amount_in "XUSD") =
        [9223372036854775808, 9223372036854776808] ∧
    (match construct_tx_with_tx_key havenConfig example_construct_tx_env
        example_wrapping_xusd_to_xbtc_args with
      | construct_tx_result.built tx => some (tx.amount_burnt, tx.amount_minted)
      | _ => none) = some (1000, 10) ∧
    (converted_destinations example_mistyped_xusd_to_xbtc_args
      example_mistyped_xusd_to_xbtc_args.destinations).map (fun d => d.amount_in "XUSD") =
        [1000] ∧
    (match construct_tx_with_tx_key havenConfig example_construct_tx_env
        example_mistyped_xusd_to_xbtc_args with
      | construct_tx_result.built tx => some (tx.amount_burnt, tx.amount_minted)
      | _ => none) = some (7, 5) := by
  decide

/-- Claim C31 at a concrete input: the same conversion built at hard-fork version 20, in the
collateral epoch, has `amount_burnt` = 1000 and `amount_minted` = 5. -/
theorem construct_tx_amounts_rule_witness :
    construct_tx_with_tx_key havenConfig example_construct_tx_env
      { example_xusd_to_xbtc_args with hf_version := 20 } =
      construct_tx_result.built
        { version := 7, unlock_time := 1530, vin := [txin_v.txin_offshore 0 201],
          vout := [⟨0, txout_target_v.txout_xasset 1 "XBTC"⟩,
            ⟨0, txout_target_v.txout_offshore 2⟩],
          extra := [], pricing_record_height := 90, amount_burnt := 1000, amount_minted := 5,
          output_unlock_times := [1530, 0], collateral_indices := [0, 0],
          rct_signatures := ⟨85, 15⟩, pruned := false } ∧
    (1000 : Nat) = ((converted_destinations { example_xusd_to_xbtc_args with hf_version := 20 }
      (construct_tx_args.ordered_destinations example_construct_tx_env
        { example_xusd_to_xbtc_args with hf_version := 20 })).map
        (fun d => d.amount_in "XUSD")).sum % 2 ^ 64 :=
  ⟨by decide,
    ((construct_tx_amounts_rule havenConfig example_construct_tx_env
      { example_xusd_to_xbtc_args with hf_version := 20 }
      { version := 7, unlock_time := 1530, vin := [txin_v.txin_offshore 0 201],
        vout := [⟨0, txout_target_v.txout_xasset 1 "XBTC"⟩,
          ⟨0, txout_target_v.txout_offshore 2⟩],
        extra := [], pricing_record_height := 90, amount_burnt := 1000, amount_minted := 5,
        output_unlock_times := [1530, 0], collateral_indices := [0, 0],
        rct_signatures := ⟨85, 15⟩, pruned := false }
      (by decide) (by decide)).1 (by decide)).2.1 (Or.inr (Or.inl (by decide)))⟩

/-! ## Per-output unlock times of a built transaction -/

/-- The type `get_tx_type` gives names the asset pair of an OFFSHORE and of an ONSHORE. -/
theorem get_tx_type_shore (cfg : Config) (source dest : String) (tx_type : transaction_type)
    (h : get_tx_type cfg source dest = some tx_type) :
    (tx_type = transaction_type.OFFSHORE → source = "XHV" ∧ dest = "XUSD") ∧
    (tx_type = transaction_type.ONSHORE → source = "XUSD" ∧ dest = "XHV") := by
  unfold get_tx_type at h
  split_ifs at h <;> cases h <;> simp_all

/-- The unlock time `construct_tx_with_tx_key` gives the output of a destination of a
cross-asset transaction from the per-output-unlock epoch on: the destination carries the
destination or the source asset, and the entry is the one of lines 1372-1395. -/
theorem construct_tx_output_unlock_entry (cfg : Config) (a : construct_tx_args) (i : Nat)
    (d : tx_destination_entry_asset) (ci ci2 : List Nat) (t : Nat)
    (hpou : a.hf_version ≥ cfg.HF_PER_OUTPUT_UNLOCK_VERSION) (hne : a.strSource ≠ a.strDest)
    (h : construct_tx_output_unlock cfg a i d ci = some (t, ci2)) :
    (d.asset_type = a.strDest ∨ d.asset_type = a.strSource) ∧
    (d.asset_type = a.strDest →
      t = if a.hf_version ≥ cfg.HF_VERSION_USE_COLLATERAL ∧
          a.tx_type = transaction_type.ONSHORE ∧ d.is_collateral = true then
            if d.amount = a.onshore_col_amount then a.unlock_time else 0
          else a.unlock_time) ∧
    (d.asset_type = a.strSource →
      t = if a.hf_version ≥ cfg.HF_VERSION_USE_COLLATERAL ∧
          a.tx_type = transaction_type.OFFSHORE ∧ d.is_collateral = true then a.unlock_time
          else 0) := by
  unfold construct_tx_output_unlock at h
  rw [if_pos ⟨hpou, hne⟩] at h
  simp only at h
  by_cases hd : d.asset_type = a.strDest
  · have hs : d.asset_type ≠ a.strSource := fun e => hne (e.symm.trans hd)
    rw [if_pos hd] at h
    refine ⟨Or.inl hd, fun _ => ?_, fun e => absurd e hs⟩
    split_ifs at h ⊢ <;> simp_all
  · rw [if_neg hd] at h
    by_cases hs : d.asset_type = a.strSource
    · rw [if_pos hs] at h
      refine ⟨Or.inr hs, fun e => absurd e hd, fun _ => ?_⟩
      split_ifs at h ⊢ <;> simp_all
    · rw [if_neg hs] at h
      cases h

/-- The loop over the destinations appends one output and one unlock time per destination, in
order. -/
theorem construct_tx_outputs_loop_appends (cfg : Config) (env : construct_tx_env)
    (a : construct_tx_args) (v : Nat) (ds : List tx_destination_entry_asset) (i : Nat)
    (st st2 : construct_tx_outputs)
    (h : construct_tx_outputs_loop cfg env a v ds i st = some st2) :
    ∃ ts outs,
      st2.output_unlock_times = st.output_unlock_times ++ ts ∧
      st2.vout = st.vout ++ outs ∧
      List.Forall₂ (fun d t => ∃ k ci ci2,
        construct_tx_output_unlock cfg a k d ci = some (t, ci2)) ds ts ∧
      List.Forall₂ (fun d out => ∃ k, out = construct_tx_output env k d) ds outs := by
  induction ds generalizing i st with
  | nil =>
    unfold construct_tx_outputs_loop at h
    cases h
    exact ⟨[], [], by simp, by simp, List.Forall₂.nil, List.Forall₂.nil⟩
  | cons d rest ih =>
    unfold construct_tx_outputs_loop at h
    split at h
    · cases h
    · simp only at h
      split at h
      · cases h
      · rename_i unlock ci hu
        obtain ⟨ts, outs, h1, h2, h3, h4⟩ := ih _ _ h
        refine ⟨unlock :: ts, construct_tx_output env i d :: outs, ?_, ?_,
          List.Forall₂.cons ⟨i, _, _, hu⟩ h3, List.Forall₂.cons ⟨i, rfl⟩ h4⟩
        · rw [h1]; simp
        · rw [h2]; simp

/-- A locked collateral output and a collateral-change output carry XHV when the transaction
type is the one of the asset pair. -/
theorem collateral_destination_xhv (cfg : Config) (a : construct_tx_args)
    (d : tx_destination_entry_asset)
    (hty : get_tx_type cfg a.strSource a.strDest = some a.tx_type)
    (h : a.locked_collateral d = true ∨ a.collateral_change d = true) :
    d.asset_type = "XHV" := by
  obtain ⟨hoff, hon⟩ := get_tx_type_shore cfg a.strSource a.strDest a.tx_type hty
  rcases h with h | h
  · simp only [construct_tx_args.locked_collateral, decide_eq_true_eq] at h
    rcases h.2 with ⟨k1, k2⟩ | ⟨k1, k2, _⟩
    · exact k2.trans (hoff k1).1
    · exact k2.trans (hon k1).2
  · simp only [construct_tx_args.collateral_change, decide_eq_true_eq] at h
    exact h.2.2.1.trans (hon h.2.1).2

/-- From the collateral epoch on, for a cross-asset transaction: the collateral indices after
a destination at `output_index`.  The vector is reset to `[0, 0]` when its size is not 2; the
locked collateral output is recorded in slot 0, the collateral-change output in slot 1. -/
theorem construct_tx_output_unlock_indices (cfg : Config) (a : construct_tx_args) (i : Nat)
    (d : tx_destination_entry_asset) (ci ci2 : List Nat) (t : Nat)
    (hpou : a.hf_version ≥ cfg.HF_PER_OUTPUT_UNLOCK_VERSION)
    (hcol : a.hf_version ≥ cfg.HF_VERSION_USE_COLLATERAL) (hne : a.strSource ≠ a.strDest)
    (h : construct_tx_output_unlock cfg a i d ci = some (t, ci2)) :
    ci2 =
      if a.locked_collateral d = true then (if ci.length ≠ 2 then [0, 0] else ci).set 0 i
      else if a.collateral_change d = true then
        (if ci.length ≠ 2 then [0, 0] else ci).set 1 i
      else (if ci.length ≠ 2 then [0, 0] else ci) := by
  have hL : a.locked_collateral d = true ↔ (d.is_collateral = true ∧
      ((a.tx_type = transaction_type.OFFSHORE ∧ d.asset_type = a.strSource) ∨
        (a.tx_type = transaction_type.ONSHORE ∧ d.asset_type = a.strDest ∧
          d.amount = a.onshore_col_amount))) := by
    simp [construct_tx_args.locked_collateral]
  have hC : a.collateral_change d = true ↔ (d.is_collateral = true ∧
      a.tx_type = transaction_type.ONSHORE ∧ d.asset_type = a.strDest ∧
      d.amount ≠ a.onshore_col_amount) := by
    simp [construct_tx_args.collateral_change]
  unfold construct_tx_output_unlock at h
  rw [if_pos ⟨hpou, hne⟩] at h
  simp only [hcol, true_and] at h
  by_cases hd : d.asset_type = a.strDest
  · have hs : d.asset_type ≠ a.strSource := fun e => hne (e.symm.trans hd)
    rw [if_pos hd] at h
    by_cases hc : a.tx_type = transaction_type.ONSHORE ∧ d.is_collateral = true
    · rw [if_pos hc] at h
      by_cases ha : d.amount = a.onshore_col_amount
      · rw [if_pos ha] at h
        simp only [Option.some.injEq, Prod.mk.injEq] at h
        rw [← h.2, if_pos (hL.2 ⟨hc.2, Or.inr ⟨hc.1, hd, ha⟩⟩)]
      · rw [if_neg ha] at h
        simp only [Option.some.injEq, Prod.mk.injEq] at h
        have h1 : ¬ a.locked_collateral d = true := by
          intro k
          rcases (hL.1 k).2 with ⟨_, k4⟩ | ⟨_, _, k4⟩
          · exact hs k4
          · exact ha k4
        rw [← h.2, if_neg h1, if_pos (hC.2 ⟨hc.2, hc.1, hd, ha⟩)]
    · rw [if_neg hc] at h
      simp only [Option.some.injEq, Prod.mk.injEq] at h
      have h1 : ¬ a.locked_collateral d = true := by
        intro k
        obtain ⟨k1, ⟨_, k3⟩ | ⟨k3, _, _⟩⟩ := hL.1 k
        · exact hs k3
        · exact hc ⟨k3, k1⟩
      have h2 : ¬ a.collateral_change d = true := by
        intro k
        obtain ⟨k1, k3, _, _⟩ := hC.1 k
        exact hc ⟨k3, k1⟩
      rw [← h.2, if_neg h1, if_neg h2]
  · rw [if_neg hd] at h
    by_cases hs : d.asset_type = a.strSource
    · rw [if_pos hs] at h
      by_cases hc : a.tx_type = transaction_type.OFFSHORE ∧ d.is_collateral = true
      · rw [if_pos hc] at h
        simp only [Option.some.injEq, Prod.mk.injEq] at h
        rw [← h.2, if_pos (hL.2 ⟨hc.2, Or.inl ⟨hc.1, hs⟩⟩)]
      · rw [if_neg hc] at h
        simp only [Option.some.injEq, Prod.mk.injEq] at h
        have h1 : ¬ a.locked_collateral d = true := by
          intro k
          obtain ⟨k1, ⟨k3, _⟩ | ⟨_, k3, _⟩⟩ := hL.1 k
          · exact hc ⟨k3, k1⟩
          · exact hd k3
        have h2 : ¬ a.collateral_change d = true := by
          intro k
          obtain ⟨_, _, k3, _⟩ := hC.1 k
          exact hd k3
        rw [← h.2, if_neg h1, if_neg h2]
    · rw [if_neg hs] at h
      cases h

/-- A destination is not both the locked collateral and the collateral change. -/
theorem collateral_change_not_locked (a : construct_tx_args) (d : tx_destination_entry_asset)
    (h : a.collateral_change d = true) : a.locked_collateral d = false := by
  simp only [construct_tx_args.collateral_change, decide_eq_true_eq] at h
  obtain ⟨_, h2, _, h4⟩ := h
  simp [construct_tx_args.locked_collateral, h2, h4]

/-- The loop over the destinations pushes the output of the destination at position `j` as
output `output_index + j`. -/
theorem construct_tx_outputs_loop_vout (cfg : Config) (env : construct_tx_env)
    (a : construct_tx_args) (v : Nat) (ds : List tx_destination_entry_asset) (i : Nat)
    (st st2 : construct_tx_outputs)
    (h : construct_tx_outputs_loop cfg env a v ds i st = some st2) :
    st2.vout =
      st.vout ++ (ds.enumFrom i).map (fun p => construct_tx_output env p.1 p.2) := by
  induction ds generalizing i st with
  | nil =>
    unfold construct_tx_outputs_loop at h
    cases h
    simp
  | cons d rest ih =>
    unfold construct_tx_outputs_loop at h
    split at h
    · cases h
    · simp only at h
      split at h
      · cases h
      · rw [ih _ _ h]
        simp [List.enumFrom]

/-- From the collateral epoch on, for a cross-asset transaction, the loop over the destinations
started with two collateral indices leaves two of them: slot 0 holds the index of the last locked collateral output and slot 1 the index of the
last collateral-change output; a slot with no such output keeps its value. -/
theorem construct_tx_outputs_loop_collateral (cfg : Config) (env : construct_tx_env)
    (a : construct_tx_args) (v : Nat)
    (hpou : a.hf_version ≥ cfg.HF_PER_OUTPUT_UNLOCK_VERSION)
    (hcol : a.hf_version ≥ cfg.HF_VERSION_USE_COLLATERAL) (hne : a.strSource ≠ a.strDest)
    (ds : List tx_destination_entry_asset) (i : Nat) (st st2 : construct_tx_outputs)
    (hlen : st.collateral_indices.length = 2)
    (h : construct_tx_outputs_loop cfg env a v ds i st = some st2) :
    st2.collateral_indices.length = 2 ∧
    (∀ j d, ds[j]? = some d → a.locked_collateral d = true →
      (∀ j2 d2, j < j2 → ds[j2]? = some d2 → a.locked_collateral d2 = false) →
      st2.collateral_indices[0]? = some (i + j)) ∧
    ((∀ d ∈ ds, a.locked_collateral d = false) →
      st2.collateral_indices[0]? = st.collateral_indices[0]?) ∧
    (∀ j d, ds[j]? = some d → a.collateral_change d = true →
      (∀ j2 d2, j < j2 → ds[j2]? = some d2 → a.collateral_change d2 = false) →
      st2.collateral_indices[1]? = some (i + j)) ∧
    ((∀ d ∈ ds, a.collateral_change d = false) →
      st2.collateral_indices[1]? = st.collateral_indices[1]?) := by
  induction ds generalizing i st with
  | nil =>
    unfold construct_tx_outputs_loop at h
    cases h
    exact ⟨hlen, fun j d hj => by simp at hj, fun _ => rfl, fun j d hj => by simp at hj,
      fun _ => rfl⟩
  | cons d rest ih =>
    unfold construct_tx_outputs_loop at h
    split at h
    · cases h
    · simp only at h
      split at h
      · cases h
      · rename_i unlock ci hu
        have hci := construct_tx_output_unlock_indices cfg a i d _ _ _ hpou hcol hne hu
        have hn : (if st.collateral_indices.length ≠ 2 then [0, 0]
            else st.collateral_indices) = st.collateral_indices := by
          rw [if_neg (by simp [hlen])]
        rw [hn] at hci
        have hl1 : ci.length = 2 := by
          rw [hci]
          split_ifs <;> simp [hlen]
        obtain ⟨r1, r2, r3, r4, r5⟩ := ih _ _ (by exact hl1) h
        simp only at r3 r5
        have hrest : ∀ (p : tx_destination_entry_asset → Bool),
            (∀ j2 d2, 0 < j2 → (d :: rest)[j2]? = some d2 → p d2 = false) →
            ∀ d2 ∈ rest, p d2 = false := by
          intro p hp d2 hd2
          obtain ⟨n, hn1, hn2⟩ := List.getElem_of_mem hd2
          exact hp (n + 1) d2 (Nat.succ_pos n) (by simp [List.getElem?_eq_getElem hn1, hn2])
        refine ⟨r1, ?_, ?_, ?_, ?_⟩
        · intro j d0 hj hl hlast
          cases j with
          | zero =>
            simp only [List.getElem?_cons_zero, Option.some.injEq] at hj
            subst hj
            rw [r3 (hrest _ hlast), hci, if_pos hl]
            simp [hlen]
          | succ j =>
            simp only [List.getElem?_cons_succ] at hj
            rw [r2 j d0 hj hl (fun j2 d2 hlt hj2 =>
              hlast (j2 + 1) d2 (by omega) (by simpa using hj2))]
            congr 1
            omega
        · intro hall
          have hd : ¬ a.locked_collateral d = true := by
            rw [hall d (List.mem_cons_self _ _)]
            decide
          rw [r3 (fun d2 hd2 => hall d2 (List.mem_cons_of_mem _ hd2)), hci, if_neg hd]
          split_ifs <;> simp
        · intro j d0 hj hl hlast
          cases j with
          | zero =>
            simp only [List.getElem?_cons_zero, Option.some.injEq] at hj
            subst hj
            have hd : ¬ a.locked_collateral d = true := by
              rw [collateral_change_not_locked a d hl]
              decide
            rw [r5 (hrest _ hlast), hci, if_neg hd, if_pos hl]
            simp [hlen]
          | succ j =>
            simp only [List.getElem?_cons_succ] at hj
            rw [r4 j d0 hj hl (fun j2 d2 hlt hj2 =>
              hlast (j2 + 1) d2 (by omega) (by simpa using hj2))]
            congr 1
            omega
        · intro hall
          have hd : ¬ a.collateral_change d = true := by
            rw [hall d (List.mem_cons_self _ _)]
            decide
          rw [r5 (fun d2 hd2 => hall d2 (List.mem_cons_of_mem _ hd2)), hci, if_neg hd]
          split_ifs <;> simp

/-- From the collateral epoch on, a destination of a cross-asset transaction is handled the
same whether the collateral indices had been reset to `[0, 0]` before it or not. -/
theorem construct_tx_outputs_loop_reset (cfg : Config) (env : construct_tx_env)
    (a : construct_tx_args) (v : Nat)
    (hpou : a.hf_version ≥ cfg.HF_PER_OUTPUT_UNLOCK_VERSION)
    (hcol : a.hf_version ≥ cfg.HF_VERSION_USE_COLLATERAL) (hne : a.strSource ≠ a.strDest)
    (d : tx_destination_entry_asset) (rest : List tx_destination_entry_asset) (i : Nat)
    (st : construct_tx_outputs) :
    construct_tx_outputs_loop cfg env a v (d :: rest) i st =
      construct_tx_outputs_loop cfg env a v (d :: rest) i
        { st with collateral_indices :=
            if st.collateral_indices.length ≠ 2 then [0, 0] else st.collateral_indices } := by
  have e : construct_tx_output_unlock cfg a i d st.collateral_indices =
      construct_tx_output_unlock cfg a i d
        (if st.collateral_indices.length ≠ 2 then [0, 0] else st.collateral_indices) := by
    unfold construct_tx_output_unlock
    by_cases hl : st.collateral_indices.length = 2 <;> simp [hl, hpou, hcol, hne]
  rw [construct_tx_outputs_loop, construct_tx_outputs_loop]
  simp only [e]

/-- Claim C32: a cross-asset transaction that `construct_tx_with_tx_key` builds at
`hf_version ≥ HF_PER_OUTPUT_UNLOCK_VERSION` has one output per destination, in the order of
the destinations, and one entry of `output_unlock_times` per output, in the same order: `tx.unlock_time` for a non-collateral
output of the destination asset, 0 for a non-collateral output of the source asset, and from
the collateral epoch `tx.unlock_time` for the locked collateral output and 0 for the
collateral-change output.  From the collateral epoch `collateral_indices` has two entries:
the first is the index of the locked collateral output, the second the index of the
collateral-change output (the last one of its kind where there are several, 0 where there is
none). -/
theorem construct_tx_output_unlock_times_rule (cfg : Config) (env : construct_tx_env)
    (a : construct_tx_args) (tx : transaction)
    (hpou : a.hf_version ≥ cfg.HF_PER_OUTPUT_UNLOCK_VERSION) (hne : a.strSource ≠ a.strDest)
    (h : construct_tx_with_tx_key cfg env a = construct_tx_result.built tx) :
    tx.vout = ((a.ordered_destinations env).enumFrom 0).map
      (fun p => { construct_tx_output env p.1 p.2 with amount := 0 }) ∧
    tx.output_unlock_times.length = tx.vout.length ∧
    List.Forall₂ (fun d t =>
        (d.is_collateral = false → d.asset_type = a.strDest → t = tx.unlock_time) ∧
        (d.is_collateral = false → d.asset_type = a.strSource → t = 0) ∧
        (a.hf_version ≥ cfg.HF_VERSION_USE_COLLATERAL → a.locked_collateral d = true →
          t = tx.unlock_time) ∧
        (a.hf_version ≥ cfg.HF_VERSION_USE_COLLATERAL → a.collateral_change d = true →
          t = 0))
      (a.ordered_destinations env) tx.output_unlock_times ∧
    (a.hf_version ≥ cfg.HF_VERSION_USE_COLLATERAL →
      tx.collateral_indices.length = 2 ∧
      (∀ j d, (a.ordered_destinations env)[j]? = some d → a.locked_collateral d = true →
        (∀ j2 d2, j < j2 → (a.ordered_destinations env)[j2]? = some d2 →
          a.locked_collateral d2 = false) →
        tx.collateral_indices[0]? = some j) ∧
      ((∀ d ∈ a.ordered_destinations env, a.locked_collateral d = false) →
        tx.collateral_indices[0]? = some 0) ∧
      (∀ j d, (a.ordered_destinations env)[j]? = some d → a.collateral_change d = true →
        (∀ j2 d2, j < j2 → (a.ordered_destinations env)[j2]? = some d2 →
          a.collateral_change d2 = false) →
        tx.collateral_indices[1]? = some j) ∧
      ((∀ d ∈ a.ordered_destinations env, a.collateral_change d = false) →
        tx.collateral_indices[1]? = some 0)) := by
  obtain ⟨outs, fee, ofee, ho, _, _, _, hm, hu, hc, hv, hul, _, _, hnz⟩ :=
    construct_tx_built cfg env a tx h
  have hvout := construct_tx_outputs_loop_vout cfg env a _ _ _ _ _ ho
  simp only [construct_tx_outputs.start, List.nil_append] at hvout
  obtain ⟨ts, os, h1, _, h3, _⟩ := construct_tx_outputs_loop_appends cfg env a _ _ _ _ _ ho
  simp only [construct_tx_outputs.start, List.nil_append] at h1
  have hvl : tx.vout.length = (a.ordered_destinations env).length := by
    rw [hv, hvout]
    simp
  refine ⟨?_, ?_, ?_, ?_⟩
  · rw [hv, hvout, List.map_map]
    rfl
  · rw [hvl, hu, h1, h3.length_eq]
  · rw [hu, h1, hul]
    refine h3.imp ?_
    rintro d t ⟨k, ci, ci2, hk⟩
    obtain ⟨_, e2, e3⟩ := construct_tx_output_unlock_entry cfg a k d ci ci2 t hpou hne hk
    refine ⟨fun hnc hd => ?_, fun hnc hs => ?_, fun hcol hl => ?_, fun hcol hl => ?_⟩
    · rw [e2 hd, if_neg (by simp [hnc])]
    · rw [e3 hs, if_neg (by simp [hnc])]
    · simp only [construct_tx_args.locked_collateral, decide_eq_true_eq] at hl
      obtain ⟨k1, ⟨k3, k2⟩ | ⟨k3, k2, k4⟩⟩ := hl
      · rw [e3 k2, if_pos ⟨hcol, k3, k1⟩]
      · rw [e2 k2, if_pos ⟨hcol, k3, k1⟩, if_pos k4]
    · simp only [construct_tx_args.collateral_change, decide_eq_true_eq] at hl
      obtain ⟨k1, k3, k2, k4⟩ := hl
      rw [e2 k2, if_pos ⟨hcol, k3, k1⟩, if_neg k4]
  · intro hcol
    cases hds : a.ordered_destinations env with
    | nil =>
      rw [hds] at ho
      unfold construct_tx_outputs_loop at ho
      cases ho
      exact absurd hm (hnz hne).2
    | cons d rest =>
      rw [hds, construct_tx_outputs_loop_reset cfg env a _ hpou hcol hne] at ho
      obtain ⟨r1, r2, r3, r4, r5⟩ := construct_tx_outputs_loop_collateral cfg env a _ hpou hcol
        hne _ _ _ _ (by simp [construct_tx_outputs.start]) ho
      simp only [construct_tx_outputs.start, List.length_nil, ne_eq, OfNat.ofNat_ne_zero,
        not_false_eq_true, if_true, Nat.zero_add] at r2 r3 r4 r5
      rw [hc]
      exact ⟨r1, r2, fun hall => (r3 hall).trans (by simp),
        r4, fun hall => (r5 hall).trans (by simp)⟩

/-- Claim C32 at a concrete input: the ONSHORE of `example_onshore_args` is built with the
unlock times `[1530, 0, 0, 1530]`, one per output, and the locked collateral output, the
fourth, is the one `collateral_indices[0]` names. -/
theorem construct_tx_output_unlock_times_rule_witness :
    construct_tx_with_tx_key havenConfig example_onshore_env example_onshore_args =
      construct_tx_result.built example_built_onshore_tx ∧
    example_built_onshore_tx.output_unlock_times.length =
      example_built_onshore_tx.vout.length ∧
    example_built_onshore_tx.collateral_indices[0]? = some 3 :=
  ⟨by decide,
    (construct_tx_output_unlock_times_rule havenConfig example_onshore_env
      example_onshore_args example_built_onshore_tx (by decide) (by decide)
      (by decide)).2.1,
    ((construct_tx_output_unlock_times_rule havenConfig example_onshore_env
      example_onshore_args example_built_onshore_tx (by decide) (by decide)
      (by decide)).2.2.2 (by decide)).2.1 3 ⟨⟨3000, 0, 0, true⟩, "XHV"⟩ (by decide)
      (by decide)
      (fun j2 d2 hlt hj2 => by
        rw [List.getElem?_eq_none (Nat.succ_le_of_lt hlt)] at hj2
        cases hj2)⟩

/-! ## The conversion fee of the builder and its recomputation by admission -/

/-- Claim C33: at hard-fork version ≥ `HF_VERSION_BULLETPROOF_PLUS`, for an ONSHORE, an
XUSD_TO_XASSET or an XASSET_TO_XUSD whose converted amount `a` has `3·a < 2^64`, on a price
record with a non-zero XHV price (and a non-zero rate of the source xAsset), the conversion
fee `construct_tx_with_tx_key` declares and the value `add_tx2` recomputes from
`amount_burnt = a` are the same number, provided, for an XASSET_TO_XUSD, that the xUSD value
`floor(floor(3a/200)·10^12 / pr[source])` of the fee is below 2^64.  The number is
`floor(floor(3a/200)·10^12 / max(xUSD, unused1)) mod 2^64` for the first two types and the
same scaling of the xUSD value for the third. -/
theorem construct_tx_conversion_fee_matches_add_tx2 (cfg : Config) (a : construct_tx_args)
    (tx : transaction) (unlock_time : Nat)
    (hcoin : cfg.COIN = 1000000000000)
    (hep1 : cfg.HF_PER_OUTPUT_UNLOCK_VERSION ≤ cfg.HF_VERSION_USE_COLLATERAL)
    (hep2 : cfg.HF_VERSION_USE_COLLATERAL ≤ cfg.HF_VERSION_BULLETPROOF_PLUS)
    (hbp : a.hf_version ≥ cfg.HF_VERSION_BULLETPROOF_PLUS)
    (hty : a.tx_type = transaction_type.ONSHORE ∨
      a.tx_type = transaction_type.XUSD_TO_XASSET ∨
      a.tx_type = transaction_type.XASSET_TO_XUSD)
    (hsrc : a.tx_type = transaction_type.XASSET_TO_XUSD →
      a.strSource ≠ "XUSD" ∧ a.strSource ≠ "XHV")
    (hamt : tx.amount_burnt = construct_tx_converted_amount a)
    (h3 : 3 * tx.amount_burnt < 2 ^ 64)
    (hmax : max a.pr.xUSD a.pr.unused1 ≠ 0)
    (hrate : a.tx_type = transaction_type.XASSET_TO_XUSD → a.pr.rate a.strSource ≠ 0)
    (hfit : a.tx_type = transaction_type.XASSET_TO_XUSD →
      3 * tx.amount_burnt / 200 * 1000000000000 / a.pr.rate a.strSource < 2 ^ 64) :
    ∃ fee,
      construct_tx_fee_to_xhv cfg a.tx_type a.strSource a.pr a.hf_version
        (construct_tx_offshore_fee cfg a) = some fee ∧
      conversion_fee_check cfg tx a.pr a.strSource a.tx_type a.hf_version unlock_time =
        some fee ∧
      (a.tx_type ≠ transaction_type.XASSET_TO_XUSD →
        fee = 3 * tx.amount_burnt / 200 * 1000000000000 / max a.pr.xUSD a.pr.unused1
          % 2 ^ 64) ∧
      (a.tx_type = transaction_type.XASSET_TO_XUSD →
        fee = 3 * tx.amount_burnt / 200 * 1000000000000 / a.pr.rate a.strSource *
          1000000000000 / max a.pr.xUSD a.pr.unused1 % 2 ^ 64) := by
  have hcolv : a.hf_version ≥ cfg.HF_VERSION_USE_COLLATERAL := le_trans hep2 hbp
  have hpouv : a.hf_version ≥ cfg.HF_PER_OUTPUT_UNLOCK_VERSION := le_trans hep1 hcolv
  have hmax2 : max a.pr.unused1 a.pr.xUSD = max a.pr.xUSD a.pr.unused1 := Nat.max_comm _ _
  have hF : 3 * tx.amount_burnt / 200 < 2 ^ 64 := by omega
  have e1 : (tx.amount_burnt * 3) % 2 ^ 64 / 200 = 3 * tx.amount_burnt / 200 := by
    rw [Nat.mod_eq_of_lt (by omega), Nat.mul_comm]
  have e2 : ((tx.amount_burnt * 15) % 2 ^ 128 / 1000) % 2 ^ 64 =
      3 * tx.amount_burnt / 200 := by
    have h15 : (tx.amount_burnt * 15) % 2 ^ 128 = tx.amount_burnt * 15 :=
      Nat.mod_eq_of_lt (by omega)
    have hlt : tx.amount_burnt * 15 / 1000 < 2 ^ 64 := by omega
    rw [h15, Nat.mod_eq_of_lt hlt]
    omega
  have e3 : (tx.amount_burnt * 3) % 2 ^ 128 / 200 = 3 * tx.amount_burnt / 200 := by
    rw [Nat.mod_eq_of_lt (by omega), Nat.mul_comm]
  have e4 : (3 * tx.amount_burnt / 200 * 1000000000000) % 2 ^ 128 =
      3 * tx.amount_burnt / 200 * 1000000000000 := Nat.mod_eq_of_lt (by omega)
  unfold construct_tx_fee_to_xhv conversion_fee_check construct_tx_offshore_fee
  simp only [get_onshore_fee, get_xusd_to_xasset_fee, get_xasset_to_xusd_fee, get_offshore_fee]
  unfold construct_tx_converted_amount at hamt
  simp only at hamt
  rcases hty with ht | ht | ht
  · have hamt2 : onshore_amount (a.destinations.map fun d => d.totx_destination_entry) =
        tx.amount_burnt := by
      rw [hamt]; simp [ht]
    simp only [ht, hamt2, shore_fee_estimate, get_xhv_amount, hcolv, hpouv, hbp, if_true,
      hmax2, hmax, if_false, e1, e3, e4, hcoin, div128, Option.map_some',
      reduceCtorEq]
    exact ⟨_, rfl, rfl, fun _ => rfl, fun hx => by cases hx⟩
  · have hamt2 : xusd_to_xasset_amount (a.destinations.map fun d => d.totx_destination_entry) =
        tx.amount_burnt := by
      rw [hamt]; simp [ht]
    simp only [ht, hamt2, xasset_fee_estimate, get_xhv_amount, hcolv, hpouv, hbp, if_true,
      hmax2, hmax, if_false, e2, e3, e4, hcoin, div128, Option.map_some',
      reduceCtorEq]
    exact ⟨_, rfl, rfl, fun _ => rfl, fun hx => by cases hx⟩
  · have hamt2 : xasset_to_xusd_amount (a.destinations.map fun d => d.totx_destination_entry) =
        tx.amount_burnt := by
      rw [hamt]; simp [ht]
    have hr := hrate ht
    have hf := hfit ht
    obtain ⟨hs1, hs2⟩ := hsrc ht
    have e5 : (3 * tx.amount_burnt / 200 * 1000000000000 / a.pr.rate a.strSource) % 2 ^ 64 =
        3 * tx.amount_burnt / 200 * 1000000000000 / a.pr.rate a.strSource :=
      Nat.mod_eq_of_lt hf
    have e6 : (3 * tx.amount_burnt / 200 * 1000000000000 / a.pr.rate a.strSource *
        1000000000000) % 2 ^ 128 =
        3 * tx.amount_burnt / 200 * 1000000000000 / a.pr.rate a.strSource *
          1000000000000 := Nat.mod_eq_of_lt (by omega)
    simp only [ht, hamt2, xasset_fee_estimate, get_xhv_amount, get_xusd_amount, hcolv, hpouv,
      hbp, if_true, hmax2, hmax, if_false, e2, e3, e4, e5, e6, hcoin, div128,
      Option.map_some', reduceCtorEq, hs1, hs2, hr]
    exact ⟨_, rfl, rfl, fun hx => absurd rfl hx, fun _ => rfl⟩

/-- Claim C33, the counterexample: for the XBTC to xUSD conversion of
`example_large_xbtc_to_xusd_args` (a = 30000000000000000, so that 3·a < 2^64, and non-zero
rates) the fee of 450000000000000 XBTC units is worth 22500000000000000000 xUSD units, which
is not below 2^64: `get_xusd_amount` returns it modulo 2^64, and the fee the builder declares,
13510853087634827946, is not the value 1213023705161793536 that `add_tx2` recomputes in
`uint128_t`. -/
theorem construct_tx_fee_truncates_xusd_value :
    3 * example_built_large_xbtc_to_xusd_tx.amount_burnt < 2 ^ 64 ∧
    construct_tx_converted_amount example_large_xbtc_to_xusd_args =
      example_built_large_xbtc_to_xusd_tx.amount_burnt ∧
    construct_tx_offshore_fee havenConfig example_large_xbtc_to_xusd_args =
      450000000000000 ∧
    construct_tx_with_tx_key havenConfig example_construct_tx_env
      example_large_xbtc_to_xusd_args =
      construct_tx_result.built example_built_large_xbtc_to_xusd_tx ∧
    construct_tx_fee_to_xhv havenConfig transaction_type.XASSET_TO_XUSD "XBTC"
      example_pr_low_xhv_price 23 450000000000000 = some 13510853087634827946 ∧
    conversion_fee_check havenConfig example_built_large_xbtc_to_xusd_tx
      example_pr_low_xhv_price "XBTC" transaction_type.XASSET_TO_XUSD 23 1440 =
      some 1213023705161793536 := by
  decide

/-- Claim C33 at a concrete input: the xUSD to XBTC conversion of 1000 atomic units built at
hard-fork version 23 declares the fee 30 (15 xUSD units at the XHV price 0.50), and
`add_tx2` recomputes 30. -/
theorem construct_tx_conversion_fee_matches_add_tx2_witness :
    construct_tx_fee_to_xhv havenConfig transaction_type.XUSD_TO_XASSET "XUSD" example_pr 23
      (construct_tx_offshore_fee havenConfig
        { example_xusd_to_xbtc_args with hf_version := 23 }) = some 30 ∧
    conversion_fee_check havenConfig example_v7_xusd_to_xbtc_tx example_pr "XUSD"
      transaction_type.XUSD_TO_XASSET 23 1440 = some 30 := by
  obtain ⟨fee, h1, h2, h3, _⟩ := construct_tx_conversion_fee_matches_add_tx2 havenConfig
    { example_xusd_to_xbtc_args with hf_version := 23 } example_v7_xusd_to_xbtc_tx 1440
    (by decide) (by decide) (by decide) (by decide) (Or.inr (Or.inl (by decide)))
    (fun hx => by cases hx) (by decide) (by decide) (by decide) (fun hx => by cases hx)
    (fun hx => by cases hx)
  have h30 : fee = 30 := (h3 (by decide)).trans (by decide)
  subst h30
  exact ⟨h1, h2⟩

/-! ## The conversion fee between the xAsset-fees-v2 epoch and the collateral epoch -/

/-- The arithmetic of the recomputation `(amount_burnt * 10) / (2000 + 8)` on
`amount_burnt = n + floor(4·floor(n/200)/5)`: it gives `floor(n/200)` except when `n` is a
multiple of 200 and not of 1000, where it gives one less. -/
theorem recomputed_fee_arith (n : Nat) :
    ((n + 4 * (n / 200) / 5) * 10) / (2000 + 8) =
      if n % 200 = 0 ∧ n % 1000 ≠ 0 then n / 200 - 1 else n / 200 := by
  obtain ⟨m, r, s, hr, hs, hn⟩ : ∃ m r s, r < 5 ∧ s < 200 ∧ n = 1000 * m + 200 * r + s :=
    ⟨n / 1000, n % 1000 / 200, n % 200, by omega, by omega, by omega⟩
  subst hn
  have h200 : (1000 * m + 200 * r + s) / 200 = 5 * m + r := by omega
  rw [h200]
  interval_cases r <;> (split_ifs <;> omega)

/-- Between the xAsset-fees-v2 epoch and the collateral epoch, for a conversion between xUSD
and an xAsset of the amount `amount` whose `amount_burnt` is the one the builder sets (lines
1451-1456), the value `add_tx2` recomputes is the builder's fee except when the amount is a
multiple of 200 and not of 1000, where it is one less. -/
theorem conversion_fee_check_fees_v2 (cfg : Config) (a : construct_tx_args) (tx : transaction)
    (pr : pricing_record) (source : String) (unlock_time amount : Nat)
    (hv2 : a.hf_version ≥ cfg.HF_VERSION_XASSET_FEES_V2)
    (hcol : a.hf_version < cfg.HF_VERSION_USE_COLLATERAL)
    (hty : a.tx_type = transaction_type.XUSD_TO_XASSET ∨
      a.tx_type = transaction_type.XASSET_TO_XUSD)
    (ha : amount < 2 ^ 63)
    (hb : tx.amount_burnt =
      construct_tx_burn_fee cfg a (xasset_fee_estimate cfg amount a.hf_version) amount) :
    xasset_fee_estimate cfg amount a.hf_version = amount / 200 ∧
    tx.amount_burnt = amount + 4 * (amount / 200) / 5 ∧
    conversion_fee_check cfg tx pr source a.tx_type a.hf_version unlock_time =
      some (if amount % 200 = 0 ∧ amount % 1000 ≠ 0 then amount / 200 - 1
        else amount / 200) := by
  have hfee : xasset_fee_estimate cfg amount a.hf_version = amount / 200 := by
    unfold xasset_fee_estimate
    rw [if_neg (by omega), if_pos hv2]
    have h5 : (amount * 5) % 2 ^ 128 = amount * 5 := Nat.mod_eq_of_lt (by omega)
    have hlt : amount * 5 / 1000 < 2 ^ 64 := by omega
    rw [h5, Nat.mod_eq_of_lt hlt]
    omega
  have hburnt : tx.amount_burnt = amount + 4 * (amount / 200) / 5 := by
    rw [hb, hfee]
    unfold construct_tx_burn_fee
    rw [if_pos ⟨hv2, hty⟩, if_pos hcol]
    have h4 : (amount / 200 * 4) % 2 ^ 64 = 4 * (amount / 200) := by
      rw [Nat.mod_eq_of_lt (by omega), Nat.mul_comm]
    rw [h4, Nat.mod_eq_of_lt (by omega)]
  refine ⟨hfee, hburnt, ?_⟩
  have hchk : (((tx.amount_burnt * 10) % 2 ^ 128) / (2000 + 8)) % 2 ^ 64 =
      if amount % 200 = 0 ∧ amount % 1000 ≠ 0 then amount / 200 - 1 else amount / 200 := by
    have h10 : (tx.amount_burnt * 10) % 2 ^ 128 = tx.amount_burnt * 10 :=
      Nat.mod_eq_of_lt (by omega)
    have hlt : tx.amount_burnt * 10 / (2000 + 8) < 2 ^ 64 := by omega
    rw [h10, Nat.mod_eq_of_lt hlt, hburnt]
    exact recomputed_fee_arith amount
  unfold conversion_fee_check
  rcases hty with ht | ht
  · simp only [ht, reduceCtorEq, if_false, if_true]
    rw [if_neg (by omega), hchk]
  · simp only [ht, reduceCtorEq, if_false, if_true]
    rw [if_neg (by omega), hchk]

/-- Claim C35, the failing input: at hard-fork version 18 `construct_tx_with_tx_key` builds
the xUSD to XBTC conversion of a = 200 atomic units with the fee floor(5·200/1000) = 1 and
`amount_burnt` = 200 + floor(4·1/5) = 200; `add_tx2` recomputes floor(10·200/2008) = 0 and
rejects the transaction with `m_fee_too_low`.  The same conversion of a = 1000 (fee 5,
`amount_burnt` 1004, recomputed fee 5) is admitted. -/
theorem add_tx2_rejects_built_xasset_conversion :
    construct_tx_with_tx_key havenConfig example_construct_tx_env
      example_xusd_to_xbtc_200_args =
      construct_tx_result.built example_built_xusd_to_xbtc_200_tx ∧
    example_built_xusd_to_xbtc_200_tx.amount_burnt = 200 ∧
    example_built_xusd_to_xbtc_200_tx.rct_signatures.txnOffshoreFee = 1 ∧
    conversion_fee_check havenConfig example_built_xusd_to_xbtc_200_tx example_pr "XUSD"
      transaction_type.XUSD_TO_XASSET 18 1440 = some 0 ∧
    (add_tx2 havenConfig example_chain 1000 (tx_memory_pool.init 1000000)
      example_built_xusd_to_xbtc_200_tx 14 2000 empty_tvc relay_method.fluff false 18).ret =
      some false ∧
    (add_tx2 havenConfig example_chain 1000 (tx_memory_pool.init 1000000)
      example_built_xusd_to_xbtc_200_tx 14 2000 empty_tvc relay_method.fluff false
      18).tvc.m_fee_too_low = true ∧
    construct_tx_with_tx_key havenConfig example_construct_tx_env example_xusd_to_xbtc_args =
      construct_tx_result.built example_built_xusd_to_xbtc_1000_tx ∧
    (add_tx2 havenConfig example_chain 1000 (tx_memory_pool.init 1000000)
      example_built_xusd_to_xbtc_1000_tx 14 2000 empty_tvc relay_method.fluff false 18).ret =
      some true := by
  decide

end Haven
